import Mathlib

/-!
# Orthogonalization solver of GridGeom: embedding and verified properties

Shallow embedding of `src/src/Orthogonalization.cpp` (with `Entities.hpp`).

Conventions of the embedding.

* A C++ `double` is an exact rational (`ℚ`): the theorems are statements of exact
  arithmetic, rounding is not modelled.
* A `std::vector` is a total map from `Int` indices; an index the C++ code may not
  touch is mapped to whatever the map holds there. Element writes are
  `Function.update`.
* A counted `for` loop is `forRange`, folding the loop body over `0, 1, ..., k-1`.
* Member variables of `Orthogonalization` are the fields of the structure of the
  same name; every method takes the state and returns the new state.
* Functions and constants of `Operations.cpp`, `Constants.cpp`, `Mesh.hpp` and of the
  land boundary class are not part of the sources at hand; they are fields of
  `Env`, so every theorem holds for each possible implementation of them.
* Three parts of the smoother are fields of `Env` as well, described by the members
  they write: `SmootherNodeAdministration`, `SmootherComputeNodeXiEta` and the assembly
  of the gradient operators in `ComputeSmootherOperatorsNode`. The first of them is
  also embedded, as the function `SmootherNodeAdministration`; the drivers take it as
  the parameter, so their theorems hold for it in particular.
-/

namespace GridGeom

/-! ## Entities -/

/-- Enumeration `Projections` of `Entities.hpp`. -/
inductive Projections
  | cartesian
  | spherical
  | sphericalAccurate
deriving DecidableEq

/-- Struct `Point` of `Entities.hpp`. -/
structure Point where
  x : ℚ
  y : ℚ
deriving DecidableEq

/-- Struct `Cartesian3DPoint` of `Entities.hpp`. -/
structure Cartesian3DPoint where
  x : ℚ
  y : ℚ
  z : ℚ
deriving DecidableEq

/-- Counted loop `for (i = 0; i < k; i++) s = body(i, s)`. -/
def forRange {σ : Type} (body : Int → σ → σ) : Nat → σ → σ
  | 0, s => s
  | k + 1, s => body (k : Int) (forRange body k s)

/-- Sum `f 0 + f 1 + ... + f (k-1)`, accumulated from `0.0` in index order
(`std::accumulate`, or a `+=` loop). -/
def sumRange (f : Int → ℚ) (k : Nat) : ℚ :=
  forRange (fun i acc => acc + f i) k 0

/-- The members of `Mesh` read or written by the orthogonalization. -/
structure Mesh where
  /-- `GetNumNodes()` -/
  numNodes : Nat
  /-- `GetNumEdges()` -/
  numEdges : Nat
  /-- `GetNumFaces()` -/
  numFaces : Nat
  /-- `GetNumFaceEdges(f)` -/
  numFaceEdges : Int → Int
  nodes : Int → Point
  edges : Int → Int × Int
  nodesNumEdges : Int → Int
  nodesEdges : Int → Int → Int
  nodesTypes : Int → Int
  nodeMask : Int → Int
  edgesNumFaces : Int → Int
  edgesFaces : Int → Int → Int
  facesNodes : Int → Int → Int
  facesEdges : Int → Int → Int
  facesCircumcenters : Int → Point
  facesMassCenters : Int → Point
  faceArea : Int → ℚ
  projection : Projections

/-- Struct `OrthogonalizationParametersNative` of the API. -/
structure OrthogonalizationParametersNative where
  OuterIterations : Int
  BoundaryIterations : Int
  InnerIterations : Int
  OrthogonalizationToSmoothingFactor : ℚ
  OrthogonalizationToSmoothingFactorBoundary : ℚ
  Smoothorarea : ℚ

/-! ## Smoother state -/

/-- The per-node scratch members of the smoother (`m_sharedFacesCache`,
`m_connectedNodesCache`, `m_faceNodeMappingCache`, `m_xiCache`, `m_etaCache`) together
with the per-node lists filled by the node administration and the error list. -/
structure SmootherCaches where
  sharedFacesCache : Int → Int
  connectedNodesCache : Int → Int
  faceNodeMappingCache : Int → Int → Int
  xiCache : Int → ℚ
  etaCache : Int → ℚ
  connectedNodes : Int → Int → Int
  numConnectedNodes : Int → Int
  nodeXErrors : List ℚ

/-- The topology tables (`m_numTopologies`, `m_nodeTopologyMapping`, `m_topology...`). -/
structure Topologies where
  numTopologies : Nat
  nodeTopologyMapping : Int → Int
  numTopologyNodes : Int → Int
  numTopologyFaces : Int → Int
  topologyXi : Int → Int → ℚ
  topologyEta : Int → Int → ℚ
  topologySharedFaces : Int → Int → Int
  topologyConnectedNodes : Int → Int → Int
  topologyFaceNodeMapping : Int → Int → Int → Int

/-- The operators of a topology class other than `m_Az`, and the scratch members
used while they are assembled. -/
structure NodeOperators where
  Gxi : Int → Int → Int → ℚ
  Geta : Int → Int → Int → ℚ
  Divxi : Int → Int → ℚ
  Diveta : Int → Int → ℚ
  /-- `m_Divxi[t].size()` -/
  DivxiSize : Int → Nat
  Jxi : Int → Int → ℚ
  Jeta : Int → Int → ℚ
  ww2 : Int → Int → ℚ
  boundaryEdgesCache : Int → Int
  leftXFaceCenterCache : Int → ℚ
  leftYFaceCenterCache : Int → ℚ
  rightXFaceCenterCache : Int → ℚ
  rightYFaceCenterCache : Int → ℚ
  xisCache : Int → ℚ
  etasCache : Int → ℚ

/-- All smoother members. -/
structure Smoother where
  caches : SmootherCaches
  topologies : Topologies
  Az : Int → Int → Int → ℚ
  operators : NodeOperators
  wSmoother : Int → Int → ℚ
  maximumNumConnectedNodes : Int
  maximumNumSharedFaces : Int

/-! ## Compressed linear system -/

/-- Members `m_nodeCacheSize` and `m_compressed...`. -/
structure LinearSystem where
  nodeCacheSize : Int
  compressedRhs : Int → ℚ
  compressedEndNodeIndex : Int → Int
  compressedStartNodeIndex : Int → Int
  compressedNodesNodes : Int → Int
  compressedWeightX : Int → ℚ
  compressedWeightY : Int → ℚ

/-- Member variables of class `Orthogonalization`. -/
structure Orthogonalization where
  maxNumNeighbours : Int
  nodesNodes : Int → Int → Int
  wOrthogonalizer : Int → Int → ℚ
  rhsOrthogonalizer : Int → Int → ℚ
  aspectRatios : Int → ℚ
  mumax : ℚ
  mu : ℚ
  smoothorarea : ℚ
  orthogonalCoordinates : Int → Point
  nearestPoints : Int → Int
  originalNodes : Int → Point
  orthogonalizationToSmoothingFactor : ℚ
  orthogonalizationToSmoothingFactorBoundary : ℚ
  orthogonalizationOuterIterations : Int
  orthogonalizationBoundaryIterations : Int
  orthogonalizationInnerIterations : Int
  isTriangulationRequired : Int
  isAccountingForLandBoundariesRequired : Int
  projectToLandBoundaryOption : Int
  keepCircumcentersAndMassCenters : Bool
  localCoordinatesIndexes : Int → Int
  localCoordinates : Int → Point
  smoother : Smoother
  linearSystem : LinearSystem

/-! ## Code outside the sources at hand -/

/-- Constants of `Constants.cpp`, functions of `Operations.cpp`, services of `Mesh`
and of the land boundaries, and the values of reads the C++ standard leaves
indeterminate. None of them is in the sources at hand; they are parameters. -/
structure Env where
  doubleMissingValue : ℚ
  intMissingValue : Int
  earth_radius : ℚ
  degrad_hp : ℚ
  minimumEdgeLength : ℚ
  minimumCellArea : ℚ
  curvilinearToOrthogonalRatio : ℚ
  /-- `m_thetaTolerance` (declared in the header) -/
  thetaTolerance : ℚ
  /-- `std::cos` -/
  cos : ℚ → ℚ
  /-- `std::sqrt` -/
  sqrt : ℚ → ℚ
  /-- `std::atan2(y, x)` -/
  atan2 : ℚ → ℚ → ℚ
  /-- `Distance(a, b, projection)` -/
  Distance : Point → Point → Projections → ℚ
  /-- `InnerProductTwoSegments(a, b, c, d, projection)` -/
  InnerProductTwoSegments : Point → Point → Point → Point → Projections → ℚ
  /-- `NormalizedInnerProductTwoSegments(a, b, c, d, projection)` -/
  NormalizedInnerProductTwoSegments : Point → Point → Point → Point → Projections → ℚ
  /-- `NormalVectorInside(a, b, insidePoint, normal, flipped, projection)`: the two
  output arguments -/
  NormalVectorInside : Point → Point → Point → Projections → Point × Bool
  /-- `DistanceFromLine(p, a, b, normalPoint, ratio, projection)`: the returned
  distance, the projected point `normalPoint` and the parametric `ratio`, both taken
  to be assigned by every call -/
  DistanceFromLine : Point → Point → Point → Projections → ℚ × Point × ℚ
  /-- `FindIndex(vector, element)` -/
  FindIndex : (Int → Int) → Int → Int
  NextCircularForwardIndex : Int → Int → Int
  NextCircularBackwardIndex : Int → Int → Int
  ComputeThreeBaseComponents : Point → Cartesian3DPoint × Cartesian3DPoint × Cartesian3DPoint
  SphericalToCartesian : Point → Cartesian3DPoint
  /-- `CartesianToSpherical(p, referenceLongitude, result)`, given the old `result` -/
  CartesianToSpherical : Cartesian3DPoint → ℚ → Point → Point
  /-- `Mesh::MaskNodesInPolygons`: the new `m_nodeMask` -/
  MaskNodesInPolygons : Mesh → Int → Int
  /-- `Mesh::ComputeFaceCircumcentersMassCentersAndAreas`: the new circumcenters,
  mass centers and areas -/
  ComputeFaceCircumcentersMassCentersAndAreas :
    Mesh → (Int → Point) × (Int → Point) × (Int → ℚ)
  /-- `LandBoundaries::SnapMeshToLandBoundaries`: the new node coordinates -/
  SnapMeshToLandBoundaries : Mesh → Int → Point
  /-- `SmootherNodeAdministration(mesh, n, numSharedFaces, numConnectedNodes)`: the
  returned flag, the two output arguments (given their old values) and the members it
  writes -/
  SmootherNodeAdministration :
    Mesh → Int → Int → Int → SmootherCaches → Bool × Int × Int × SmootherCaches
  /-- `SmootherComputeNodeXiEta(mesh, n, numSharedFaces, numConnectedNodes)`: the
  returned flag and the members it writes -/
  SmootherComputeNodeXiEta :
    Mesh → Int → Int → Int → SmootherCaches → Bool × SmootherCaches
  /-- The part of `ComputeSmootherOperatorsNode` after the loop that fills `m_Az`
  (lines 707-932): the returned flag and the members it writes -/
  ComputeSmootherOperatorsNodeGradients :
    Mesh → Int → Topologies → (Int → Int → Int → ℚ) → NodeOperators → Bool × NodeOperators
  /-- Constant `maximumNumberOfNodesPerFace`, the length of a row of
  `m_faceNodeMappingCache` -/
  maximumNumberOfNodesPerFace : Nat
  /-- Value of a function that ends without a `return` statement -/
  indeterminateBool : Bool
  /-- Value of an `int` local read before it is assigned -/
  indeterminateInt : Int
  /-- Value of a `Point` local read before it is assigned -/
  indeterminatePoint : Point

/-! ## Aspect-ratio stage -/

/-- Locals of `AspectRatio`. -/
structure AspectRatioLocals where
  averageEdgesLength : Int → Int → ℚ
  averageFlowEdgesLength : Int → ℚ
  curvilinearGridIndicator : Int → Bool
  edgesLength : Int → ℚ
  aspectRatios : Int → ℚ

/-- Body of the first loop of `AspectRatio` (lines 1383-1421), for edge `e`. -/
def AspectRatio.edgeBody (env : Env) (mesh : Mesh) (e : Int) (l : AspectRatioLocals) :
    AspectRatioLocals :=
  let first := (mesh.edges e).1
  let second := (mesh.edges e).2
  if first = second then l else
  let edgeLength := env.Distance (mesh.nodes first) (mesh.nodes second) mesh.projection
  let leftCenter : Point :=
    if mesh.edgesNumFaces e > 0 then mesh.facesCircumcenters (mesh.edgesFaces e 0)
    else mesh.nodes first
  let rightCenter : Point :=
    if mesh.edgesNumFaces e = 2 then mesh.facesCircumcenters (mesh.edgesFaces e 1)
    else
      let dinry0 := env.InnerProductTwoSegments (mesh.nodes first) (mesh.nodes second)
        (mesh.nodes first) leftCenter mesh.projection
      let dinry := dinry0 / max (edgeLength * edgeLength) env.minimumEdgeLength
      let x0_bc := (1 - dinry) * (mesh.nodes first).x + dinry * (mesh.nodes second).x
      let y0_bc := (1 - dinry) * (mesh.nodes first).y + dinry * (mesh.nodes second).y
      { x := 2 * x0_bc - leftCenter.x, y := 2 * y0_bc - leftCenter.y }
  { l with
    edgesLength := Function.update l.edgesLength e edgeLength
    averageFlowEdgesLength := Function.update l.averageFlowEdgesLength e
      (env.Distance leftCenter rightCenter mesh.projection) }

/-- Line 1431 of the loop over the nodes of face `f`: a node of a face that is not a
quadrilateral is not curvilinear. -/
def AspectRatio.faceNodeBody.mark (mesh : Mesh) (f : Int) (n : Int)
    (l : AspectRatioLocals) : AspectRatioLocals :=
  if mesh.numFaceEdges f ≠ 4 then
    { l with curvilinearGridIndicator :=
        Function.update l.curvilinearGridIndicator (mesh.facesNodes f n) false }
  else l

/-- Lines 1445-1449: the aspect ratio of an edge with a length. -/
def AspectRatio.faceNodeBody.ratio (edgeIndex : Int) (l : AspectRatioLocals) :
    AspectRatioLocals :=
  if l.edgesLength edgeIndex ≠ 0 then
    { l with
      aspectRatios := Function.update l.aspectRatios edgeIndex
        (l.averageFlowEdgesLength edgeIndex / l.edgesLength edgeIndex) }
  else l

/-- Lines 1445 and 1452-1457: the length recorded for the edge at slot `n` of face
`f`, which in a quadrilateral is the mean with the opposite edge. -/
def AspectRatio.faceNodeBody.length (mesh : Mesh) (f : Int) (n : Int)
    (l : AspectRatioLocals) : ℚ :=
  let numberOfFaceNodes := mesh.numFaceEdges f
  let edgeIndex := mesh.facesEdges f n
  if numberOfFaceNodes = 4 then
    let kkp2 := if n + 2 ≥ numberOfFaceNodes then n + 2 - numberOfFaceNodes else n + 2
    let klinkp2 := mesh.facesEdges f kkp2
    (1 / 2) * (l.edgesLength edgeIndex + l.edgesLength klinkp2)
  else l.edgesLength edgeIndex

/-- Lines 1459-1466: the length goes to the first free slot of the average lengths
of the edge. -/
def AspectRatio.faceNodeBody.average (env : Env) (edgeIndex : Int) (edgeLength : ℚ)
    (l : AspectRatioLocals) : AspectRatioLocals :=
  if l.averageEdgesLength edgeIndex 0 = env.doubleMissingValue then
    { l with
      averageEdgesLength := Function.update l.averageEdgesLength edgeIndex
        (Function.update (l.averageEdgesLength edgeIndex) 0 edgeLength) }
  else
    { l with
      averageEdgesLength := Function.update l.averageEdgesLength edgeIndex
        (Function.update (l.averageEdgesLength edgeIndex) 1 edgeLength) }

/-- Body of the inner loop over the nodes of face `f` (lines 1429-1467). -/
def AspectRatio.faceNodeBody (env : Env) (mesh : Mesh) (f : Int) (n : Int)
    (l : AspectRatioLocals) : AspectRatioLocals :=
  let l1 := AspectRatio.faceNodeBody.mark mesh f n l
  let edgeIndex := mesh.facesEdges f n
  if mesh.edgesNumFaces edgeIndex < 1 then l1 else
  let l2 := AspectRatio.faceNodeBody.ratio edgeIndex l1
  AspectRatio.faceNodeBody.average env edgeIndex
    (AspectRatio.faceNodeBody.length mesh f n l2) l2

/-- Body of the second loop of `AspectRatio` (lines 1424-1468), for face `f`. -/
def AspectRatio.faceBody (env : Env) (mesh : Mesh) (f : Int) (l : AspectRatioLocals) :
    AspectRatioLocals :=
  let numberOfFaceNodes := mesh.numFaceEdges f
  if numberOfFaceNodes < 3 then l else
  forRange (AspectRatio.faceNodeBody env mesh f) numberOfFaceNodes.toNat l

/-- Body of the third loop of `AspectRatio` (lines 1473-1499), for edge `e`. -/
def AspectRatio.curvilinearBody (env : Env) (mesh : Mesh) (e : Int)
    (l : AspectRatioLocals) : AspectRatioLocals :=
  let first := (mesh.edges e).1
  let second := (mesh.edges e).2
  if first < 0 ∨ second < 0 then l else
  if mesh.edgesNumFaces e < 1 then l else
  if l.curvilinearGridIndicator first = false ∨ l.curvilinearGridIndicator second = false
  then l else
  if mesh.edgesNumFaces e = 1 then
    if l.averageEdgesLength e 0 ≠ 0 ∧ l.averageEdgesLength e 0 ≠ env.doubleMissingValue then
      { l with
        aspectRatios := Function.update l.aspectRatios e
          (l.averageFlowEdgesLength e / l.averageEdgesLength e 0) }
    else l
  else
    if l.averageEdgesLength e 0 ≠ 0 ∧ l.averageEdgesLength e 1 ≠ 0 ∧
        l.averageEdgesLength e 0 ≠ env.doubleMissingValue ∧
        l.averageEdgesLength e 1 ≠ env.doubleMissingValue then
      { l with
        aspectRatios := Function.update l.aspectRatios e
          (env.curvilinearToOrthogonalRatio * l.aspectRatios e +
            (1 - env.curvilinearToOrthogonalRatio) * l.averageFlowEdgesLength e /
              ((1 / 2) * (l.averageEdgesLength e 0 + l.averageEdgesLength e 1))) }
    else l

/-- Locals of `AspectRatio` after all loops. -/
def AspectRatio.locals (env : Env) (mesh : Mesh) (o : Orthogonalization) :
    AspectRatioLocals :=
  let l0 : AspectRatioLocals :=
    { averageEdgesLength := fun _ _ => env.doubleMissingValue
      averageFlowEdgesLength := fun _ => env.doubleMissingValue
      curvilinearGridIndicator := fun _ => true
      edgesLength := fun _ => 0
      aspectRatios := o.aspectRatios }
  let l1 := forRange (AspectRatio.edgeBody env mesh) mesh.numEdges l0
  let l2 := forRange (AspectRatio.faceBody env mesh) mesh.numFaces l1
  if env.curvilinearToOrthogonalRatio = 1 then l2 else
  forRange (AspectRatio.curvilinearBody env mesh) mesh.numEdges l2

/-- Method `Orthogonalization::AspectRatio` (it always returns `true`). -/
def AspectRatio (env : Env) (mesh : Mesh) (o : Orthogonalization) : Orthogonalization :=
  { o with aspectRatios := (AspectRatio.locals env mesh o).aspectRatios }

/-! ## Orthogonalizer stage -/

/-- Weights row and right-hand side of one node while
`ComputeWeightsAndRhsOrthogonalizer` processes it. -/
structure OrthogonalizerRow where
  w : Int → ℚ
  rhs : Int → ℚ

/-- Body of the loop over the edges of node `n` (lines 1513-1550), for slot `nn`. -/
def ComputeWeightsAndRhsOrthogonalizer.edgeBody (env : Env) (mesh : Mesh)
    (o : Orthogonalization) (n : Int) (nn : Int) (r : OrthogonalizerRow) :
    OrthogonalizerRow :=
  let edgeIndex := mesh.nodesEdges n nn
  let aspectRatio := o.aspectRatios edgeIndex
  if aspectRatio ≠ env.doubleMissingValue then
    if mesh.edgesNumFaces edgeIndex = 1 then
      let neighbouringNode := mesh.nodes (o.nodesNodes n nn)
      let neighbouringNodeDistance :=
        env.Distance neighbouringNode (mesh.nodes n) mesh.projection
      let leftFace := mesh.edgesFaces edgeIndex 0
      let normal0 := (env.NormalVectorInside (mesh.nodes n) neighbouringNode
        (mesh.facesMassCenters leftFace) mesh.projection).1
      let normal : Point :=
        if mesh.projection = Projections.spherical ∧
            mesh.projection ≠ Projections.sphericalAccurate then
          { normal0 with
            x := normal0.x *
              env.cos (env.degrad_hp * (1 / 2) * ((mesh.nodes n).y + neighbouringNode.y)) }
        else normal0
      { w := Function.update r.w nn ((1 / 2) * aspectRatio)
        rhs := Function.update
          (Function.update r.rhs 0 (r.rhs 0 + neighbouringNodeDistance * normal.x * (1 / 2)))
          1 (r.rhs 1 + neighbouringNodeDistance * normal.y * (1 / 2)) }
    else
      { r with w := Function.update r.w nn aspectRatio }
  else
    { r with w := Function.update r.w nn 0 }

/-- Row of node `n` after the loop over its edges, before normalization: the raw
weights and the raw right-hand side. -/
def ComputeWeightsAndRhsOrthogonalizer.rawRow (env : Env) (mesh : Mesh)
    (o : Orthogonalization) (n : Int) (r : OrthogonalizerRow) : OrthogonalizerRow :=
  forRange (ComputeWeightsAndRhsOrthogonalizer.edgeBody env mesh o n)
    (mesh.nodesNumEdges n).toNat r

/-- Sum `std::accumulate` of a whole weights row, which has `m_maxNumNeighbours`
entries. -/
def ComputeWeightsAndRhsOrthogonalizer.rowSum (o : Orthogonalization) (w : Int → ℚ) : ℚ :=
  sumRange w o.maxNumNeighbours.toNat

/-- Normalization step (lines 1552-1560). -/
def ComputeWeightsAndRhsOrthogonalizer.normalize (o : Orthogonalization)
    (r : OrthogonalizerRow) : OrthogonalizerRow :=
  let factor0 := ComputeWeightsAndRhsOrthogonalizer.rowSum o r.w
  if |factor0| > 1 / 100000000000000 then
    let factor := 1 / factor0
    { w := fun k => if 0 ≤ k ∧ k < o.maxNumNeighbours then r.w k * factor else r.w k
      rhs := Function.update (Function.update r.rhs 0 (factor * r.rhs 0))
        1 (factor * (r.rhs 1)) }
  else r

/-- The raw row of node `n` when the method is called in state `o`: the loop over the
edges starts from the weights `o` holds and from the zero right-hand side. -/
def ComputeWeightsAndRhsOrthogonalizer.raw (env : Env) (mesh : Mesh) (o : Orthogonalization)
    (n : Int) : OrthogonalizerRow :=
  ComputeWeightsAndRhsOrthogonalizer.rawRow env mesh o n
    { w := o.wOrthogonalizer n, rhs := fun _ => 0 }

/-- Body of the loop over the nodes (lines 1506-1562). -/
def ComputeWeightsAndRhsOrthogonalizer.nodeBody (env : Env) (mesh : Mesh) (n : Int)
    (o : Orthogonalization) : Orthogonalization :=
  if mesh.nodesTypes n ≠ 1 ∧ mesh.nodesTypes n ≠ 2 then o else
  let r := ComputeWeightsAndRhsOrthogonalizer.normalize o
    (ComputeWeightsAndRhsOrthogonalizer.rawRow env mesh o n
      { w := o.wOrthogonalizer n, rhs := o.rhsOrthogonalizer n })
  { o with
    wOrthogonalizer := Function.update o.wOrthogonalizer n r.w
    rhsOrthogonalizer := Function.update o.rhsOrthogonalizer n r.rhs }

/-- Method `Orthogonalization::ComputeWeightsAndRhsOrthogonalizer` (it always returns
`true`). The initial `std::fill` resets the right-hand side of every node. -/
def ComputeWeightsAndRhsOrthogonalizer (env : Env) (mesh : Mesh) (o : Orthogonalization) :
    Orthogonalization :=
  forRange (ComputeWeightsAndRhsOrthogonalizer.nodeBody env mesh) mesh.numNodes
    { o with rhsOrthogonalizer := fun _ _ => 0 }

/-! ## Smoother stage: topology classes -/

/-- Method `Orthogonalization::InitializeSmoother` (it always returns `true`): every
cache and every topology table is refilled. The tables `m_topologyConnectedNodes` and
`m_topologyFaceNodeMapping` hold `std::size_t` values, so the `-1` of lines 1620 and
1623 is stored as the largest value of that type, `2 ^ 64 - 1` for a `std::size_t`
of 64 bits. -/
def InitializeSmoother (s : Smoother) : Smoother :=
  { s with
    caches :=
      { sharedFacesCache := fun _ => -1
        connectedNodesCache := fun _ => 0
        faceNodeMappingCache := fun _ _ => 0
        xiCache := fun _ => 0
        etaCache := fun _ => 0
        connectedNodes := fun _ _ => 0
        numConnectedNodes := fun _ => 0
        nodeXErrors := s.caches.nodeXErrors }
    topologies :=
      { numTopologies := 0
        nodeTopologyMapping := fun _ => -1
        numTopologyNodes := fun _ => -1
        numTopologyFaces := fun _ => -1
        topologyXi := fun _ _ => 0
        topologyEta := fun _ _ => 0
        topologySharedFaces := fun _ _ => -1
        topologyConnectedNodes := fun _ _ => 18446744073709551615
        topologyFaceNodeMapping := fun _ _ _ => 18446744073709551615 } }

/-- Inner loop of `SaveSmootherNodeTopologyIfNeeded` (lines 1676-1685): the value of
`isNewTopology` after comparing the cached angles with those of class `topo`. Once
set the flag stays set, which is the effect of the `break`. -/
def SaveSmootherNodeTopologyIfNeeded.anglesDiffer (env : Env) (c : SmootherCaches)
    (t : Topologies) (numConnectedNodes : Int) (topo : Int) : Bool :=
  forRange (fun j isNewTopology =>
      let n := j + 1
      let thetaLoc := env.atan2 (c.etaCache n) (c.xiCache n)
      let thetaTopology := env.atan2 (t.topologyEta topo n) (t.topologyXi topo n)
      isNewTopology || decide (|thetaLoc - thetaTopology| > env.thetaTolerance))
    (numConnectedNodes - 1).toNat false

/-- State of the loop over the classes in `SaveSmootherNodeTopologyIfNeeded`;
`stopped` records that the `break` of line 1690 was taken. -/
structure SaveSmootherNodeTopologyIfNeeded.Scan where
  isNewTopology : Bool
  stopped : Bool
  nodeTopologyMapping : Int → Int

/-- Body of the loop over the classes (lines 1668-1692). -/
def SaveSmootherNodeTopologyIfNeeded.scanBody (env : Env) (c : SmootherCaches)
    (t : Topologies) (currentNode numSharedFaces numConnectedNodes : Int) (topo : Int)
    (st : SaveSmootherNodeTopologyIfNeeded.Scan) : SaveSmootherNodeTopologyIfNeeded.Scan :=
  if st.stopped then st else
  if numSharedFaces ≠ t.numTopologyFaces topo ∨ numConnectedNodes ≠ t.numTopologyNodes topo
  then st else
  if SaveSmootherNodeTopologyIfNeeded.anglesDiffer env c t numConnectedNodes topo then
    { st with isNewTopology := true }
  else
    { isNewTopology := false
      stopped := true
      nodeTopologyMapping := Function.update st.nodeTopologyMapping currentNode topo }

/-- Method `Orthogonalization::SaveSmootherNodeTopologyIfNeeded` (it always returns
`true`). -/
def SaveSmootherNodeTopologyIfNeeded (env : Env) (c : SmootherCaches) (t : Topologies)
    (currentNode numSharedFaces numConnectedNodes : Int) : Topologies :=
  let st := forRange
    (SaveSmootherNodeTopologyIfNeeded.scanBody env c t currentNode numSharedFaces
      numConnectedNodes)
    t.numTopologies
    { isNewTopology := true, stopped := false, nodeTopologyMapping := t.nodeTopologyMapping }
  if st.isNewTopology then
    let topologyIndex : Int := ((t.numTopologies + 1 : Nat) : Int) - 1
    { numTopologies := t.numTopologies + 1
      numTopologyNodes := Function.update t.numTopologyNodes topologyIndex numConnectedNodes
      topologyConnectedNodes :=
        Function.update t.topologyConnectedNodes topologyIndex c.connectedNodesCache
      numTopologyFaces := Function.update t.numTopologyFaces topologyIndex numSharedFaces
      topologySharedFaces :=
        Function.update t.topologySharedFaces topologyIndex c.sharedFacesCache
      topologyXi := Function.update t.topologyXi topologyIndex c.xiCache
      topologyEta := Function.update t.topologyEta topologyIndex c.etaCache
      topologyFaceNodeMapping :=
        Function.update t.topologyFaceNodeMapping topologyIndex c.faceNodeMappingCache
      nodeTopologyMapping := Function.update st.nodeTopologyMapping currentNode topologyIndex }
  else
    { t with nodeTopologyMapping := st.nodeTopologyMapping }

/-- Body of the loop over the nodes in `ComputeSmootherTopologies` (lines 552-581). -/
def ComputeSmootherTopologies.nodeBody (env : Env) (mesh : Mesh) (n : Int)
    (st : Bool × Smoother) : Bool × Smoother :=
  let successful0 := st.1
  let s0 := st.2
  if successful0 = false then st else
  let c0 : SmootherCaches :=
    { s0.caches with
      sharedFacesCache := fun _ => -1
      connectedNodesCache := fun _ => 0 }
  let r1 := env.SmootherNodeAdministration mesh n 0 0 c0
  let numSharedFaces := r1.2.1
  let numConnectedNodes := r1.2.2.1
  let s1 : Smoother := { s0 with caches := r1.2.2.2 }
  if r1.1 = false then (false, s1) else
  let c1 : SmootherCaches := { s1.caches with xiCache := fun _ => 0, etaCache := fun _ => 0 }
  let r2 := env.SmootherComputeNodeXiEta mesh n numSharedFaces numConnectedNodes c1
  let s2 : Smoother := { s1 with caches := r2.2 }
  if r2.1 = false then (false, s2) else
  let s3 : Smoother :=
    { s2 with
      topologies := SaveSmootherNodeTopologyIfNeeded env s2.caches s2.topologies n
        numSharedFaces numConnectedNodes }
  (true,
    { s3 with
      maximumNumConnectedNodes := max s3.maximumNumConnectedNodes numConnectedNodes
      maximumNumSharedFaces := max s3.maximumNumSharedFaces numSharedFaces })

/-- Method `Orthogonalization::ComputeSmootherTopologies`. The function body ends
without a `return` when every node succeeded; the value the caller then sees is
`env.indeterminateBool`. -/
def ComputeSmootherTopologies (env : Env) (mesh : Mesh) (s : Smoother) : Bool × Smoother :=
  let r := forRange (ComputeSmootherTopologies.nodeBody env mesh) mesh.numNodes
    (true, InitializeSmoother s)
  if r.1 = false then (false, r.2) else (env.indeterminateBool, r.2)

/-- The angle `atan2(m_etaCache[i], m_xiCache[i])` of node `n` that
`SaveSmootherNodeTopologyIfNeeded` compares: the caches are those the iteration of
node `n` of the loop of `ComputeSmootherTopologies` leaves. -/
def ComputeSmootherTopologies.localAngle (env : Env) (mesh : Mesh) (s : Smoother) (n : Nat)
    (i : Int) : ℚ :=
  let c := (forRange (ComputeSmootherTopologies.nodeBody env mesh) (n + 1)
    (true, InitializeSmoother s)).2.caches
  env.atan2 (c.etaCache i) (c.xiCache i)

/-! ## Smoother stage: node administration -/

/-- Locals and member written by the first loop of `SmootherNodeAdministration`. -/
structure SmootherNodeAdministration.Faces where
  newFaceIndex : Int
  numSharedFaces : Int
  sharedFacesCache : Int → Int

/-- Body of the loop over the edges of the node that finds the shared faces (lines
1217-1260), for edge slot `e`. -/
def SmootherNodeAdministration.faceBody (env : Env) (mesh : Mesh) (currentNode : Int)
    (e : Int) (st : SmootherNodeAdministration.Faces) : SmootherNodeAdministration.Faces :=
  let firstEdge := mesh.nodesEdges currentNode e
  let secondEdgeIndex := if e + 1 ≥ mesh.nodesNumEdges currentNode then 0 else e + 1
  let secondEdge := mesh.nodesEdges currentNode secondEdgeIndex
  if mesh.edgesNumFaces firstEdge < 1 ∨ mesh.edgesNumFaces secondEdge < 1 then st else
  let firstFaceIndex := max (min (mesh.edgesNumFaces firstEdge) 2) 1 - 1
  let secondFaceIndex := max (min (mesh.edgesNumFaces secondEdge) 2) 1 - 1
  let newFaceIndex0 : Int :=
    if mesh.edgesFaces firstEdge 0 ≠ st.newFaceIndex ∧
        (mesh.edgesFaces firstEdge 0 = mesh.edgesFaces secondEdge 0 ∨
          mesh.edgesFaces firstEdge 0 = mesh.edgesFaces secondEdge secondFaceIndex) then
      mesh.edgesFaces firstEdge 0
    else if mesh.edgesFaces firstEdge firstFaceIndex ≠ st.newFaceIndex ∧
        (mesh.edgesFaces firstEdge firstFaceIndex = mesh.edgesFaces secondEdge 0 ∨
          mesh.edgesFaces firstEdge firstFaceIndex =
            mesh.edgesFaces secondEdge secondFaceIndex) then
      mesh.edgesFaces firstEdge firstFaceIndex
    else env.intMissingValue
  let newFaceIndex : Int :=
    if mesh.nodesNumEdges currentNode = 2 ∧ e = 1 ∧ mesh.nodesTypes currentNode = 3 ∧
        st.sharedFacesCache 0 = newFaceIndex0 then env.intMissingValue
    else newFaceIndex0
  { newFaceIndex := newFaceIndex
    numSharedFaces := st.numSharedFaces + 1
    sharedFacesCache := Function.update st.sharedFacesCache st.numSharedFaces newFaceIndex }

/-- Local `connectedNodesIndex` and the members written by the second and third loop
of `SmootherNodeAdministration`. -/
structure SmootherNodeAdministration.Nodes where
  connectedNodesIndex : Int
  connectedNodesCache : Int → Int
  connectedNodes : Int → Int → Int
  faceNodeMappingCache : Int → Int → Int

/-- Lines 1276-1283 and 1335-1342: a node is appended to the cache and to the list of
the current node. The rows of `m_connectedNodes` have `maximumNumberOfConnectedNodes`
entries, so the `resize` of line 1281 is not reached. -/
def SmootherNodeAdministration.append (currentNode node : Int)
    (st : SmootherNodeAdministration.Nodes) : SmootherNodeAdministration.Nodes :=
  let connectedNodesIndex := st.connectedNodesIndex + 1
  { st with
    connectedNodesIndex := connectedNodesIndex
    connectedNodesCache := Function.update st.connectedNodesCache connectedNodesIndex node
    connectedNodes := Function.update st.connectedNodes currentNode
      (Function.update (st.connectedNodes currentNode) connectedNodesIndex node) }

/-- Body of the loop over the edges that lists the edge-connected nodes (lines
1272-1284), for edge slot `e`. -/
def SmootherNodeAdministration.edgeBody (mesh : Mesh) (currentNode : Int) (e : Int)
    (st : SmootherNodeAdministration.Nodes) : SmootherNodeAdministration.Nodes :=
  let edgeIndex := mesh.nodesEdges currentNode e
  let node := (mesh.edges edgeIndex).1 + (mesh.edges edgeIndex).2 - currentNode
  SmootherNodeAdministration.append currentNode node st

/-- Lines 1299-1308: the first position of the current node in the face, and 0 when
the face does not hold it. -/
def SmootherNodeAdministration.findFaceNode (mesh : Mesh) (faceIndex currentNode : Int) : Int :=
  (forRange (fun n (st : Bool × Int) =>
      if st.1 then st else
      if mesh.facesNodes faceIndex n = currentNode then (true, n) else st)
    (mesh.numFaceEdges faceIndex).toNat (false, 0)).2

/-- Lines 1321-1331: the search of `node` among the entries `0 .. connectedNodesIndex`
of the cache; the result is `isNewNode` and the position found. -/
def SmootherNodeAdministration.lookup (connectedNodesCache : Int → Int) (node : Int)
    (connectedNodesIndex : Int) : Bool × Int :=
  forRange (fun n (st : Bool × Int) =>
      if st.1 = false then st else
      if node = connectedNodesCache n then (false, n) else st)
    (connectedNodesIndex + 1).toNat (true, 0)

/-- Local `faceNodeIndex` together with the members written while the nodes of a
shared face are walked. -/
structure SmootherNodeAdministration.Walk where
  faceNodeIndex : Int
  nodes : SmootherNodeAdministration.Nodes

/-- Body of the loop over the nodes of the shared face in slot `f` (lines 1310-1347). -/
def SmootherNodeAdministration.faceNodeBody (mesh : Mesh) (currentNode f faceIndex : Int)
    (_n : Int) (w : SmootherNodeAdministration.Walk) : SmootherNodeAdministration.Walk :=
  let numFaceNodes := mesh.numFaceEdges faceIndex
  let faceNodeIndex :=
    if w.faceNodeIndex ≥ numFaceNodes then w.faceNodeIndex - numFaceNodes else w.faceNodeIndex
  let node := mesh.facesNodes faceIndex faceNodeIndex
  let r := SmootherNodeAdministration.lookup w.nodes.connectedNodesCache node
    w.nodes.connectedNodesIndex
  let nodes1 : SmootherNodeAdministration.Nodes :=
    if r.1 then
      let st := SmootherNodeAdministration.append currentNode node w.nodes
      { st with
        faceNodeMappingCache := Function.update st.faceNodeMappingCache f
          (Function.update (st.faceNodeMappingCache f) faceNodeIndex st.connectedNodesIndex) }
    else
      { w.nodes with
        faceNodeMappingCache := Function.update w.nodes.faceNodeMappingCache f
          (Function.update (w.nodes.faceNodeMappingCache f) faceNodeIndex r.2) }
  { faceNodeIndex := faceNodeIndex + 1, nodes := nodes1 }

/-- Body of the loop over the shared faces (lines 1291-1348), for face slot `f`. -/
def SmootherNodeAdministration.sharedFaceBody (mesh : Mesh) (currentNode : Int)
    (sharedFacesCache : Int → Int) (f : Int) (st : SmootherNodeAdministration.Nodes) :
    SmootherNodeAdministration.Nodes :=
  let faceIndex := sharedFacesCache f
  if faceIndex < 0 then st else
  (forRange (SmootherNodeAdministration.faceNodeBody mesh currentNode f faceIndex)
    (mesh.numFaceEdges faceIndex).toNat
    { faceNodeIndex := SmootherNodeAdministration.findFaceNode mesh faceIndex currentNode
      nodes := st }).nodes

/-- Method `Orthogonalization::SmootherNodeAdministration`: the returned flag, the two
output arguments (given their values on entry) and the members it writes. The driver
`ComputeSmootherTopologies` above takes the administration as the parameter
`Env.SmootherNodeAdministration`; this is the function of the source. The rows of
`m_faceNodeMappingCache` are as many as `InitializeSmoother` allocated. -/
def SmootherNodeAdministration (env : Env) (mesh : Mesh) (currentNode : Int)
    (numSharedFaces numConnectedNodes : Int) (c : SmootherCaches) :
    Bool × Int × Int × SmootherCaches :=
  if mesh.nodesNumEdges currentNode < 2 then (true, numSharedFaces, numConnectedNodes, c) else
  let faces := forRange (SmootherNodeAdministration.faceBody env mesh currentNode)
    (mesh.nodesNumEdges currentNode).toNat
    { newFaceIndex := env.intMissingValue, numSharedFaces := 0,
      sharedFacesCache := c.sharedFacesCache }
  let c1 : SmootherCaches := { c with sharedFacesCache := faces.sharedFacesCache }
  if faces.numSharedFaces < 1 then (true, faces.numSharedFaces, numConnectedNodes, c1) else
  let n0 : SmootherNodeAdministration.Nodes :=
    { connectedNodesIndex := 0
      connectedNodesCache := Function.update c.connectedNodesCache 0 currentNode
      connectedNodes := c.connectedNodes
      faceNodeMappingCache := c.faceNodeMappingCache }
  let n1 := forRange (SmootherNodeAdministration.edgeBody mesh currentNode)
    (mesh.nodesNumEdges currentNode).toNat n0
  let n2 := forRange
    (SmootherNodeAdministration.sharedFaceBody mesh currentNode faces.sharedFacesCache)
    faces.numSharedFaces.toNat n1
  (true, faces.numSharedFaces, n2.connectedNodesIndex + 1,
    { c1 with
      connectedNodesCache := n2.connectedNodesCache
      faceNodeMappingCache := n2.faceNodeMappingCache
      connectedNodes := n2.connectedNodes
      numConnectedNodes :=
        Function.update c.numConnectedNodes currentNode (n2.connectedNodesIndex + 1) })

/-! ## Smoother stage: operators -/

/-- Method `Orthogonalization::AllocateSmootherNodeOperators` (it always returns
`true`): the operators of one class are resized and zero-filled. -/
def AllocateSmootherNodeOperators (topologyIndex : Int) (s : Smoother) : Smoother :=
  let numSharedFaces := s.topologies.numTopologyFaces topologyIndex
  { s with
    Az := Function.update s.Az topologyIndex (fun _ _ => 0)
    operators :=
      { s.operators with
        Gxi := Function.update s.operators.Gxi topologyIndex (fun _ _ => 0)
        Geta := Function.update s.operators.Geta topologyIndex (fun _ _ => 0)
        Divxi := Function.update s.operators.Divxi topologyIndex (fun _ => 0)
        Diveta := Function.update s.operators.Diveta topologyIndex (fun _ => 0)
        DivxiSize := Function.update s.operators.DivxiSize topologyIndex numSharedFaces.toNat
        Jxi := Function.update s.operators.Jxi topologyIndex (fun _ => 0)
        Jeta := Function.update s.operators.Jeta topologyIndex (fun _ => 0)
        ww2 := Function.update s.operators.ww2 topologyIndex (fun _ => 0) } }

/-- Body of the first loop of `ComputeSmootherOperatorsNode` (lines 657-705): row `f`
of `m_Az[currentTopology]`, given the current contents `row` of that row. -/
def ComputeSmootherOperatorsNode.azRow (env : Env) (mesh : Mesh) (t : Topologies)
    (currentNode : Int) (f : Int) (row : Int → ℚ) : Int → ℚ :=
  let currentTopology := t.nodeTopologyMapping currentNode
  if t.topologySharedFaces currentTopology f < 0 ∨ mesh.nodesTypes currentNode = 3 then row
  else
  let edgeLeft := f + 1
  let edgeRight :=
    if edgeLeft + 1 > t.numTopologyFaces currentTopology
    then edgeLeft + 1 - t.numTopologyFaces currentTopology else edgeLeft + 1
  let xiLeft := t.topologyXi currentTopology edgeLeft
  let xiRight := t.topologyXi currentTopology edgeRight
  let etaLeft := t.topologyEta currentTopology edgeLeft
  let etaRight := t.topologyEta currentTopology edgeRight
  let edgeLeftSquaredDistance :=
    env.sqrt (xiLeft * xiLeft + etaLeft * etaLeft + 1 / 10000000000000000)
  let edgeRightSquaredDistance :=
    env.sqrt (xiRight * xiRight + etaRight * etaRight + 1 / 10000000000000000)
  let cPhi := (xiLeft * xiRight + etaLeft * etaRight) /
    (edgeLeftSquaredDistance * edgeRightSquaredDistance)
  let face := t.topologySharedFaces currentTopology f
  let numFaceNodes := mesh.numFaceEdges face
  let mapping := t.topologyFaceNodeMapping currentTopology f
  if numFaceNodes = 3 then
    let nodeIndex := env.FindIndex (mesh.facesNodes face) currentNode
    let nodeLeft := env.NextCircularBackwardIndex nodeIndex numFaceNodes
    let nodeRight := env.NextCircularForwardIndex nodeIndex numFaceNodes
    let alpha := 1 / (1 - cPhi * cPhi + 1 / 100000000)
    let alphaLeft :=
      (1 / 2) * (1 - edgeLeftSquaredDistance / edgeRightSquaredDistance * cPhi) * alpha
    let alphaRight :=
      (1 / 2) * (1 - edgeRightSquaredDistance / edgeLeftSquaredDistance * cPhi) * alpha
    Function.update
      (Function.update
        (Function.update row (mapping nodeIndex) (1 - (alphaLeft + alphaRight)))
        (mapping nodeLeft) alphaLeft)
      (mapping nodeRight) alphaRight
  else
    forRange (fun i r => Function.update r (mapping i) (1 / (numFaceNodes : ℚ)))
      env.maximumNumberOfNodesPerFace row

/-- First loop of `ComputeSmootherOperatorsNode` (lines 657-705): the new `m_Az`. -/
def ComputeSmootherOperatorsNode.az (env : Env) (mesh : Mesh) (t : Topologies)
    (currentNode : Int) (Az : Int → Int → Int → ℚ) : Int → Int → Int → ℚ :=
  let currentTopology := t.nodeTopologyMapping currentNode
  forRange (fun f A =>
      Function.update A currentTopology
        (Function.update (A currentTopology) f
          (ComputeSmootherOperatorsNode.azRow env mesh t currentNode f (A currentTopology f))))
    (t.numTopologyFaces currentTopology).toNat Az

/-- Method `Orthogonalization::ComputeSmootherOperatorsNode`: the loop that fills
`m_Az`, followed by the assembly of the other operators, which does not write
`m_Az`. -/
def ComputeSmootherOperatorsNode (env : Env) (mesh : Mesh) (currentNode : Int)
    (s : Smoother) : Bool × Smoother :=
  let Az := ComputeSmootherOperatorsNode.az env mesh s.topologies currentNode s.Az
  let r := env.ComputeSmootherOperatorsNodeGradients mesh currentNode s.topologies Az
    s.operators
  (r.1, { s with Az := Az, operators := r.2 })

/-- State of the loop over the nodes in `ComputeSmootherOperators`. -/
structure ComputeSmootherOperators.Loop where
  isNewTopology : Int → Bool
  successful : Bool
  smoother : Smoother

/-- Body of the loop over the nodes in `ComputeSmootherOperators` (lines 615-635). -/
def ComputeSmootherOperators.nodeBody (env : Env) (mesh : Mesh) (n : Int)
    (st : ComputeSmootherOperators.Loop) : ComputeSmootherOperators.Loop :=
  let currentTopology := st.smoother.topologies.nodeTopologyMapping n
  if st.isNewTopology currentTopology then
    let isNew := Function.update st.isNewTopology currentTopology false
    if st.successful then
      let s1 := AllocateSmootherNodeOperators currentTopology st.smoother
      let r := ComputeSmootherOperatorsNode env mesh n s1
      { isNewTopology := isNew, successful := r.1, smoother := r.2 }
    else
      { st with isNewTopology := isNew }
  else st

/-- Method `Orthogonalization::ComputeSmootherOperators`. The `resize` calls at its
start keep the entries the tables and caches already hold. -/
def ComputeSmootherOperators (env : Env) (mesh : Mesh) (s : Smoother) : Bool × Smoother :=
  let r := forRange (ComputeSmootherOperators.nodeBody env mesh) mesh.numNodes
    { isNewTopology := fun _ => true, successful := true, smoother := s }
  (r.successful, r.smoother)

/-! ## Smoother stage: weights -/

/-- Method `Orthogonalization::ComputeJacobian`: the four entries written to `J`. -/
def ComputeJacobian (env : Env) (currentNode : Int) (mesh : Mesh) (s : Smoother) :
    ℚ × ℚ × ℚ × ℚ :=
  let currentTopology := s.topologies.nodeTopologyMapping currentNode
  let numNodes := (s.topologies.numTopologyNodes currentTopology).toNat
  let node := fun i => mesh.nodes (s.topologies.topologyConnectedNodes currentTopology i)
  let Jxi := s.operators.Jxi currentTopology
  let Jeta := s.operators.Jeta currentTopology
  match mesh.projection with
  | Projections.cartesian =>
    (sumRange (fun i => Jxi i * (node i).x) numNodes,
     sumRange (fun i => Jxi i * (node i).y) numNodes,
     sumRange (fun i => Jeta i * (node i).x) numNodes,
     sumRange (fun i => Jeta i * (node i).y) numNodes)
  | _ =>
    let cosFactor := env.cos ((mesh.nodes currentNode).y * env.degrad_hp)
    (sumRange (fun i => Jxi i * (node i).x * cosFactor) numNodes,
     sumRange (fun i => Jxi i * (node i).y) numNodes,
     sumRange (fun i => Jeta i * (node i).x * cosFactor) numNodes,
     sumRange (fun i => Jeta i * (node i).y) numNodes)

/-- Method `Orthogonalization::MatrixNorm`, on two 2-vectors and a 2x2 matrix stored
row by row. -/
def MatrixNorm (x y : ℚ × ℚ) (matCoefficents : ℚ × ℚ × ℚ × ℚ) : ℚ :=
  (matCoefficents.1 * x.1 + matCoefficents.2.1 * x.2) * y.1 +
    (matCoefficents.2.2.1 * x.1 + matCoefficents.2.2.2 * x.2) * y.2

/-- The quantities `ComputeSmootherWeights` derives for one node before it touches the
weights: the topology size, the term subtracted from and the term added to
`m_wSmoother[n][i]` (lines 509-516), and the reference stencil. -/
structure ComputeSmootherWeights.NodeTerms where
  numTopologyNodes : Int
  subtracted : Int → ℚ
  added : Int → ℚ
  ww2 : Int → ℚ

/-- Lines 465-516 for node `n`, given its Jacobian and the determinant. The monitor
matrix `Ginv` of every node is the identity (lines 426-432). -/
def ComputeSmootherWeights.terms (s : Smoother) (n : Int) (J : ℚ × ℚ × ℚ × ℚ)
    (determinant : ℚ) : ComputeSmootherWeights.NodeTerms :=
  let currentTopology := s.topologies.nodeTopologyMapping n
  let numTopologyNodes := s.topologies.numTopologyNodes currentTopology
  let Ginv : Int → ℚ × ℚ × ℚ × ℚ := fun _ => (1, 0, 0, 1)
  let a1 : ℚ × ℚ := (J.2.2.2 / determinant, -J.2.2.1 / determinant)
  let a2 : ℚ × ℚ := (-J.2.1 / determinant, J.1 / determinant)
  let Jxi := s.operators.Jxi currentTopology
  let Jeta := s.operators.Jeta currentTopology
  let node := s.topologies.topologyConnectedNodes currentTopology
  let k := numTopologyNodes.toNat
  let DGinvDxi : ℚ × ℚ × ℚ × ℚ :=
    (sumRange (fun i => (Ginv (node i)).1 * Jxi i) k,
     sumRange (fun i => (Ginv (node i)).2.1 * Jxi i) k,
     sumRange (fun i => (Ginv (node i)).2.2.1 * Jxi i) k,
     sumRange (fun i => (Ginv (node i)).2.2.2 * Jxi i) k)
  let DGinvDeta : ℚ × ℚ × ℚ × ℚ :=
    (sumRange (fun i => (Ginv (node i)).1 * Jeta i) k,
     sumRange (fun i => (Ginv (node i)).2.1 * Jeta i) k,
     sumRange (fun i => (Ginv (node i)).2.2.1 * Jeta i) k,
     sumRange (fun i => (Ginv (node i)).2.2.2 * Jeta i) k)
  let currentGinv := Ginv n
  let m := s.operators.DivxiSize currentTopology
  let Gxi := s.operators.Gxi currentTopology
  let Geta := s.operators.Geta currentTopology
  let Divxi := s.operators.Divxi currentTopology
  let Diveta := s.operators.Diveta currentTopology
  let GxiByDivxi : Int → ℚ := fun i =>
    if 0 ≤ i ∧ i < numTopologyNodes then sumRange (fun j => Gxi j i * Divxi j) m else 0
  let GxiByDiveta : Int → ℚ := fun i =>
    if 0 ≤ i ∧ i < numTopologyNodes then sumRange (fun j => Gxi j i * Diveta j) m else 0
  let GetaByDivxi : Int → ℚ := fun i =>
    if 0 ≤ i ∧ i < numTopologyNodes then sumRange (fun j => Geta j i * Divxi j) m else 0
  let GetaByDiveta : Int → ℚ := fun i =>
    if 0 ≤ i ∧ i < numTopologyNodes then sumRange (fun j => Geta j i * Diveta j) m else 0
  { numTopologyNodes := numTopologyNodes
    subtracted := fun i =>
      MatrixNorm a1 a1 DGinvDxi * Jxi i + MatrixNorm a1 a2 DGinvDeta * Jxi i +
        MatrixNorm a2 a1 DGinvDxi * Jeta i + MatrixNorm a2 a2 DGinvDeta * Jeta i
    added := fun i =>
      MatrixNorm a1 a1 currentGinv * GxiByDivxi i + MatrixNorm a1 a2 currentGinv * GxiByDiveta i +
        MatrixNorm a2 a1 currentGinv * GetaByDivxi i +
        MatrixNorm a2 a2 currentGinv * GetaByDiveta i
    ww2 := s.operators.ww2 currentTopology }

/-- Loop of lines 507-517: the two accumulations into every weight of the row. -/
def ComputeSmootherWeights.accumulate (tm : ComputeSmootherWeights.NodeTerms)
    (w : Int → ℚ) : Int → ℚ :=
  forRange (fun i w => Function.update w i (w i - tm.subtracted i + tm.added i))
    tm.numTopologyNodes.toNat w

/-- Loop of lines 519-523: the regularisation coefficient `alpha`. -/
def ComputeSmootherWeights.alpha (tm : ComputeSmootherWeights.NodeTerms) (w : Int → ℚ) : ℚ :=
  forRange (fun j alpha =>
      let i := j + 1
      max alpha (-(w i)) / max 1 (tm.ww2 i))
    (tm.numTopologyNodes - 1).toNat 0

/-- Loop of lines 525-530: regularisation of the off-diagonal weights and their sum
`sumValues`. -/
def ComputeSmootherWeights.regularize (tm : ComputeSmootherWeights.NodeTerms) (alpha : ℚ)
    (w : Int → ℚ) : (Int → ℚ) × ℚ :=
  forRange (fun j (st : (Int → ℚ) × ℚ) =>
      let i := j + 1
      let wi := st.1 i + alpha * max 1 (tm.ww2 i)
      (Function.update st.1 i wi, st.2 + wi))
    (tm.numTopologyNodes - 1).toNat (w, 0)

/-- Lines 531-535: the diagonal entry and the final scaling of the row. -/
def ComputeSmootherWeights.normalize (tm : ComputeSmootherWeights.NodeTerms)
    (st : (Int → ℚ) × ℚ) : Int → ℚ :=
  let sumValues := st.2
  let w0 := Function.update st.1 0 (-sumValues)
  forRange (fun i w => Function.update w i (-(w i) / (-sumValues + 1 / 100000000)))
    tm.numTopologyNodes.toNat w0

/-- Lines 507-535: the new row `m_wSmoother[n]` from the old one. -/
def ComputeSmootherWeights.row (tm : ComputeSmootherWeights.NodeTerms) (w : Int → ℚ) :
    Int → ℚ :=
  let w1 := ComputeSmootherWeights.accumulate tm w
  let alpha := ComputeSmootherWeights.alpha tm w1
  ComputeSmootherWeights.normalize tm (ComputeSmootherWeights.regularize tm alpha w1)

/-- Determinant as line 459 computes it from the Jacobian. -/
def ComputeSmootherWeights.determinant (J : ℚ × ℚ × ℚ × ℚ) : ℚ :=
  J.1 * J.2.2.2 - J.2.2.2 * J.2.1

/-- Body of the main loop of `ComputeSmootherWeights` (lines 446-538), for node `n`. -/
def ComputeSmootherWeights.nodeBody (env : Env) (mesh : Mesh) (n : Int) (s : Smoother) :
    Smoother :=
  if mesh.nodesNumEdges n < 2 then s else
  if mesh.nodesTypes n = 1 ∨ mesh.nodesTypes n = 2 then
    let J := ComputeJacobian env n mesh s
    let determinant := ComputeSmootherWeights.determinant J
    if determinant = 0 then s else
    let tm := ComputeSmootherWeights.terms s n J determinant
    { s with
      wSmoother := Function.update s.wSmoother n (ComputeSmootherWeights.row tm (s.wSmoother n)) }
  else s

/-- Method `Orthogonalization::ComputeSmootherWeights` (it always returns `true`). The
Jacobians of the first loop (lines 416-423) are local and are recomputed at line 456
before they are read. The `resize` of line 434 keeps the weights already stored. -/
def ComputeSmootherWeights (env : Env) (mesh : Mesh) (s : Smoother) : Smoother :=
  forRange (ComputeSmootherWeights.nodeBody env mesh) mesh.numNodes s

/-! ## Solver driver: compressed linear system -/

/-- Body of the loop of `AllocateLinearSystem` (lines 215-220). -/
def AllocateLinearSystem.nodeBody (mesh : Mesh) (numConnectedNodes : Int → Int) (n : Int)
    (ls : LinearSystem) : LinearSystem :=
  let ls1 : LinearSystem :=
    { ls with
      compressedEndNodeIndex := Function.update ls.compressedEndNodeIndex n ls.nodeCacheSize }
  let ls2 : LinearSystem :=
    { ls1 with
      nodeCacheSize := ls1.nodeCacheSize + max (mesh.nodesNumEdges n + 1) (numConnectedNodes n) }
  { ls2 with
    compressedStartNodeIndex := Function.update ls2.compressedStartNodeIndex n ls2.nodeCacheSize }

/-- Method `Orthogonalization::AllocateLinearSystem` (it always returns `true`). The
vectors are empty whenever `m_nodeCacheSize` is zero, so `resize` value-initialises
every entry. -/
def AllocateLinearSystem (mesh : Mesh) (o : Orthogonalization) : Orthogonalization :=
  if o.linearSystem.nodeCacheSize = 0 then
    { o with
      linearSystem :=
        forRange (AllocateLinearSystem.nodeBody mesh o.smoother.caches.numConnectedNodes)
          mesh.numNodes
          { nodeCacheSize := o.linearSystem.nodeCacheSize
            compressedRhs := fun _ => 0
            compressedEndNodeIndex := fun _ => 0
            compressedStartNodeIndex := fun _ => 0
            compressedNodesNodes := fun _ => 0
            compressedWeightX := fun _ => 0
            compressedWeightY := fun _ => 0 } }
  else o

/-- Method `Orthogonalization::DeallocateLinearSystem` (it always returns `true`). -/
def DeallocateLinearSystem (o : Orthogonalization) : Orthogonalization :=
  { o with
    linearSystem :=
      { nodeCacheSize := 0
        compressedRhs := fun _ => 0
        compressedEndNodeIndex := fun _ => 0
        compressedStartNodeIndex := fun _ => 0
        compressedNodesNodes := fun _ => 0
        compressedWeightX := fun _ => 0
        compressedWeightY := fun _ => 0 } }

/-- Method `Orthogonalization::FinalizeOuterIteration` (it always returns `true`). -/
def FinalizeOuterIteration (env : Env) (mesh : Mesh) (o : Orthogonalization) :
    Mesh × Orthogonalization :=
  let o1 : Orthogonalization := { o with mu := min (2 * o.mu) o.mumax }
  if o1.keepCircumcentersAndMassCenters = false then
    let r := env.ComputeFaceCircumcentersMassCentersAndAreas mesh
    ({ mesh with facesCircumcenters := r.1, facesMassCenters := r.2.1, faceArea := r.2.2 }, o1)
  else (mesh, o1)

/-- Body of the inner loop of `ComputeLinearSystemTerms` (lines 275-301): slot
`nn = j + 1` of node `n`, stored at `cacheIndex = m_compressedEndNodeIndex[n] + j`. -/
def ComputeLinearSystemTerms.slotBody (mesh : Mesh) (o : Orthogonalization) (n : Int)
    (atpfLoc atpf1Loc : ℚ) (j : Int) (ls : LinearSystem) : LinearSystem :=
  let nn := j + 1
  let cacheIndex := o.linearSystem.compressedEndNodeIndex n + j
  let ww0 : ℚ :=
    if atpf1Loc > 0 ∧ mesh.nodesTypes n = 1 then atpf1Loc * o.smoother.wSmoother n nn else 0
  let ww : ℚ :=
    if nn < mesh.nodesNumEdges n + 1 then ww0 + atpfLoc * o.wOrthogonalizer n (nn - 1) else ww0
  let neighbour : Int :=
    if nn < mesh.nodesNumEdges n + 1 then o.nodesNodes n (nn - 1)
    else o.smoother.caches.connectedNodes n nn
  { ls with
    compressedNodesNodes := Function.update ls.compressedNodesNodes cacheIndex neighbour
    compressedWeightX := Function.update ls.compressedWeightX cacheIndex ww
    compressedWeightY := Function.update ls.compressedWeightY cacheIndex ww }

/-- Body of the loop over the nodes of `ComputeLinearSystemTerms` (lines 260-305). The
index arrays are not written by the loop, so they are read from `o`. -/
def ComputeLinearSystemTerms.nodeBody (mesh : Mesh) (o : Orthogonalization) (n : Int)
    (ls : LinearSystem) : LinearSystem :=
  let max_aptf := max o.orthogonalizationToSmoothingFactorBoundary
    o.orthogonalizationToSmoothingFactor
  if (mesh.nodesTypes n ≠ 1 ∧ mesh.nodesTypes n ≠ 2) ∨ mesh.nodesNumEdges n < 2 then ls else
  if o.keepCircumcentersAndMassCenters ≠ false ∧
      (mesh.nodesNumEdges n ≠ 3 ∨ mesh.nodesNumEdges n ≠ 1) then ls else
  let atpfLoc := if mesh.nodesTypes n = 2 then max_aptf else o.orthogonalizationToSmoothingFactor
  let atpf1Loc := 1 - atpfLoc
  let maxnn := o.linearSystem.compressedStartNodeIndex n - o.linearSystem.compressedEndNodeIndex n
  let ls1 := forRange (ComputeLinearSystemTerms.slotBody mesh o n atpfLoc atpf1Loc)
    (maxnn - 1).toNat ls
  let firstCacheIndex := n * 2
  { ls1 with
    compressedRhs :=
      Function.update
        (Function.update ls1.compressedRhs firstCacheIndex (atpfLoc * o.rhsOrthogonalizer n 0))
        (firstCacheIndex + 1) (atpfLoc * o.rhsOrthogonalizer n 1) }

/-- Method `Orthogonalization::ComputeLinearSystemTerms` (it always returns `true`). -/
def ComputeLinearSystemTerms (mesh : Mesh) (o : Orthogonalization) : Orthogonalization :=
  { o with
    linearSystem := forRange (ComputeLinearSystemTerms.nodeBody mesh o) mesh.numNodes
      o.linearSystem }

/-! ## Solver driver: inner iteration -/

/-- Locals `dx0`, `dy0` and `increments` of `UpdateNodeCoordinates`. -/
structure Increments where
  dx0 : ℚ
  dy0 : ℚ
  increments0 : ℚ
  increments1 : ℚ

/-- Method `Orthogonalization::ComputeLocalIncrements` (it always returns `true`). -/
def ComputeLocalIncrements (env : Env) (o : Orthogonalization) (wwx wwy : ℚ)
    (currentNode n : Int) (mesh : Mesh) (acc : Increments) : Increments :=
  match mesh.projection with
  | Projections.cartesian =>
    { dx0 := acc.dx0 + wwx * ((mesh.nodes currentNode).x - (mesh.nodes n).x)
      dy0 := acc.dy0 + wwy * ((mesh.nodes currentNode).y - (mesh.nodes n).y)
      increments0 := acc.increments0 + wwx
      increments1 := acc.increments1 + wwy }
  | Projections.spherical =>
    let wwxTransformed := wwx * env.earth_radius * env.degrad_hp *
      env.cos ((1 / 2) * ((mesh.nodes n).y + (mesh.nodes currentNode).y) * env.degrad_hp)
    let wwyTransformed := wwy * env.earth_radius * env.degrad_hp
    { dx0 := acc.dx0 + wwxTransformed * ((mesh.nodes currentNode).x - (mesh.nodes n).x)
      dy0 := acc.dy0 + wwyTransformed * ((mesh.nodes currentNode).y - (mesh.nodes n).y)
      increments0 := acc.increments0 + wwxTransformed
      increments1 := acc.increments1 + wwyTransformed }
  | Projections.sphericalAccurate =>
    let wwxTransformed := wwx * env.earth_radius * env.degrad_hp
    let wwyTransformed := wwy * env.earth_radius * env.degrad_hp
    { dx0 := acc.dx0 + wwxTransformed *
        (o.localCoordinates (o.localCoordinatesIndexes n + currentNode - 1)).x
      dy0 := acc.dy0 + wwyTransformed *
        (o.localCoordinates (o.localCoordinatesIndexes n + currentNode - 1)).y
      increments0 := acc.increments0 + wwxTransformed
      increments1 := acc.increments1 + wwyTransformed }

/-- Loop of lines 1823-1826 of `UpdateNodeCoordinates`. -/
def UpdateNodeCoordinates.increments (env : Env) (nodeIndex : Int) (mesh : Mesh)
    (o : Orthogonalization) : Increments :=
  let ls := o.linearSystem
  let numConnectedNodes := ls.compressedStartNodeIndex nodeIndex - ls.compressedEndNodeIndex nodeIndex
  forRange (fun j acc =>
      let cacheIndex := ls.compressedEndNodeIndex nodeIndex + j
      ComputeLocalIncrements env o (ls.compressedWeightX cacheIndex)
        (ls.compressedWeightY cacheIndex) (ls.compressedNodesNodes cacheIndex) nodeIndex mesh acc)
    (numConnectedNodes - 1).toNat
    { dx0 := 0, dy0 := 0, increments0 := 0, increments1 := 0 }

/-- Method `Orthogonalization::UpdateNodeCoordinates` (it always returns `true`): the
new `m_orthogonalCoordinates`. -/
def UpdateNodeCoordinates (env : Env) (nodeIndex : Int) (mesh : Mesh) (o : Orthogonalization)
    (orthogonalCoordinates : Int → Point) : Int → Point :=
  let acc := UpdateNodeCoordinates.increments env nodeIndex mesh o
  if acc.increments0 ≤ 1 / 100000000 ∨ acc.increments1 ≤ 1 / 100000000 then
    orthogonalCoordinates
  else
  let firstCacheIndex := nodeIndex * 2
  let dx0 := (acc.dx0 + o.linearSystem.compressedRhs firstCacheIndex) / acc.increments0
  let dy0 := (acc.dy0 + o.linearSystem.compressedRhs (firstCacheIndex + 1)) / acc.increments1
  let relaxationFactor : ℚ := 3 / 4
  match mesh.projection with
  | Projections.sphericalAccurate =>
    let localPoint : Point := { x := relaxationFactor * dx0, y := relaxationFactor * dy0 }
    let base := env.ComputeThreeBaseComponents (mesh.nodes nodeIndex)
    let exxp := base.1
    let eyyp := base.2.1
    let ezzp := base.2.2
    let cartesianLocalPoint := env.SphericalToCartesian localPoint
    let transformedCartesianLocalPoint : Cartesian3DPoint :=
      { x := exxp.x * cartesianLocalPoint.x + eyyp.x * cartesianLocalPoint.y +
          ezzp.x * cartesianLocalPoint.z
        y := exxp.y * cartesianLocalPoint.x + eyyp.y * cartesianLocalPoint.y +
          ezzp.y * cartesianLocalPoint.z
        z := exxp.z * cartesianLocalPoint.x + eyyp.z * cartesianLocalPoint.y +
          ezzp.z * cartesianLocalPoint.z }
    Function.update orthogonalCoordinates nodeIndex
      (env.CartesianToSpherical transformedCartesianLocalPoint (mesh.nodes nodeIndex).x
        (orthogonalCoordinates nodeIndex))
  | _ =>
    let x0 := (mesh.nodes nodeIndex).x + dx0
    let y0 := (mesh.nodes nodeIndex).y + dy0
    let relaxationFactorCoordinates : ℚ := 1 - relaxationFactor
    Function.update orthogonalCoordinates nodeIndex
      { x := relaxationFactor * x0 + relaxationFactorCoordinates * (mesh.nodes nodeIndex).x
        y := relaxationFactor * y0 + relaxationFactorCoordinates * (mesh.nodes nodeIndex).y }

/-- Locals of the loop over the edges of the anchor node in
`ProjectOnOriginalMeshBoundary`; `failed` records that `return false` was reached. -/
structure ProjectOnOriginalMeshBoundary.Neighbours where
  failed : Bool
  numNodes : Int
  leftNode : Int
  rightNode : Int
  secondPoint : Point
  thirdPoint : Point

/-- Body of the loop over the edges of the anchor node (lines 355-380). -/
def ProjectOnOriginalMeshBoundary.edgeBody (env : Env) (mesh : Mesh) (o : Orthogonalization)
    (n nearestPointIndex : Int) (nn : Int) (st : ProjectOnOriginalMeshBoundary.Neighbours) :
    ProjectOnOriginalMeshBoundary.Neighbours :=
  if st.failed then st else
  let edgeIndex := mesh.nodesEdges nearestPointIndex nn
  if mesh.edgesNumFaces edgeIndex = 1 then
    let numNodes := st.numNodes + 1
    if numNodes = 1 then
      let leftNode := o.nodesNodes n nn
      if leftNode = env.intMissingValue then
        { st with numNodes := numNodes, leftNode := leftNode, failed := true }
      else
        { st with numNodes := numNodes, leftNode := leftNode,
                  secondPoint := o.originalNodes leftNode }
    else if numNodes = 2 then
      let rightNode := o.nodesNodes n nn
      if rightNode = env.intMissingValue then
        { st with numNodes := numNodes, rightNode := rightNode, failed := true }
      else
        { st with numNodes := numNodes, rightNode := rightNode,
                  thirdPoint := o.originalNodes rightNode }
    else
      { st with numNodes := numNodes }
  else st

/-- State of the loop over the nodes in `ProjectOnOriginalMeshBoundary`: the members
and mesh arrays it writes, the function-scope locals that survive an iteration, and
`returned`, which records that `return false` was executed. -/
structure ProjectOnOriginalMeshBoundary.Loop where
  returned : Bool
  secondPoint : Point
  thirdPoint : Point
  nodes : Int → Point
  nearestPoints : Int → Int

/-- Body of the loop over the nodes (lines 345-406). -/
def ProjectOnOriginalMeshBoundary.nodeBody (env : Env) (mesh : Mesh) (o : Orthogonalization)
    (n : Int) (st : ProjectOnOriginalMeshBoundary.Loop) : ProjectOnOriginalMeshBoundary.Loop :=
  if st.returned then st else
  let nearestPointIndex := st.nearestPoints n
  if mesh.nodesTypes n = 2 ∧ mesh.nodesNumEdges n > 0 ∧
      mesh.nodesNumEdges nearestPointIndex > 0 then
    let firstPoint := st.nodes n
    let numEdges := mesh.nodesNumEdges nearestPointIndex
    let r := forRange (ProjectOnOriginalMeshBoundary.edgeBody env mesh o n nearestPointIndex)
      numEdges.toNat
      { failed := false, numNodes := 0, leftNode := env.indeterminateInt,
        rightNode := env.indeterminateInt, secondPoint := st.secondPoint,
        thirdPoint := st.thirdPoint }
    if r.failed then
      { st with returned := true, secondPoint := r.secondPoint, thirdPoint := r.thirdPoint }
    else
    let d2 := env.DistanceFromLine firstPoint (o.originalNodes nearestPointIndex) r.secondPoint
      mesh.projection
    let d3 := env.DistanceFromLine firstPoint (o.originalNodes nearestPointIndex) r.thirdPoint
      mesh.projection
    if d2.1 < d3.1 then
      { returned := false
        secondPoint := r.secondPoint
        thirdPoint := r.thirdPoint
        nodes := Function.update st.nodes n d2.2.1
        nearestPoints :=
          if d2.2.2 > 1 / 2 ∧ mesh.nodesTypes n ≠ 3
          then Function.update st.nearestPoints n r.leftNode else st.nearestPoints }
    else
      { returned := false
        secondPoint := r.secondPoint
        thirdPoint := r.thirdPoint
        nodes := Function.update st.nodes n d3.2.1
        nearestPoints :=
          if d3.2.2 > 1 / 2 ∧ mesh.nodesTypes n ≠ 3
          then Function.update st.nearestPoints n r.rightNode else st.nearestPoints }
  else st

/-- Method `Orthogonalization::ProjectOnOriginalMeshBoundary`. -/
def ProjectOnOriginalMeshBoundary (env : Env) (mesh : Mesh) (o : Orthogonalization) :
    Bool × Mesh × Orthogonalization :=
  let r := forRange (ProjectOnOriginalMeshBoundary.nodeBody env mesh o) mesh.numNodes
    { returned := false, secondPoint := env.indeterminatePoint,
      thirdPoint := env.indeterminatePoint, nodes := mesh.nodes,
      nearestPoints := o.nearestPoints }
  (!r.returned, { mesh with nodes := r.nodes }, { o with nearestPoints := r.nearestPoints })

/-- Loop of lines 314-317 of `InnerIteration`: every node is updated from the mesh
as it is before the loop; the result is the new `m_orthogonalCoordinates`. -/
def InnerIteration.sweep (env : Env) (mesh : Mesh) (o : Orthogonalization) : Int → Point :=
  forRange (fun n c => UpdateNodeCoordinates env n mesh o c) mesh.numNodes
    o.orthogonalCoordinates

/-- Method `Orthogonalization::InnerIteration`. The value returned by
`ProjectOnOriginalMeshBoundary` is discarded; `ComputeLocalCoordinates` changes
nothing. -/
def InnerIteration (env : Env) (mesh : Mesh) (o : Orthogonalization) :
    Bool × Mesh × Orthogonalization :=
  let o1 : Orthogonalization := { o with orthogonalCoordinates := InnerIteration.sweep env mesh o }
  let mesh1 : Mesh := { mesh with nodes := o1.orthogonalCoordinates }
  let r := ProjectOnOriginalMeshBoundary env mesh1 o1
  let mesh2 := r.2.1
  let o2 := r.2.2
  if o2.projectToLandBoundaryOption ≥ 1 then
    (true, { mesh2 with nodes := env.SnapMeshToLandBoundaries mesh2 }, o2)
  else (true, mesh2, o2)

/-! ## Solver driver: outer iteration, `Set` and `Compute` -/

/-- Method `Orthogonalization::PrapareOuterIteration`. `AspectRatio`,
`ComputeWeightsAndRhsOrthogonalizer`, `ComputeLocalCoordinates`,
`ComputeSmootherWeights`, `AllocateLinearSystem` and `ComputeLinearSystemTerms` always
return `true`. -/
def PrapareOuterIteration (env : Env) (mesh : Mesh) (o : Orthogonalization) :
    Bool × Orthogonalization :=
  let o1 := AspectRatio env mesh o
  let o2 := ComputeWeightsAndRhsOrthogonalizer env mesh o1
  let r3 := ComputeSmootherTopologies env mesh o2.smoother
  let o3 : Orthogonalization := { o2 with smoother := r3.2 }
  if r3.1 = false then (false, o3) else
  let r4 := ComputeSmootherOperators env mesh o3.smoother
  let o4 : Orthogonalization := { o3 with smoother := r4.2 }
  if r4.1 = false then (false, o4) else
  let o5 : Orthogonalization := { o4 with smoother := ComputeSmootherWeights env mesh o4.smoother }
  let o6 := AllocateLinearSystem mesh o5
  (true, ComputeLinearSystemTerms mesh o6)

/-- Largest of `f 0, ..., f (k-1)` (`std::max_element`). -/
def maxElement (f : Int → Int) : Nat → Int
  | 0 => f 0
  | k + 1 => max (maxElement f k) (f k)

/-- Lines 27-36 of `Set`: the node mask, and the nodes outside the polygon flagged as
corner nodes. -/
def Set.maskedMesh (env : Env) (mesh : Mesh) : Mesh :=
  let nodeMask := env.MaskNodesInPolygons mesh
  { mesh with
    nodeMask := nodeMask
    nodesTypes := forRange (fun n types =>
        if nodeMask n = 0 then Function.update types n 3 else types)
      mesh.numNodes mesh.nodesTypes }

/-- Lines 21 and 38-46 of `Set`: the neighbouring nodes of every node. -/
def Set.nodesNodes (env : Env) (mesh : Mesh) : Int → Int → Int :=
  forRange (fun n nodesNodes =>
      forRange (fun nn nodesNodes =>
          let edge := mesh.edges (mesh.nodesEdges n nn)
          Function.update nodesNodes n
            (Function.update (nodesNodes n) nn (edge.1 + edge.2 - n)))
        (mesh.nodesNumEdges n).toNat nodesNodes)
    mesh.numNodes (fun _ _ => env.intMissingValue)

/-- Lines 19-75 of `Set`: the members assigned before the projection is looked at.
`m_mumax` is computed from the value `m_smoothorarea` holds on entry. -/
def Set.members (env : Env) (mesh : Mesh) (o : Orthogonalization)
    (isTriangulationRequired isAccountingForLandBoundariesRequired
      projectToLandBoundaryOption : Int)
    (orthogonalizationParametersNative : OrthogonalizationParametersNative) :
    Orthogonalization :=
  let mumax := (1 - o.smoothorarea) * (1 / 2)
  { o with
    maxNumNeighbours := maxElement mesh.nodesNumEdges mesh.numNodes + 1
    nodesNodes := Set.nodesNodes env mesh
    wOrthogonalizer := fun _ _ => 0
    rhsOrthogonalizer := fun _ _ => 0
    aspectRatios := fun _ => 0
    mumax := mumax
    mu := min (1 / 100) mumax
    nearestPoints := fun n => if 0 ≤ n ∧ n < (mesh.numNodes : Int) then n else o.nearestPoints n
    originalNodes := mesh.nodes
    orthogonalCoordinates := mesh.nodes
    orthogonalizationToSmoothingFactor :=
      orthogonalizationParametersNative.OrthogonalizationToSmoothingFactor
    orthogonalizationToSmoothingFactorBoundary :=
      orthogonalizationParametersNative.OrthogonalizationToSmoothingFactorBoundary
    smoothorarea := orthogonalizationParametersNative.Smoothorarea
    orthogonalizationOuterIterations := orthogonalizationParametersNative.OuterIterations
    orthogonalizationBoundaryIterations := orthogonalizationParametersNative.BoundaryIterations
    orthogonalizationInnerIterations := orthogonalizationParametersNative.InnerIterations
    isTriangulationRequired := isTriangulationRequired
    isAccountingForLandBoundariesRequired := isAccountingForLandBoundariesRequired
    projectToLandBoundaryOption := projectToLandBoundaryOption }

/-- Lines 97-104 of `Set`: the local coordinates of the accurate spherical
projection. -/
def Set.localCoordinates (env : Env) (mesh : Mesh) (o : Orthogonalization) :
    Orthogonalization :=
  { o with
    localCoordinatesIndexes :=
      forRange (fun n idx =>
          Function.update idx (n + 1)
            (idx n + max (mesh.nodesNumEdges n + 1) (o.smoother.caches.numConnectedNodes n)))
        mesh.numNodes (Function.update o.localCoordinatesIndexes 0 1)
    localCoordinates := fun _ => { x := env.doubleMissingValue, y := env.doubleMissingValue } }

/-- Lines 85-107 of `Set`, on the masked mesh and the members assigned so far. -/
def Set.finish (env : Env) (mesh : Mesh) (o : Orthogonalization) : Bool × Orthogonalization :=
  if mesh.projection = Projections.sphericalAccurate then
    if o.orthogonalizationToSmoothingFactor < 1 then
      let r := PrapareOuterIteration env mesh o
      if r.1 = false then (false, r.2) else (true, Set.localCoordinates env mesh r.2)
    else (true, Set.localCoordinates env mesh o)
  else (true, o)

/-- Method `Orthogonalization::Set`, called on an object whose orthogonalizer vectors
are still empty, so that each `resize` fills the whole vector. The land boundary
object keeps its own state, which is not part of this structure. -/
def Set (env : Env) (mesh : Mesh) (o : Orthogonalization)
    (isTriangulationRequired isAccountingForLandBoundariesRequired
      projectToLandBoundaryOption : Int)
    (orthogonalizationParametersNative : OrthogonalizationParametersNative) :
    Bool × Mesh × Orthogonalization :=
  let mesh1 := Set.maskedMesh env mesh
  let o1 := Set.members env mesh1 o isTriangulationRequired
    isAccountingForLandBoundariesRequired projectToLandBoundaryOption
    orthogonalizationParametersNative
  let r := Set.finish env mesh1 o1
  (r.1, mesh1, r.2)

/-- Body of the innermost loop of `Compute` (lines 122-128). -/
def Compute.innerBody (env : Env) (_innerIter : Int) (st : Bool × Mesh × Orthogonalization) :
    Bool × Mesh × Orthogonalization :=
  if st.1 then InnerIteration env st.2.1 st.2.2 else st

/-- Body of the boundary loop of `Compute` (lines 120-129). -/
def Compute.boundaryBody (env : Env) (_boundaryIter : Int)
    (st : Bool × Mesh × Orthogonalization) : Bool × Mesh × Orthogonalization :=
  forRange (Compute.innerBody env) st.2.2.orthogonalizationInnerIterations.toNat st

/-- Body of the outer loop of `Compute` (lines 114-136). -/
def Compute.outerBody (env : Env) (_outerIter : Int) (st : Bool × Mesh × Orthogonalization) :
    Bool × Mesh × Orthogonalization :=
  let st1 : Bool × Mesh × Orthogonalization :=
    if st.1 then
      let r := PrapareOuterIteration env st.2.1 st.2.2
      (r.1, st.2.1, r.2)
    else st
  let st2 := forRange (Compute.boundaryBody env)
    st1.2.2.orthogonalizationBoundaryIterations.toNat st1
  if st2.1 then
    let r := FinalizeOuterIteration env st2.2.1 st2.2.2
    (true, r.1, r.2)
  else st2

/-- Method `Orthogonalization::Compute` (it always returns `true`). -/
def Compute (env : Env) (mesh : Mesh) (o : Orthogonalization) :
    Bool × Mesh × Orthogonalization :=
  let st := forRange (Compute.outerBody env) o.orthogonalizationOuterIterations.toNat
    (true, mesh, o)
  (true, st.2.1, DeallocateLinearSystem st.2.2)

/-- Property of `DistanceFromLine` used for the nodes that stay on their anchor: a
point that coincides with the start of the segment is projected onto itself, at a
parametric ratio of at most one half. -/
def ProjectsStartOntoItself (env : Env) : Prop :=
  ∀ (p q : Point) (projection : Projections),
    (env.DistanceFromLine p p q projection).2.1 = p ∧
    (env.DistanceFromLine p p q projection).2.2 ≤ 1 / 2

/-- Successive calls of `InnerIteration`, `k` of them. -/
def InnerIterations (env : Env) : Nat → Mesh × Orthogonalization → Mesh × Orthogonalization
  | 0, st => st
  | k + 1, st =>
    let r := InnerIteration env (InnerIterations env k st).1 (InnerIterations env k st).2
    (r.2.1, r.2.2)

/-! ## Diagnostics -/

/-- Body of the loop of `GetOrthogonality` (lines 1726-1745), for edge `e`. -/
def GetOrthogonality.edgeBody (env : Env) (mesh : Mesh) (e : Int) (orthogonality : Int → ℚ) :
    Int → ℚ :=
  let orthogonality1 := Function.update orthogonality e env.doubleMissingValue
  let firstVertex := (mesh.edges e).1
  let secondVertex := (mesh.edges e).2
  if firstVertex ≠ 0 ∧ secondVertex ≠ 0 then
    if e < mesh.numEdges ∧ mesh.edgesNumFaces e = 2 then
      let value := env.NormalizedInnerProductTwoSegments (mesh.nodes firstVertex)
        (mesh.nodes secondVertex) (mesh.facesCircumcenters (mesh.edgesFaces e 0))
        (mesh.facesCircumcenters (mesh.edgesFaces e 1)) mesh.projection
      if value ≠ env.doubleMissingValue then Function.update orthogonality1 e |value|
      else Function.update orthogonality1 e value
    else orthogonality1
  else orthogonality1

/-- Method `Orthogonalization::GetOrthogonality` (it always returns `true`): the new
contents of the array `orthogonality`. -/
def GetOrthogonality (env : Env) (mesh : Mesh) (orthogonality : Int → ℚ) : Int → ℚ :=
  forRange (GetOrthogonality.edgeBody env mesh) mesh.numEdges orthogonality

/-- Body of the loop of `GetSmoothness` (lines 1751-1775), for edge `e`. -/
def GetSmoothness.edgeBody (env : Env) (mesh : Mesh) (e : Int) (smoothness : Int → ℚ) :
    Int → ℚ :=
  let smoothness1 := Function.update smoothness e env.doubleMissingValue
  let firstVertex := (mesh.edges e).1
  let secondVertex := (mesh.edges e).2
  if firstVertex ≠ 0 ∧ secondVertex ≠ 0 then
    if e < mesh.numEdges ∧ mesh.edgesNumFaces e = 2 then
      let leftFace := mesh.edgesFaces e 0
      let rightFace := mesh.edgesFaces e 1
      let leftFaceArea := mesh.faceArea leftFace
      let rightFaceArea := mesh.faceArea rightFace
      let smoothness2 :=
        if leftFaceArea < env.minimumCellArea ∨ rightFaceArea < env.minimumCellArea then
          Function.update smoothness1 e (rightFaceArea / leftFaceArea)
        else smoothness1
      if smoothness2 e < 1 then Function.update smoothness2 e (1 / smoothness2 e)
      else smoothness2
    else smoothness1
  else smoothness1

/-- Method `Orthogonalization::GetSmoothness` (it always returns `true`): the new
contents of the array `smoothness`. -/
def GetSmoothness (env : Env) (mesh : Mesh) (smoothness : Int → ℚ) : Int → ℚ :=
  forRange (GetSmoothness.edgeBody env mesh) mesh.numEdges smoothness

/-! ## Smoother stage: optimal angles -/

/-- Constant `M_PI` of `<cmath>`: the double nearest to the number pi, which is the
rational number `884279719003555 / 2^48`. -/
def M_PI : ℚ := 884279719003555 / 281474976710656

/-- Method `Orthogonalization::OptimalEdgeAngle` (lines 1358-1372). -/
def OptimalEdgeAngle (numFaceNodes : Int) (theta1 theta2 : ℚ) (isBoundaryEdge : Bool) : ℚ :=
  let angle := M_PI * (1 - 2 / (numFaceNodes : ℚ))
  if theta1 ≠ -1 ∧ theta2 ≠ -1 ∧ numFaceNodes = 3 then
    if theta1 + theta2 = M_PI ∧ isBoundaryEdge = false then 1 / 2 * M_PI
    else 1 / 4 * M_PI
  else angle

/-- Locals of the loop of `SmootherComputeNodeXiEta` that adds up the optimal angles
(lines 1042-1083). -/
structure SmootherComputeNodeXiEta.Angles where
  numSquaredTriangles : Int
  numTriangles : Int
  phiSquaredTriangles : ℚ
  phiQuads : ℚ
  phiTriangles : ℚ
  phiTot : ℚ
  numNonStencilQuad : Int

/-- Local `factor` of lines 1086-1088. -/
def SmootherComputeNodeXiEta.factor (mesh : Mesh) (currentNode : Int) : ℚ :=
  if mesh.nodesTypes currentNode = 3 then 1 / 4
  else if mesh.nodesTypes currentNode = 2 then 1 / 2
  else 1

/-- Local `minPhi` of line 1092. -/
def SmootherComputeNodeXiEta.minPhi : ℚ := 15 / 180 * M_PI

/-- Local `muTriangles` after lines 1093-1101. -/
def SmootherComputeNodeXiEta.muTriangles (a : SmootherComputeNodeXiEta.Angles)
    (factor : ℚ) : ℚ :=
  if a.numTriangles > 0 then
    max ((factor * 2 * M_PI - (a.phiTot - a.phiTriangles)) / a.phiTriangles)
      ((a.numTriangles : ℚ) * SmootherComputeNodeXiEta.minPhi / a.phiTriangles)
  else 1

/-- Local `muSquaredTriangles` after lines 1093-1101. -/
def SmootherComputeNodeXiEta.muSquaredTriangles (a : SmootherComputeNodeXiEta.Angles)
    (factor : ℚ) : ℚ :=
  if a.numTriangles > 0 then 1
  else if a.numSquaredTriangles > 0 then
    max (factor * 2 * M_PI - (a.phiTot - a.phiSquaredTriangles))
      ((a.numSquaredTriangles : ℚ) * SmootherComputeNodeXiEta.minPhi) / a.phiSquaredTriangles
  else 1

/-- Local `mu` after lines 1103-1106, on the path with `phiTot > 1e-18` or without
shared faces (the other path returns `false`). -/
def SmootherComputeNodeXiEta.mu (a : SmootherComputeNodeXiEta.Angles) (factor : ℚ) : ℚ :=
  if a.phiTot > 1 / 1000000000000000000 then
    factor * 2 * M_PI /
      (a.phiTot -
        (1 - SmootherComputeNodeXiEta.muTriangles a factor) * a.phiTriangles -
        (1 - SmootherComputeNodeXiEta.muSquaredTriangles a factor) * a.phiSquaredTriangles)
  else 1

/-- Locals of `Splines::SecondOrderDerivative` for a sequence of numbers (lines
372-394): the array `u` and the output `coordinatesDerivatives`. -/
structure Splines.SecondOrderDerivative.State where
  u : Int → ℚ
  coordinatesDerivatives : Int → ℚ

/-- Body of the first loop (lines 378-385), for `i = j + 1`. -/
def Splines.SecondOrderDerivative.forwardBody (coordinates : Int → ℚ) (j : Int)
    (s : Splines.SecondOrderDerivative.State) : Splines.SecondOrderDerivative.State :=
  let i := j + 1
  let p := s.coordinatesDerivatives (i - 1) * (1 / 2) + 2
  let coordinatesDerivatives := Function.update s.coordinatesDerivatives i (-(1 / 2) / p)
  let delta := coordinates (i + 1) - coordinates i - (coordinates i - coordinates (i - 1))
  { u := Function.update s.u i ((delta * 6 / 2 - s.u (i - 1) * (1 / 2)) / p)
    coordinatesDerivatives := coordinatesDerivatives }

/-- Body of the second loop (lines 388-391), for `i = numNodes - 2 - j`. -/
def Splines.SecondOrderDerivative.backwardBody (numNodes : Int) (u : Int → ℚ) (j : Int)
    (coordinatesDerivatives : Int → ℚ) : Int → ℚ :=
  let i := numNodes - 2 - j
  Function.update coordinatesDerivatives i
    (coordinatesDerivatives i * coordinatesDerivatives (i + 1) + u i)

/-- Method `Splines::SecondOrderDerivative` for a sequence of numbers (it always
returns `true`): the new `coordinatesDerivatives`. -/
def Splines.SecondOrderDerivative (coordinates : Int → ℚ) (numNodes : Int)
    (coordinatesDerivatives : Int → ℚ) : Int → ℚ :=
  let s0 : Splines.SecondOrderDerivative.State :=
    { u := fun _ => 0
      coordinatesDerivatives := Function.update coordinatesDerivatives 0 0 }
  let s1 := forRange (Splines.SecondOrderDerivative.forwardBody coordinates)
    (numNodes - 2).toNat s0
  forRange (Splines.SecondOrderDerivative.backwardBody numNodes s1.u) (numNodes - 1).toNat
    (Function.update s1.coordinatesDerivatives (numNodes - 1) 0)

/-- Operator `Point + double` of `Entities.hpp`. -/
def Point.addScalar (a : Point) (r : ℚ) : Point := { x := a.x + r, y := a.y + r }

/-- Operator `Point * double` of `Entities.hpp`. -/
def Point.mulScalar (a : Point) (r : ℚ) : Point := { x := a.x * r, y := a.y * r }

/-- Operator `Point / double` of `Entities.hpp`. -/
def Point.divScalar (a : Point) (r : ℚ) : Point := { x := a.x / r, y := a.y / r }

/-- Operator `Point + Point` of `Entities.hpp`. -/
def Point.add (a b : Point) : Point := { x := a.x + b.x, y := a.y + b.y }

/-- Operator `Point - Point` of `Entities.hpp`. -/
def Point.sub (a b : Point) : Point := { x := a.x - b.x, y := a.y - b.y }

/-- Operator `Point * Point` of `Entities.hpp`. -/
def Point.mul (a b : Point) : Point := { x := a.x * b.x, y := a.y * b.y }

/-- Operator `Point / Point` of `Entities.hpp`. -/
def Point.div (a b : Point) : Point := { x := a.x / b.x, y := a.y / b.y }

/-- Locals of `Splines::SecondOrderDerivative` for a sequence of points (lines
346-370). -/
structure Splines.SecondOrderDerivativeOfPoints.State where
  u : Int → Point
  coordinatesDerivatives : Int → Point

/-- Body of the first loop (lines 353-361), for `i = j + 1`. -/
def Splines.SecondOrderDerivativeOfPoints.forwardBody (coordinates : Int → Point) (j : Int)
    (s : Splines.SecondOrderDerivativeOfPoints.State) :
    Splines.SecondOrderDerivativeOfPoints.State :=
  let i := j + 1
  let p := ((s.coordinatesDerivatives (i - 1)).mulScalar (1 / 2)).addScalar 2
  let coordinatesDerivatives := Function.update s.coordinatesDerivatives i
    { x := -(1 / 2) / p.x, y := -(1 / 2) / p.y }
  let delta := ((coordinates (i + 1)).sub (coordinates i)).sub
    ((coordinates i).sub (coordinates (i - 1)))
  { u := Function.update s.u i
      ((((delta.mulScalar 6).divScalar 2).sub ((s.u (i - 1)).mulScalar (1 / 2))).div p)
    coordinatesDerivatives := coordinatesDerivatives }

/-- Body of the second loop (lines 364-367), for `i = numNodes - 2 - j`. -/
def Splines.SecondOrderDerivativeOfPoints.backwardBody (numNodes : Int) (u : Int → Point)
    (j : Int) (coordinatesDerivatives : Int → Point) : Int → Point :=
  let i := numNodes - 2 - j
  Function.update coordinatesDerivatives i
    (((coordinatesDerivatives i).mul (coordinatesDerivatives (i + 1))).add (u i))

/-- Method `Splines::SecondOrderDerivative` for a sequence of points (it always
returns `true`): the new `coordinatesDerivatives`. The `resize` of line 350 keeps the
entries the vector holds. -/
def Splines.SecondOrderDerivativeOfPoints (coordinates : Int → Point) (numNodes : Int)
    (coordinatesDerivatives : Int → Point) : Int → Point :=
  let s0 : Splines.SecondOrderDerivativeOfPoints.State :=
    { u := fun _ => { x := 0, y := 0 }
      coordinatesDerivatives := Function.update coordinatesDerivatives 0 { x := 0, y := 0 } }
  let s1 := forRange (Splines.SecondOrderDerivativeOfPoints.forwardBody coordinates)
    (numNodes - 2).toNat s0
  forRange (Splines.SecondOrderDerivativeOfPoints.backwardBody numNodes s1.u)
    (numNodes - 1).toNat
    (Function.update s1.coordinatesDerivatives (numNodes - 1) { x := 0, y := 0 })

/-! ## Aspect-ratio stage: the centers of an edge -/

/-- Local `leftCenter` of the first loop of `AspectRatio` (lines 1392-1401), for edge
`e`. -/
def AspectRatio.leftCenter (mesh : Mesh) (e : Int) : Point :=
  if mesh.edgesNumFaces e > 0 then mesh.facesCircumcenters (mesh.edgesFaces e 0)
  else mesh.nodes (mesh.edges e).1

/-- Local `dinry` of the first loop of `AspectRatio` after line 1412, for an edge `e`
that does not have two faces. -/
def AspectRatio.dinry (env : Env) (mesh : Mesh) (e : Int) : ℚ :=
  let first := (mesh.edges e).1
  let second := (mesh.edges e).2
  let edgeLength := env.Distance (mesh.nodes first) (mesh.nodes second) mesh.projection
  env.InnerProductTwoSegments (mesh.nodes first) (mesh.nodes second) (mesh.nodes first)
    (AspectRatio.leftCenter mesh e) mesh.projection /
    max (edgeLength * edgeLength) env.minimumEdgeLength

/-- Local `rightCenter` of the first loop of `AspectRatio` (lines 1404-1418), for edge
`e`: the circumcenter of the second face, or the ghost point of an edge without
one. -/
def AspectRatio.rightCenter (env : Env) (mesh : Mesh) (e : Int) : Point :=
  let first := (mesh.edges e).1
  let second := (mesh.edges e).2
  if mesh.edgesNumFaces e = 2 then mesh.facesCircumcenters (mesh.edgesFaces e 1)
  else
    let dinry := AspectRatio.dinry env mesh e
    let x0_bc := (1 - dinry) * (mesh.nodes first).x + dinry * (mesh.nodes second).x
    let y0_bc := (1 - dinry) * (mesh.nodes first).y + dinry * (mesh.nodes second).y
    { x := 2 * x0_bc - (AspectRatio.leftCenter mesh e).x
      y := 2 * y0_bc - (AspectRatio.leftCenter mesh e).y }

/-! ## Smoother stage: the gradient operators of a node -/

/-- Locals of an iteration of the second loop of `ComputeSmootherOperatorsNode` after
the branch on the number of faces of the edge (lines 738-817). -/
structure ComputeSmootherOperatorsNode.EdgeLocals where
  leftRightSwap : ℚ
  leftXi : ℚ
  leftEta : ℚ
  rightXi : ℚ
  rightEta : ℚ
  alpha_x : ℚ

/-- The factors of lines 821-847, after the correction for a boundary link. -/
structure ComputeSmootherOperatorsNode.Factors where
  facxi1 : ℚ
  facxi0 : ℚ
  faceta1 : ℚ
  faceta0 : ℚ
  facxiR : ℚ
  facxiL : ℚ
  facetaR : ℚ
  facetaL : ℚ

/-- Lines 805-830 of `ComputeSmootherOperatorsNode`: the factors of an edge with
`numFaces` faces. -/
def ComputeSmootherOperatorsNode.factors (loc : ComputeSmootherOperatorsNode.EdgeLocals)
    (xiOne etaOne : ℚ) (numFaces : Int) : ComputeSmootherOperatorsNode.Factors :=
  let exiLR := loc.rightXi - loc.leftXi
  let eetaLR := loc.rightEta - loc.leftEta
  let exi01 := xiOne
  let eeta01 := etaOne
  let fac := 1 / |exi01 * eetaLR - eeta01 * exiLR + 1 / 10000000000000000|
  let facxi1 := -eetaLR * fac * loc.leftRightSwap
  let facxi0 := -facxi1
  let faceta1 := exiLR * fac * loc.leftRightSwap
  let faceta0 := -faceta1
  let facxiR := eeta01 * fac * loc.leftRightSwap
  let facxiL := -facxiR
  let facetaR := -exi01 * fac * loc.leftRightSwap
  let facetaL := -facetaR
  if numFaces = 1 then
    { facxi1 := facxi1 + -facxiL * 2 * loc.alpha_x
      facxi0 := facxi0 + -facxiL * 2 * (1 - loc.alpha_x)
      facxiL := facxiL + facxiL
      facxiR := facxiR
      faceta1 := faceta1 + -facetaL * 2 * loc.alpha_x
      faceta0 := faceta0 + -facetaL * 2 * (1 - loc.alpha_x)
      facetaL := 2 * facetaL
      facetaR := facetaR }
  else
    { facxi1 := facxi1, facxi0 := facxi0, facxiL := facxiL, facxiR := facxiR
      faceta1 := faceta1, faceta0 := faceta0, facetaL := facetaL, facetaR := facetaR }

/-- Lines 832-848 of `ComputeSmootherOperatorsNode` for one of the two operators: the
row `f` of the operator is filled from the rows of `m_Az` of the left and of the right
face, and the factors of the far node `f + 1` and of the node itself are added. -/
def ComputeSmootherOperatorsNode.gradientRow (facL facR fac1 fac0 : ℚ) (numFaces : Int)
    (azLeft azRight : Int → ℚ) (numTopologyNodes : Nat) (f : Int) (row : Int → ℚ) : Int → ℚ :=
  let row1 := forRange (fun i r =>
      Function.update r i
        (if numFaces = 2 then facL * azLeft i + facR * azRight i else facL * azLeft i))
    numTopologyNodes row
  let node1 := f + 1
  let node0 : Int := 0
  let row2 := Function.update row1 node1 (row1 node1 + fac1)
  Function.update row2 node0 (row2 node0 + fac0)

/-- Locals that survive an iteration of the second loop of
`ComputeSmootherOperatorsNode` (lines 721-866), the members the loop writes, and
`returned`, which records that `return false` was executed. -/
structure ComputeSmootherOperatorsNode.Gradients where
  returned : Bool
  faceRightIndex : Int
  faceLeftIndex : Int
  xiBoundary : ℚ
  etaBoundary : ℚ
  operators : NodeOperators

/-- Lines 802-865 of `ComputeSmootherOperatorsNode`: the end of an iteration that
reached the gradient rows, for the edge slot `f`. -/
def ComputeSmootherOperatorsNode.gradientFinish (mesh : Mesh) (t : Topologies)
    (Az : Int → Int → Int → ℚ) (currentNode f : Int)
    (loc : ComputeSmootherOperatorsNode.EdgeLocals) (faceLeftIndex faceRightIndex : Int)
    (xiBoundary etaBoundary : ℚ) (ops : NodeOperators) :
    ComputeSmootherOperatorsNode.Gradients :=
  let currentTopology := t.nodeTopologyMapping currentNode
  let edgeIndex := mesh.nodesEdges currentNode f
  let numFaces := mesh.edgesNumFaces edgeIndex
  let xiOne := t.topologyXi currentTopology (f + 1)
  let etaOne := t.topologyEta currentTopology (f + 1)
  let exiLR := loc.rightXi - loc.leftXi
  let eetaLR := loc.rightEta - loc.leftEta
  let fs := ComputeSmootherOperatorsNode.factors loc xiOne etaOne numFaces
  let numTopologyNodes := (t.numTopologyNodes currentTopology).toNat
  let gxiRow := ComputeSmootherOperatorsNode.gradientRow fs.facxiL fs.facxiR fs.facxi1
    fs.facxi0 numFaces (Az currentTopology faceLeftIndex) (Az currentTopology faceRightIndex)
    numTopologyNodes f (ops.Gxi currentTopology f)
  let getaRow := ComputeSmootherOperatorsNode.gradientRow fs.facetaL fs.facetaR fs.faceta1
    fs.faceta0 numFaces (Az currentTopology faceLeftIndex) (Az currentTopology faceRightIndex)
    numTopologyNodes f (ops.Geta currentTopology f)
  let divxi0 := -eetaLR * loc.leftRightSwap
  let diveta0 := exiLR * loc.leftRightSwap
  let divxi := if numFaces = 1 then 1 / 2 * divxi0 + etaBoundary * loc.leftRightSwap else divxi0
  let diveta :=
    if numFaces = 1 then 1 / 2 * diveta0 - xiBoundary * loc.leftRightSwap else diveta0
  { returned := false
    faceRightIndex := faceRightIndex
    faceLeftIndex := faceLeftIndex
    xiBoundary := xiBoundary
    etaBoundary := etaBoundary
    operators :=
      { ops with
        xisCache := Function.update ops.xisCache f (1 / 2 * (loc.leftXi + loc.rightXi))
        etasCache := Function.update ops.etasCache f (1 / 2 * (loc.leftEta + loc.rightEta))
        Gxi := Function.update ops.Gxi currentTopology
          (Function.update (ops.Gxi currentTopology) f gxiRow)
        Geta := Function.update ops.Geta currentTopology
          (Function.update (ops.Geta currentTopology) f getaRow)
        Divxi := Function.update ops.Divxi currentTopology
          (Function.update (ops.Divxi currentTopology) f divxi)
        Diveta := Function.update ops.Diveta currentTopology
          (Function.update (ops.Diveta currentTopology) f diveta) } }

/-- Body of the second loop of `ComputeSmootherOperatorsNode` (lines 721-866), for the
edge slot `f`; `Az` is the operator the first loop has filled. For a boundary edge,
line 784 assigns `m_leftYFaceCenterCache[f]` anew, so the sum that line 768 has
accumulated in it is not kept. -/
def ComputeSmootherOperatorsNode.gradientBody (env : Env) (mesh : Mesh) (t : Topologies)
    (Az : Int → Int → Int → ℚ) (currentNode : Int) (f : Int)
    (st : ComputeSmootherOperatorsNode.Gradients) : ComputeSmootherOperatorsNode.Gradients :=
  if st.returned then st else
  let currentTopology := t.nodeTopologyMapping currentNode
  let numTopologyNodes := (t.numTopologyNodes currentTopology).toNat
  let edgeIndex := mesh.nodesEdges currentNode f
  let otherNode := (mesh.edges edgeIndex).1 + (mesh.edges edgeIndex).2 - currentNode
  let leftFace := mesh.edgesFaces edgeIndex 0
  let faceLeftIndex := env.FindIndex (t.topologySharedFaces currentTopology) leftFace
  if t.topologySharedFaces currentTopology faceLeftIndex ≠ leftFace then
    { st with returned := true, faceLeftIndex := faceLeftIndex }
  else
  let xiOne := t.topologyXi currentTopology (f + 1)
  let etaOne := t.topologyEta currentTopology (f + 1)
  let ops := st.operators
  if mesh.edgesNumFaces edgeIndex = 1 then
    let boundaryEdgesCache :=
      if ops.boundaryEdgesCache 0 < 0 then Function.update ops.boundaryEdgesCache 0 f
      else Function.update ops.boundaryEdgesCache 1 f
    let leftRightSwap : ℚ := if f ≠ faceLeftIndex then -1 else 1
    let leftXi := sumRange (fun i =>
      t.topologyXi currentTopology i * Az currentTopology faceLeftIndex i) numTopologyNodes
    let leftEta := sumRange (fun i =>
      t.topologyEta currentTopology i * Az currentTopology faceLeftIndex i) numTopologyNodes
    let leftX := ops.leftXFaceCenterCache f + sumRange (fun i =>
      (mesh.nodes (t.topologyConnectedNodes currentTopology i)).x *
        Az currentTopology faceLeftIndex i) numTopologyNodes
    let alpha := (leftXi * xiOne + leftEta * etaOne) / (xiOne * xiOne + etaOne * etaOne)
    let xiBoundary := alpha * xiOne
    let etaBoundary := alpha * etaOne
    let rightXi := 2 * xiBoundary - leftXi
    let rightEta := 2 * etaBoundary - leftEta
    let xBc := (1 - alpha) * (mesh.nodes currentNode).x + alpha * (mesh.nodes otherNode).x
    let yBc := (1 - alpha) * (mesh.nodes currentNode).y + alpha * (mesh.nodes otherNode).y
    let leftY := 2 * xBc - leftX
    let rightY := 2 * yBc - leftY
    ComputeSmootherOperatorsNode.gradientFinish mesh t Az currentNode f
      { leftRightSwap := leftRightSwap, leftXi := leftXi, leftEta := leftEta
        rightXi := rightXi, rightEta := rightEta, alpha_x := alpha }
      faceLeftIndex st.faceRightIndex xiBoundary etaBoundary
      { ops with
        boundaryEdgesCache := boundaryEdgesCache
        leftXFaceCenterCache := Function.update ops.leftXFaceCenterCache f leftX
        leftYFaceCenterCache := Function.update ops.leftYFaceCenterCache f leftY
        rightYFaceCenterCache := Function.update ops.rightYFaceCenterCache f rightY }
  else
    let faceLeftIndex1 := f
    let faceRightIndex := env.NextCircularBackwardIndex faceLeftIndex1
      (t.numTopologyFaces currentTopology)
    if faceRightIndex < 0 then
      { st with faceLeftIndex := faceLeftIndex1, faceRightIndex := faceRightIndex }
    else
    let faceLeft := t.topologySharedFaces currentTopology faceLeftIndex1
    let faceRight := t.topologySharedFaces currentTopology faceRightIndex
    if (faceLeft ≠ mesh.edgesFaces edgeIndex 0 ∧ faceLeft ≠ mesh.edgesFaces edgeIndex 1) ∨
        (faceRight ≠ mesh.edgesFaces edgeIndex 0 ∧ faceRight ≠ mesh.edgesFaces edgeIndex 1)
    then
      { st with
        returned := true, faceLeftIndex := faceLeftIndex1, faceRightIndex := faceRightIndex }
    else
    let leftXi := sumRange (fun i =>
      t.topologyXi currentTopology i * Az currentTopology faceLeftIndex1 i) numTopologyNodes
    let leftEta := sumRange (fun i =>
      t.topologyEta currentTopology i * Az currentTopology faceLeftIndex1 i) numTopologyNodes
    let rightXi := sumRange (fun i =>
      t.topologyXi currentTopology i * Az currentTopology faceRightIndex i) numTopologyNodes
    let rightEta := sumRange (fun i =>
      t.topologyEta currentTopology i * Az currentTopology faceRightIndex i) numTopologyNodes
    let leftX := ops.leftXFaceCenterCache f + sumRange (fun i =>
      (mesh.nodes (t.topologyConnectedNodes currentTopology i)).x *
        Az currentTopology faceLeftIndex1 i) numTopologyNodes
    let leftY := ops.leftYFaceCenterCache f + sumRange (fun i =>
      (mesh.nodes (t.topologyConnectedNodes currentTopology i)).y *
        Az currentTopology faceLeftIndex1 i) numTopologyNodes
    let rightX := ops.rightXFaceCenterCache f + sumRange (fun i =>
      (mesh.nodes (t.topologyConnectedNodes currentTopology i)).x *
        Az currentTopology faceRightIndex i) numTopologyNodes
    let rightY := ops.rightYFaceCenterCache f + sumRange (fun i =>
      (mesh.nodes (t.topologyConnectedNodes currentTopology i)).y *
        Az currentTopology faceRightIndex i) numTopologyNodes
    ComputeSmootherOperatorsNode.gradientFinish mesh t Az currentNode f
      { leftRightSwap := 1, leftXi := leftXi, leftEta := leftEta
        rightXi := rightXi, rightEta := rightEta, alpha_x := 0 }
      faceLeftIndex1 faceRightIndex st.xiBoundary st.etaBoundary
      { ops with
        leftXFaceCenterCache := Function.update ops.leftXFaceCenterCache f leftX
        leftYFaceCenterCache := Function.update ops.leftYFaceCenterCache f leftY
        rightXFaceCenterCache := Function.update ops.rightXFaceCenterCache f rightX
        rightYFaceCenterCache := Function.update ops.rightYFaceCenterCache f rightY }

/-- The second loop of `ComputeSmootherOperatorsNode` (lines 707-866), after the
caches have been reset (lines 708-714). -/
def ComputeSmootherOperatorsNode.gradients (env : Env) (mesh : Mesh) (t : Topologies)
    (Az : Int → Int → Int → ℚ) (currentNode : Int) (ops : NodeOperators) :
    ComputeSmootherOperatorsNode.Gradients :=
  forRange (ComputeSmootherOperatorsNode.gradientBody env mesh t Az currentNode)
    (t.numTopologyFaces (t.nodeTopologyMapping currentNode)).toNat
    { returned := false
      faceRightIndex := 0
      faceLeftIndex := 0
      xiBoundary := 0
      etaBoundary := 0
      operators :=
        { ops with
          boundaryEdgesCache := fun _ => -1
          leftXFaceCenterCache := fun _ => 0
          leftYFaceCenterCache := fun _ => 0
          rightXFaceCenterCache := fun _ => 0
          rightYFaceCenterCache := fun _ => 0
          xisCache := fun _ => 0
          etasCache := fun _ => 0 } }

/-- Locals of `AspectRatio` after its first two loops (lines 1378-1468), where the
function tests `curvilinearToOrthogonalRatio` (line 1470). -/
def AspectRatio.afterFaces (env : Env) (mesh : Mesh) (o : Orthogonalization) :
    AspectRatioLocals :=
  let l0 : AspectRatioLocals :=
    { averageEdgesLength := fun _ _ => env.doubleMissingValue
      averageFlowEdgesLength := fun _ => env.doubleMissingValue
      curvilinearGridIndicator := fun _ => true
      edgesLength := fun _ => 0
      aspectRatios := o.aspectRatios }
  forRange (AspectRatio.faceBody env mesh) mesh.numFaces
    (forRange (AspectRatio.edgeBody env mesh) mesh.numEdges l0)

/-! ## Example data

An instance of the parameters (exact Cartesian geometry wherever the squared lengths
involved are squares of rationals), a newly constructed solver object and small
meshes. They are the concrete inputs at which the theorems below are evaluated. -/

namespace Example

/-- Array with the entries of a list, and `d` at every other index. -/
def ofList {α : Type} (l : List α) (d : α) (i : Int) : α :=
  if i < 0 then d else l.getD i.toNat d

/-- Modelled from the spec: `Distance` of `Operations.cpp` in Cartesian projection,
the Euclidean distance. The rational square root is exact on squares of rationals. -/
def distance (a b : Point) : ℚ :=
  Rat.sqrt ((a.x - b.x) * (a.x - b.x) + (a.y - b.y) * (a.y - b.y))

/-- Modelled from the spec: `InnerProductTwoSegments` of `Operations.cpp` in Cartesian
projection, the inner product of `b - a` and `d - c`. -/
def innerProductTwoSegments (a b c d : Point) : ℚ :=
  (b.x - a.x) * (d.x - c.x) + (b.y - a.y) * (d.y - c.y)

/-- Modelled from the spec: `NormalizedInnerProductTwoSegments` of `Operations.cpp` in
Cartesian projection, the cosine of the angle between the segments from `a` to `b`
and from `c` to `d`, and the missing value -999 when one of them has no length. -/
def normalizedInnerProductTwoSegments (a b c d : Point) : ℚ :=
  if distance a b = 0 ∨ distance c d = 0 then -999
  else innerProductTwoSegments a b c d / (distance a b * distance c d)

/-- Modelled from the spec: `NormalVectorInside` of `Operations.cpp` in Cartesian
projection, the unit normal of the edge `a b` on the side of `insidePoint`, flagged
when the normal `(dy, -dx)` had to be reversed. -/
def normalVectorInside (a b insidePoint : Point) : Point × Bool :=
  let dx := b.x - a.x
  let dy := b.y - a.y
  let len := distance a b
  let flipped : Bool :=
    decide (dy * (insidePoint.x - a.x) - dx * (insidePoint.y - a.y) < 0)
  if flipped then ({ x := -dy / len, y := dx / len }, true)
  else ({ x := dy / len, y := -dx / len }, false)

/-- Modelled from the spec: `DistanceFromLine` of `Operations.cpp` in Cartesian
projection, the projection of `p` onto the segment from `a` to `b`, with the distance
to the projected point and the parametric ratio of the projection. A segment of zero
length is projected onto at its start. -/
def distanceFromLine (p a b : Point) : ℚ × Point × ℚ :=
  let squaredDistance := (b.x - a.x) * (b.x - a.x) + (b.y - a.y) * (b.y - a.y)
  if squaredDistance = 0 then (distance p a, a, 0) else
  let ratio := ((p.x - a.x) * (b.x - a.x) + (p.y - a.y) * (b.y - a.y)) / squaredDistance
  let correctedRatio := max (min 1 ratio) 0
  let normalPoint : Point :=
    { x := a.x + correctedRatio * (b.x - a.x), y := a.y + correctedRatio * (b.y - a.y) }
  (distance p normalPoint, normalPoint, ratio)

/-- Modelled from the spec: `FindIndex` of `Operations.cpp`, the first position (among
the first eight) at which the vector holds the element, and 0 when there is none. -/
def findIndex (v : Int → Int) (el : Int) : Int :=
  if v 0 = el then 0 else if v 1 = el then 1 else if v 2 = el then 2 else
  if v 3 = el then 3 else if v 4 = el then 4 else if v 5 = el then 5 else
  if v 6 = el then 6 else if v 7 = el then 7 else 0

/-- Modelled from the spec: `NextCircularForwardIndex` of `Operations.cpp`. -/
def nextCircularForwardIndex (i size : Int) : Int :=
  if i + 1 ≥ size then i + 1 - size else i + 1

/-- Modelled from the spec: `NextCircularBackwardIndex` of `Operations.cpp`. -/
def nextCircularBackwardIndex (i size : Int) : Int :=
  if i - 1 < 0 then i - 1 + size else i - 1

/-- An instance of the parameters. The trigonometric functions are low-order rational
approximations (`cos x` by `1 - x^2/2`, `atan2 y x` by `y/x - (y/x)^3/3` in the right
half-plane); the examples compare angles below `1e-4` only, where the error of the
approximation is below `1e-20`, and at the other arguments they only use that equal
arguments give equal angles; they do not read `cos`. The smoother subroutines taken as
parameters succeed and leave the caches as they are. -/
def env : Env where
  doubleMissingValue := -999
  intMissingValue := -999
  earth_radius := 6378137
  degrad_hp := 355 / 113 / 180
  minimumEdgeLength := 1 / 10000
  minimumCellArea := 1 / 1000000000000
  curvilinearToOrthogonalRatio := 1 / 2
  thetaTolerance := 1 / 10000
  cos := fun x => 1 - x * x / 2
  sqrt := Rat.sqrt
  atan2 := fun y x => if 0 < x then y / x - (y / x) * (y / x) * (y / x) / 3 else 0
  Distance := fun a b _ => distance a b
  InnerProductTwoSegments := fun a b c d _ => innerProductTwoSegments a b c d
  NormalizedInnerProductTwoSegments := fun a b c d _ => normalizedInnerProductTwoSegments a b c d
  NormalVectorInside := fun a b c _ => normalVectorInside a b c
  DistanceFromLine := fun p a b _ => distanceFromLine p a b
  FindIndex := findIndex
  NextCircularForwardIndex := nextCircularForwardIndex
  NextCircularBackwardIndex := nextCircularBackwardIndex
  ComputeThreeBaseComponents := fun _ =>
    ({ x := 1, y := 0, z := 0 }, { x := 0, y := 1, z := 0 }, { x := 0, y := 0, z := 1 })
  SphericalToCartesian := fun p => { x := p.x, y := p.y, z := 0 }
  CartesianToSpherical := fun p _ _ => { x := p.x, y := p.y }
  MaskNodesInPolygons := fun _ _ => 1
  ComputeFaceCircumcentersMassCentersAndAreas := fun mesh =>
    (mesh.facesCircumcenters, mesh.facesMassCenters, mesh.faceArea)
  SnapMeshToLandBoundaries := fun mesh => mesh.nodes
  SmootherNodeAdministration := fun _ _ numSharedFaces numConnectedNodes c =>
    (true, numSharedFaces, numConnectedNodes, c)
  SmootherComputeNodeXiEta := fun _ _ _ _ c => (true, c)
  ComputeSmootherOperatorsNodeGradients := fun _ _ _ _ ops => (true, ops)
  maximumNumberOfNodesPerFace := 8
  indeterminateBool := true
  indeterminateInt := 0
  indeterminatePoint := { x := 0, y := 0 }

/-- Smoother members of a newly constructed object: every vector is empty. -/
def newSmoother : Smoother where
  caches :=
    { sharedFacesCache := fun _ => 0
      connectedNodesCache := fun _ => 0
      faceNodeMappingCache := fun _ _ => 0
      xiCache := fun _ => 0
      etaCache := fun _ => 0
      connectedNodes := fun _ _ => 0
      numConnectedNodes := fun _ => 0
      nodeXErrors := [] }
  topologies :=
    { numTopologies := 0
      nodeTopologyMapping := fun _ => 0
      numTopologyNodes := fun _ => 0
      numTopologyFaces := fun _ => 0
      topologyXi := fun _ _ => 0
      topologyEta := fun _ _ => 0
      topologySharedFaces := fun _ _ => 0
      topologyConnectedNodes := fun _ _ => 0
      topologyFaceNodeMapping := fun _ _ _ => 0 }
  Az := fun _ _ _ => 0
  operators :=
    { Gxi := fun _ _ _ => 0
      Geta := fun _ _ _ => 0
      Divxi := fun _ _ => 0
      Diveta := fun _ _ => 0
      DivxiSize := fun _ => 0
      Jxi := fun _ _ => 0
      Jeta := fun _ _ => 0
      ww2 := fun _ _ => 0
      boundaryEdgesCache := fun _ => 0
      leftXFaceCenterCache := fun _ => 0
      leftYFaceCenterCache := fun _ => 0
      rightXFaceCenterCache := fun _ => 0
      rightYFaceCenterCache := fun _ => 0
      xisCache := fun _ => 0
      etasCache := fun _ => 0 }
  wSmoother := fun _ _ => 0
  maximumNumConnectedNodes := 0
  maximumNumSharedFaces := 0

/-- A newly constructed `Orthogonalization` object: empty vectors, no cache. -/
def newOrthogonalization : Orthogonalization where
  maxNumNeighbours := 0
  nodesNodes := fun _ _ => 0
  wOrthogonalizer := fun _ _ => 0
  rhsOrthogonalizer := fun _ _ => 0
  aspectRatios := fun _ => 0
  mumax := 0
  mu := 0
  smoothorarea := 1
  orthogonalCoordinates := fun _ => { x := 0, y := 0 }
  nearestPoints := fun _ => 0
  originalNodes := fun _ => { x := 0, y := 0 }
  orthogonalizationToSmoothingFactor := 0
  orthogonalizationToSmoothingFactorBoundary := 0
  orthogonalizationOuterIterations := 0
  orthogonalizationBoundaryIterations := 0
  orthogonalizationInnerIterations := 0
  isTriangulationRequired := 0
  isAccountingForLandBoundariesRequired := 0
  projectToLandBoundaryOption := 0
  keepCircumcentersAndMassCenters := false
  localCoordinatesIndexes := fun _ => 0
  localCoordinates := fun _ => { x := 0, y := 0 }
  smoother := newSmoother
  linearSystem :=
    { nodeCacheSize := 0
      compressedRhs := fun _ => 0
      compressedEndNodeIndex := fun _ => 0
      compressedStartNodeIndex := fun _ => 0
      compressedNodesNodes := fun _ => 0
      compressedWeightX := fun _ => 0
      compressedWeightY := fun _ => 0 }

/-- The parameters of scenario S1: one outer, boundary and inner iteration,
`atpf = 0.975`, `smoothorarea = 1.0`. -/
def parameters : OrthogonalizationParametersNative where
  OuterIterations := 1
  BoundaryIterations := 1
  InnerIterations := 1
  OrthogonalizationToSmoothingFactor := 39 / 40
  OrthogonalizationToSmoothingFactorBoundary := 39 / 40
  Smoothorarea := 1

/-- The unit square as a mesh of one quadrilateral face: nodes `0 = (0,0)`,
`1 = (1,0)`, `2 = (1,1)`, `3 = (0,1)`, edges `0-1`, `1-2`, `2-3`, `3-0`. Every node is
a corner (type 3) of valence 2. -/
def squareMesh : Mesh where
  numNodes := 4
  numEdges := 4
  numFaces := 1
  numFaceEdges := fun _ => 4
  nodes := ofList [{ x := 0, y := 0 }, { x := 1, y := 0 }, { x := 1, y := 1 }, { x := 0, y := 1 }]
    { x := 0, y := 0 }
  edges := ofList [(0, 1), (1, 2), (2, 3), (3, 0)] (0, 0)
  nodesNumEdges := fun _ => 2
  nodesEdges := fun n => ofList [ofList [0, 3] 0, ofList [1, 0] 0, ofList [2, 1] 0,
    ofList [3, 2] 0] (fun _ => 0) n
  nodesTypes := fun _ => 3
  nodeMask := fun _ => 1
  edgesNumFaces := fun _ => 1
  edgesFaces := fun _ _ => 0
  facesNodes := fun _ => ofList [0, 1, 2, 3] 0
  facesEdges := fun _ => ofList [0, 1, 2, 3] 0
  facesCircumcenters := fun _ => { x := 1 / 2, y := 1 / 2 }
  facesMassCenters := fun _ => { x := 1 / 2, y := 1 / 2 }
  faceArea := fun _ => 1
  projection := Projections.cartesian

/-- A square with its two diagonals, as a mesh of four triangles around node `0`:
nodes `0 = (0,0)`, `1 = (1,0)`, `2 = (0,1)`, `3 = (-1,0)`, `4 = (0,-1)`; edges `0..3`
join node 0 to nodes `1..4`, edges `4..7` are the sides `1-2`, `2-3`, `3-4`, `4-1`;
face `k` is the triangle between edges `k` and `k+1`. Node 0 is interior (type 1) of
valence 4, the other nodes are corners (type 3) of valence 3. -/
def diamondMesh : Mesh where
  numNodes := 5
  numEdges := 8
  numFaces := 4
  numFaceEdges := fun _ => 3
  nodes := ofList [{ x := 0, y := 0 }, { x := 1, y := 0 }, { x := 0, y := 1 },
    { x := -1, y := 0 }, { x := 0, y := -1 }] { x := 0, y := 0 }
  edges := ofList [(0, 1), (0, 2), (0, 3), (0, 4), (1, 2), (2, 3), (3, 4), (4, 1)] (0, 0)
  nodesNumEdges := ofList [4, 3, 3, 3, 3] 0
  nodesEdges := fun n => ofList [ofList [0, 1, 2, 3] 0, ofList [7, 0, 4] 0, ofList [4, 1, 5] 0,
    ofList [5, 2, 6] 0, ofList [6, 3, 7] 0] (fun _ => 0) n
  nodesTypes := ofList [1, 3, 3, 3, 3] 0
  nodeMask := fun _ => 1
  edgesNumFaces := ofList [2, 2, 2, 2, 1, 1, 1, 1] 0
  edgesFaces := fun e => ofList [ofList [0, 3] 0, ofList [1, 0] 0, ofList [2, 1] 0,
    ofList [3, 2] 0, ofList [0] 0, ofList [1] 0, ofList [2] 0, ofList [3] 0] (fun _ => 0) e
  facesNodes := fun f => ofList [ofList [0, 1, 2] 0, ofList [0, 2, 3] 0, ofList [0, 3, 4] 0,
    ofList [0, 4, 1] 0] (fun _ => 0) f
  facesEdges := fun f => ofList [ofList [0, 4, 1] 0, ofList [1, 5, 2] 0, ofList [2, 6, 3] 0,
    ofList [3, 7, 0] 0] (fun _ => 0) f
  facesCircumcenters := ofList [{ x := 1 / 2, y := 1 / 2 }, { x := -1 / 2, y := 1 / 2 },
    { x := -1 / 2, y := -1 / 2 }, { x := 1 / 2, y := -1 / 2 }] { x := 0, y := 0 }
  facesMassCenters := ofList [{ x := 1 / 3, y := 1 / 3 }, { x := -1 / 3, y := 1 / 3 },
    { x := -1 / 3, y := -1 / 3 }, { x := 1 / 3, y := -1 / 3 }] { x := 0, y := 0 }
  faceArea := fun _ => 1 / 2
  projection := Projections.cartesian

/-- Smoother state for `diamondMesh` with one topology class, that of node 0 with its
four neighbours, carrying the operators of the five-point stencil: central
differences as Jacobian rows, unit edge gradients and unit divergences. -/
def fivePointSmoother : Smoother :=
  { newSmoother with
    topologies :=
      { numTopologies := 1
        nodeTopologyMapping := fun _ => 0
        numTopologyNodes := fun _ => 5
        numTopologyFaces := fun _ => 4
        topologyXi := fun _ => ofList [0, 1, 0, -1, 0] 0
        topologyEta := fun _ => ofList [0, 0, 1, 0, -1] 0
        topologySharedFaces := fun _ => ofList [0, 1, 2, 3] (-1)
        topologyConnectedNodes := fun _ => ofList [0, 1, 2, 3, 4] 0
        topologyFaceNodeMapping := fun _ f => ofList [ofList [0, 1, 2] 0, ofList [0, 2, 3] 0,
          ofList [0, 3, 4] 0, ofList [0, 4, 1] 0] (fun _ => 0) f }
    operators :=
      { newSmoother.operators with
        Gxi := fun _ j => ofList [ofList [-1, 1, 0, 0, 0] 0, ofList [0, 0, 0, 0, 0] 0,
          ofList [1, 0, 0, -1, 0] 0, ofList [0, 0, 0, 0, 0] 0] (fun _ => 0) j
        Geta := fun _ j => ofList [ofList [0, 0, 0, 0, 0] 0, ofList [-1, 0, 1, 0, 0] 0,
          ofList [0, 0, 0, 0, 0] 0, ofList [1, 0, 0, 0, -1] 0] (fun _ => 0) j
        Divxi := fun _ => ofList [1, 0, -1, 0] 0
        Diveta := fun _ => ofList [0, 1, 0, -1] 0
        DivxiSize := fun _ => 4
        Jxi := fun _ => ofList [0, 1 / 2, 0, -1 / 2, 0] 0
        Jeta := fun _ => ofList [0, 0, 1 / 2, 0, -1 / 2] 0
        ww2 := fun _ => ofList [-4, 1, 1, 1, 1] 0 } }

/-- Three nodes on a line joined by two edges that lie on no face: nodes `0 = (0,0)`,
`1 = (1,0)`, `2 = (2,0)`, edges `0-1` and `1-2`. Node 1 has valence 2 and is given
type 1, the end nodes have valence 1 and type 3. -/
def chainMesh : Mesh where
  numNodes := 3
  numEdges := 2
  numFaces := 0
  numFaceEdges := fun _ => 0
  nodes := ofList [{ x := 0, y := 0 }, { x := 1, y := 0 }, { x := 2, y := 0 }] { x := 0, y := 0 }
  edges := ofList [(0, 1), (1, 2)] (0, 0)
  nodesNumEdges := ofList [1, 2, 1] 0
  nodesEdges := fun n => ofList [ofList [0] 0, ofList [0, 1] 0, ofList [1] 0] (fun _ => 0) n
  nodesTypes := ofList [3, 1, 3] 0
  nodeMask := fun _ => 1
  edgesNumFaces := fun _ => 0
  edgesFaces := fun _ _ => 0
  facesNodes := fun _ _ => 0
  facesEdges := fun _ _ => 0
  facesCircumcenters := fun _ => { x := 0, y := 0 }
  facesMassCenters := fun _ => { x := 0, y := 0 }
  faceArea := fun _ => 0
  projection := Projections.cartesian

/-- The mesh `chainMesh` as `Set` leaves it. -/
def chainMeshAfterSet : Mesh :=
  (Set env chainMesh newOrthogonalization 0 0 0 parameters).2.1

/-- The solver after `Set` on `chainMesh` followed by `AspectRatio`. -/
def chainAfterAspectRatio : Orthogonalization :=
  AspectRatio env chainMeshAfterSet
    (Set env chainMesh newOrthogonalization 0 0 0 parameters).2.2

/-- The solver of `diamondMesh` with five weight slots per node and zero weights, as
`Set` leaves them, and with the aspect ratio `1e-15` on every edge. -/
def tinyAspectRatios : Orthogonalization :=
  { newOrthogonalization with
    maxNumNeighbours := 5
    aspectRatios := fun _ => 1 / 1000000000000000 }

/-- The solver of `diamondMesh` with five weight slots per node and zero weights, as
`Set` leaves them, and with the aspect ratio 1 on every edge. -/
def unitAspectRatios : Orthogonalization :=
  { newOrthogonalization with
    maxNumNeighbours := 5
    aspectRatios := fun _ => 1 }

/-- The nodes of `squareMesh` are corners of one class: two face slots, the quadrilateral
and a missing face, and four connected nodes `0, 1, 3, 2`. -/
def squareSmoother : Smoother :=
  { newSmoother with
    topologies :=
      { numTopologies := 1
        nodeTopologyMapping := fun _ => 0
        numTopologyNodes := fun _ => 4
        numTopologyFaces := fun _ => 2
        topologyXi := fun _ => ofList [0, 1, 0, 1] 0
        topologyEta := fun _ => ofList [0, 0, 1, 1] 0
        topologySharedFaces := fun _ => ofList [0, -999] (-1)
        topologyConnectedNodes := fun _ => ofList [0, 1, 3, 2] 0
        topologyFaceNodeMapping := fun _ f => ofList [ofList [0, 1, 3, 2] 0] (fun _ => 0) f } }

/-- The mesh `diamondMesh` with its rim nodes classified as boundary nodes (type 2). -/
def boundaryMesh : Mesh :=
  { diamondMesh with nodesTypes := ofList [1, 2, 2, 2, 2] 0 }

/-- Smoother state for `boundaryMesh` with two classes: class 0 is that of node 0 and
its four triangles; class 1 is that of the rim nodes, recorded for node 1, with the
face slots `3, 0` and a missing face, and the connected nodes `1, 4, 0, 2`. -/
def boundarySmoother : Smoother :=
  { newSmoother with
    topologies :=
      { numTopologies := 2
        nodeTopologyMapping := ofList [0, 1, 1, 1, 1] 0
        numTopologyNodes := ofList [5, 4] 0
        numTopologyFaces := ofList [4, 3] 0
        topologyXi := ofList [ofList [0, 1, 0, -1, 0] 0, ofList [0, 1, 0, -1] 0] (fun _ => 0)
        topologyEta := ofList [ofList [0, 0, 1, 0, -1] 0, ofList [0, 0, 1, 0] 0] (fun _ => 0)
        topologySharedFaces := ofList [ofList [0, 1, 2, 3] (-1), ofList [3, 0, -999] (-1)]
          (fun _ => -1)
        topologyConnectedNodes := ofList [ofList [0, 1, 2, 3, 4] 0, ofList [1, 4, 0, 2] 0]
          (fun _ => 0)
        topologyFaceNodeMapping := ofList
          [ofList [ofList [0, 1, 2] 0, ofList [0, 2, 3] 0, ofList [0, 3, 4] 0,
            ofList [0, 4, 1] 0] (fun _ => 0),
           ofList [ofList [2, 1, 0] 0, ofList [2, 0, 3] 0] (fun _ => 0)]
          (fun _ _ => 0) } }

/-- The parameters `env` with a node administration that reports, for every node, the
two face slots and four connected nodes of a corner of a single quadrilateral, and
local coordinates that place the three neighbours at `(1, 0)`, `(0, 1)` and `(1, 1)`. -/
def cornerEnv : Env :=
  { env with
    SmootherNodeAdministration := fun _ _ _ _ c => (true, 2, 4, c)
    SmootherComputeNodeXiEta := fun _ _ _ _ c =>
      (true, { c with xiCache := ofList [0, 1, 0, 1] 0, etaCache := ofList [0, 0, 1, 1] 0 }) }

/-- Caches of a node with three neighbours at `(1, eta)`, `(0, 1)` and `(1, 1)`. -/
def angleCaches (eta : ℚ) : SmootherCaches :=
  { (InitializeSmoother newSmoother).caches with
    xiCache := ofList [0, 1, 0, 1] 0
    etaCache := ofList [0, eta, 1, 1] 0 }

/-- A quadrilateral face with two coinciding corners: nodes `0 = (0,0)`, `1 = (3,0)`,
`2 = (3,4)`; the face lists the nodes `0, 0, 1, 2` and the edges `0 = (0,0)`, a
self-loop at node 0, `1 = (0,1)`, `2 = (1,2)` and `3 = (2,0)`, of lengths 3, 4 and 5.
Every edge has the one face. -/
def loopMesh : Mesh where
  numNodes := 3
  numEdges := 4
  numFaces := 1
  numFaceEdges := fun _ => 4
  nodes := ofList [{ x := 0, y := 0 }, { x := 3, y := 0 }, { x := 3, y := 4 }] { x := 0, y := 0 }
  edges := ofList [(0, 0), (0, 1), (1, 2), (2, 0)] (0, 0)
  nodesNumEdges := ofList [3, 2, 2] 0
  nodesEdges := fun n => ofList [ofList [1, 3, 0] 0, ofList [2, 1] 0, ofList [3, 2] 0]
    (fun _ => 0) n
  nodesTypes := fun _ => 3
  nodeMask := fun _ => 1
  edgesNumFaces := fun _ => 1
  edgesFaces := fun _ _ => 0
  facesNodes := fun _ => ofList [0, 0, 1, 2] 0
  facesEdges := fun _ => ofList [0, 1, 2, 3] 0
  facesCircumcenters := fun _ => { x := 3 / 2, y := 2 }
  facesMassCenters := fun _ => { x := 2, y := 4 / 3 }
  faceArea := fun _ => 6
  projection := Projections.cartesian

/-- The mesh `loopMesh` as `Set` leaves it. -/
def loopMeshAfterSet : Mesh :=
  (Set env loopMesh newOrthogonalization 0 0 0 parameters).2.1

/-- The solver after `Set` on `loopMesh` followed by `AspectRatio`. -/
def loopAfterAspectRatio : Orthogonalization :=
  AspectRatio env loopMeshAfterSet
    (Set env loopMesh newOrthogonalization 0 0 0 parameters).2.2

/-- The result of the administration of node 1 of `squareMesh` in the run of
`ComputeSmootherTopologies`: after `InitializeSmoother` and the administration of
node 0, each call preceded by the reset of the two caches that the driver makes. -/
def squareAdministration : Bool × Int × Int × SmootherCaches :=
  SmootherNodeAdministration env squareMesh 1 0 0
    { (SmootherNodeAdministration env squareMesh 0 0 0
        { (InitializeSmoother newSmoother).caches with
          sharedFacesCache := fun _ => -1
          connectedNodesCache := fun _ => 0 }).2.2.2 with
      sharedFacesCache := fun _ => -1
      connectedNodesCache := fun _ => 0 }

/-- A strip of four faces between the bottom nodes `0 = (0,0)`, `1 = (1,0)`,
`2 = (2,0)`, `3 = (3,0)` and the top nodes `4 = (0,1)`, `5 = (1,1)`, `6 = (2,1)`,
`7 = (3,1)`: the quadrilateral `0 1 5 4`, the triangles `1 2 5` and `2 6 5`, and the
quadrilateral `2 3 7 6`. Edges `0..2` are the bottom edges `0-1`, `1-2`, `2-3`, edges
`3..5` the top edges `4-5`, `5-6`, `6-7`, and edges `6..10` join `0-4`, `1-5`, `2-5`,
`2-6`, `3-7`. The edge lists run counterclockwise from the east. The four end nodes
are corners (type 3), the other nodes are boundary nodes (type 2): node 1 has the
three edges `1, 7, 0` and node 2 the four edges `2, 9, 8, 1`. -/
def stripMesh : Mesh where
  numNodes := 8
  numEdges := 11
  numFaces := 4
  numFaceEdges := ofList [4, 3, 3, 4] 0
  nodes := ofList [{ x := 0, y := 0 }, { x := 1, y := 0 }, { x := 2, y := 0 },
    { x := 3, y := 0 }, { x := 0, y := 1 }, { x := 1, y := 1 }, { x := 2, y := 1 },
    { x := 3, y := 1 }] { x := 0, y := 0 }
  edges := ofList [(0, 1), (1, 2), (2, 3), (4, 5), (5, 6), (6, 7), (0, 4), (1, 5), (2, 5),
    (2, 6), (3, 7)] (0, 0)
  nodesNumEdges := ofList [2, 3, 4, 2, 2, 4, 3, 2] 0
  nodesEdges := ofList [ofList [0, 6] 0, ofList [1, 7, 0] 0, ofList [2, 9, 8, 1] 0,
    ofList [10, 2] 0, ofList [3, 6] 0, ofList [4, 3, 7, 8] 0, ofList [5, 4, 9] 0,
    ofList [5, 10] 0] (fun _ => 0)
  nodesTypes := ofList [3, 2, 2, 3, 3, 2, 2, 3] 0
  nodeMask := fun _ => 1
  edgesNumFaces := ofList [1, 1, 1, 1, 1, 1, 1, 2, 2, 2, 1] 0
  edgesFaces := ofList [ofList [0] 0, ofList [1] 0, ofList [3] 0, ofList [0] 0, ofList [2] 0,
    ofList [3] 0, ofList [0] 0, ofList [0, 1] 0, ofList [1, 2] 0, ofList [2, 3] 0,
    ofList [3] 0] (fun _ => 0)
  facesNodes := ofList [ofList [0, 1, 5, 4] 0, ofList [1, 2, 5] 0, ofList [2, 6, 5] 0,
    ofList [2, 3, 7, 6] 0] (fun _ => 0)
  facesEdges := ofList [ofList [0, 7, 3, 6] 0, ofList [1, 8, 7] 0, ofList [9, 4, 8] 0,
    ofList [2, 10, 5, 9] 0] (fun _ => 0)
  facesCircumcenters := ofList [{ x := 1 / 2, y := 1 / 2 }, { x := 3 / 2, y := 1 / 2 },
    { x := 3 / 2, y := 1 / 2 }, { x := 5 / 2, y := 1 / 2 }] { x := 0, y := 0 }
  facesMassCenters := ofList [{ x := 1 / 2, y := 1 / 2 }, { x := 4 / 3, y := 1 / 3 },
    { x := 5 / 3, y := 2 / 3 }, { x := 5 / 2, y := 1 / 2 }] { x := 0, y := 0 }
  faceArea := ofList [1, 1 / 2, 1 / 2, 1] 0
  projection := Projections.cartesian

/-- The mesh `stripMesh` as `Set` leaves it. -/
def stripMeshAfterSet : Mesh :=
  (Set env stripMesh newOrthogonalization 0 0 0 parameters).2.1

/-- The solver after `Set` on `stripMesh`, in the state in which node `n` has been
moved past the middle of the boundary segment towards its neighbour `a`, so that
`a` has become its anchor. -/
def stripCrossed (n a : Int) : Orthogonalization :=
  { (Set env stripMesh newOrthogonalization 0 0 0 parameters).2.2 with
    nearestPoints :=
      Function.update
        (Set env stripMesh newOrthogonalization 0 0 0 parameters).2.2.nearestPoints n a }

/-- The locals of `ProjectOnOriginalMeshBoundary` after its loop over the edges of the
anchor, for node 2 of `stripMesh` anchored at node 1. -/
def stripNeighbours : ProjectOnOriginalMeshBoundary.Neighbours :=
  forRange (ProjectOnOriginalMeshBoundary.edgeBody env stripMeshAfterSet (stripCrossed 2 1) 2 1)
    (stripMeshAfterSet.nodesNumEdges 1).toNat
    { failed := false, numNodes := 0, leftNode := env.indeterminateInt,
      rightNode := env.indeterminateInt, secondPoint := env.indeterminatePoint,
      thirdPoint := env.indeterminatePoint }

/-- The solver after `Set` on `stripMesh`. -/
def stripAfterSet : Orthogonalization :=
  (Set env stripMesh newOrthogonalization 0 0 0 parameters).2.2

/-- The solver after `Set` and `AllocateLinearSystem` on `stripMesh`. -/
def stripAllocated : Orthogonalization :=
  AllocateLinearSystem stripMeshAfterSet stripAfterSet

/-- A compressed system for node 0 of `diamondMesh`: a range five wide whose four
slots name the neighbours 1, 2, 3, 4 with the weights 1/2, 1/4, 1/8, 1/8 in both
directions, and a zero right-hand side. -/
def diamondSystem : Orthogonalization :=
  { newOrthogonalization with
    linearSystem :=
      { nodeCacheSize := 5
        compressedRhs := fun _ => 0
        compressedEndNodeIndex := fun _ => 0
        compressedStartNodeIndex := fun n => if n = 0 then 5 else 0
        compressedNodesNodes := ofList [1, 2, 3, 4] 0
        compressedWeightX := ofList [1 / 2, 1 / 4, 1 / 8, 1 / 8] 0
        compressedWeightY := ofList [1 / 2, 1 / 4, 1 / 8, 1 / 8] 0 } }

/-- The parameters of scenario S1 with `smoothorarea = 0.5`. -/
def halfParameters : OrthogonalizationParametersNative :=
  { parameters with Smoothorarea := 1 / 2 }

/-- The solver after `Set` with `smoothorarea = 0.5` on a solver whose field already
holds 0.5: `mu_max = 0.25` and `mu = 0.01`. -/
def rampSolver : Orthogonalization :=
  (Set env squareMesh { newOrthogonalization with smoothorarea := 1 / 2 } 0 0 0
    halfParameters).2.2

/-- The smoother state `boundarySmoother` together with the lists of connected nodes
that `SmootherNodeAdministration` stores for the nodes of `boundaryMesh` (entry 0 of
each list is the 0 of `InitializeSmoother`, the rim nodes are followed by the previous
rim node, the centre and the next rim node) and with Jacobian rows for the two
classes: central differences for class 0; for class 1 half the difference of the two
rim neighbours as `Jxi` and the value at the centre as `Jeta`. -/
def rimSmoother : Smoother :=
  { boundarySmoother with
    caches :=
      { boundarySmoother.caches with
        connectedNodes := ofList [ofList [0, 1, 2, 3, 4] 0, ofList [0, 4, 0, 2] 0,
          ofList [0, 1, 0, 3] 0, ofList [0, 2, 0, 4] 0, ofList [0, 3, 0, 1] 0] (fun _ => 0)
        numConnectedNodes := ofList [5, 4, 4, 4, 4] 0 }
    operators :=
      { boundarySmoother.operators with
        Jxi := ofList [ofList [0, 1 / 2, 0, -1 / 2, 0] 0, ofList [0, 1 / 2, 0, -1 / 2] 0]
          (fun _ => 0)
        Jeta := ofList [ofList [0, 0, 1 / 2, 0, -1 / 2] 0, ofList [0, 0, 1, 0] 0]
          (fun _ => 0) } }

/-- The mesh `diamondMesh` sheared along the first diagonal: nodes `1 = (1,1)` and
`3 = (-1,-1)`, the other nodes as before. The four triangles keep their orientation
and their area 1/2. -/
def shearedDiamondMesh : Mesh :=
  { diamondMesh with
    nodes := ofList [{ x := 0, y := 0 }, { x := 1, y := 1 }, { x := 0, y := 1 },
      { x := -1, y := -1 }, { x := 0, y := -1 }] { x := 0, y := 0 }
    facesCircumcenters := ofList [{ x := 1 / 2, y := 1 / 2 }, { x := -3 / 2, y := 1 / 2 },
      { x := -1 / 2, y := -1 / 2 }, { x := 3 / 2, y := -1 / 2 }] { x := 0, y := 0 }
    facesMassCenters := ofList [{ x := 1 / 3, y := 2 / 3 }, { x := -1 / 3, y := 0 },
      { x := -1 / 3, y := -2 / 3 }, { x := 1 / 3, y := 0 }] { x := 0, y := 0 } }

/-- The terms of a node with two neighbours whose reference weights `ww2` are 1 and
2 (and -3 on the diagonal); nothing is subtracted or added. -/
def alphaTerms : ComputeSmootherWeights.NodeTerms :=
  { numTopologyNodes := 3
    subtracted := fun _ => 0
    added := fun _ => 0
    ww2 := ofList [-3, 1, 2] 0 }

/-- The solver `diamondSystem` with the flag `m_keepCircumcentersAndMassCenters` set. -/
def keptSystem : Orthogonalization :=
  { diamondSystem with keepCircumcentersAndMassCenters := true }

/-- The parameters `env` read by a caller that sees `false` when a function ends
without a `return` statement. -/
def falseEnv : Env :=
  { env with indeterminateBool := false }

/-- A quadrilateral face with two corners at the same place: nodes `0 = (0,0)`,
`1 = (0,0)`, `2 = (3,0)`, `3 = (3,4)`; edges `0 = (0,1)` of length 0, `1 = (1,2)`,
`2 = (2,3)` and `3 = (3,0)` of lengths 3, 4 and 5. Every edge has the one face, whose
circumcenter is `(3/2, 2)`. -/
def pinchedMesh : Mesh where
  numNodes := 4
  numEdges := 4
  numFaces := 1
  numFaceEdges := fun _ => 4
  nodes := ofList [{ x := 0, y := 0 }, { x := 0, y := 0 }, { x := 3, y := 0 },
    { x := 3, y := 4 }] { x := 0, y := 0 }
  edges := ofList [(0, 1), (1, 2), (2, 3), (3, 0)] (0, 0)
  nodesNumEdges := fun _ => 2
  nodesEdges := fun n => ofList [ofList [0, 3] 0, ofList [1, 0] 0, ofList [2, 1] 0,
    ofList [3, 2] 0] (fun _ => 0) n
  nodesTypes := fun _ => 3
  nodeMask := fun _ => 1
  edgesNumFaces := fun _ => 1
  edgesFaces := fun _ _ => 0
  facesNodes := fun _ => ofList [0, 1, 2, 3] 0
  facesEdges := fun _ => ofList [0, 1, 2, 3] 0
  facesCircumcenters := fun _ => { x := 3 / 2, y := 2 }
  facesMassCenters := fun _ => { x := 2, y := 4 / 3 }
  faceArea := fun _ => 6
  projection := Projections.cartesian

/-- The mesh `pinchedMesh` as `Set` leaves it. -/
def pinchedMeshAfterSet : Mesh :=
  (Set env pinchedMesh newOrthogonalization 0 0 0 parameters).2.1

/-- The solver after `Set` on `pinchedMesh` followed by `AspectRatio`. -/
def pinchedAfterAspectRatio : Orthogonalization :=
  AspectRatio env pinchedMeshAfterSet
    (Set env pinchedMesh newOrthogonalization 0 0 0 parameters).2.2

/-- Face averaging weights for the class of node 0 of `diamondMesh`: row `k` of the
class has the weight `1/3` at the three nodes `0`, `k + 1` and `k + 2` (cyclically) of
triangle `k`. -/
def thirdsAz : Int → Int → Int → ℚ :=
  fun _ f => ofList [ofList [1 / 3, 1 / 3, 1 / 3, 0, 0] 0, ofList [1 / 3, 0, 1 / 3, 1 / 3, 0] 0,
    ofList [1 / 3, 0, 0, 1 / 3, 1 / 3] 0, ofList [1 / 3, 1 / 3, 0, 0, 1 / 3] 0] (fun _ => 0) f

/-- A blended system for the interior node 0 of `diamondMesh`: blending factor 1/2,
orthogonalizer weights 1/4 and smoother weights 1/8 towards each of the four
neighbours, right-hand side `(1, 2)`, and the index range `[0, 5)` for node 0, the
ranges of the four corner nodes being empty. The compressed arrays hold zeros. -/
def blendedSystem : Orthogonalization :=
  { newOrthogonalization with
    orthogonalizationToSmoothingFactor := 1 / 2
    orthogonalizationToSmoothingFactorBoundary := 1
    nodesNodes := fun n => ofList [ofList [1, 2, 3, 4] 0] (fun _ => 0) n
    wOrthogonalizer := fun n => ofList [ofList [1 / 4, 1 / 4, 1 / 4, 1 / 4] 0] (fun _ => 0) n
    rhsOrthogonalizer := fun n => ofList [ofList [1, 2] 0] (fun _ => 0) n
    smoother :=
      { newSmoother with
        wSmoother := fun n => ofList [ofList [-1 / 2, 1 / 8, 1 / 8, 1 / 8, 1 / 8] 0]
          (fun _ => 0) n }
    linearSystem :=
      { nodeCacheSize := 5
        compressedRhs := fun _ => 0
        compressedEndNodeIndex := fun n => if n = 0 then 0 else 5
        compressedStartNodeIndex := fun _ => 5
        compressedNodesNodes := fun _ => 0
        compressedWeightX := fun _ => 0
        compressedWeightY := fun _ => 0 } }

/-- The system `blendedSystem` with the blending factor 2. -/
def overBlendedSystem : Orthogonalization :=
  { blendedSystem with orthogonalizationToSmoothingFactor := 2 }

/-- The system `blendedSystem` with the flag `m_keepCircumcentersAndMassCenters` set. -/
def keptBlendedSystem : Orthogonalization :=
  { blendedSystem with keepCircumcentersAndMassCenters := true }

/-- The parameters of scenario S1 with the blending factor 2. -/
def doubleParameters : OrthogonalizationParametersNative :=
  { parameters with OrthogonalizationToSmoothingFactor := 2 }

/-- The parameters `env` with `curvilinearToOrthogonalRatio = 1`, the value with which
`AspectRatio` returns before its last loop. -/
def orthogonalEnv : Env :=
  { env with curvilinearToOrthogonalRatio := 1 }

/-- The parameters `env` with the node administration of the source in the place of the
parameter: `SmootherNodeAdministration` as embedded above. -/
def administrationEnv : Env :=
  { env with
    SmootherNodeAdministration := fun mesh n numSharedFaces numConnectedNodes c =>
      SmootherNodeAdministration env mesh n numSharedFaces numConnectedNodes c }

/-- A pentagon and a quadrilateral that share an edge: nodes `0 = (-1,-1/2)`,
`1 = (0,0)`, `2 = (0,1)`, `3 = (-1,3/2)`, `4 = (-2,1/2)`, `5 = (1,0)`, `6 = (1,1)`;
face 0 is the pentagon with the nodes `3, 4, 0, 1, 2`, face 1 the quadrilateral with
the nodes `1, 5, 6, 2`; edges `0..4` are the sides `0-1`, `1-2`, `2-3`, `3-4`, `4-0` of
the pentagon, of which edge 1 is shared, and edges `5..7` the sides `1-5`, `5-6`, `6-2`
of the quadrilateral. The edges of a node are listed counterclockwise. The nodes 1 and
2 on the shared edge are boundary nodes (type 2) with three edges, the other nodes are
corners (type 3) with two edges. -/
def pentagonMesh : Mesh where
  numNodes := 7
  numEdges := 8
  numFaces := 2
  numFaceEdges := ofList [5, 4] 0
  nodes := ofList [{ x := -1, y := -1 / 2 }, { x := 0, y := 0 }, { x := 0, y := 1 },
    { x := -1, y := 3 / 2 }, { x := -2, y := 1 / 2 }, { x := 1, y := 0 }, { x := 1, y := 1 }]
    { x := 0, y := 0 }
  edges := ofList [(0, 1), (1, 2), (2, 3), (3, 4), (4, 0), (1, 5), (5, 6), (6, 2)] (0, 0)
  nodesNumEdges := ofList [2, 3, 3, 2, 2, 2, 2] 0
  nodesEdges := fun n => ofList [ofList [0, 4] 0, ofList [5, 1, 0] 0, ofList [1, 7, 2] 0,
    ofList [2, 3] 0, ofList [3, 4] 0, ofList [6, 5] 0, ofList [7, 6] 0] (fun _ => 0) n
  nodesTypes := ofList [3, 2, 2, 3, 3, 3, 3] 0
  nodeMask := fun _ => 1
  edgesNumFaces := ofList [1, 2, 1, 1, 1, 1, 1, 1] 0
  edgesFaces := fun e => ofList [ofList [0] 0, ofList [0, 1] 0, ofList [0] 0, ofList [0] 0,
    ofList [0] 0, ofList [1] 0, ofList [1] 0, ofList [1] 0] (fun _ => 0) e
  facesNodes := fun f => ofList [ofList [3, 4, 0, 1, 2] 0, ofList [1, 5, 6, 2] 0] (fun _ => 0) f
  facesEdges := fun f => ofList [ofList [3, 4, 0, 1, 2] 0, ofList [5, 6, 7, 1] 0] (fun _ => 0) f
  facesCircumcenters := ofList [{ x := -4 / 5, y := 1 / 2 }, { x := 1 / 2, y := 1 / 2 }]
    { x := 0, y := 0 }
  facesMassCenters := ofList [{ x := -4 / 5, y := 1 / 2 }, { x := 1 / 2, y := 1 / 2 }]
    { x := 0, y := 0 }
  faceArea := ofList [5 / 2, 1] 0
  projection := Projections.cartesian

end Example

/-! ## Predicates on the state of the smoother and of `AspectRatio` -/

/-- The face-node mapping of row `f` of the class of `currentNode` names slots of a row
of `C` entries the way `ComputeSmootherOperatorsNode` reads them: for a triangle, the
slots of the node itself and of its two neighbours in the face are three different
slots; for another face, the first `numFaceNodes` entries are different slots and the
remaining entries of the mapping row repeat some of them. -/
def ComputeSmootherOperatorsNode.RowWellFormed (env : Env) (mesh : Mesh) (t : Topologies)
    (currentNode : Int) (f : Int) (C : Nat) : Prop :=
  let face := t.topologySharedFaces (t.nodeTopologyMapping currentNode) f
  let mapping := t.topologyFaceNodeMapping (t.nodeTopologyMapping currentNode) f
  if mesh.numFaceEdges face = 3 then
    let nodeIndex := env.FindIndex (mesh.facesNodes face) currentNode
    let nodeLeft := env.NextCircularBackwardIndex nodeIndex 3
    let nodeRight := env.NextCircularForwardIndex nodeIndex 3
    mapping nodeIndex ≠ mapping nodeLeft ∧ mapping nodeIndex ≠ mapping nodeRight ∧
    mapping nodeLeft ≠ mapping nodeRight ∧
    (0 ≤ mapping nodeIndex ∧ mapping nodeIndex < C) ∧
    (0 ≤ mapping nodeLeft ∧ mapping nodeLeft < C) ∧
    (0 ≤ mapping nodeRight ∧ mapping nodeRight < C)
  else
    0 < mesh.numFaceEdges face ∧
    mesh.numFaceEdges face ≤ env.maximumNumberOfNodesPerFace ∧
    (∀ i : Int, 0 ≤ i → i < env.maximumNumberOfNodesPerFace →
      0 ≤ mapping i ∧ mapping i < C) ∧
    (∀ i j : Int, 0 ≤ i → i < mesh.numFaceEdges face → 0 ≤ j → j < mesh.numFaceEdges face →
      mapping i = mapping j → i = j) ∧
    (∀ i : Int, mesh.numFaceEdges face ≤ i → i < env.maximumNumberOfNodesPerFace →
      ∃ j : Int, 0 ≤ j ∧ j < mesh.numFaceEdges face ∧ mapping i = mapping j)

/-- The locals of `AspectRatio` hold no negative quantity: the edge lengths are
non-negative, an edge with a length has a non-negative flow length, every average
length is missing or non-negative, and the aspect ratios are non-negative. -/
structure AspectRatio.NonNegative (env : Env) (l : AspectRatioLocals) : Prop where
  length : ∀ e : Int, 0 ≤ l.edgesLength e
  flow : ∀ e : Int, l.edgesLength e ≠ 0 → 0 ≤ l.averageFlowEdgesLength e
  average : ∀ e i : Int,
    l.averageEdgesLength e i = env.doubleMissingValue ∨ 0 ≤ l.averageEdgesLength e i
  aspect : ∀ e : Int, 0 ≤ l.aspectRatios e

/-! ## Predicates on the state of the driver -/

/-- The guard of line 262 of `ComputeLinearSystemTerms`: the node is skipped. -/
def NotMovable (types valence : Int → Int) (n : Int) : Prop :=
  (types n ≠ 1 ∧ types n ≠ 2) ∨ valence n < 2

/-- Index ranges of the nodes are ordered and do not overlap, and every slot of a
skipped node holds a zero weight. -/
structure SlotsInvariant (N : Nat) (types valence : Int → Int) (ls : LinearSystem) : Prop where
  ordered : ∀ n : Int, 0 ≤ n → n < N →
    ls.compressedEndNodeIndex n ≤ ls.compressedStartNodeIndex n
  disjoint : ∀ n m : Int, 0 ≤ n → n < m → m < N →
    ls.compressedStartNodeIndex n ≤ ls.compressedEndNodeIndex m
  zero : ∀ n : Int, 0 ≤ n → n < N → NotMovable types valence n →
    ∀ idx : Int, ls.compressedEndNodeIndex n ≤ idx → idx < ls.compressedStartNodeIndex n →
      ls.compressedWeightX idx = 0 ∧ ls.compressedWeightY idx = 0

/-- What the inner iterations keep: the topology of the mesh, the compressed system,
and the coordinates and anchors of the skipped nodes. -/
structure Frozen (N : Nat) (types valence : Int → Int) (ls : LinearSystem) (p0 : Int → Point)
    (st : Mesh × Orthogonalization) : Prop where
  numNodes : st.1.numNodes = N
  nodesTypes : st.1.nodesTypes = types
  nodesNumEdges : st.1.nodesNumEdges = valence
  linearSystem : st.2.linearSystem = ls
  land : st.2.projectToLandBoundaryOption = 0
  coords : ∀ n : Int, 0 ≤ n → n < N → NotMovable types valence n →
    st.1.nodes n = p0 n ∧ st.2.orthogonalCoordinates n = p0 n
  anchor : ∀ n : Int, 0 ≤ n → n < N → NotMovable types valence n → types n = 2 →
    st.2.nearestPoints n = n ∧ st.2.originalNodes n = p0 n

/-- Members of the driver that `PrapareOuterIteration` leaves alone. -/
structure DriverFrame (o o1 : Orthogonalization) : Prop where
  orthogonalCoordinates : o1.orthogonalCoordinates = o.orthogonalCoordinates
  nearestPoints : o1.nearestPoints = o.nearestPoints
  originalNodes : o1.originalNodes = o.originalNodes
  projectToLandBoundaryOption : o1.projectToLandBoundaryOption = o.projectToLandBoundaryOption

/-- State in which `Set` leaves the mesh and the solver. -/
structure AfterSet (mesh : Mesh) (c : Int) (mesh1 : Mesh) (o1 : Orthogonalization) : Prop where
  numNodes : mesh1.numNodes = mesh.numNodes
  nodesNumEdges : mesh1.nodesNumEdges = mesh.nodesNumEdges
  nodes : mesh1.nodes = mesh.nodes
  slots : o1.linearSystem.nodeCacheSize = 0 ∨
    SlotsInvariant mesh1.numNodes mesh1.nodesTypes mesh1.nodesNumEdges o1.linearSystem
  orthogonalCoordinates : o1.orthogonalCoordinates = mesh.nodes
  originalNodes : o1.originalNodes = mesh.nodes
  nearestPoints : ∀ n : Int, 0 ≤ n → n < mesh.numNodes → o1.nearestPoints n = n
  projectToLandBoundaryOption : o1.projectToLandBoundaryOption = c

/-! ## The regularisation coefficient in the words of the specification -/

/-- The regularisation coefficient as the specification words it: the largest, over the
slots `i >= 1` of the node, of `max(-w[i], 0) / max(1, ww2[i])`, and 0 when the node
has no such slot. It is compared with `ComputeSmootherWeights.alpha`, the loop of the
source. -/
def ComputeSmootherWeights.alphaSpec (tm : ComputeSmootherWeights.NodeTerms) (w : Int → ℚ) :
    ℚ :=
  forRange (fun j largest =>
      let i := j + 1
      max largest (max (-(w i)) 0 / max 1 (tm.ww2 i)))
    (tm.numTopologyNodes - 1).toNat 0

/-! ## Predicates on the state of the node administration -/

/-- The list of connected nodes `t` extends the list `s`: it is at least as long and
agrees with `s`, in the cache and in every stored list, on the positions `s` fills. -/
structure SmootherNodeAdministration.Extends (s t : SmootherNodeAdministration.Nodes) :
    Prop where
  index : s.connectedNodesIndex ≤ t.connectedNodesIndex
  cache : ∀ p : Int, p ≤ s.connectedNodesIndex → t.connectedNodesCache p = s.connectedNodesCache p
  list : ∀ m p : Int, p ≤ s.connectedNodesIndex → t.connectedNodes m p = s.connectedNodes m p

/-- Entry `k` of row `f` of the face-node mapping is a filled position of the cache of
connected nodes, and the cache holds node `k` of the face `face` there. -/
structure SmootherNodeAdministration.Mapped (mesh : Mesh) (s : SmootherNodeAdministration.Nodes)
    (f face k : Int) : Prop where
  nonneg : 0 ≤ s.faceNodeMappingCache f k
  filled : s.faceNodeMappingCache f k ≤ s.connectedNodesIndex
  node : s.connectedNodesCache (s.faceNodeMappingCache f k) = mesh.facesNodes face k

/-! ## Predicates on the shared faces of a pair of edges -/

/-- The face `g` stands on the face list of the edge `firstEdge` and on the face list
of the edge `secondEdge`, at positions below their numbers of faces. -/
def SmootherNodeAdministration.OnBothLists (mesh : Mesh) (firstEdge secondEdge g : Int) : Prop :=
  (∃ i : Int, 0 ≤ i ∧ i < mesh.edgesNumFaces firstEdge ∧ mesh.edgesFaces firstEdge i = g) ∧
  (∃ j : Int, 0 ≤ j ∧ j < mesh.edgesNumFaces secondEdge ∧ mesh.edgesFaces secondEdge j = g)

/-- The locals of the first loop of `SmootherNodeAdministration` on entry of the
iteration for the edge slot `e`: the face found for the last pair that was not
skipped (the missing value before any) and the number of slots written. -/
def SmootherNodeAdministration.facesBefore (env : Env) (mesh : Mesh) (currentNode : Int)
    (c : SmootherCaches) (e : Nat) : SmootherNodeAdministration.Faces :=
  forRange (SmootherNodeAdministration.faceBody env mesh currentNode) e
    { newFaceIndex := env.intMissingValue, numSharedFaces := 0,
      sharedFacesCache := c.sharedFacesCache }

/-! ## The class of a node in the words of the specification -/

/-- In the words of the specification: the existing class `topo` matches the node when
it has the numbers of faces and of nodes of the node and every cached angle, from
index 1 on, is within the tolerance of the angle recorded for the class. -/
def SaveSmootherNodeTopologyIfNeeded.Matches (env : Env) (c : SmootherCaches)
    (t : Topologies) (numSharedFaces numConnectedNodes : Int) (topo : Int) : Prop :=
  t.numTopologyFaces topo = numSharedFaces ∧ t.numTopologyNodes topo = numConnectedNodes ∧
  ∀ i : Int, 1 ≤ i → i < numConnectedNodes →
    |env.atan2 (c.etaCache i) (c.xiCache i) -
      env.atan2 (t.topologyEta topo i) (t.topologyXi topo i)| ≤ env.thetaTolerance

/-- The last loop of `AspectRatio` (lines 1473-1499) rewrites the aspect ratio of edge
`e`, given the locals `l` the loop starts with: the end nodes of the edge have valid
indices and are both marked curvilinear (they lie on no face of three or more nodes
other than quadrilaterals), the edge has a face, and the average lengths recorded for
it, one for an edge with one face and two otherwise, are neither zero nor missing. -/
def AspectRatio.Rewrites (env : Env) (mesh : Mesh) (e : Int) (l : AspectRatioLocals) : Prop :=
  0 ≤ (mesh.edges e).1 ∧ 0 ≤ (mesh.edges e).2 ∧ 1 ≤ mesh.edgesNumFaces e ∧
  l.curvilinearGridIndicator (mesh.edges e).1 = true ∧
  l.curvilinearGridIndicator (mesh.edges e).2 = true ∧
  l.averageEdgesLength e 0 ≠ 0 ∧ l.averageEdgesLength e 0 ≠ env.doubleMissingValue ∧
  (mesh.edgesNumFaces e ≠ 1 →
    l.averageEdgesLength e 1 ≠ 0 ∧ l.averageEdgesLength e 1 ≠ env.doubleMissingValue)

/-- The class tables `t1` keep what the tables `t` hold: no class is dropped, the
records of the classes of `t` (the counts, the shared faces, the connected nodes, the
local coordinates and the face-node mapping) are the same, and so are the classes of
the nodes below `k`. -/
def ComputeSmootherTopologies.Keeps (t t1 : Topologies) (k : Int) : Prop :=
  t.numTopologies ≤ t1.numTopologies ∧
  (∀ q : Int, q < t.numTopologies →
    t1.numTopologyNodes q = t.numTopologyNodes q ∧
    t1.numTopologyFaces q = t.numTopologyFaces q ∧
    t1.topologySharedFaces q = t.topologySharedFaces q ∧
    t1.topologyConnectedNodes q = t.topologyConnectedNodes q ∧
    t1.topologyXi q = t.topologyXi q ∧
    t1.topologyEta q = t.topologyEta q ∧
    t1.topologyFaceNodeMapping q = t.topologyFaceNodeMapping q) ∧
  (∀ m : Int, m < k → t1.nodeTopologyMapping m = t.nodeTopologyMapping m)

/-! ## Loops -/

@[simp]
theorem forRange_zero {σ : Type} (body : Int → σ → σ) (s : σ) : forRange body 0 s = s := rfl

theorem forRange_succ {σ : Type} (body : Int → σ → σ) (k : Nat) (s : σ) :
    forRange body (k + 1) s = body (k : Int) (forRange body k s) := rfl

/-- An invariant that holds initially and is kept by every iteration holds after the
loop. -/
theorem forRange_invariant {σ : Type} (P : σ → Prop) (body : Int → σ → σ) (k : Nat) (s : σ)
    (h0 : P s) (hstep : ∀ i : Nat, i < k → ∀ t, P t → P (body (i : Int) t)) :
    P (forRange body k s) := by
  induction k with
  | zero => exact h0
  | succ k ih =>
    rw [forRange_succ]
    exact hstep k (Nat.lt_succ_self k) _
      (ih (fun i hi t ht => hstep i (Nat.lt_succ_of_lt hi) t ht))

/-- A component of the state that no iteration changes is unchanged by the loop. -/
theorem forRange_frame {σ α : Type} (f : σ → α) (body : Int → σ → σ) (k : Nat) (s : σ)
    (hstep : ∀ i : Nat, i < k → ∀ t, f (body (i : Int) t) = f t) :
    f (forRange body k s) = f s :=
  forRange_invariant (fun t => f t = f s) body k s rfl
    (fun i hi t ht => (hstep i hi t).trans ht)

theorem sumRange_succ (f : Int → ℚ) (k : Nat) :
    sumRange f (k + 1) = sumRange f k + f (k : Int) := rfl

/-- The accumulated sum is the sum over the index range. -/
theorem sumRange_eq_sum (f : Int → ℚ) (k : Nat) :
    sumRange f k = ∑ i in Finset.range k, f (i : Int) := by
  induction k with
  | zero => rfl
  | succ k ih => rw [sumRange_succ, Finset.sum_range_succ, ih]

theorem sumRange_congr (f g : Int → ℚ) (k : Nat)
    (h : ∀ i : Nat, i < k → f (i : Int) = g (i : Int)) : sumRange f k = sumRange g k := by
  rw [sumRange_eq_sum, sumRange_eq_sum]
  exact Finset.sum_congr rfl (fun i hi => h i (Finset.mem_range.mp hi))

/-- A loop that rewrites entry `lo + j` in iteration `j` from the old value of that
entry maps the entries of the range and leaves the others. -/
theorem forRange_update_pointwise {α : Type} (g : Int → α → α) (lo : Int) (k : Nat)
    (w : Int → α) (i : Int) :
    forRange (fun j w => Function.update w (lo + j) (g (lo + j) (w (lo + j)))) k w i =
      if lo ≤ i ∧ i < lo + k then g i (w i) else w i := by
  induction k with
  | zero =>
    rw [forRange_zero, if_neg]
    intro h
    have := h.2
    simp only [Nat.cast_zero, add_zero] at this
    exact absurd h.1 (not_le.mpr this)
  | succ k ih =>
    rw [forRange_succ]
    by_cases hi : i = lo + (k : Int)
    · subst hi
      rw [Function.update_same, ih, if_neg (by omega), if_pos (by push_cast; omega)]
    · rw [Function.update_noteq hi, ih]
      by_cases hin : lo ≤ i ∧ i < lo + (k : Int)
      · rw [if_pos hin, if_pos ⟨hin.1, by push_cast; omega⟩]
      · rw [if_neg hin, if_neg (by push_cast; omega)]

/-- Sum of a row after one entry has been overwritten. -/
theorem sumRange_update (r : Int → ℚ) (p : Int) (v : ℚ) (k : Nat) :
    sumRange (Function.update r p v) k =
      sumRange r k + (if 0 ≤ p ∧ p < k then v - r p else 0) := by
  induction k with
  | zero =>
    rw [if_neg (by intro h; have := h.2; simp only [Nat.cast_zero] at this; omega)]
    simp [sumRange]
  | succ k ih =>
    rw [sumRange_succ, sumRange_succ, ih]
    by_cases hp : p = (k : Int)
    · subst hp
      rw [Function.update_same, if_neg (by omega), if_pos (by push_cast; omega)]
      ring
    · rw [Function.update_noteq (Ne.symm hp)]
      by_cases hin : 0 ≤ p ∧ p < (k : Int)
      · rw [if_pos hin, if_pos ⟨hin.1, by push_cast; omega⟩]
        ring
      · rw [if_neg hin, if_neg (by push_cast; omega)]
        ring

theorem sumRange_zero_fun (k : Nat) : sumRange (fun _ => 0) k = 0 := by
  induction k with
  | zero => rfl
  | succ k ih => rw [sumRange_succ, ih]; norm_num

/-! ## Frame properties of the driver -/

theorem ComputeWeightsAndRhsOrthogonalizer.nodeBody_originalNodes (env : Env) (mesh : Mesh)
    (n : Int) (o : Orthogonalization) :
    (ComputeWeightsAndRhsOrthogonalizer.nodeBody env mesh n o).originalNodes
      = o.originalNodes := by
  unfold ComputeWeightsAndRhsOrthogonalizer.nodeBody
  split <;> rfl

theorem ComputeWeightsAndRhsOrthogonalizer_originalNodes (env : Env) (mesh : Mesh)
    (o : Orthogonalization) :
    (ComputeWeightsAndRhsOrthogonalizer env mesh o).originalNodes = o.originalNodes := by
  unfold ComputeWeightsAndRhsOrthogonalizer
  rw [forRange_frame (fun t : Orthogonalization => t.originalNodes)]
  intro i _ t
  exact ComputeWeightsAndRhsOrthogonalizer.nodeBody_originalNodes env mesh i t

theorem AllocateLinearSystem_originalNodes (mesh : Mesh) (o : Orthogonalization) :
    (AllocateLinearSystem mesh o).originalNodes = o.originalNodes := by
  unfold AllocateLinearSystem
  split <;> rfl

theorem PrapareOuterIteration_originalNodes (env : Env) (mesh : Mesh) (o : Orthogonalization) :
    (PrapareOuterIteration env mesh o).2.originalNodes = o.originalNodes := by
  have h2 : (ComputeWeightsAndRhsOrthogonalizer env mesh (AspectRatio env mesh o)).originalNodes
      = o.originalNodes := by
    rw [ComputeWeightsAndRhsOrthogonalizer_originalNodes]; rfl
  unfold PrapareOuterIteration
  simp only []
  split
  · exact h2
  · split
    · exact h2
    · show (AllocateLinearSystem mesh _).originalNodes = _
      rw [AllocateLinearSystem_originalNodes]
      exact h2

theorem ProjectOnOriginalMeshBoundary_originalNodes (env : Env) (mesh : Mesh)
    (o : Orthogonalization) :
    (ProjectOnOriginalMeshBoundary env mesh o).2.2.originalNodes = o.originalNodes := rfl

theorem InnerIteration_originalNodes (env : Env) (mesh : Mesh) (o : Orthogonalization) :
    (InnerIteration env mesh o).2.2.originalNodes = o.originalNodes := by
  unfold InnerIteration
  simp only []
  split <;> rfl

theorem FinalizeOuterIteration_originalNodes (env : Env) (mesh : Mesh)
    (o : Orthogonalization) :
    (FinalizeOuterIteration env mesh o).2.originalNodes = o.originalNodes := by
  unfold FinalizeOuterIteration
  simp only []
  split <;> rfl

theorem Compute.innerBody_originalNodes (env : Env) (i : Int)
    (st : Bool × Mesh × Orthogonalization) :
    (Compute.innerBody env i st).2.2.originalNodes = st.2.2.originalNodes := by
  unfold Compute.innerBody
  split
  · exact InnerIteration_originalNodes env _ _
  · rfl

theorem Compute.boundaryBody_originalNodes (env : Env) (i : Int)
    (st : Bool × Mesh × Orthogonalization) :
    (Compute.boundaryBody env i st).2.2.originalNodes = st.2.2.originalNodes := by
  unfold Compute.boundaryBody
  rw [forRange_frame (fun t : Bool × Mesh × Orthogonalization => t.2.2.originalNodes)]
  intro j _ t
  exact Compute.innerBody_originalNodes env j t

theorem Compute.outerBody_originalNodes (env : Env) (i : Int)
    (st : Bool × Mesh × Orthogonalization) :
    (Compute.outerBody env i st).2.2.originalNodes = st.2.2.originalNodes := by
  have h1 : (if st.1 then
      ((PrapareOuterIteration env st.2.1 st.2.2).1, st.2.1,
        (PrapareOuterIteration env st.2.1 st.2.2).2)
      else st).2.2.originalNodes = st.2.2.originalNodes := by
    split
    · exact PrapareOuterIteration_originalNodes env _ _
    · rfl
  have h2 : ∀ t : Bool × Mesh × Orthogonalization,
      (forRange (Compute.boundaryBody env) t.2.2.orthogonalizationBoundaryIterations.toNat
        t).2.2.originalNodes = t.2.2.originalNodes := by
    intro t
    rw [forRange_frame (fun t : Bool × Mesh × Orthogonalization => t.2.2.originalNodes)]
    intro j _ u
    exact Compute.boundaryBody_originalNodes env j u
  have h3 : ∀ t : Bool × Mesh × Orthogonalization,
      (if t.1 then
        (true, (FinalizeOuterIteration env t.2.1 t.2.2).1,
          (FinalizeOuterIteration env t.2.1 t.2.2).2)
       else t).2.2.originalNodes = t.2.2.originalNodes := by
    intro t
    split
    · exact FinalizeOuterIteration_originalNodes env _ _
    · rfl
  exact ((h3 _).trans (h2 _)).trans h1

theorem Compute_originalNodes (env : Env) (mesh : Mesh) (o : Orthogonalization) :
    (Compute env mesh o).2.2.originalNodes = o.originalNodes := by
  unfold Compute
  show (forRange (Compute.outerBody env) _ (true, mesh, o)).2.2.originalNodes = _
  rw [forRange_frame (fun t : Bool × Mesh × Orthogonalization => t.2.2.originalNodes)]
  intro j _ u
  exact Compute.outerBody_originalNodes env j u

theorem Set.finish_originalNodes (env : Env) (mesh : Mesh) (o : Orthogonalization) :
    (Set.finish env mesh o).2.originalNodes = o.originalNodes := by
  unfold Set.finish
  split
  · split
    · simp only []
      split
      · exact PrapareOuterIteration_originalNodes env mesh o
      · exact PrapareOuterIteration_originalNodes env mesh o
    · rfl
  · rfl

theorem Set_originalNodes (env : Env) (mesh : Mesh) (o : Orthogonalization)
    (a b c : Int) (params : OrthogonalizationParametersNative) :
    (Set env mesh o a b c params).2.2.originalNodes = mesh.nodes := by
  show (Set.finish env _ _).2.originalNodes = _
  rw [Set.finish_originalNodes]
  rfl

/-! ## Nodes the compressed system does not move -/

theorem AllocateLinearSystem.loop_invariant (mesh : Mesh) (ncn : Int → Int)
    (hval : ∀ n : Int, 0 ≤ n → n < mesh.numNodes → 0 ≤ mesh.nodesNumEdges n)
    (ls0 : LinearSystem) (hx : ls0.compressedWeightX = fun _ => 0)
    (hy : ls0.compressedWeightY = fun _ => 0) (k : Nat) (hk : k ≤ mesh.numNodes) :
    let ls := forRange (AllocateLinearSystem.nodeBody mesh ncn) k ls0
    (∀ n : Int, 0 ≤ n → n < k → ls.compressedEndNodeIndex n ≤ ls.compressedStartNodeIndex n) ∧
    (∀ n : Int, 0 ≤ n → n < k → ls.compressedStartNodeIndex n ≤ ls.nodeCacheSize) ∧
    (∀ n m : Int, 0 ≤ n → n < m → m < k →
      ls.compressedStartNodeIndex n ≤ ls.compressedEndNodeIndex m) ∧
    ls.compressedWeightX = (fun _ => 0) ∧ ls.compressedWeightY = (fun _ => 0) := by
  induction k with
  | zero =>
    refine ⟨?_, ?_, ?_, hx, hy⟩
    · intro n h0 h1; exact absurd h1 (by simpa using h0)
    · intro n h0 h1; exact absurd h1 (by simpa using h0)
    · intro n m h0 h1 h2; exact absurd h2 (by have := lt_of_le_of_lt h0 h1; simpa using this.le)
  | succ k ih =>
    obtain ⟨i1, i2, i3, i4, i5⟩ := ih (Nat.le_of_succ_le hk)
    have hw : 0 ≤ max (mesh.nodesNumEdges (k : Int) + 1) (ncn k) := by
      have := hval (k : Int) (by positivity) (by exact_mod_cast hk)
      exact le_trans (by linarith) (le_max_left _ _)
    simp only [forRange_succ, AllocateLinearSystem.nodeBody]
    refine ⟨?_, ?_, ?_, i4, i5⟩
    · intro n h0 h1
      by_cases hnk : n = k
      · subst hnk; simp only [Function.update_same]; linarith
      · have : n < k := by push_cast at h1; omega
        simp only [Function.update_noteq hnk]; exact i1 n h0 this
    · intro n h0 h1
      by_cases hnk : n = k
      · subst hnk; simp only [Function.update_same]; exact le_refl _
      · have : n < k := by push_cast at h1; omega
        simp only [Function.update_noteq hnk]; have := i2 n h0 this; linarith
    · intro n m h0 h1 h2
      have hnk : n ≠ k := by push_cast at h2; omega
      by_cases hmk : m = k
      · subst hmk
        simp only [Function.update_same, Function.update_noteq hnk]
        exact i2 n h0 h1
      · have hm : m < k := by push_cast at h2; omega
        simp only [Function.update_noteq hnk, Function.update_noteq hmk]
        exact i3 n m h0 h1 hm

/-- After allocation on an empty cache the slots invariant holds. -/
theorem AllocateLinearSystem_slots (mesh : Mesh) (o : Orthogonalization)
    (types : Int → Int)
    (hval : ∀ n : Int, 0 ≤ n → n < mesh.numNodes → 0 ≤ mesh.nodesNumEdges n)
    (h0 : o.linearSystem.nodeCacheSize = 0) :
    SlotsInvariant mesh.numNodes types mesh.nodesNumEdges
      (AllocateLinearSystem mesh o).linearSystem := by
  have h := AllocateLinearSystem.loop_invariant mesh o.smoother.caches.numConnectedNodes hval
    { nodeCacheSize := o.linearSystem.nodeCacheSize
      compressedRhs := fun _ => 0
      compressedEndNodeIndex := fun _ => 0
      compressedStartNodeIndex := fun _ => 0
      compressedNodesNodes := fun _ => 0
      compressedWeightX := fun _ => 0
      compressedWeightY := fun _ => 0 } rfl rfl mesh.numNodes (le_refl _)
  obtain ⟨i1, _, i3, i4, i5⟩ := h
  unfold AllocateLinearSystem
  rw [if_pos h0]
  refine ⟨i1, i3, ?_⟩
  intro n _ _ _ idx _ _
  exact ⟨congrFun i4 idx, congrFun i5 idx⟩

theorem ComputeLinearSystemTerms.slotLoop_frame (mesh : Mesh) (o : Orthogonalization) (n : Int)
    (atpfLoc atpf1Loc : ℚ) (cnt : Nat) (ls : LinearSystem) :
    let ls1 := forRange (ComputeLinearSystemTerms.slotBody mesh o n atpfLoc atpf1Loc) cnt ls
    ls1.compressedEndNodeIndex = ls.compressedEndNodeIndex ∧
    ls1.compressedStartNodeIndex = ls.compressedStartNodeIndex ∧
    ∀ idx : Int,
      ¬ (o.linearSystem.compressedEndNodeIndex n ≤ idx ∧
          idx < o.linearSystem.compressedEndNodeIndex n + cnt) →
      ls1.compressedWeightX idx = ls.compressedWeightX idx ∧
      ls1.compressedWeightY idx = ls.compressedWeightY idx := by
  induction cnt with
  | zero => exact ⟨rfl, rfl, fun _ _ => ⟨rfl, rfl⟩⟩
  | succ k ih =>
    obtain ⟨h1, h2, h3⟩ := ih
    simp only [forRange_succ, ComputeLinearSystemTerms.slotBody]
    refine ⟨h1, h2, ?_⟩
    intro idx hidx
    have hne : idx ≠ o.linearSystem.compressedEndNodeIndex n + (k : Int) := by
      intro h; apply hidx; rw [h]; push_cast; constructor <;> omega
    have hprev := h3 idx (by
      intro h; apply hidx; push_cast; exact ⟨h.1, by omega⟩)
    simp only [Function.update_noteq hne]
    exact hprev

theorem ComputeLinearSystemTerms.nodeBody_frame (mesh : Mesh) (o : Orthogonalization) (n : Int)
    (ls : LinearSystem) :
    let ls1 := ComputeLinearSystemTerms.nodeBody mesh o n ls
    ls1.compressedEndNodeIndex = ls.compressedEndNodeIndex ∧
    ls1.compressedStartNodeIndex = ls.compressedStartNodeIndex ∧
    ∀ idx : Int,
      (NotMovable mesh.nodesTypes mesh.nodesNumEdges n ∨
        ¬ (o.linearSystem.compressedEndNodeIndex n ≤ idx ∧
          idx < o.linearSystem.compressedStartNodeIndex n)) →
      ls1.compressedWeightX idx = ls.compressedWeightX idx ∧
      ls1.compressedWeightY idx = ls.compressedWeightY idx := by
  unfold ComputeLinearSystemTerms.nodeBody
  simp only []
  split
  · exact ⟨rfl, rfl, fun _ _ => ⟨rfl, rfl⟩⟩
  · rename_i hmov
    split
    · exact ⟨rfl, rfl, fun _ _ => ⟨rfl, rfl⟩⟩
    · have h := ComputeLinearSystemTerms.slotLoop_frame mesh o n
        (if mesh.nodesTypes n = 2 then
          max o.orthogonalizationToSmoothingFactorBoundary o.orthogonalizationToSmoothingFactor
          else o.orthogonalizationToSmoothingFactor)
        (1 - (if mesh.nodesTypes n = 2 then
          max o.orthogonalizationToSmoothingFactorBoundary o.orthogonalizationToSmoothingFactor
          else o.orthogonalizationToSmoothingFactor))
        (o.linearSystem.compressedStartNodeIndex n - o.linearSystem.compressedEndNodeIndex n
          - 1).toNat ls
      obtain ⟨h1, h2, h3⟩ := h
      refine ⟨h1, h2, ?_⟩
      intro idx hidx
      apply h3
      rcases hidx with hidx | hidx
      · exact absurd hidx hmov
      · intro hin
        apply hidx
        refine ⟨hin.1, ?_⟩
        have := hin.2
        omega

/-- The compressed terms are written inside the ranges of the nodes that are not
skipped, so the slots invariant is kept. -/
theorem ComputeLinearSystemTerms_slots (mesh : Mesh) (o : Orthogonalization)
    (h : SlotsInvariant mesh.numNodes mesh.nodesTypes mesh.nodesNumEdges o.linearSystem) :
    SlotsInvariant mesh.numNodes mesh.nodesTypes mesh.nodesNumEdges
      (ComputeLinearSystemTerms mesh o).linearSystem := by
  have key : ∀ k : Nat, k ≤ mesh.numNodes →
      let ls := forRange (ComputeLinearSystemTerms.nodeBody mesh o) k o.linearSystem
      ls.compressedEndNodeIndex = o.linearSystem.compressedEndNodeIndex ∧
      ls.compressedStartNodeIndex = o.linearSystem.compressedStartNodeIndex ∧
      ∀ n : Int, 0 ≤ n → n < mesh.numNodes → NotMovable mesh.nodesTypes mesh.nodesNumEdges n →
        ∀ idx : Int, o.linearSystem.compressedEndNodeIndex n ≤ idx →
          idx < o.linearSystem.compressedStartNodeIndex n →
          ls.compressedWeightX idx = 0 ∧ ls.compressedWeightY idx = 0 := by
    intro k
    induction k with
    | zero => intro _; exact ⟨rfl, rfl, h.zero⟩
    | succ k ih =>
      intro hk
      obtain ⟨i1, i2, i3⟩ := ih (Nat.le_of_succ_le hk)
      obtain ⟨f1, f2, f3⟩ := ComputeLinearSystemTerms.nodeBody_frame mesh o (k : Int)
        (forRange (ComputeLinearSystemTerms.nodeBody mesh o) k o.linearSystem)
      simp only [forRange_succ]
      refine ⟨f1.trans i1, f2.trans i2, ?_⟩
      intro n hn0 hnN hnm idx hlo hhi
      have hkN : (k : Int) < mesh.numNodes := by exact_mod_cast hk
      have hk0 : (0 : Int) ≤ k := by positivity
      have hfr := f3 idx (by
        by_cases hmk : NotMovable mesh.nodesTypes mesh.nodesNumEdges (k : Int)
        · exact Or.inl hmk
        · right
          intro hin
          have hne : n ≠ (k : Int) := by
            intro heq; rw [heq] at hnm; exact hmk hnm
          rcases lt_or_gt_of_ne hne with hlt | hgt
          · have := h.disjoint n k hn0 hlt hkN
            omega
          · have := h.disjoint k n hk0 hgt hnN
            omega)
      rw [hfr.1, hfr.2]
      exact i3 n hn0 hnN hnm idx hlo hhi
  obtain ⟨k1, k2, k3⟩ := key mesh.numNodes (le_refl _)
  unfold ComputeLinearSystemTerms
  refine ⟨?_, ?_, ?_⟩
  · intro n h0 h1
    have := h.ordered n h0 h1
    rw [← k1, ← k2] at this
    exact this
  · intro n m h0 h1 h2
    have := h.disjoint n m h0 h1 h2
    rw [← k1, ← k2] at this
    exact this
  · intro n h0 h1 hnm idx hlo hhi
    have hlo2 : o.linearSystem.compressedEndNodeIndex n ≤ idx := by
      have : (forRange (ComputeLinearSystemTerms.nodeBody mesh o) mesh.numNodes
        o.linearSystem).compressedEndNodeIndex n ≤ idx := hlo
      rwa [k1] at this
    have hhi2 : idx < o.linearSystem.compressedStartNodeIndex n := by
      have : idx < (forRange (ComputeLinearSystemTerms.nodeBody mesh o) mesh.numNodes
        o.linearSystem).compressedStartNodeIndex n := hhi
      rwa [k2] at this
    exact k3 n h0 h1 hnm idx hlo2 hhi2

theorem ComputeLocalIncrements_zero_weight (env : Env) (o : Orthogonalization) (wwy : ℚ)
    (currentNode n : Int) (mesh : Mesh) (acc : Increments) :
    (ComputeLocalIncrements env o 0 wwy currentNode n mesh acc).increments0
      = acc.increments0 := by
  unfold ComputeLocalIncrements
  cases mesh.projection <;> simp

/-- A node whose slots all hold a zero weight accumulates a zero increment. -/
theorem UpdateNodeCoordinates.increments0_zero (env : Env) (n : Int) (mesh : Mesh)
    (o : Orthogonalization)
    (hz : ∀ idx : Int, o.linearSystem.compressedEndNodeIndex n ≤ idx →
      idx < o.linearSystem.compressedStartNodeIndex n →
      o.linearSystem.compressedWeightX idx = 0 ∧ o.linearSystem.compressedWeightY idx = 0) :
    (UpdateNodeCoordinates.increments env n mesh o).increments0 = 0 := by
  unfold UpdateNodeCoordinates.increments
  simp only []
  have key : ∀ k : Nat,
      k ≤ (o.linearSystem.compressedStartNodeIndex n - o.linearSystem.compressedEndNodeIndex n
        - 1).toNat →
      (forRange (fun j acc =>
        ComputeLocalIncrements env o
          (o.linearSystem.compressedWeightX (o.linearSystem.compressedEndNodeIndex n + j))
          (o.linearSystem.compressedWeightY (o.linearSystem.compressedEndNodeIndex n + j))
          (o.linearSystem.compressedNodesNodes (o.linearSystem.compressedEndNodeIndex n + j))
          n mesh acc) k
        { dx0 := 0, dy0 := 0, increments0 := 0, increments1 := 0 }).increments0 = 0 := by
    intro k
    induction k with
    | zero => intro _; rfl
    | succ k ih =>
      intro hk
      have hprev := ih (Nat.le_of_succ_le hk)
      have hw := (hz (o.linearSystem.compressedEndNodeIndex n + (k : Int)) (by omega)
        (by omega)).1
      simp only [forRange_succ]
      rw [hw, ComputeLocalIncrements_zero_weight]
      exact hprev
  exact key _ (le_refl _)

theorem UpdateNodeCoordinates_apply_of_ne (env : Env) (m n : Int) (mesh : Mesh)
    (o : Orthogonalization) (c : Int → Point) (h : n ≠ m) :
    UpdateNodeCoordinates env m mesh o c n = c n := by
  unfold UpdateNodeCoordinates
  simp only []
  split
  · rfl
  · cases mesh.projection <;> simp only [Function.update_noteq h]

theorem UpdateNodeCoordinates_of_increments0_zero (env : Env) (n : Int) (mesh : Mesh)
    (o : Orthogonalization) (c : Int → Point)
    (h : (UpdateNodeCoordinates.increments env n mesh o).increments0 = 0) :
    UpdateNodeCoordinates env n mesh o c = c := by
  unfold UpdateNodeCoordinates
  simp only []
  rw [if_pos (Or.inl (by rw [h]; norm_num))]

/-- The sweep of `InnerIteration` leaves the orthogonal coordinates of a skipped node
as they are. -/
theorem InnerIteration.sweep_fixed (env : Env) (mesh : Mesh) (o : Orthogonalization)
    (types valence : Int → Int) (N : Nat)
    (hs : SlotsInvariant N types valence o.linearSystem)
    (n : Int) (hn0 : 0 ≤ n) (hnN : n < N) (hnm : NotMovable types valence n)
    (k : Nat) (c : Int → Point) :
    forRange (fun m c => UpdateNodeCoordinates env m mesh o c) k c n = c n := by
  apply forRange_invariant (fun t : Int → Point => t n = c n)
  · rfl
  · intro i _ t ht
    show UpdateNodeCoordinates env (i : Int) mesh o t n = c n
    by_cases hin : n = (i : Int)
    · rw [← hin, UpdateNodeCoordinates_of_increments0_zero env n mesh o t
        (UpdateNodeCoordinates.increments0_zero env n mesh o (hs.zero n hn0 hnN hnm))]
      exact ht
    · rw [UpdateNodeCoordinates_apply_of_ne env _ n mesh o t hin]
      exact ht

/-- One step of the projection loop keeps a skipped node and its anchor. -/
theorem ProjectOnOriginalMeshBoundary.nodeBody_fixed (env : Env) (mesh : Mesh)
    (o : Orthogonalization) (hproj : ProjectsStartOntoItself env)
    (n : Int) (p : Point)
    (horig : mesh.nodesTypes n = 2 → o.originalNodes n = p)
    (m : Int) (st : ProjectOnOriginalMeshBoundary.Loop)
    (h1 : st.nodes n = p) (h2 : mesh.nodesTypes n = 2 → st.nearestPoints n = n) :
    (ProjectOnOriginalMeshBoundary.nodeBody env mesh o m st).nodes n = p ∧
    (mesh.nodesTypes n = 2 →
      (ProjectOnOriginalMeshBoundary.nodeBody env mesh o m st).nearestPoints n = n) := by
  unfold ProjectOnOriginalMeshBoundary.nodeBody
  simp only []
  split
  · exact ⟨h1, h2⟩
  · split
    · rename_i hguard
      split
      · exact ⟨h1, h2⟩
      · by_cases hmn : n = m
        · subst hmn
          have ht : mesh.nodesTypes n = 2 := hguard.1
          have hnear := h2 ht
          have ho := horig ht
          rw [hnear, h1, ho]
          split
          · simp only [Function.update_same]
            refine ⟨(hproj p _ _).1, fun _ => ?_⟩
            rw [if_neg (by
              intro hc
              exact absurd hc.1 (not_lt.mpr (hproj p _ _).2))]
            exact hnear
          · simp only [Function.update_same]
            refine ⟨(hproj p _ _).1, fun _ => ?_⟩
            rw [if_neg (by
              intro hc
              exact absurd hc.1 (not_lt.mpr (hproj p _ _).2))]
            exact hnear
        · split
          · simp only [Function.update_noteq hmn]
            refine ⟨h1, fun ht => ?_⟩
            split
            · rw [Function.update_noteq hmn]; exact h2 ht
            · exact h2 ht
          · simp only [Function.update_noteq hmn]
            refine ⟨h1, fun ht => ?_⟩
            split
            · rw [Function.update_noteq hmn]; exact h2 ht
            · exact h2 ht
    · exact ⟨h1, h2⟩

/-- The boundary projection keeps a skipped node and its anchor. -/
theorem ProjectOnOriginalMeshBoundary_fixed (env : Env) (mesh : Mesh)
    (o : Orthogonalization) (hproj : ProjectsStartOntoItself env)
    (n : Int) (p : Point)
    (horig : mesh.nodesTypes n = 2 → o.originalNodes n = p)
    (h1 : mesh.nodes n = p) (h2 : mesh.nodesTypes n = 2 → o.nearestPoints n = n) :
    (ProjectOnOriginalMeshBoundary env mesh o).2.1.nodes n = p ∧
    (mesh.nodesTypes n = 2 →
      (ProjectOnOriginalMeshBoundary env mesh o).2.2.nearestPoints n = n) := by
  unfold ProjectOnOriginalMeshBoundary
  exact forRange_invariant
    (fun st : ProjectOnOriginalMeshBoundary.Loop =>
      st.nodes n = p ∧ (mesh.nodesTypes n = 2 → st.nearestPoints n = n))
    _ _ _ ⟨h1, h2⟩
    (fun i _ t ht =>
      ProjectOnOriginalMeshBoundary.nodeBody_fixed env mesh o hproj n p horig i t ht.1 ht.2)

theorem InnerIteration_frozen (env : Env) (hproj : ProjectsStartOntoItself env)
    (N : Nat) (types valence : Int → Int) (ls : LinearSystem) (p0 : Int → Point)
    (hs : SlotsInvariant N types valence ls)
    (mesh : Mesh) (o : Orthogonalization) (h : Frozen N types valence ls p0 (mesh, o)) :
    Frozen N types valence ls p0
      ((InnerIteration env mesh o).2.1, (InnerIteration env mesh o).2.2) := by
  obtain ⟨hN, hT, hV, hL, hland, hc, ha⟩ := h
  simp only at hN hT hV hL hland hc ha
  have hnoland : ¬ (o.projectToLandBoundaryOption ≥ 1) := by rw [hland]; norm_num
  have hform : InnerIteration env mesh o =
      (true,
        (ProjectOnOriginalMeshBoundary env { mesh with nodes := InnerIteration.sweep env mesh o }
          { o with orthogonalCoordinates := InnerIteration.sweep env mesh o }).2.1,
        (ProjectOnOriginalMeshBoundary env { mesh with nodes := InnerIteration.sweep env mesh o }
          { o with orthogonalCoordinates := InnerIteration.sweep env mesh o }).2.2) := by
    unfold InnerIteration
    simp only []
    split
    · rename_i hyes
      exact absurd hyes hnoland
    · rfl
  rw [hform]
  refine ⟨hN, hT, hV, hL, hland, ?_, ?_⟩
  · intro n hn0 hnN hnm
    have hsweep : InnerIteration.sweep env mesh o n = p0 n := by
      unfold InnerIteration.sweep
      rw [InnerIteration.sweep_fixed env mesh o types valence N (hL ▸ hs) n hn0 hnN hnm]
      exact (hc n hn0 hnN hnm).2
    refine ⟨?_, hsweep⟩
    refine (ProjectOnOriginalMeshBoundary_fixed env _ _ hproj n (p0 n) ?_ hsweep ?_).1
    · intro ht
      exact (ha n hn0 hnN hnm (hT ▸ ht)).2
    · intro ht
      exact (ha n hn0 hnN hnm (hT ▸ ht)).1
  · intro n hn0 hnN hnm ht
    have hsweep : InnerIteration.sweep env mesh o n = p0 n := by
      unfold InnerIteration.sweep
      rw [InnerIteration.sweep_fixed env mesh o types valence N (hL ▸ hs) n hn0 hnN hnm]
      exact (hc n hn0 hnN hnm).2
    refine ⟨?_, (ha n hn0 hnN hnm ht).2⟩
    refine (ProjectOnOriginalMeshBoundary_fixed env _ _ hproj n (p0 n) ?_ hsweep ?_).2 (hT ▸ ht)
    · intro _
      exact (ha n hn0 hnN hnm ht).2
    · intro _
      exact (ha n hn0 hnN hnm ht).1

theorem InnerIterations_frozen (env : Env) (hproj : ProjectsStartOntoItself env)
    (N : Nat) (types valence : Int → Int) (ls : LinearSystem) (p0 : Int → Point)
    (hs : SlotsInvariant N types valence ls)
    (st : Mesh × Orthogonalization) (h : Frozen N types valence ls p0 st) (k : Nat) :
    Frozen N types valence ls p0 (InnerIterations env k st) := by
  induction k with
  | zero => exact h
  | succ k ih => exact InnerIteration_frozen env hproj N types valence ls p0 hs _ _ ih

/-! ## What `PrapareOuterIteration` and `Set` establish -/

theorem ComputeWeightsAndRhsOrthogonalizer_eq (env : Env) (mesh : Mesh)
    (o : Orthogonalization) :
    ∃ (w r : Int → Int → ℚ), ComputeWeightsAndRhsOrthogonalizer env mesh o =
      { o with wOrthogonalizer := w, rhsOrthogonalizer := r } := by
  unfold ComputeWeightsAndRhsOrthogonalizer
  apply forRange_invariant
    (fun t : Orthogonalization =>
      ∃ (w r : Int → Int → ℚ), t = { o with wOrthogonalizer := w, rhsOrthogonalizer := r })
  · exact ⟨o.wOrthogonalizer, fun _ _ => 0, rfl⟩
  · intro i _ t ht
    obtain ⟨w, r, rfl⟩ := ht
    unfold ComputeWeightsAndRhsOrthogonalizer.nodeBody
    split
    · exact ⟨w, r, rfl⟩
    · exact ⟨_, _, rfl⟩

/-- The two ways `PrapareOuterIteration` ends: it fails before the compressed system is
touched, or it succeeds and the compressed system has been allocated and filled. The
stages before the allocation write the aspect ratios, the orthogonalizer weights and
right-hand side, and the smoother members only. -/
theorem PrapareOuterIteration_cases (env : Env) (mesh : Mesh) (o : Orthogonalization) :
    ∃ (ar : Int → ℚ) (w r : Int → Int → ℚ) (sm : Smoother),
      PrapareOuterIteration env mesh o =
        (false, { o with aspectRatios := ar, wOrthogonalizer := w, rhsOrthogonalizer := r,
                         smoother := sm }) ∨
      PrapareOuterIteration env mesh o =
        (true, ComputeLinearSystemTerms mesh (AllocateLinearSystem mesh
          { o with aspectRatios := ar, wOrthogonalizer := w, rhsOrthogonalizer := r,
                   smoother := sm })) := by
  obtain ⟨w, r, hwr⟩ := ComputeWeightsAndRhsOrthogonalizer_eq env mesh (AspectRatio env mesh o)
  unfold PrapareOuterIteration
  simp only []
  rw [hwr]
  split
  · exact ⟨_, w, r, _, Or.inl rfl⟩
  · split
    · exact ⟨_, w, r, _, Or.inl rfl⟩
    · exact ⟨_, w, r, _, Or.inr rfl⟩

theorem AllocateLinearSystem_frame (mesh : Mesh) (o : Orthogonalization) :
    DriverFrame o (AllocateLinearSystem mesh o) := by
  unfold AllocateLinearSystem
  split <;> exact ⟨rfl, rfl, rfl, rfl⟩

theorem PrapareOuterIteration_frame (env : Env) (mesh : Mesh) (o : Orthogonalization) :
    DriverFrame o (PrapareOuterIteration env mesh o).2 := by
  obtain ⟨ar, w, r, sm, h | h⟩ := PrapareOuterIteration_cases env mesh o
  · rw [h]; exact ⟨rfl, rfl, rfl, rfl⟩
  · rw [h]
    have := AllocateLinearSystem_frame mesh
      { o with aspectRatios := ar, wOrthogonalizer := w, rhsOrthogonalizer := r, smoother := sm }
    exact ⟨this.1, this.2, this.3, this.4⟩

/-- The compressed system is either still unallocated or satisfies the slots
invariant; after a successful `PrapareOuterIteration` it satisfies the invariant. -/
theorem PrapareOuterIteration_slots (env : Env) (mesh : Mesh) (o : Orthogonalization)
    (hval : ∀ n : Int, 0 ≤ n → n < mesh.numNodes → 0 ≤ mesh.nodesNumEdges n)
    (h : o.linearSystem.nodeCacheSize = 0 ∨
      SlotsInvariant mesh.numNodes mesh.nodesTypes mesh.nodesNumEdges o.linearSystem) :
    ((PrapareOuterIteration env mesh o).2.linearSystem.nodeCacheSize = 0 ∨
      SlotsInvariant mesh.numNodes mesh.nodesTypes mesh.nodesNumEdges
        (PrapareOuterIteration env mesh o).2.linearSystem) ∧
    ((PrapareOuterIteration env mesh o).1 = true →
      SlotsInvariant mesh.numNodes mesh.nodesTypes mesh.nodesNumEdges
        (PrapareOuterIteration env mesh o).2.linearSystem) := by
  obtain ⟨ar, w, r, sm, hc | hc⟩ := PrapareOuterIteration_cases env mesh o
  · rw [hc]
    exact ⟨h, fun hf => absurd hf (by simp)⟩
  · rw [hc]
    have hslots : SlotsInvariant mesh.numNodes mesh.nodesTypes mesh.nodesNumEdges
        (ComputeLinearSystemTerms mesh (AllocateLinearSystem mesh
          { o with aspectRatios := ar, wOrthogonalizer := w, rhsOrthogonalizer := r,
                   smoother := sm })).linearSystem := by
      apply ComputeLinearSystemTerms_slots
      by_cases h0 : o.linearSystem.nodeCacheSize = 0
      · exact AllocateLinearSystem_slots mesh _ mesh.nodesTypes hval h0
      · have hs := h.resolve_left h0
        unfold AllocateLinearSystem
        rw [if_neg h0]
        exact hs
    exact ⟨Or.inr hslots, fun _ => hslots⟩

theorem Set_afterSet (env : Env) (mesh : Mesh) (o : Orthogonalization) (a b c : Int)
    (params : OrthogonalizationParametersNative)
    (hval : ∀ n : Int, 0 ≤ n → n < mesh.numNodes → 0 ≤ mesh.nodesNumEdges n)
    (h0 : o.linearSystem.nodeCacheSize = 0) :
    AfterSet mesh c (Set env mesh o a b c params).2.1 (Set env mesh o a b c params).2.2 := by
  have hmem : AfterSet mesh c (Set.maskedMesh env mesh)
      (Set.members env (Set.maskedMesh env mesh) o a b c params) :=
    ⟨rfl, rfl, rfl, Or.inl h0, rfl, rfl,
      fun n hn0 hnN => by
        show (if 0 ≤ n ∧ n < ((Set.maskedMesh env mesh).numNodes : Int) then n
          else o.nearestPoints n) = n
        rw [if_pos ⟨hn0, hnN⟩], rfl⟩
  have hprep : AfterSet mesh c (Set.maskedMesh env mesh)
      (PrapareOuterIteration env (Set.maskedMesh env mesh)
        (Set.members env (Set.maskedMesh env mesh) o a b c params)).2 := by
    have hf := PrapareOuterIteration_frame env (Set.maskedMesh env mesh)
      (Set.members env (Set.maskedMesh env mesh) o a b c params)
    have hs := (PrapareOuterIteration_slots env (Set.maskedMesh env mesh)
      (Set.members env (Set.maskedMesh env mesh) o a b c params) hval (Or.inl h0)).1
    refine ⟨rfl, rfl, rfl, hs, ?_, ?_, ?_, ?_⟩
    · rw [hf.orthogonalCoordinates]; rfl
    · rw [hf.originalNodes]; rfl
    · intro n hn0 hnN
      rw [hf.nearestPoints]; exact hmem.nearestPoints n hn0 hnN
    · rw [hf.projectToLandBoundaryOption]; rfl
  have hloc : ∀ o1 : Orthogonalization, AfterSet mesh c (Set.maskedMesh env mesh) o1 →
      AfterSet mesh c (Set.maskedMesh env mesh)
        (Set.localCoordinates env (Set.maskedMesh env mesh) o1) :=
    fun o1 h => ⟨h.1, h.2, h.3, h.4, h.5, h.6, h.7, h.8⟩
  show AfterSet mesh c (Set.maskedMesh env mesh) (Set.finish env _ _).2
  unfold Set.finish
  split
  · split
    · simp only []
      split
      · exact hprep
      · exact hloc _ hprep
    · exact hloc _ hmem
  · exact hmem

/-! ## Properties of the example parameters -/

theorem Example.env_projectsStartOntoItself : ProjectsStartOntoItself Example.env := by
  intro p q projection
  show (Example.distanceFromLine p p q).2.1 = p ∧ (Example.distanceFromLine p p q).2.2 ≤ 1 / 2
  unfold Example.distanceFromLine
  simp only []
  split
  · exact ⟨rfl, by norm_num⟩
  · simp

theorem Example.env_topologies_succeed (mesh : Mesh) (s : Smoother) :
    (ComputeSmootherTopologies Example.env mesh s).1 = true := by
  have h : (forRange (ComputeSmootherTopologies.nodeBody Example.env mesh) mesh.numNodes
      (true, InitializeSmoother s)).1 = true := by
    apply forRange_invariant (fun t : Bool × Smoother => t.1 = true)
    · rfl
    · intro i _ t ht
      unfold ComputeSmootherTopologies.nodeBody
      simp [ht, Example.env]
  unfold ComputeSmootherTopologies
  simp only []
  rw [if_neg (by rw [h]; simp)]
  rfl

theorem Example.env_operators_succeed (mesh : Mesh) (s : Smoother) :
    (ComputeSmootherOperators Example.env mesh s).1 = true := by
  unfold ComputeSmootherOperators
  apply forRange_invariant (fun t : ComputeSmootherOperators.Loop => t.successful = true)
  · rfl
  · intro i _ t ht
    unfold ComputeSmootherOperators.nodeBody
    simp only []
    split
    · rfl
    · exact ht

theorem Example.env_prepare_succeeds (mesh : Mesh) (o : Orthogonalization) :
    (PrapareOuterIteration Example.env mesh o).1 = true := by
  unfold PrapareOuterIteration
  simp only []
  rw [if_neg (by rw [Example.env_topologies_succeed]; simp),
    if_neg (by rw [Example.env_operators_succeed]; simp)]

/-! ## Claims on the driver -/

/-- C1: after `Set` (land-boundary option 0) and a successful `PrapareOuterIteration`
on a new solver object, any number of `InnerIteration` calls leaves `nodes[n]` equal
to its value at `Set` time, for every node `n` whose type is not 1 or 2 or whose
valence is below 2 (so for every corner node). The valences are non-negative, and
`DistanceFromLine` projects the start of a segment onto itself. -/
theorem C1_skipped_nodes_keep_their_coordinates (env : Env)
    (hproj : ProjectsStartOntoItself env)
    (mesh : Mesh) (o : Orthogonalization) (a b : Int)
    (params : OrthogonalizationParametersNative)
    (hcache : o.linearSystem.nodeCacheSize = 0)
    (hval : ∀ n : Int, 0 ≤ n → n < mesh.numNodes → 0 ≤ mesh.nodesNumEdges n)
    (mesh1 : Mesh) (o1 o2 : Orthogonalization)
    (hSet : (Set env mesh o a b 0 params).2 = (mesh1, o1))
    (hPrepare : PrapareOuterIteration env mesh1 o1 = (true, o2))
    (n : Int) (hn0 : 0 ≤ n) (hnN : n < mesh.numNodes)
    (hskip : (mesh1.nodesTypes n ≠ 1 ∧ mesh1.nodesTypes n ≠ 2) ∨ mesh1.nodesNumEdges n < 2)
    (k : Nat) :
    (InnerIterations env k (mesh1, o2)).1.nodes n = mesh.nodes n := by
  have hA := Set_afterSet env mesh o a b 0 params hval hcache
  rw [show (Set env mesh o a b 0 params).2.1 = mesh1 from congrArg Prod.fst hSet,
    show (Set env mesh o a b 0 params).2.2 = o1 from congrArg Prod.snd hSet] at hA
  have hval1 : ∀ n : Int, 0 ≤ n → n < mesh1.numNodes → 0 ≤ mesh1.nodesNumEdges n := by
    rw [hA.numNodes, hA.nodesNumEdges]; exact hval
  have hS := (PrapareOuterIteration_slots env mesh1 o1 hval1 hA.slots).2
    (by rw [hPrepare])
  have hF := PrapareOuterIteration_frame env mesh1 o1
  rw [hPrepare] at hS hF
  simp only at hS hF
  have hfrozen : Frozen mesh1.numNodes mesh1.nodesTypes mesh1.nodesNumEdges o2.linearSystem
      mesh.nodes (mesh1, o2) := by
    refine ⟨rfl, rfl, rfl, rfl, ?_, ?_, ?_⟩
    · show o2.projectToLandBoundaryOption = 0
      rw [hF.projectToLandBoundaryOption, hA.projectToLandBoundaryOption]
    · intro m _ _ _
      refine ⟨?_, ?_⟩
      · show mesh1.nodes m = mesh.nodes m
        rw [hA.nodes]
      · show o2.orthogonalCoordinates m = mesh.nodes m
        rw [hF.orthogonalCoordinates, hA.orthogonalCoordinates]
    · intro m hm0 hmN _ _
      refine ⟨?_, ?_⟩
      · show o2.nearestPoints m = m
        rw [hF.nearestPoints]
        exact hA.nearestPoints m hm0 (by rw [← hA.numNodes]; exact hmN)
      · show o2.originalNodes m = mesh.nodes m
        rw [hF.originalNodes, hA.originalNodes]
  have hk := InnerIterations_frozen env hproj mesh1.numNodes mesh1.nodesTypes
    mesh1.nodesNumEdges o2.linearSystem mesh.nodes hS (mesh1, o2) hfrozen k
  exact (hk.coords n hn0 (by rw [hA.numNodes]; exact hnN) hskip).1

/-- Witness of C1 on the unit square, whose nodes are corners: node 0 keeps its
coordinates through two inner iterations. -/
theorem C1_witness :
    (InnerIterations Example.env 2
      ((Set Example.env Example.squareMesh Example.newOrthogonalization 0 0 0
          Example.parameters).2.1,
        (PrapareOuterIteration Example.env
          (Set Example.env Example.squareMesh Example.newOrthogonalization 0 0 0
            Example.parameters).2.1
          (Set Example.env Example.squareMesh Example.newOrthogonalization 0 0 0
            Example.parameters).2.2).2)).1.nodes 0 = Example.squareMesh.nodes 0 :=
  C1_skipped_nodes_keep_their_coordinates Example.env Example.env_projectsStartOntoItself
    Example.squareMesh Example.newOrthogonalization 0 0 Example.parameters rfl
    (fun _ _ _ => by simp [Example.squareMesh])
    _ _ _ rfl
    (Prod.ext (Example.env_prepare_succeeds _ _) rfl)
    0 (le_refl _) (by simp [Example.squareMesh])
    (Or.inl (by
      simp [Set, Set.maskedMesh, forRange, Example.env, Example.squareMesh]))
    2

/-- C2: `Compute` with `outer_iterations = 0` leaves every mesh node coordinate
unchanged, for every mesh and every value of the boundary and inner iteration
counts. -/
theorem C2_compute_without_outer_iterations (env : Env) (mesh : Mesh) (o : Orthogonalization)
    (h : o.orthogonalizationOuterIterations = 0) :
    (Compute env mesh o).2.1.nodes = mesh.nodes := by
  unfold Compute
  rw [h]
  rfl

/-- Witness of C2 on the unit square, with ten boundary and ten inner iterations. -/
theorem C2_witness :
    (Compute Example.env Example.squareMesh
      { Example.newOrthogonalization with
        orthogonalizationBoundaryIterations := 10
        orthogonalizationInnerIterations := 10 }).2.1.nodes = Example.squareMesh.nodes :=
  C2_compute_without_outer_iterations Example.env Example.squareMesh _ rfl

/-- C4: `original_nodes` is written by `Set` only. `Set` stores the snapshot of the
mesh nodes, and `PrapareOuterIteration`, `ProjectOnOriginalMeshBoundary`,
`InnerIteration`, `FinalizeOuterIteration` and `Compute` all return the solver with
`original_nodes` as they found it. -/
theorem C4_original_nodes_written_by_Set_only (env : Env) (mesh : Mesh)
    (o : Orthogonalization) (a b c : Int) (params : OrthogonalizationParametersNative) :
    (Set env mesh o a b c params).2.2.originalNodes = mesh.nodes ∧
    (PrapareOuterIteration env mesh o).2.originalNodes = o.originalNodes ∧
    (ProjectOnOriginalMeshBoundary env mesh o).2.2.originalNodes = o.originalNodes ∧
    (InnerIteration env mesh o).2.2.originalNodes = o.originalNodes ∧
    (FinalizeOuterIteration env mesh o).2.originalNodes = o.originalNodes ∧
    (Compute env mesh o).2.2.originalNodes = o.originalNodes :=
  ⟨Set_originalNodes env mesh o a b c params,
    PrapareOuterIteration_originalNodes env mesh o,
    ProjectOnOriginalMeshBoundary_originalNodes env mesh o,
    InnerIteration_originalNodes env mesh o,
    FinalizeOuterIteration_originalNodes env mesh o,
    Compute_originalNodes env mesh o⟩

/-! ## Smoother weights: the row sum -/

theorem ComputeSmootherWeights.regularize_loop (tm : ComputeSmootherWeights.NodeTerms)
    (alpha : ℚ) (w : Int → ℚ) (k : Nat) :
    let st := forRange (fun j (st : (Int → ℚ) × ℚ) =>
      (Function.update st.1 (j + 1) (st.1 (j + 1) + alpha * max 1 (tm.ww2 (j + 1))),
        st.2 + (st.1 (j + 1) + alpha * max 1 (tm.ww2 (j + 1))))) k (w, 0)
    st.2 = sumRange (fun j => st.1 (j + 1)) k ∧
    ∀ i : Int, ¬ (1 ≤ i ∧ i < 1 + (k : Int)) → st.1 i = w i := by
  induction k with
  | zero => exact ⟨rfl, fun _ _ => rfl⟩
  | succ k ih =>
    obtain ⟨h1, h2⟩ := ih
    simp only [forRange_succ]
    refine ⟨?_, ?_⟩
    · rw [sumRange_succ, Function.update_same, h1]
      congr 1
      apply sumRange_congr
      intro i hi
      rw [Function.update_noteq (by omega)]
    · intro i hi
      rw [Function.update_noteq (by push_cast at hi; omega)]
      exact h2 i (by push_cast at hi; omega)

/-- The value `sumValues` is the sum of the regularised off-diagonal weights. -/
theorem ComputeSmootherWeights.regularize_sum (tm : ComputeSmootherWeights.NodeTerms)
    (alpha : ℚ) (w : Int → ℚ) :
    (ComputeSmootherWeights.regularize tm alpha w).2 =
      sumRange (fun j => (ComputeSmootherWeights.regularize tm alpha w).1 (j + 1))
        (tm.numTopologyNodes - 1).toNat :=
  (ComputeSmootherWeights.regularize_loop tm alpha w (tm.numTopologyNodes - 1).toNat).1

/-- After the final scaling the entries of the row, the diagonal one included, sum to
zero. -/
theorem ComputeSmootherWeights.row_sum (tm : ComputeSmootherWeights.NodeTerms)
    (w : Int → ℚ) :
    sumRange (ComputeSmootherWeights.row tm w) tm.numTopologyNodes.toNat = 0 := by
  unfold ComputeSmootherWeights.row ComputeSmootherWeights.normalize
  simp only []
  generalize ComputeSmootherWeights.alpha tm (ComputeSmootherWeights.accumulate tm w) = alpha
  generalize ComputeSmootherWeights.accumulate tm w = w1
  have hsum := ComputeSmootherWeights.regularize_sum tm alpha w1
  generalize ComputeSmootherWeights.regularize tm alpha w1 = st at hsum ⊢
  have hpt := forRange_update_pointwise
    (fun (_ : Int) (x : ℚ) => -x / (-st.2 + 1 / 100000000)) 0 tm.numTopologyNodes.toNat
    (Function.update st.1 0 (-st.2))
  simp only [zero_add] at hpt
  rw [sumRange_congr _ (fun i => -(Function.update st.1 0 (-st.2) i) / (-st.2 + 1 / 100000000))
    _ (fun i hi => by rw [hpt]; rw [if_pos ⟨by positivity, by exact_mod_cast hi⟩])]
  rcases Nat.eq_zero_or_pos tm.numTopologyNodes.toNat with h0 | hpos
  · rw [h0]; rfl
  · obtain ⟨c, hc⟩ : ∃ c : Nat, tm.numTopologyNodes.toNat = c + 1 :=
      ⟨tm.numTopologyNodes.toNat - 1, by omega⟩
    have hc2 : (tm.numTopologyNodes - 1).toNat = c := by omega
    rw [hc2] at hsum
    rw [hc, sumRange_eq_sum, Finset.sum_range_succ', ← Finset.sum_div, ← add_div]
    have hdiag : Function.update st.1 0 (-st.2) (((0 : Nat)) : Int) = -st.2 := by
      rw [show (((0 : Nat)) : Int) = 0 from rfl, Function.update_same]
    rw [hdiag]
    have hrest : ∑ i in Finset.range c,
        -(Function.update st.1 0 (-st.2) (((i + 1 : Nat)) : Int)) = -st.2 := by
      rw [hsum, sumRange_eq_sum, ← Finset.sum_neg_distrib]
      apply Finset.sum_congr rfl
      intro i _
      rw [Function.update_noteq (by push_cast; omega)]
      push_cast
      rfl
    rw [hrest]
    simp

/-- The row of node `n` after `ComputeSmootherWeights`: the node is processed once,
from the row the state held before the call. -/
theorem ComputeSmootherWeights_row (env : Env) (mesh : Mesh) (s : Smoother) (n : Int)
    (hn0 : 0 ≤ n) (hnN : n < mesh.numNodes)
    (htype : mesh.nodesTypes n = 1 ∨ mesh.nodesTypes n = 2)
    (hval : 2 ≤ mesh.nodesNumEdges n)
    (hdet : ComputeSmootherWeights.determinant (ComputeJacobian env n mesh s) ≠ 0) :
    (ComputeSmootherWeights env mesh s).wSmoother n =
      ComputeSmootherWeights.row
        (ComputeSmootherWeights.terms s n (ComputeJacobian env n mesh s)
          (ComputeSmootherWeights.determinant (ComputeJacobian env n mesh s)))
        (s.wSmoother n) := by
  have key : ∀ k : Nat, ∃ W : Int → Int → ℚ,
      forRange (ComputeSmootherWeights.nodeBody env mesh) k s = { s with wSmoother := W } ∧
      (∀ m : Int, ¬ (0 ≤ m ∧ m < k) → W m = s.wSmoother m) ∧
      (n < k → W n = ComputeSmootherWeights.row
        (ComputeSmootherWeights.terms s n (ComputeJacobian env n mesh s)
          (ComputeSmootherWeights.determinant (ComputeJacobian env n mesh s)))
        (s.wSmoother n)) := by
    intro k
    induction k with
    | zero =>
      exact ⟨s.wSmoother, rfl, fun _ _ => rfl, fun h => absurd h (by simpa using hn0)⟩
    | succ k ih =>
      obtain ⟨W, hW, hout, hin⟩ := ih
      rw [forRange_succ, hW]
      by_cases hnk : n = (k : Int)
      · refine ⟨Function.update W n (ComputeSmootherWeights.row
          (ComputeSmootherWeights.terms s n (ComputeJacobian env n mesh s)
            (ComputeSmootherWeights.determinant (ComputeJacobian env n mesh s)))
          (s.wSmoother n)), ?_, ?_, ?_⟩
        · rw [← hnk]
          unfold ComputeSmootherWeights.nodeBody
          rw [if_neg (not_lt.mpr hval), if_pos htype]
          simp only []
          have hJ : ComputeJacobian env n mesh { s with wSmoother := W } =
              ComputeJacobian env n mesh s := rfl
          have hT : ∀ (J : ℚ × ℚ × ℚ × ℚ) (d : ℚ),
              ComputeSmootherWeights.terms { s with wSmoother := W } n J d =
                ComputeSmootherWeights.terms s n J d := fun _ _ => rfl
          have hWn : W n = s.wSmoother n := hout n (by rw [hnk]; omega)
          rw [hJ, if_neg hdet, hT, hWn]
        · intro m hm
          rw [Function.update_noteq (by rw [hnk]; push_cast at hm; omega)]
          exact hout m (by push_cast at hm; omega)
        · intro _
          rw [Function.update_same]
      · have hform : ∃ v : Int → ℚ,
            ComputeSmootherWeights.nodeBody env mesh (k : Int) { s with wSmoother := W } =
              { s with wSmoother := Function.update W (k : Int) v } := by
          unfold ComputeSmootherWeights.nodeBody
          split
          · exact ⟨W k, by rw [Function.update_eq_self]⟩
          · split
            · simp only []
              split
              · exact ⟨W k, by rw [Function.update_eq_self]⟩
              · exact ⟨_, rfl⟩
            · exact ⟨W k, by rw [Function.update_eq_self]⟩
        obtain ⟨v, hv⟩ := hform
        refine ⟨Function.update W (k : Int) v, hv, ?_, ?_⟩
        · intro m hm
          rw [Function.update_noteq (by push_cast at hm; omega)]
          exact hout m (by push_cast at hm; omega)
        · intro hlt
          rw [Function.update_noteq hnk]
          exact hin (by push_cast at hlt; omega)
  obtain ⟨W, hW, _, hin⟩ := key mesh.numNodes
  unfold ComputeSmootherWeights
  rw [hW]
  exact hin hnN

/-! ## Claims on the smoother weights -/

theorem Example.fivePoint_jacobian :
    ComputeJacobian Example.env 0 Example.diamondMesh Example.fivePointSmoother = (1, 0, 0, 1) := by
  simp [ComputeJacobian, sumRange, forRange, Example.diamondMesh, Example.fivePointSmoother,
    Example.newSmoother, Example.ofList]
  norm_num

theorem Example.fivePoint_determinant :
    ComputeSmootherWeights.determinant
      (ComputeJacobian Example.env 0 Example.diamondMesh Example.fivePointSmoother) ≠ 0 := by
  rw [Example.fivePoint_jacobian]
  norm_num [ComputeSmootherWeights.determinant]

/-- The weights of a processed node sum to zero over its connected-node slots, the
diagonal slot included. -/
theorem ComputeSmootherWeights_sum (env : Env) (mesh : Mesh) (s : Smoother) (n : Int)
    (hn0 : 0 ≤ n) (hnN : n < mesh.numNodes)
    (htype : mesh.nodesTypes n = 1 ∨ mesh.nodesTypes n = 2)
    (hval : 2 ≤ mesh.nodesNumEdges n)
    (hdet : ComputeSmootherWeights.determinant (ComputeJacobian env n mesh s) ≠ 0) :
    sumRange ((ComputeSmootherWeights env mesh s).wSmoother n)
      (s.topologies.numTopologyNodes (s.topologies.nodeTopologyMapping n)).toNat = 0 := by
  rw [ComputeSmootherWeights_row env mesh s n hn0 hnN htype hval hdet]
  exact ComputeSmootherWeights.row_sum _ _

/-- C5, as the code has it: for every node `n` with type 1 or 2 and valence at least 2
whose Jacobian determinant (as line 459 computes it) is not zero, after
`ComputeSmootherWeights` the smoother stencil weights sum to zero, the sum running
over all connected-node slots including the diagonal slot 0. -/
theorem C5_smoother_weights_sum_to_zero (env : Env) (mesh : Mesh) (s : Smoother) (n : Int)
    (hn0 : 0 ≤ n) (hnN : n < mesh.numNodes)
    (htype : mesh.nodesTypes n = 1 ∨ mesh.nodesTypes n = 2)
    (hval : 2 ≤ mesh.nodesNumEdges n)
    (hdet : ComputeSmootherWeights.determinant (ComputeJacobian env n mesh s) ≠ 0) :
    sumRange ((ComputeSmootherWeights env mesh s).wSmoother n)
      (s.topologies.numTopologyNodes (s.topologies.nodeTopologyMapping n)).toNat = 0 :=
  ComputeSmootherWeights_sum env mesh s n hn0 hnN htype hval hdet

/-- Witness of C5: the interior node of the square with diagonals, under the
five-point operators. -/
theorem C5_witness :
    sumRange ((ComputeSmootherWeights Example.env Example.diamondMesh
      Example.fivePointSmoother).wSmoother 0) 5 = 0 :=
  C5_smoother_weights_sum_to_zero Example.env Example.diamondMesh Example.fivePointSmoother 0
    (le_refl _) (by simp [Example.diamondMesh])
    (Or.inl (by simp [Example.diamondMesh, Example.ofList]))
    (by simp [Example.diamondMesh, Example.ofList])
    Example.fivePoint_determinant

set_option maxRecDepth 4000 in
theorem Example.fivePoint_row :
    ComputeSmootherWeights.row
        (ComputeSmootherWeights.terms Example.fivePointSmoother 0 (1, 0, 0, 1) 1)
        (fun _ => 0) 0 = -400000000 / 399999999 ∧
    ComputeSmootherWeights.row
        (ComputeSmootherWeights.terms Example.fivePointSmoother 0 (1, 0, 0, 1) 1)
        (fun _ => 0) 1 = 100000000 / 399999999 := by
  constructor
  · simp [ComputeSmootherWeights.row, ComputeSmootherWeights.terms,
      ComputeSmootherWeights.normalize, ComputeSmootherWeights.regularize,
      ComputeSmootherWeights.alpha, ComputeSmootherWeights.accumulate, MatrixNorm,
      sumRange, forRange, Example.fivePointSmoother, Example.newSmoother, Example.ofList,
      Function.update_apply]
    norm_num
  · simp [ComputeSmootherWeights.row, ComputeSmootherWeights.terms,
      ComputeSmootherWeights.normalize, ComputeSmootherWeights.regularize,
      ComputeSmootherWeights.alpha, ComputeSmootherWeights.accumulate, MatrixNorm,
      sumRange, forRange, Example.fivePointSmoother, Example.newSmoother, Example.ofList,
      Function.update_apply]
    norm_num

/-- Counterexample to C5 as stated: node 0 of the square with diagonals has type 1 and
valence 4 and its Jacobian determinant is 1. After `ComputeSmootherWeights` its
diagonal weight is `-4/(4 - 1e-8)`, the weight of its first neighbour is
`1/(4 - 1e-8)`, and its five weights sum to 0, which is not within `1e-10` of 1. -/
theorem C5_counterexample :
    Example.diamondMesh.nodesTypes 0 = 1 ∧ Example.diamondMesh.nodesNumEdges 0 = 4 ∧
    (ComputeSmootherWeights Example.env Example.diamondMesh
      Example.fivePointSmoother).wSmoother 0 0 = -400000000 / 399999999 ∧
    (ComputeSmootherWeights Example.env Example.diamondMesh
      Example.fivePointSmoother).wSmoother 0 1 = 100000000 / 399999999 ∧
    ¬ (|sumRange ((ComputeSmootherWeights Example.env Example.diamondMesh
        Example.fivePointSmoother).wSmoother 0) 5 - 1| ≤ 1 / 10000000000) := by
  have hrow := ComputeSmootherWeights_row Example.env Example.diamondMesh
    Example.fivePointSmoother 0 (le_refl _) (by simp [Example.diamondMesh])
    (Or.inl (by simp [Example.diamondMesh, Example.ofList]))
    (by simp [Example.diamondMesh, Example.ofList])
    Example.fivePoint_determinant
  rw [Example.fivePoint_jacobian] at hrow
  have hdet : ComputeSmootherWeights.determinant (1, 0, 0, 1) = 1 := by
    norm_num [ComputeSmootherWeights.determinant]
  rw [hdet] at hrow
  have h : sumRange ((ComputeSmootherWeights Example.env Example.diamondMesh
      Example.fivePointSmoother).wSmoother 0) 5 = 0 :=
    ComputeSmootherWeights_sum Example.env Example.diamondMesh Example.fivePointSmoother 0
      (le_refl _) (by simp [Example.diamondMesh])
      (Or.inl (by simp [Example.diamondMesh, Example.ofList]))
      (by simp [Example.diamondMesh, Example.ofList])
      Example.fivePoint_determinant
  refine ⟨by simp [Example.diamondMesh, Example.ofList],
    by simp [Example.diamondMesh, Example.ofList], ?_, ?_, ?_⟩
  · rw [hrow]; exact Example.fivePoint_row.1
  · rw [hrow]; exact Example.fivePoint_row.2
  · rw [h]; norm_num

/-! ## Orthogonalizer weights: normalization -/

/-- The rows of node `n` after `ComputeWeightsAndRhsOrthogonalizer`: the raw row built
from the weights the state held before the call and a zero right-hand side, then
normalized. -/
theorem ComputeWeightsAndRhsOrthogonalizer_row (env : Env) (mesh : Mesh)
    (o : Orthogonalization) (n : Int) (hn0 : 0 ≤ n) (hnN : n < mesh.numNodes)
    (htype : mesh.nodesTypes n = 1 ∨ mesh.nodesTypes n = 2) :
    (ComputeWeightsAndRhsOrthogonalizer env mesh o).wOrthogonalizer n =
      (ComputeWeightsAndRhsOrthogonalizer.normalize o
        (ComputeWeightsAndRhsOrthogonalizer.rawRow env mesh o n
          { w := o.wOrthogonalizer n, rhs := fun _ => 0 })).w ∧
    (ComputeWeightsAndRhsOrthogonalizer env mesh o).rhsOrthogonalizer n =
      (ComputeWeightsAndRhsOrthogonalizer.normalize o
        (ComputeWeightsAndRhsOrthogonalizer.rawRow env mesh o n
          { w := o.wOrthogonalizer n, rhs := fun _ => 0 })).rhs := by
  have key : ∀ k : Nat, ∃ W R : Int → Int → ℚ,
      forRange (ComputeWeightsAndRhsOrthogonalizer.nodeBody env mesh) k
          { o with rhsOrthogonalizer := fun _ _ => 0 } =
        { o with wOrthogonalizer := W, rhsOrthogonalizer := R } ∧
      (∀ m : Int, ¬ (0 ≤ m ∧ m < k) → W m = o.wOrthogonalizer m ∧ R m = fun _ => 0) ∧
      (n < k →
        W n = (ComputeWeightsAndRhsOrthogonalizer.normalize o
          (ComputeWeightsAndRhsOrthogonalizer.rawRow env mesh o n
            { w := o.wOrthogonalizer n, rhs := fun _ => 0 })).w ∧
        R n = (ComputeWeightsAndRhsOrthogonalizer.normalize o
          (ComputeWeightsAndRhsOrthogonalizer.rawRow env mesh o n
            { w := o.wOrthogonalizer n, rhs := fun _ => 0 })).rhs) := by
    intro k
    induction k with
    | zero =>
      exact ⟨o.wOrthogonalizer, fun _ _ => 0, rfl, fun _ _ => ⟨rfl, rfl⟩,
        fun h => absurd h (by simpa using hn0)⟩
    | succ k ih =>
      obtain ⟨W, R, hWR, hout, hin⟩ := ih
      rw [forRange_succ, hWR]
      by_cases hnk : n = (k : Int)
      · have hWn := (hout n (by rw [hnk]; omega)).1
        have hRn := (hout n (by rw [hnk]; omega)).2
        refine ⟨Function.update W n
            (ComputeWeightsAndRhsOrthogonalizer.normalize o
              (ComputeWeightsAndRhsOrthogonalizer.rawRow env mesh o n
                { w := W n, rhs := R n })).w,
          Function.update R n
            (ComputeWeightsAndRhsOrthogonalizer.normalize o
              (ComputeWeightsAndRhsOrthogonalizer.rawRow env mesh o n
                { w := W n, rhs := R n })).rhs, ?_, ?_, ?_⟩
        · rw [← hnk]
          unfold ComputeWeightsAndRhsOrthogonalizer.nodeBody
          rw [if_neg (by
            intro hc
            rcases htype with h | h
            · exact hc.1 h
            · exact hc.2 h)]
          rfl
        · intro m hm
          rw [Function.update_noteq (by rw [hnk]; push_cast at hm; omega),
            Function.update_noteq (by rw [hnk]; push_cast at hm; omega)]
          exact hout m (by push_cast at hm; omega)
        · intro _
          rw [Function.update_same, Function.update_same, hWn, hRn]
          exact ⟨rfl, rfl⟩
      · have hform : ∃ (v r : Int → ℚ),
            ComputeWeightsAndRhsOrthogonalizer.nodeBody env mesh (k : Int)
                { o with wOrthogonalizer := W, rhsOrthogonalizer := R } =
              { o with wOrthogonalizer := Function.update W (k : Int) v,
                       rhsOrthogonalizer := Function.update R (k : Int) r } := by
          unfold ComputeWeightsAndRhsOrthogonalizer.nodeBody
          split
          · exact ⟨W k, R k, by rw [Function.update_eq_self, Function.update_eq_self]⟩
          · exact ⟨_, _, rfl⟩
        obtain ⟨v, r, hv⟩ := hform
        refine ⟨_, _, hv, ?_, ?_⟩
        · intro m hm
          rw [Function.update_noteq (by push_cast at hm; omega),
            Function.update_noteq (by push_cast at hm; omega)]
          exact hout m (by push_cast at hm; omega)
        · intro hlt
          rw [Function.update_noteq hnk, Function.update_noteq hnk]
          exact hin (by push_cast at hlt; omega)
  obtain ⟨W, R, hWR, _, hin⟩ := key mesh.numNodes
  unfold ComputeWeightsAndRhsOrthogonalizer
  rw [hWR]
  exact hin hnN

/-- A row whose sum exceeds `1e-14` in absolute value sums to one after the
normalization. -/
theorem ComputeWeightsAndRhsOrthogonalizer.normalize_sum (o : Orthogonalization)
    (r : OrthogonalizerRow)
    (hS : |ComputeWeightsAndRhsOrthogonalizer.rowSum o r.w| > 1 / 100000000000000) :
    ComputeWeightsAndRhsOrthogonalizer.rowSum o
      (ComputeWeightsAndRhsOrthogonalizer.normalize o r).w = 1 := by
  have hne : ComputeWeightsAndRhsOrthogonalizer.rowSum o r.w ≠ 0 := by
    intro h0
    rw [h0] at hS
    norm_num at hS
  unfold ComputeWeightsAndRhsOrthogonalizer.normalize
  simp only []
  rw [if_pos hS]
  unfold ComputeWeightsAndRhsOrthogonalizer.rowSum at hne ⊢
  simp only []
  rw [sumRange_congr _ (fun k => r.w k * (1 / sumRange r.w o.maxNumNeighbours.toNat)) _
    (fun i hi => by
      rw [if_pos ⟨by positivity, by omega⟩])]
  rw [sumRange_eq_sum, ← Finset.sum_mul, ← sumRange_eq_sum]
  field_simp

/-! ## Claims on the orthogonalizer weights -/

theorem Example.chain_aspectRatios (e : Int) : Example.chainAfterAspectRatio.aspectRatios e = 0 := by
  simp [Example.chainAfterAspectRatio, Example.chainMeshAfterSet, AspectRatio,
    AspectRatio.locals, forRange, AspectRatio.curvilinearBody, AspectRatio.edgeBody, Set,
    Set.finish, Set.members, Set.maskedMesh, Example.env, Example.chainMesh, Example.ofList]

theorem Example.chain_maxNumNeighbours : Example.chainAfterAspectRatio.maxNumNeighbours = 3 := by
  simp [Example.chainAfterAspectRatio, Example.chainMeshAfterSet, AspectRatio, Set, Set.finish,
    Set.members, Set.maskedMesh, maxElement, Example.env, Example.chainMesh, Example.ofList]

theorem Example.chain_wOrthogonalizer (n k : Int) :
    Example.chainAfterAspectRatio.wOrthogonalizer n k = 0 := by
  simp [Example.chainAfterAspectRatio, Example.chainMeshAfterSet, AspectRatio, Set, Set.finish,
    Set.members, Set.maskedMesh, Example.env, Example.chainMesh]

theorem Example.chain_mesh :
    Example.chainMeshAfterSet.numNodes = 3 ∧ Example.chainMeshAfterSet.nodesTypes 1 = 1 ∧
    Example.chainMeshAfterSet.nodesNumEdges 1 = 2 ∧
    Example.chainMeshAfterSet.nodesEdges 1 0 = 0 ∧ Example.chainMeshAfterSet.nodesEdges 1 1 = 1 ∧
    Example.chainMeshAfterSet.edgesNumFaces 0 = 0 ∧
    Example.chainMeshAfterSet.edgesNumFaces 1 = 0 := by
  simp [Example.chainMeshAfterSet, Set, Set.maskedMesh, forRange, Example.env, Example.chainMesh,
    Example.ofList]

/-- C6, as the code has it: for every node `n` with type 1 or 2, after
`ComputeWeightsAndRhsOrthogonalizer` the orthogonalizer weights sum to one whenever
the raw weight sum `S` of the node exceeds `1e-14` in absolute value. -/
theorem C6_orthogonalizer_weights_sum_to_one (env : Env) (mesh : Mesh) (o : Orthogonalization)
    (n : Int) (hn0 : 0 ≤ n) (hnN : n < mesh.numNodes)
    (htype : mesh.nodesTypes n = 1 ∨ mesh.nodesTypes n = 2)
    (hS : |ComputeWeightsAndRhsOrthogonalizer.rowSum o
      (ComputeWeightsAndRhsOrthogonalizer.raw env mesh o n).w| > 1 / 100000000000000) :
    ComputeWeightsAndRhsOrthogonalizer.rowSum o
      ((ComputeWeightsAndRhsOrthogonalizer env mesh o).wOrthogonalizer n) = 1 := by
  rw [(ComputeWeightsAndRhsOrthogonalizer_row env mesh o n hn0 hnN htype).1]
  exact ComputeWeightsAndRhsOrthogonalizer.normalize_sum o _ hS

theorem Example.unit_raw_sum :
    ComputeWeightsAndRhsOrthogonalizer.rowSum Example.unitAspectRatios
      (ComputeWeightsAndRhsOrthogonalizer.raw Example.env Example.diamondMesh
        Example.unitAspectRatios 0).w = 4 := by
  simp [ComputeWeightsAndRhsOrthogonalizer.rowSum, ComputeWeightsAndRhsOrthogonalizer.raw,
    ComputeWeightsAndRhsOrthogonalizer.rawRow, ComputeWeightsAndRhsOrthogonalizer.edgeBody,
    sumRange, forRange, Example.unitAspectRatios, Example.newOrthogonalization, Example.env,
    Example.diamondMesh, Example.ofList, Function.update_apply]
  norm_num

/-- Witness of C6: the interior node of the square with diagonals, with aspect ratio 1
on its four edges (raw weight sum 4). -/
theorem C6_witness :
    ComputeWeightsAndRhsOrthogonalizer.rowSum Example.unitAspectRatios
      ((ComputeWeightsAndRhsOrthogonalizer Example.env Example.diamondMesh
        Example.unitAspectRatios).wOrthogonalizer 0) = 1 :=
  C6_orthogonalizer_weights_sum_to_one Example.env Example.diamondMesh Example.unitAspectRatios 0
    (le_refl _) (by simp [Example.diamondMesh])
    (Or.inl (by simp [Example.diamondMesh, Example.ofList]))
    (by rw [Example.unit_raw_sum]; norm_num)

/-- Counterexample to C6 as stated: on the chain of three nodes, after `Set` and
`AspectRatio` both edges of node 1 (type 1) hold the aspect ratio 0, which is not the
missing value, and after `ComputeWeightsAndRhsOrthogonalizer` the three weight slots
of node 1 sum to 0, which is not within `1e-10` of 1. -/
theorem C6_counterexample :
    Example.chainMeshAfterSet.nodesTypes 1 = 1 ∧
    Example.chainAfterAspectRatio.aspectRatios (Example.chainMeshAfterSet.nodesEdges 1 0)
      ≠ Example.env.doubleMissingValue ∧
    Example.chainAfterAspectRatio.aspectRatios (Example.chainMeshAfterSet.nodesEdges 1 1)
      ≠ Example.env.doubleMissingValue ∧
    ¬ (|ComputeWeightsAndRhsOrthogonalizer.rowSum Example.chainAfterAspectRatio
        ((ComputeWeightsAndRhsOrthogonalizer Example.env Example.chainMeshAfterSet
          Example.chainAfterAspectRatio).wOrthogonalizer 1) - 1| ≤ 1 / 10000000000) := by
  obtain ⟨hN, hT, hV, hE0, hE1, hF0, hF1⟩ := Example.chain_mesh
  refine ⟨hT, ?_, ?_, ?_⟩
  · rw [Example.chain_aspectRatios]; norm_num [Example.env]
  · rw [Example.chain_aspectRatios]; norm_num [Example.env]
  · rw [(ComputeWeightsAndRhsOrthogonalizer_row Example.env Example.chainMeshAfterSet
      Example.chainAfterAspectRatio 1 (by norm_num) (by rw [hN]; norm_num) (Or.inl hT)).1]
    have hraw : ∀ k : Int, (ComputeWeightsAndRhsOrthogonalizer.rawRow Example.env
        Example.chainMeshAfterSet Example.chainAfterAspectRatio 1
        { w := Example.chainAfterAspectRatio.wOrthogonalizer 1, rhs := fun _ => 0 }).w k = 0 := by
      intro k
      simp [ComputeWeightsAndRhsOrthogonalizer.rawRow,
        ComputeWeightsAndRhsOrthogonalizer.edgeBody, forRange, hV, hE0, hE1, hF0, hF1,
        Example.chain_aspectRatios, Example.chain_wOrthogonalizer, Function.update_apply,
        Example.env]
    have hsum : ComputeWeightsAndRhsOrthogonalizer.rowSum Example.chainAfterAspectRatio
        (ComputeWeightsAndRhsOrthogonalizer.rawRow Example.env
          Example.chainMeshAfterSet Example.chainAfterAspectRatio 1
          { w := Example.chainAfterAspectRatio.wOrthogonalizer 1, rhs := fun _ => 0 }).w = 0 := by
      simp [ComputeWeightsAndRhsOrthogonalizer.rowSum, sumRange, forRange, hraw,
        Example.chain_maxNumNeighbours]
    unfold ComputeWeightsAndRhsOrthogonalizer.normalize
    simp only []
    rw [if_neg (by rw [hsum]; norm_num), hsum]
    norm_num

/-- The two cases of the normalization step. -/
theorem ComputeWeightsAndRhsOrthogonalizer.normalize_cases (o : Orthogonalization)
    (r : OrthogonalizerRow) :
    (|ComputeWeightsAndRhsOrthogonalizer.rowSum o r.w| ≤ 1 / 100000000000000 →
      ComputeWeightsAndRhsOrthogonalizer.normalize o r = r) ∧
    (|ComputeWeightsAndRhsOrthogonalizer.rowSum o r.w| > 1 / 100000000000000 →
      (∀ k : Int, 0 ≤ k → k < o.maxNumNeighbours →
        (ComputeWeightsAndRhsOrthogonalizer.normalize o r).w k =
          r.w k / ComputeWeightsAndRhsOrthogonalizer.rowSum o r.w) ∧
      (ComputeWeightsAndRhsOrthogonalizer.normalize o r).rhs 0 =
        r.rhs 0 / ComputeWeightsAndRhsOrthogonalizer.rowSum o r.w ∧
      (ComputeWeightsAndRhsOrthogonalizer.normalize o r).rhs 1 =
        r.rhs 1 / ComputeWeightsAndRhsOrthogonalizer.rowSum o r.w) := by
  refine ⟨fun h => ?_, fun h => ?_⟩
  · unfold ComputeWeightsAndRhsOrthogonalizer.normalize
    simp only []
    rw [if_neg (not_lt.mpr h)]
  · unfold ComputeWeightsAndRhsOrthogonalizer.normalize
    simp only []
    rw [if_pos h]
    refine ⟨fun k hk0 hk1 => ?_, ?_, ?_⟩
    · dsimp only
      rw [if_pos ⟨hk0, hk1⟩, mul_one_div]
    · dsimp only
      rw [Function.update_noteq (by norm_num), Function.update_same, one_div_mul_eq_div]
    · dsimp only
      rw [Function.update_same, one_div_mul_eq_div]

/-- C7, as the code has it: in `ComputeWeightsAndRhsOrthogonalizer`, for a node of
type 1 or 2 with raw weight sum `S`: when `|S| <= 1e-14` the weights and the
right-hand side keep their raw values on return; when `|S| > 1e-14` each weight and
each right-hand side component is its raw value divided by `S`. -/
theorem C7_orthogonalizer_normalization (env : Env) (mesh : Mesh) (o : Orthogonalization)
    (n : Int) (hn0 : 0 ≤ n) (hnN : n < mesh.numNodes)
    (htype : mesh.nodesTypes n = 1 ∨ mesh.nodesTypes n = 2) :
    (|ComputeWeightsAndRhsOrthogonalizer.rowSum o
        (ComputeWeightsAndRhsOrthogonalizer.raw env mesh o n).w| ≤ 1 / 100000000000000 →
      (ComputeWeightsAndRhsOrthogonalizer env mesh o).wOrthogonalizer n =
        (ComputeWeightsAndRhsOrthogonalizer.raw env mesh o n).w ∧
      (ComputeWeightsAndRhsOrthogonalizer env mesh o).rhsOrthogonalizer n =
        (ComputeWeightsAndRhsOrthogonalizer.raw env mesh o n).rhs) ∧
    (|ComputeWeightsAndRhsOrthogonalizer.rowSum o
        (ComputeWeightsAndRhsOrthogonalizer.raw env mesh o n).w| > 1 / 100000000000000 →
      (∀ k : Int, 0 ≤ k → k < o.maxNumNeighbours →
        (ComputeWeightsAndRhsOrthogonalizer env mesh o).wOrthogonalizer n k =
          (ComputeWeightsAndRhsOrthogonalizer.raw env mesh o n).w k /
            ComputeWeightsAndRhsOrthogonalizer.rowSum o
              (ComputeWeightsAndRhsOrthogonalizer.raw env mesh o n).w) ∧
      (ComputeWeightsAndRhsOrthogonalizer env mesh o).rhsOrthogonalizer n 0 =
        (ComputeWeightsAndRhsOrthogonalizer.raw env mesh o n).rhs 0 /
          ComputeWeightsAndRhsOrthogonalizer.rowSum o
            (ComputeWeightsAndRhsOrthogonalizer.raw env mesh o n).w ∧
      (ComputeWeightsAndRhsOrthogonalizer env mesh o).rhsOrthogonalizer n 1 =
        (ComputeWeightsAndRhsOrthogonalizer.raw env mesh o n).rhs 1 /
          ComputeWeightsAndRhsOrthogonalizer.rowSum o
            (ComputeWeightsAndRhsOrthogonalizer.raw env mesh o n).w) := by
  obtain ⟨hw, hr⟩ := ComputeWeightsAndRhsOrthogonalizer_row env mesh o n hn0 hnN htype
  obtain ⟨c1, c2⟩ := ComputeWeightsAndRhsOrthogonalizer.normalize_cases o
    (ComputeWeightsAndRhsOrthogonalizer.raw env mesh o n)
  rw [hw, hr]
  refine ⟨fun h => ?_, fun h => c2 h⟩
  have := c1 h
  unfold ComputeWeightsAndRhsOrthogonalizer.raw at this ⊢
  rw [this]
  exact ⟨rfl, rfl⟩

theorem Example.tiny_raw :
    ComputeWeightsAndRhsOrthogonalizer.rowSum Example.tinyAspectRatios
      (ComputeWeightsAndRhsOrthogonalizer.raw Example.env Example.diamondMesh
        Example.tinyAspectRatios 0).w = 4 / 1000000000000000 ∧
    (ComputeWeightsAndRhsOrthogonalizer.raw Example.env Example.diamondMesh
        Example.tinyAspectRatios 0).w 0 = 1 / 1000000000000000 := by
  constructor
  · simp [ComputeWeightsAndRhsOrthogonalizer.rowSum, ComputeWeightsAndRhsOrthogonalizer.raw,
      ComputeWeightsAndRhsOrthogonalizer.rawRow, ComputeWeightsAndRhsOrthogonalizer.edgeBody,
      sumRange, forRange, Example.tinyAspectRatios, Example.newOrthogonalization, Example.env,
      Example.diamondMesh, Example.ofList, Function.update_apply]
    norm_num
  · simp [ComputeWeightsAndRhsOrthogonalizer.raw,
      ComputeWeightsAndRhsOrthogonalizer.rawRow, ComputeWeightsAndRhsOrthogonalizer.edgeBody,
      forRange, Example.tinyAspectRatios, Example.newOrthogonalization, Example.env,
      Example.diamondMesh, Example.ofList, Function.update_apply]
    norm_num [Function.update_apply]

/-- Witness of C7: the interior node of the square with diagonals, with aspect ratio 1
on its four edges; the first weight is `1/4` after the call. -/
theorem C7_witness :
    (ComputeWeightsAndRhsOrthogonalizer Example.env Example.diamondMesh
      Example.unitAspectRatios).wOrthogonalizer 0 0 =
      (ComputeWeightsAndRhsOrthogonalizer.raw Example.env Example.diamondMesh
        Example.unitAspectRatios 0).w 0 / 4 := by
  have h := (C7_orthogonalizer_normalization Example.env Example.diamondMesh
    Example.unitAspectRatios 0 (le_refl _) (by simp [Example.diamondMesh])
    (Or.inl (by simp [Example.diamondMesh, Example.ofList]))).2
    (by rw [Example.unit_raw_sum]; norm_num)
  rw [Example.unit_raw_sum] at h
  exact h.1 0 (le_refl _) (by norm_num [Example.unitAspectRatios])

/-- Counterexample to C7 as stated: the interior node of the square with diagonals
(type 1) with aspect ratio `1e-15` on its four edges has the raw weight sum
`S = 4e-15`, within `1e-14` of zero, and its first weight is `1e-15` on return, not
0. -/
theorem C7_counterexample :
    Example.diamondMesh.nodesTypes 0 = 1 ∧
    |ComputeWeightsAndRhsOrthogonalizer.rowSum Example.tinyAspectRatios
      (ComputeWeightsAndRhsOrthogonalizer.raw Example.env Example.diamondMesh
        Example.tinyAspectRatios 0).w| ≤ 1 / 100000000000000 ∧
    (ComputeWeightsAndRhsOrthogonalizer Example.env Example.diamondMesh
      Example.tinyAspectRatios).wOrthogonalizer 0 0 = 1 / 1000000000000000 ∧
    (ComputeWeightsAndRhsOrthogonalizer Example.env Example.diamondMesh
      Example.tinyAspectRatios).wOrthogonalizer 0 0 ≠ 0 := by
  have hT : Example.diamondMesh.nodesTypes 0 = 1 := by
    simp [Example.diamondMesh, Example.ofList]
  have hS : |ComputeWeightsAndRhsOrthogonalizer.rowSum Example.tinyAspectRatios
      (ComputeWeightsAndRhsOrthogonalizer.raw Example.env Example.diamondMesh
        Example.tinyAspectRatios 0).w| ≤ 1 / 100000000000000 := by
    rw [Example.tiny_raw.1]
    norm_num [abs_of_pos]
  have hrow := (ComputeWeightsAndRhsOrthogonalizer_row Example.env Example.diamondMesh
    Example.tinyAspectRatios 0 (le_refl _) (by simp [Example.diamondMesh]) (Or.inl hT)).1
  have hnorm := (ComputeWeightsAndRhsOrthogonalizer.normalize_cases Example.tinyAspectRatios
    (ComputeWeightsAndRhsOrthogonalizer.raw Example.env Example.diamondMesh
      Example.tinyAspectRatios 0)).1 hS
  have hval : (ComputeWeightsAndRhsOrthogonalizer Example.env Example.diamondMesh
      Example.tinyAspectRatios).wOrthogonalizer 0 0 = 1 / 1000000000000000 := by
    rw [hrow]
    unfold ComputeWeightsAndRhsOrthogonalizer.raw at hnorm
    rw [hnorm]
    exact Example.tiny_raw.2
  refine ⟨hT, hS, hval, ?_⟩
  rw [hval]
  norm_num

/-! ## Smoother operators: the rows of `Az` -/

/-- The loop that fills `m_Az` rewrites the rows `0 .. numTopologyFaces - 1` of the
class of the current node, each from its old contents, and nothing else. -/
theorem ComputeSmootherOperatorsNode.az_rows (env : Env) (mesh : Mesh) (t : Topologies)
    (currentNode : Int) (Az : Int → Int → Int → ℚ) :
    (∀ c : Int, c ≠ t.nodeTopologyMapping currentNode →
      ComputeSmootherOperatorsNode.az env mesh t currentNode Az c = Az c) ∧
    (∀ f : Int,
      ComputeSmootherOperatorsNode.az env mesh t currentNode Az
          (t.nodeTopologyMapping currentNode) f =
        if 0 ≤ f ∧ f < t.numTopologyFaces (t.nodeTopologyMapping currentNode) then
          ComputeSmootherOperatorsNode.azRow env mesh t currentNode f
            (Az (t.nodeTopologyMapping currentNode) f)
        else Az (t.nodeTopologyMapping currentNode) f) := by
  have key : ∀ k : Nat,
      let A := forRange (fun f (A : Int → Int → Int → ℚ) =>
          Function.update A (t.nodeTopologyMapping currentNode)
            (Function.update (A (t.nodeTopologyMapping currentNode)) f
              (ComputeSmootherOperatorsNode.azRow env mesh t currentNode f
                (A (t.nodeTopologyMapping currentNode) f)))) k Az
      (∀ c : Int, c ≠ t.nodeTopologyMapping currentNode → A c = Az c) ∧
      (∀ f : Int, A (t.nodeTopologyMapping currentNode) f =
        if 0 ≤ f ∧ f < (k : Int) then
          ComputeSmootherOperatorsNode.azRow env mesh t currentNode f
            (Az (t.nodeTopologyMapping currentNode) f)
        else Az (t.nodeTopologyMapping currentNode) f) := by
    intro k
    induction k with
    | zero =>
      refine ⟨fun _ _ => rfl, fun f => ?_⟩
      rw [if_neg (by intro h; have := h.2; simp only [Nat.cast_zero] at this; omega)]
      rfl
    | succ k ih =>
      obtain ⟨h1, h2⟩ := ih
      simp only [forRange_succ]
      refine ⟨fun c hc => ?_, fun f => ?_⟩
      · rw [Function.update_noteq hc]
        exact h1 c hc
      · rw [Function.update_same]
        by_cases hf : f = (k : Int)
        · subst hf
          rw [Function.update_same, if_pos (by push_cast; omega), h2, if_neg (by omega)]
        · rw [Function.update_noteq hf, h2]
          by_cases hin : 0 ≤ f ∧ f < (k : Int)
          · rw [if_pos hin, if_pos ⟨hin.1, by push_cast; omega⟩]
          · rw [if_neg hin, if_neg (by push_cast; omega)]
  obtain ⟨h1, h2⟩ := key (t.numTopologyFaces (t.nodeTopologyMapping currentNode)).toNat
  unfold ComputeSmootherOperatorsNode.az
  refine ⟨h1, fun f => ?_⟩
  rw [h2]
  by_cases hin : 0 ≤ f ∧ f < t.numTopologyFaces (t.nodeTopologyMapping currentNode)
  · rw [if_pos hin, if_pos ⟨hin.1, by omega⟩]
  · rw [if_neg hin, if_neg (by omega)]

/-- A row of a missing face, and every row of a corner node, is left as it is. -/
theorem ComputeSmootherOperatorsNode.azRow_skipped (env : Env) (mesh : Mesh) (t : Topologies)
    (currentNode : Int) (f : Int) (row : Int → ℚ)
    (h : t.topologySharedFaces (t.nodeTopologyMapping currentNode) f < 0 ∨
      mesh.nodesTypes currentNode = 3) :
    ComputeSmootherOperatorsNode.azRow env mesh t currentNode f row = row := by
  unfold ComputeSmootherOperatorsNode.azRow
  simp only []
  rw [if_pos h]

/-- Row of a triangle: the three entries written sum to one when they are three
different slots of the row. -/
theorem ComputeSmootherOperatorsNode.azRow_triangle_sum (env : Env) (mesh : Mesh)
    (t : Topologies) (currentNode : Int) (f : Int) (C : Nat)
    (hface : ¬ (t.topologySharedFaces (t.nodeTopologyMapping currentNode) f < 0 ∨
      mesh.nodesTypes currentNode = 3))
    (htri : mesh.numFaceEdges (t.topologySharedFaces (t.nodeTopologyMapping currentNode) f) = 3)
    (p0 pL pR : Int)
    (hp0 : p0 = t.topologyFaceNodeMapping (t.nodeTopologyMapping currentNode) f
      (env.FindIndex
        (mesh.facesNodes (t.topologySharedFaces (t.nodeTopologyMapping currentNode) f))
        currentNode))
    (hpL : pL = t.topologyFaceNodeMapping (t.nodeTopologyMapping currentNode) f
      (env.NextCircularBackwardIndex
        (env.FindIndex
          (mesh.facesNodes (t.topologySharedFaces (t.nodeTopologyMapping currentNode) f))
          currentNode) 3))
    (hpR : pR = t.topologyFaceNodeMapping (t.nodeTopologyMapping currentNode) f
      (env.NextCircularForwardIndex
        (env.FindIndex
          (mesh.facesNodes (t.topologySharedFaces (t.nodeTopologyMapping currentNode) f))
          currentNode) 3))
    (hd1 : p0 ≠ pL) (hd2 : p0 ≠ pR) (hd3 : pL ≠ pR)
    (hr0 : 0 ≤ p0 ∧ p0 < C) (hrL : 0 ≤ pL ∧ pL < C) (hrR : 0 ≤ pR ∧ pR < C) :
    sumRange (ComputeSmootherOperatorsNode.azRow env mesh t currentNode f (fun _ => 0)) C = 1 := by
  unfold ComputeSmootherOperatorsNode.azRow
  simp only []
  rw [if_neg hface, if_pos htri, htri, ← hp0, ← hpL, ← hpR]
  rw [sumRange_update, sumRange_update, sumRange_update, sumRange_zero_fun,
    if_pos hr0, if_pos hrL, if_pos hrR, Function.update_noteq (Ne.symm hd3),
    Function.update_noteq (Ne.symm hd2), Function.update_noteq (Ne.symm hd1)]
  ring

/-- Filling the slots `mapping 0, ..., mapping (M-1)` of a zero row with the value `c`:
when the first `k` of these slots are different slots of the row and the later ones
repeat them, the row sums to `k * c`. -/
theorem ComputeSmootherOperatorsNode.fill_sum (mapping : Int → Int) (c : ℚ) (k : Int) (C M : Nat)
    (hk0 : 0 ≤ k) (hkM : k ≤ M)
    (hrange : ∀ i : Int, 0 ≤ i → i < M → 0 ≤ mapping i ∧ mapping i < C)
    (hinj : ∀ i j : Int, 0 ≤ i → i < k → 0 ≤ j → j < k → mapping i = mapping j → i = j)
    (hstale : ∀ i : Int, k ≤ i → i < M → ∃ j : Int, 0 ≤ j ∧ j < k ∧ mapping i = mapping j) :
    sumRange (forRange (fun i r => Function.update r (mapping i) c) M (fun _ => 0)) C
      = (k : ℚ) * c := by
  have key : ∀ i : Nat, i ≤ M →
      let row := forRange (fun i r => Function.update r (mapping i) c) i (fun _ => (0 : ℚ))
      (∀ x : Int, (∃ j : Int, 0 ≤ j ∧ j < i ∧ mapping j = x) → row x = c) ∧
      (∀ x : Int, (¬ ∃ j : Int, 0 ≤ j ∧ j < i ∧ mapping j = x) → row x = 0) ∧
      (((i : Int) ≤ k → sumRange row C = (i : ℚ) * c) ∧
        (k ≤ (i : Int) → sumRange row C = (k : ℚ) * c)) := by
    intro i
    induction i with
    | zero =>
      intro _
      refine ⟨fun x hx => ?_, fun x _ => rfl, fun _ => ?_, fun h => ?_⟩
      · obtain ⟨j, hj0, hj1, _⟩ := hx
        simp only [Nat.cast_zero] at hj1
        omega
      · rw [forRange_zero, sumRange_zero_fun]; simp
      · have hk : k = 0 := by simp only [Nat.cast_zero] at h; omega
        rw [forRange_zero, sumRange_zero_fun, hk]; simp
    | succ i ih =>
      intro hi
      obtain ⟨ha1, ha0, hb1, hb2⟩ := ih (Nat.le_of_succ_le hi)
      have hiM : (i : Int) < M := by exact_mod_cast hi
      have hi0 : (0 : Int) ≤ i := by positivity
      obtain ⟨hm0, hmC⟩ := hrange i hi0 hiM
      simp only [forRange_succ]
      refine ⟨fun x hx => ?_, fun x hx => ?_, fun hle => ?_, fun hge => ?_⟩
      · by_cases hxm : x = mapping i
        · rw [hxm, Function.update_same]
        · rw [Function.update_noteq hxm]
          obtain ⟨j, hj0, hj1, hj2⟩ := hx
          apply ha1
          refine ⟨j, hj0, ?_, hj2⟩
          have hji : j ≠ i := by
            intro h
            exact hxm (by rw [← hj2, h])
          push_cast at hj1
          omega
      · have hxm : x ≠ mapping i := by
          intro h
          exact hx ⟨i, hi0, by push_cast; omega, h.symm⟩
        rw [Function.update_noteq hxm]
        apply ha0
        rintro ⟨j, hj0, hj1, hj2⟩
        exact hx ⟨j, hj0, by push_cast; omega, hj2⟩
      · have hlt : (i : Int) < k := by push_cast at hle; omega
        have hzero := ha0 (mapping i) (by
          rintro ⟨j, hj0, hj1, hj2⟩
          have := hinj j i hj0 (by omega) hi0 hlt hj2
          omega)
        rw [sumRange_update, if_pos ⟨hm0, hmC⟩, hb1 (le_of_lt hlt), hzero]
        push_cast; ring
      · rcases eq_or_lt_of_le hge with heq | hlt
        · have hik : (i : Int) < k := by push_cast at heq; omega
          have hzero := ha0 (mapping i) (by
            rintro ⟨j, hj0, hj1, hj2⟩
            have := hinj j i hj0 (by omega) hi0 hik hj2
            omega)
          rw [sumRange_update, if_pos ⟨hm0, hmC⟩, hb1 (le_of_lt hik), hzero, heq]
          push_cast; ring
        · have hki : k ≤ (i : Int) := by push_cast at hlt; omega
          obtain ⟨j, hj0, hj1, hj2⟩ := hstale i hki hiM
          have hone := ha1 (mapping i) ⟨j, hj0, by omega, hj2.symm⟩
          rw [sumRange_update, if_pos ⟨hm0, hmC⟩, hb2 hki, hone]
          ring
  exact (key M (le_refl _)).2.2.2 hkM

/-- Row of a face that is not a triangle: the entries written sum to one when the
first `numFaceNodes` slots named by the mapping row are different slots of the row and
the remaining entries of the mapping row name slots among them. -/
theorem ComputeSmootherOperatorsNode.azRow_polygon_sum (env : Env) (mesh : Mesh)
    (t : Topologies) (currentNode : Int) (f : Int) (C : Nat)
    (hface : ¬ (t.topologySharedFaces (t.nodeTopologyMapping currentNode) f < 0 ∨
      mesh.nodesTypes currentNode = 3))
    (hnot3 : mesh.numFaceEdges (t.topologySharedFaces (t.nodeTopologyMapping currentNode) f) ≠ 3)
    (hk0 : 0 < mesh.numFaceEdges (t.topologySharedFaces (t.nodeTopologyMapping currentNode) f))
    (hkM : mesh.numFaceEdges (t.topologySharedFaces (t.nodeTopologyMapping currentNode) f)
      ≤ env.maximumNumberOfNodesPerFace)
    (hrange : ∀ i : Int, 0 ≤ i → i < env.maximumNumberOfNodesPerFace →
      0 ≤ t.topologyFaceNodeMapping (t.nodeTopologyMapping currentNode) f i ∧
      t.topologyFaceNodeMapping (t.nodeTopologyMapping currentNode) f i < C)
    (hinj : ∀ i j : Int, 0 ≤ i →
      i < mesh.numFaceEdges (t.topologySharedFaces (t.nodeTopologyMapping currentNode) f) →
      0 ≤ j →
      j < mesh.numFaceEdges (t.topologySharedFaces (t.nodeTopologyMapping currentNode) f) →
      t.topologyFaceNodeMapping (t.nodeTopologyMapping currentNode) f i =
        t.topologyFaceNodeMapping (t.nodeTopologyMapping currentNode) f j → i = j)
    (hstale : ∀ i : Int,
      mesh.numFaceEdges (t.topologySharedFaces (t.nodeTopologyMapping currentNode) f) ≤ i →
      i < env.maximumNumberOfNodesPerFace →
      ∃ j : Int, 0 ≤ j ∧
        j < mesh.numFaceEdges (t.topologySharedFaces (t.nodeTopologyMapping currentNode) f) ∧
        t.topologyFaceNodeMapping (t.nodeTopologyMapping currentNode) f i =
          t.topologyFaceNodeMapping (t.nodeTopologyMapping currentNode) f j) :
    sumRange (ComputeSmootherOperatorsNode.azRow env mesh t currentNode f (fun _ => 0)) C = 1 := by
  unfold ComputeSmootherOperatorsNode.azRow
  simp only []
  rw [if_neg hface, if_neg hnot3,
    ComputeSmootherOperatorsNode.fill_sum _ _ _ C _ (le_of_lt hk0) hkM hrange hinj hstale]
  have : ((mesh.numFaceEdges
      (t.topologySharedFaces (t.nodeTopologyMapping currentNode) f) : Int) : ℚ) ≠ 0 := by
    exact_mod_cast (ne_of_gt hk0)
  field_simp

/-- After a successful `ComputeSmootherOperators`, the rows of `Az` of a class are
those computed, from zero rows, for the first node of the class. -/
theorem ComputeSmootherOperators_az (env : Env) (mesh : Mesh) (s : Smoother)
    (hsucc : (ComputeSmootherOperators env mesh s).1 = true)
    (n : Int) (hn0 : 0 ≤ n) (hnN : n < mesh.numNodes)
    (hfirst : ∀ m : Int, 0 ≤ m → m < n →
      s.topologies.nodeTopologyMapping m ≠ s.topologies.nodeTopologyMapping n)
    (f : Int) :
    (ComputeSmootherOperators env mesh s).2.Az (s.topologies.nodeTopologyMapping n) f =
      if 0 ≤ f ∧ f < s.topologies.numTopologyFaces (s.topologies.nodeTopologyMapping n) then
        ComputeSmootherOperatorsNode.azRow env mesh s.topologies n f (fun _ => 0)
      else fun _ => 0 := by
  have key : ∀ k : Nat,
      let st := forRange (ComputeSmootherOperators.nodeBody env mesh) k
        { isNewTopology := fun _ => true, successful := true, smoother := s }
      st.smoother.topologies = s.topologies ∧
      (∀ c : Int, st.isNewTopology c = true ↔
        ∀ m : Int, 0 ≤ m → m < k → s.topologies.nodeTopologyMapping m ≠ c) ∧
      (st.successful = true → ∀ m : Int, 0 ≤ m → m < k →
        (∀ m1 : Int, 0 ≤ m1 → m1 < m →
          s.topologies.nodeTopologyMapping m1 ≠ s.topologies.nodeTopologyMapping m) →
        ∀ g : Int, st.smoother.Az (s.topologies.nodeTopologyMapping m) g =
          if 0 ≤ g ∧ g < s.topologies.numTopologyFaces (s.topologies.nodeTopologyMapping m) then
            ComputeSmootherOperatorsNode.azRow env mesh s.topologies m g (fun _ => 0)
          else fun _ => 0) := by
    intro k
    induction k with
    | zero =>
      refine ⟨rfl, fun c => ⟨fun _ m h0 h1 => ?_, fun _ => rfl⟩, fun _ m h0 h1 => ?_⟩
      · simp only [Nat.cast_zero] at h1; omega
      · simp only [Nat.cast_zero] at h1; omega
    | succ k ih =>
      obtain ⟨i1, i2, i3⟩ := ih
      simp only [forRange_succ]
      generalize forRange (ComputeSmootherOperators.nodeBody env mesh) k
        { isNewTopology := fun _ => true, successful := true, smoother := s } = st at i1 i2 i3
      unfold ComputeSmootherOperators.nodeBody
      simp only []
      rw [i1]
      by_cases hnew : st.isNewTopology (s.topologies.nodeTopologyMapping k) = true
      · rw [if_pos hnew]
        have hk_first := (i2 _).mp hnew
        have hi2 : ∀ c : Int,
            Function.update st.isNewTopology (s.topologies.nodeTopologyMapping k) false c = true ↔
            ∀ m : Int, 0 ≤ m → m < ((k + 1 : Nat) : Int) →
              s.topologies.nodeTopologyMapping m ≠ c := by
          intro c
          by_cases hc : c = s.topologies.nodeTopologyMapping k
          · subst hc
            rw [Function.update_same]
            constructor
            · intro h; exact absurd h (by simp)
            · intro h
              exact absurd rfl (h k (by positivity) (by push_cast; omega))
          · rw [Function.update_noteq hc, i2]
            constructor
            · intro h m h0 h1
              by_cases hmk : m = k
              · rw [hmk]; exact Ne.symm hc
              · exact h m h0 (by push_cast at h1; omega)
            · intro h m h0 h1
              exact h m h0 (by push_cast; omega)
        by_cases hs : st.successful = true
        · rw [if_pos hs]
          refine ⟨i1, hi2, ?_⟩
          intro _ m hm0 hm1 hmfirst g
          obtain ⟨a1, a2⟩ := ComputeSmootherOperatorsNode.az_rows env mesh s.topologies (k : Int)
            (Function.update st.smoother.Az (s.topologies.nodeTopologyMapping k) (fun _ _ => 0))
          show ComputeSmootherOperatorsNode.az env mesh
              (AllocateSmootherNodeOperators (s.topologies.nodeTopologyMapping k)
                st.smoother).topologies (k : Int)
              (AllocateSmootherNodeOperators (s.topologies.nodeTopologyMapping k)
                st.smoother).Az (s.topologies.nodeTopologyMapping m) g = _
          have hT : (AllocateSmootherNodeOperators (s.topologies.nodeTopologyMapping k)
              st.smoother).topologies = s.topologies := i1
          have hA : (AllocateSmootherNodeOperators (s.topologies.nodeTopologyMapping k)
              st.smoother).Az =
              Function.update st.smoother.Az (s.topologies.nodeTopologyMapping k)
                (fun _ _ => 0) := rfl
          rw [hT, hA]
          by_cases hmk : m = k
          · subst hmk
            rw [a2 g, Function.update_same]
          · have hm1k : m < (k : Int) := by push_cast at hm1; omega
            have hne : s.topologies.nodeTopologyMapping m ≠ s.topologies.nodeTopologyMapping k :=
              hk_first m hm0 hm1k
            rw [a1 _ hne, Function.update_noteq hne]
            exact i3 hs m hm0 hm1k hmfirst g
        · rw [if_neg hs]
          exact ⟨i1, hi2, fun h => absurd h hs⟩
      · rw [if_neg hnew]
        refine ⟨i1, ?_, ?_⟩
        · intro c
          rw [i2]
          constructor
          · intro h m h0 h1
            by_cases hmk : m = k
            · intro hc
              apply hnew
              rw [i2]
              rw [hmk] at hc
              rw [hc]
              exact fun m1 h10 h11 => h m1 h10 h11
            · exact h m h0 (by push_cast at h1; omega)
          · intro h m h0 h1
            exact h m h0 (by push_cast; omega)
        · intro hs m hm0 hm1 hmfirst g
          by_cases hmk : m = k
          · exfalso
            apply hnew
            rw [i2]
            intro m1 h10 h11
            rw [hmk] at hmfirst
            exact hmfirst m1 h10 h11
          · exact i3 hs m hm0 (by push_cast at hm1; omega) hmfirst g
  obtain ⟨_, _, k3⟩ := key mesh.numNodes
  exact k3 hsucc n hn0 hnN hfirst f

/-! ## Claims on the smoother operators -/

/-- C8 (amended): after a successful `ComputeSmootherOperators`, take a class, the
first node `n` that maps to it and a face row `f` of the class. If the face of the row
is present, `n` is not a corner node (type 3) and the face-node mapping of the row is
well formed, the entries of `Az[t][f]` sum to exactly 1. If the face is missing or `n`
is a corner node, every entry of the row is zero. Well formed, `RowWellFormed`, is: for
a triangle, the mapping gives the node and its two neighbours in the face three
different entries of the row; for another face, the first `numFaceNodes` entries of
the mapping row are different entries of the row, and the remaining entries of the
mapping row, which line 700 reads as well, up to `maximumNumberOfNodesPerFace`, name
entries among them and not, as after a face with more nodes, a further entry. -/
theorem C8_az_rows_sum_to_one (env : Env) (mesh : Mesh) (s : Smoother)
    (hsucc : (ComputeSmootherOperators env mesh s).1 = true)
    (n : Int) (hn0 : 0 ≤ n) (hnN : n < mesh.numNodes)
    (hfirst : ∀ m : Int, 0 ≤ m → m < n →
      s.topologies.nodeTopologyMapping m ≠ s.topologies.nodeTopologyMapping n)
    (f : Int) (hf0 : 0 ≤ f)
    (hfF : f < s.topologies.numTopologyFaces (s.topologies.nodeTopologyMapping n)) :
    (¬ (s.topologies.topologySharedFaces (s.topologies.nodeTopologyMapping n) f < 0 ∨
        mesh.nodesTypes n = 3) →
      ComputeSmootherOperatorsNode.RowWellFormed env mesh s.topologies n f
        (s.topologies.numTopologyNodes (s.topologies.nodeTopologyMapping n)).toNat →
      sumRange ((ComputeSmootherOperators env mesh s).2.Az
          (s.topologies.nodeTopologyMapping n) f)
        (s.topologies.numTopologyNodes (s.topologies.nodeTopologyMapping n)).toNat = 1) ∧
    ((s.topologies.topologySharedFaces (s.topologies.nodeTopologyMapping n) f < 0 ∨
        mesh.nodesTypes n = 3) →
      ∀ j : Int, (ComputeSmootherOperators env mesh s).2.Az
        (s.topologies.nodeTopologyMapping n) f j = 0) := by
  rw [ComputeSmootherOperators_az env mesh s hsucc n hn0 hnN hfirst f, if_pos ⟨hf0, hfF⟩]
  constructor
  · intro hface hwf
    unfold ComputeSmootherOperatorsNode.RowWellFormed at hwf
    simp only [] at hwf
    by_cases htri : mesh.numFaceEdges
        (s.topologies.topologySharedFaces (s.topologies.nodeTopologyMapping n) f) = 3
    · rw [if_pos htri] at hwf
      obtain ⟨d1, d2, d3, r0, rL, rR⟩ := hwf
      exact ComputeSmootherOperatorsNode.azRow_triangle_sum env mesh s.topologies n f _
        hface htri _ _ _ rfl rfl rfl d1 d2 d3 r0 rL rR
    · rw [if_neg htri] at hwf
      obtain ⟨hk0, hkM, hrange, hinj, hstale⟩ := hwf
      exact ComputeSmootherOperatorsNode.azRow_polygon_sum env mesh s.topologies n f _
        hface htri hk0 hkM hrange hinj hstale
  · intro hskip j
    rw [ComputeSmootherOperatorsNode.azRow_skipped env mesh s.topologies n f _ hskip]

/-- C8, instance: on `boundaryMesh`, row 1 of the class of the rim nodes, computed
from the boundary node 1 and the triangle `0, 1, 2`, sums to 1. -/
theorem C8_witness :
    sumRange ((ComputeSmootherOperators Example.env Example.boundaryMesh
      Example.boundarySmoother).2.Az 1 1) 4 = 1 := by
  have h := (C8_az_rows_sum_to_one Example.env Example.boundaryMesh Example.boundarySmoother
    (Example.env_operators_succeed _ _) 1 (by norm_num)
    (by simp [Example.boundaryMesh, Example.diamondMesh])
    (by
      intro m h0 h1
      have hm : m = 0 := by omega
      subst hm
      simp [Example.boundarySmoother, Example.ofList])
    1 (by norm_num) (by simp [Example.boundarySmoother, Example.ofList])).1
    (by simp [Example.boundarySmoother, Example.boundaryMesh, Example.ofList])
    (by
      unfold ComputeSmootherOperatorsNode.RowWellFormed
      simp [Example.boundarySmoother, Example.boundaryMesh, Example.diamondMesh,
        Example.env, Example.findIndex, Example.nextCircularBackwardIndex,
        Example.nextCircularForwardIndex, Example.ofList])
  simpa [Example.boundarySmoother, Example.ofList] using h

/-! ## Topology classes: what `SaveSmootherNodeTopologyIfNeeded` records -/

/-- When the comparison loop leaves the flag unset, every compared angle of the caches
is within the tolerance of the angle of the class. -/
theorem SaveSmootherNodeTopologyIfNeeded.anglesDiffer_false (env : Env) (c : SmootherCaches)
    (t : Topologies) (numConnectedNodes topo : Int)
    (h : SaveSmootherNodeTopologyIfNeeded.anglesDiffer env c t numConnectedNodes topo = false)
    (i : Int) (hi1 : 1 ≤ i) (hiC : i < numConnectedNodes) :
    |env.atan2 (c.etaCache i) (c.xiCache i) -
      env.atan2 (t.topologyEta topo i) (t.topologyXi topo i)| ≤ env.thetaTolerance := by
  unfold SaveSmootherNodeTopologyIfNeeded.anglesDiffer at h
  have key : ∀ k : Nat,
      forRange (fun j isNewTopology =>
        isNewTopology || decide (|env.atan2 (c.etaCache (j + 1)) (c.xiCache (j + 1)) -
          env.atan2 (t.topologyEta topo (j + 1)) (t.topologyXi topo (j + 1))| >
            env.thetaTolerance)) k false = false →
      ∀ j : Nat, j < k →
        |env.atan2 (c.etaCache ((j : Int) + 1)) (c.xiCache ((j : Int) + 1)) -
          env.atan2 (t.topologyEta topo ((j : Int) + 1)) (t.topologyXi topo ((j : Int) + 1))| ≤
            env.thetaTolerance := by
    intro k
    induction k with
    | zero => intro _ j hj; omega
    | succ k ih =>
      intro hk j hj
      rw [forRange_succ] at hk
      simp only [Bool.or_eq_false_iff, decide_eq_false_iff_not, not_lt] at hk
      by_cases hjk : j = k
      · subst hjk; exact hk.2
      · exact ih hk.1 j (by omega)
  have hj := key _ h (i - 1).toNat (by omega)
  have hcast : (((i - 1).toNat : Nat) : Int) + 1 = i := by omega
  rw [hcast] at hj
  exact hj

/-- What one call of `SaveSmootherNodeTopologyIfNeeded` does to the class tables:
the records of the existing classes and the classes of the other nodes are kept, and
the node is mapped to a class with its number of connected nodes whose recorded angles
are within the tolerance of the cached ones. -/
theorem SaveSmootherNodeTopologyIfNeeded_spec (env : Env) (c : SmootherCaches)
    (t : Topologies) (currentNode numSharedFaces numConnectedNodes : Int)
    (htol : 0 ≤ env.thetaTolerance) :
    t.numTopologies ≤
      (SaveSmootherNodeTopologyIfNeeded env c t currentNode numSharedFaces
        numConnectedNodes).numTopologies ∧
    (∀ q : Int, q < t.numTopologies →
      (SaveSmootherNodeTopologyIfNeeded env c t currentNode numSharedFaces
        numConnectedNodes).numTopologyNodes q = t.numTopologyNodes q ∧
      (SaveSmootherNodeTopologyIfNeeded env c t currentNode numSharedFaces
        numConnectedNodes).topologyXi q = t.topologyXi q ∧
      (SaveSmootherNodeTopologyIfNeeded env c t currentNode numSharedFaces
        numConnectedNodes).topologyEta q = t.topologyEta q) ∧
    (∀ m : Int, m ≠ currentNode →
      (SaveSmootherNodeTopologyIfNeeded env c t currentNode numSharedFaces
        numConnectedNodes).nodeTopologyMapping m = t.nodeTopologyMapping m) ∧
    ((SaveSmootherNodeTopologyIfNeeded env c t currentNode numSharedFaces
        numConnectedNodes).nodeTopologyMapping currentNode <
      (SaveSmootherNodeTopologyIfNeeded env c t currentNode numSharedFaces
        numConnectedNodes).numTopologies) ∧
    (SaveSmootherNodeTopologyIfNeeded env c t currentNode numSharedFaces
        numConnectedNodes).numTopologyNodes
      ((SaveSmootherNodeTopologyIfNeeded env c t currentNode numSharedFaces
        numConnectedNodes).nodeTopologyMapping currentNode) = numConnectedNodes ∧
    (∀ i : Int, 1 ≤ i → i < numConnectedNodes →
      |env.atan2 (c.etaCache i) (c.xiCache i) -
        env.atan2
          ((SaveSmootherNodeTopologyIfNeeded env c t currentNode numSharedFaces
            numConnectedNodes).topologyEta
            ((SaveSmootherNodeTopologyIfNeeded env c t currentNode numSharedFaces
              numConnectedNodes).nodeTopologyMapping currentNode) i)
          ((SaveSmootherNodeTopologyIfNeeded env c t currentNode numSharedFaces
            numConnectedNodes).topologyXi
            ((SaveSmootherNodeTopologyIfNeeded env c t currentNode numSharedFaces
              numConnectedNodes).nodeTopologyMapping currentNode) i)| ≤
        env.thetaTolerance) := by
  have hscan := forRange_invariant
    (fun st : SaveSmootherNodeTopologyIfNeeded.Scan =>
      (st.stopped = false → st.isNewTopology = true ∧
        st.nodeTopologyMapping = t.nodeTopologyMapping) ∧
      (st.stopped = true → st.isNewTopology = false ∧
        ∃ topo : Int, topo < t.numTopologies ∧
          st.nodeTopologyMapping = Function.update t.nodeTopologyMapping currentNode topo ∧
          numConnectedNodes = t.numTopologyNodes topo ∧
          SaveSmootherNodeTopologyIfNeeded.anglesDiffer env c t numConnectedNodes topo = false))
    (SaveSmootherNodeTopologyIfNeeded.scanBody env c t currentNode numSharedFaces
      numConnectedNodes)
    t.numTopologies
    { isNewTopology := true, stopped := false, nodeTopologyMapping := t.nodeTopologyMapping }
    ⟨fun _ => ⟨rfl, rfl⟩, fun h => absurd h (by simp)⟩
    (by
      intro i hi st hst
      unfold SaveSmootherNodeTopologyIfNeeded.scanBody
      by_cases hstop : st.stopped = true
      · rw [if_pos hstop]; exact hst
      · rw [if_neg hstop]
        have hstop2 : st.stopped = false := by simpa using hstop
        by_cases hcount : numSharedFaces ≠ t.numTopologyFaces i ∨
            numConnectedNodes ≠ t.numTopologyNodes i
        · rw [if_pos hcount]; exact hst
        · rw [if_neg hcount]
          by_cases hang : SaveSmootherNodeTopologyIfNeeded.anglesDiffer env c t
              numConnectedNodes i = true
          · rw [if_pos hang]
            exact ⟨fun _ => ⟨rfl, (hst.1 hstop2).2⟩, fun h => absurd h hstop⟩
          · rw [if_neg hang]
            have hang2 : SaveSmootherNodeTopologyIfNeeded.anglesDiffer env c t
                numConnectedNodes i = false := by simpa using hang
            refine ⟨fun h => absurd h (by simp), fun _ => ⟨rfl, (i : Int), ?_, ?_, ?_, hang2⟩⟩
            · exact_mod_cast hi
            · show Function.update st.nodeTopologyMapping currentNode (i : Int) = _
              rw [(hst.1 hstop2).2]
            · by_contra hne
              exact hcount (Or.inr hne))
  unfold SaveSmootherNodeTopologyIfNeeded
  simp only []
  generalize forRange (SaveSmootherNodeTopologyIfNeeded.scanBody env c t currentNode
    numSharedFaces numConnectedNodes) t.numTopologies
    { isNewTopology := true, stopped := false, nodeTopologyMapping := t.nodeTopologyMapping }
    = st at hscan
  have hidx : (((t.numTopologies + 1 : Nat)) : Int) - 1 = (t.numTopologies : Int) := by
    push_cast; ring
  by_cases hnew : st.isNewTopology = true
  · rw [if_pos hnew, hidx]
    have hstop : st.stopped = false := by
      by_contra hs
      have hs2 : st.stopped = true := by simpa using hs
      have := (hscan.2 hs2).1
      rw [this] at hnew
      exact absurd hnew (by simp)
    have hmap := (hscan.1 hstop).2
    refine ⟨Nat.le_succ _, ?_, ?_, ?_, ?_, ?_⟩
    · intro q hq
      have hne : q ≠ (t.numTopologies : Int) := ne_of_lt hq
      exact ⟨Function.update_noteq hne _ _, Function.update_noteq hne _ _,
        Function.update_noteq hne _ _⟩
    · intro m hm
      show Function.update st.nodeTopologyMapping currentNode _ m = _
      rw [Function.update_noteq hm, hmap]
    · show Function.update st.nodeTopologyMapping currentNode _ currentNode < _
      rw [Function.update_same]
      push_cast; omega
    · show Function.update t.numTopologyNodes _ _
        (Function.update st.nodeTopologyMapping currentNode _ currentNode) = _
      rw [Function.update_same, Function.update_same]
    · intro i _ _
      show |_ - env.atan2
        (Function.update t.topologyEta _ _
          (Function.update st.nodeTopologyMapping currentNode _ currentNode) i)
        (Function.update t.topologyXi _ _
          (Function.update st.nodeTopologyMapping currentNode _ currentNode) i)| ≤ _
      rw [Function.update_same, Function.update_same, Function.update_same, sub_self, abs_zero]
      exact htol
  · rw [if_neg hnew]
    have hnew2 : st.isNewTopology = false := by simpa using hnew
    have hstop : st.stopped = true := by
      by_contra hs
      have hs2 : st.stopped = false := by simpa using hs
      have := (hscan.1 hs2).1
      rw [this] at hnew2
      exact absurd hnew2 (by simp)
    obtain ⟨_, topo, htopo, hmap, hC, hang⟩ := hscan.2 hstop
    refine ⟨le_refl _, fun q _ => ⟨rfl, rfl, rfl⟩, ?_, ?_, ?_, ?_⟩
    · intro m hm
      show st.nodeTopologyMapping m = _
      rw [hmap, Function.update_noteq hm]
    · show st.nodeTopologyMapping currentNode < _
      rw [hmap, Function.update_same]
      exact htopo
    · show t.numTopologyNodes (st.nodeTopologyMapping currentNode) = _
      rw [hmap, Function.update_same, hC]
    · intro i hi1 hiC
      show |_ - env.atan2 (t.topologyEta (st.nodeTopologyMapping currentNode) i)
        (t.topologyXi (st.nodeTopologyMapping currentNode) i)| ≤ _
      rw [hmap, Function.update_same]
      exact SaveSmootherNodeTopologyIfNeeded.anglesDiffer_false env c t numConnectedNodes topo
        hang i hi1 hiC

/-- An iteration of the loop of `ComputeSmootherTopologies` that ends successful
started successful and stored the topology of its node from the caches it leaves. -/
theorem ComputeSmootherTopologies.nodeBody_spec (env : Env) (mesh : Mesh) (n : Int)
    (st : Bool × Smoother) (h : (ComputeSmootherTopologies.nodeBody env mesh n st).1 = true) :
    st.1 = true ∧ ∃ F C : Int,
      (ComputeSmootherTopologies.nodeBody env mesh n st).2.topologies =
        SaveSmootherNodeTopologyIfNeeded env
          (ComputeSmootherTopologies.nodeBody env mesh n st).2.caches st.2.topologies n F C := by
  unfold ComputeSmootherTopologies.nodeBody at h ⊢
  simp only [] at h ⊢
  by_cases h0 : st.1 = false
  · rw [if_pos h0] at h
    rw [h0] at h
    exact absurd h (by simp)
  · rw [if_neg h0] at h ⊢
    refine ⟨by simpa using h0, ?_⟩
    by_cases h1 : (env.SmootherNodeAdministration mesh n 0 0
        { st.2.caches with
          sharedFacesCache := fun _ => -1
          connectedNodesCache := fun _ => 0 }).1 = false
    · rw [if_pos h1] at h
      exact absurd h (by simp)
    · rw [if_neg h1] at h ⊢
      split at h
      · exact absurd h (by simp)
      · rename_i h2
        rw [if_neg h2]
        exact ⟨_, _, rfl⟩

/-- Invariant of the loop of `ComputeSmootherTopologies`: every node seen so far is
mapped to an existing class, and its angles are within the tolerance of those recorded
for the class. -/
theorem ComputeSmootherTopologies.loop_spec (env : Env) (mesh : Mesh) (s : Smoother)
    (htol : 0 ≤ env.thetaTolerance) (k : Nat)
    (hk : (forRange (ComputeSmootherTopologies.nodeBody env mesh) k
      (true, InitializeSmoother s)).1 = true)
    (m : Nat) (hm : m < k) :
    (forRange (ComputeSmootherTopologies.nodeBody env mesh) k
        (true, InitializeSmoother s)).2.topologies.nodeTopologyMapping m <
      (forRange (ComputeSmootherTopologies.nodeBody env mesh) k
        (true, InitializeSmoother s)).2.topologies.numTopologies ∧
    ∀ i : Int, 1 ≤ i →
      i < (forRange (ComputeSmootherTopologies.nodeBody env mesh) k
        (true, InitializeSmoother s)).2.topologies.numTopologyNodes
          ((forRange (ComputeSmootherTopologies.nodeBody env mesh) k
            (true, InitializeSmoother s)).2.topologies.nodeTopologyMapping m) →
      |ComputeSmootherTopologies.localAngle env mesh s m i -
        env.atan2
          ((forRange (ComputeSmootherTopologies.nodeBody env mesh) k
            (true, InitializeSmoother s)).2.topologies.topologyEta
              ((forRange (ComputeSmootherTopologies.nodeBody env mesh) k
                (true, InitializeSmoother s)).2.topologies.nodeTopologyMapping m) i)
          ((forRange (ComputeSmootherTopologies.nodeBody env mesh) k
            (true, InitializeSmoother s)).2.topologies.topologyXi
              ((forRange (ComputeSmootherTopologies.nodeBody env mesh) k
                (true, InitializeSmoother s)).2.topologies.nodeTopologyMapping m) i)| ≤
        env.thetaTolerance := by
  induction k with
  | zero => omega
  | succ k ih =>
    have hloc : ∀ i : Int, ComputeSmootherTopologies.localAngle env mesh s k i =
        env.atan2
          ((forRange (ComputeSmootherTopologies.nodeBody env mesh) (k + 1)
            (true, InitializeSmoother s)).2.caches.etaCache i)
          ((forRange (ComputeSmootherTopologies.nodeBody env mesh) (k + 1)
            (true, InitializeSmoother s)).2.caches.xiCache i) := fun _ => rfl
    rw [forRange_succ] at hk hloc ⊢
    obtain ⟨hprev, F, C, hT⟩ := ComputeSmootherTopologies.nodeBody_spec env mesh _ _ hk
    obtain ⟨s1, s2, s3, s4, s5, s6⟩ := SaveSmootherNodeTopologyIfNeeded_spec env
      (ComputeSmootherTopologies.nodeBody env mesh (k : Int)
        (forRange (ComputeSmootherTopologies.nodeBody env mesh) k
          (true, InitializeSmoother s))).2.caches
      (forRange (ComputeSmootherTopologies.nodeBody env mesh) k
        (true, InitializeSmoother s)).2.topologies (k : Int) F C htol
    rw [← hT] at s1 s2 s3 s4 s5 s6
    by_cases hmk : m = k
    · subst hmk
      refine ⟨s4, ?_⟩
      intro i hi1 hiC
      rw [s5] at hiC
      rw [hloc]
      exact s6 i hi1 hiC
    · have hmlt : m < k := by omega
      obtain ⟨i1, i2⟩ := ih hprev hmlt
      have hne : (m : Int) ≠ (k : Int) := by exact_mod_cast hmk
      rw [s3 _ hne]
      obtain ⟨r1, r2, r3⟩ := s2 _ i1
      refine ⟨lt_of_lt_of_le i1 (by exact_mod_cast s1), ?_⟩
      intro i hi1 hiC
      rw [r1] at hiC
      rw [r2, r3]
      exact i2 i hi1 hiC

/-! ## Topology classes: members of one class -/

/-- After a successful `ComputeSmootherTopologies` with a non-negative tolerance, any
two nodes mapped to the same topology class have, for every connected-node index
`i >= 1` of the class, local angles `atan2(eta_i, xi_i)` that differ by at most twice
the tolerance: each is within the tolerance of the angle recorded for the class, with
which alone `SaveSmootherNodeTopologyIfNeeded` compares it. -/
theorem ComputeSmootherTopologies_angles_within_twice_tolerance (env : Env) (mesh : Mesh) (s : Smoother)
    (htol : 0 ≤ env.thetaTolerance)
    (hsucc : (ComputeSmootherTopologies env mesh s).1 = true)
    (a b : Nat) (ha : a < mesh.numNodes) (hb : b < mesh.numNodes)
    (hsame : (ComputeSmootherTopologies env mesh s).2.topologies.nodeTopologyMapping a =
      (ComputeSmootherTopologies env mesh s).2.topologies.nodeTopologyMapping b)
    (i : Int) (hi1 : 1 ≤ i)
    (hiC : i < (ComputeSmootherTopologies env mesh s).2.topologies.numTopologyNodes
      ((ComputeSmootherTopologies env mesh s).2.topologies.nodeTopologyMapping a)) :
    |ComputeSmootherTopologies.localAngle env mesh s a i -
      ComputeSmootherTopologies.localAngle env mesh s b i| ≤ 2 * env.thetaTolerance := by
  have hfin : (ComputeSmootherTopologies env mesh s).2 =
      (forRange (ComputeSmootherTopologies.nodeBody env mesh) mesh.numNodes
        (true, InitializeSmoother s)).2 := by
    unfold ComputeSmootherTopologies
    simp only []
    split <;> rfl
  have hrun : (forRange (ComputeSmootherTopologies.nodeBody env mesh) mesh.numNodes
      (true, InitializeSmoother s)).1 = true := by
    unfold ComputeSmootherTopologies at hsucc
    simp only [] at hsucc
    split at hsucc
    · exact absurd hsucc (by simp)
    · rename_i hne
      simpa using hne
  rw [hfin] at hsame hiC
  obtain ⟨_, ka⟩ := ComputeSmootherTopologies.loop_spec env mesh s htol _ hrun a ha
  obtain ⟨_, kb⟩ := ComputeSmootherTopologies.loop_spec env mesh s htol _ hrun b hb
  have ea := ka i hi1 hiC
  rw [hsame] at hiC ea
  have eb := kb i hi1 hiC
  have htri := abs_sub_le (ComputeSmootherTopologies.localAngle env mesh s a i)
    (env.atan2
      ((forRange (ComputeSmootherTopologies.nodeBody env mesh) mesh.numNodes
        (true, InitializeSmoother s)).2.topologies.topologyEta
          ((forRange (ComputeSmootherTopologies.nodeBody env mesh) mesh.numNodes
            (true, InitializeSmoother s)).2.topologies.nodeTopologyMapping b) i)
      ((forRange (ComputeSmootherTopologies.nodeBody env mesh) mesh.numNodes
        (true, InitializeSmoother s)).2.topologies.topologyXi
          ((forRange (ComputeSmootherTopologies.nodeBody env mesh) mesh.numNodes
            (true, InitializeSmoother s)).2.topologies.nodeTopologyMapping b) i))
    (ComputeSmootherTopologies.localAngle env mesh s b i)
  rw [abs_sub_comm] at eb
  linarith

/-- The run of `ComputeSmootherTopologies` on `squareMesh` with the parameters
`cornerEnv`: it succeeds, node 0 opens class 0 with four connected nodes, and nodes 1
and 2 join class 0. -/
theorem Example.corner_run :
    (ComputeSmootherTopologies Example.cornerEnv Example.squareMesh Example.newSmoother).1
      = true ∧
    (ComputeSmootherTopologies Example.cornerEnv Example.squareMesh
      Example.newSmoother).2.topologies.nodeTopologyMapping 1 = 0 ∧
    (ComputeSmootherTopologies Example.cornerEnv Example.squareMesh
      Example.newSmoother).2.topologies.nodeTopologyMapping 2 = 0 ∧
    (ComputeSmootherTopologies Example.cornerEnv Example.squareMesh
      Example.newSmoother).2.topologies.numTopologyNodes 0 = 4 := by
  norm_num [ComputeSmootherTopologies, Example.squareMesh, forRange,
    ComputeSmootherTopologies.nodeBody, Example.cornerEnv, Example.env,
    InitializeSmoother, SaveSmootherNodeTopologyIfNeeded,
    SaveSmootherNodeTopologyIfNeeded.scanBody, SaveSmootherNodeTopologyIfNeeded.anglesDiffer,
    Example.ofList, Function.update_apply, lt_abs,
    show Int.toNat 2 = 2 from rfl, show Int.toNat 3 = 3 from rfl]

/-- In the run on `squareMesh` with the parameters `cornerEnv`, nodes 1 and 2 are in
one class and their angles at index 1 differ by at most twice the tolerance. -/
theorem Example.corner_angles :
    |ComputeSmootherTopologies.localAngle Example.cornerEnv Example.squareMesh
        Example.newSmoother 1 1 -
      ComputeSmootherTopologies.localAngle Example.cornerEnv Example.squareMesh
        Example.newSmoother 2 1| ≤ 2 * Example.cornerEnv.thetaTolerance :=
  ComputeSmootherTopologies_angles_within_twice_tolerance Example.cornerEnv Example.squareMesh
    Example.newSmoother (by norm_num [Example.cornerEnv, Example.env]) Example.corner_run.1
    1 2 (by simp [Example.squareMesh]) (by simp [Example.squareMesh])
    (by
      simp only [Nat.cast_one, Nat.cast_ofNat]
      rw [Example.corner_run.2.1, Example.corner_run.2.2.1])
    1 (le_refl _)
    (by
      simp only [Nat.cast_one]
      rw [Example.corner_run.2.1, Example.corner_run.2.2.2]
      norm_num)

/-! ## Claims on the aspect ratios -/

/-- The first loop of `AspectRatio` on `loopMesh`: the self-loop edge 0 keeps the
length 0 and the missing flow length; the other edges have the lengths 3, 4, 5 and
the flow lengths 4, 3, 0. -/
theorem Example.loop_edges (a : Int → ℚ) :
    forRange (AspectRatio.edgeBody Example.env Example.loopMeshAfterSet) 4
      { averageEdgesLength := fun _ _ => -999
        averageFlowEdgesLength := fun _ => -999
        curvilinearGridIndicator := fun _ => true
        edgesLength := fun _ => 0
        aspectRatios := a } =
      { averageEdgesLength := fun _ _ => -999
        averageFlowEdgesLength :=
          Function.update (Function.update (Function.update (fun _ => -999) 1 4) 2 3) 3 0
        curvilinearGridIndicator := fun _ => true
        edgesLength := Function.update (Function.update (Function.update (fun _ => 0) 1 3) 2 4) 3 5
        aspectRatios := a } := by
  have h9 : Rat.sqrt 9 = 3 := by
    rw [show (9 : ℚ) = 3 * 3 by norm_num, Rat.sqrt_eq]; norm_num
  have h16 : Rat.sqrt 16 = 4 := by
    rw [show (16 : ℚ) = 4 * 4 by norm_num, Rat.sqrt_eq]; norm_num
  have h25 : Rat.sqrt 25 = 5 := by
    rw [show (25 : ℚ) = 5 * 5 by norm_num, Rat.sqrt_eq]; norm_num
  have h0 : Rat.sqrt 0 = 0 := by
    rw [show (0 : ℚ) = 0 * 0 by norm_num, Rat.sqrt_eq]; norm_num
  norm_num [forRange, AspectRatio.edgeBody, Example.env, Example.loopMeshAfterSet, Set,
    Set.maskedMesh, Example.loopMesh, Example.ofList,
    Example.distance, Example.innerProductTwoSegments, h9, h16, h25, h0,
    show Int.toNat 2 = 2 from rfl, show Int.toNat 3 = 3 from rfl]

/-- The second loop of `AspectRatio` on `loopMesh`, at the self-loop edge 0: its
average length becomes 2, the mean of its own length 0 and the length 4 of the
opposite edge, and its flow length stays missing. -/
theorem Example.loop_faces (a : Int → ℚ) :
    (forRange (AspectRatio.faceBody Example.env Example.loopMeshAfterSet) 1
      { averageEdgesLength := fun _ _ => -999
        averageFlowEdgesLength :=
          Function.update (Function.update (Function.update (fun _ => -999) 1 4) 2 3) 3 0
        curvilinearGridIndicator := fun _ => true
        edgesLength := Function.update (Function.update (Function.update (fun _ => 0) 1 3) 2 4) 3 5
        aspectRatios := a }).averageEdgesLength 0 0 = 2 ∧
    (forRange (AspectRatio.faceBody Example.env Example.loopMeshAfterSet) 1
      { averageEdgesLength := fun _ _ => -999
        averageFlowEdgesLength :=
          Function.update (Function.update (Function.update (fun _ => -999) 1 4) 2 3) 3 0
        curvilinearGridIndicator := fun _ => true
        edgesLength := Function.update (Function.update (Function.update (fun _ => 0) 1 3) 2 4) 3 5
        aspectRatios := a }).averageFlowEdgesLength 0 = -999 ∧
    (forRange (AspectRatio.faceBody Example.env Example.loopMeshAfterSet) 1
      { averageEdgesLength := fun _ _ => -999
        averageFlowEdgesLength :=
          Function.update (Function.update (Function.update (fun _ => -999) 1 4) 2 3) 3 0
        curvilinearGridIndicator := fun _ => true
        edgesLength := Function.update (Function.update (Function.update (fun _ => 0) 1 3) 2 4) 3 5
        aspectRatios := a }).curvilinearGridIndicator 0 = true := by
  norm_num [forRange, AspectRatio.faceBody, AspectRatio.faceNodeBody, AspectRatio.faceNodeBody.mark,
    AspectRatio.faceNodeBody.ratio, AspectRatio.faceNodeBody.length,
    AspectRatio.faceNodeBody.average, Example.env,
    Example.loopMeshAfterSet, Set, Set.maskedMesh, Example.loopMesh, Example.ofList,
    Function.update_apply,
    show Int.toNat 2 = 2 from rfl, show Int.toNat 3 = 3 from rfl,
    show Int.toNat 4 = 4 from rfl]

/-- An iteration of the third loop of `AspectRatio` writes the aspect ratio of its
edge only. -/
theorem AspectRatio.curvilinearBody_frame (env : Env) (mesh : Mesh) (e : Int)
    (l : AspectRatioLocals) :
    (AspectRatio.curvilinearBody env mesh e l).averageEdgesLength = l.averageEdgesLength ∧
    (AspectRatio.curvilinearBody env mesh e l).averageFlowEdgesLength =
      l.averageFlowEdgesLength ∧
    (AspectRatio.curvilinearBody env mesh e l).curvilinearGridIndicator =
      l.curvilinearGridIndicator ∧
    ∀ e1 : Int, e1 ≠ e →
      (AspectRatio.curvilinearBody env mesh e l).aspectRatios e1 = l.aspectRatios e1 := by
  unfold AspectRatio.curvilinearBody
  simp only []
  split_ifs <;> refine ⟨rfl, rfl, rfl, fun e1 he => ?_⟩ <;>
    first
      | rfl
      | exact Function.update_noteq he _ _

/-- The aspect ratio an iteration of the third loop leaves at its edge is determined
by the average lengths, the flow lengths, the indicator and the old aspect ratio of
that edge. -/
theorem AspectRatio.curvilinearBody_congr (env : Env) (mesh : Mesh) (e : Int)
    (l l1 : AspectRatioLocals)
    (havg : l.averageEdgesLength = l1.averageEdgesLength)
    (hflow : l.averageFlowEdgesLength = l1.averageFlowEdgesLength)
    (hind : l.curvilinearGridIndicator = l1.curvilinearGridIndicator)
    (hasp : l.aspectRatios e = l1.aspectRatios e) :
    (AspectRatio.curvilinearBody env mesh e l).aspectRatios e =
      (AspectRatio.curvilinearBody env mesh e l1).aspectRatios e := by
  unfold AspectRatio.curvilinearBody
  simp only []
  rw [havg, hflow, hind, hasp]
  split_ifs <;> first
    | exact hasp
    | (show Function.update _ e _ e = Function.update _ e _ e
       rw [Function.update_same, Function.update_same])

/-- The third loop of `AspectRatio`, edge by edge: the aspect ratio of an edge of the
range is what the iteration of that edge computes from the locals the loop started
with. -/
theorem AspectRatio.curvilinearLoop_apply (env : Env) (mesh : Mesh) (l : AspectRatioLocals)
    (k : Nat) (e : Int) :
    (forRange (AspectRatio.curvilinearBody env mesh) k l).aspectRatios e =
      if 0 ≤ e ∧ e < k then (AspectRatio.curvilinearBody env mesh e l).aspectRatios e
      else l.aspectRatios e := by
  have key : ∀ k : Nat,
      (forRange (AspectRatio.curvilinearBody env mesh) k l).averageEdgesLength =
        l.averageEdgesLength ∧
      (forRange (AspectRatio.curvilinearBody env mesh) k l).averageFlowEdgesLength =
        l.averageFlowEdgesLength ∧
      (forRange (AspectRatio.curvilinearBody env mesh) k l).curvilinearGridIndicator =
        l.curvilinearGridIndicator ∧
      ∀ e : Int, (forRange (AspectRatio.curvilinearBody env mesh) k l).aspectRatios e =
        if 0 ≤ e ∧ e < k then (AspectRatio.curvilinearBody env mesh e l).aspectRatios e
        else l.aspectRatios e := by
    intro k
    induction k with
    | zero =>
      refine ⟨rfl, rfl, rfl, fun e => ?_⟩
      rw [forRange_zero, if_neg]
      intro h
      have := h.2
      simp only [Nat.cast_zero] at this
      omega
    | succ k ih =>
      obtain ⟨i1, i2, i3, i4⟩ := ih
      obtain ⟨f1, f2, f3, f4⟩ := AspectRatio.curvilinearBody_frame env mesh (k : Int)
        (forRange (AspectRatio.curvilinearBody env mesh) k l)
      rw [forRange_succ]
      refine ⟨f1.trans i1, f2.trans i2, f3.trans i3, fun e => ?_⟩
      by_cases hek : e = (k : Int)
      · subst hek
        rw [if_pos ⟨by positivity, by push_cast; omega⟩]
        apply AspectRatio.curvilinearBody_congr env mesh _ _ _ i1 i2 i3
        rw [i4, if_neg (by omega)]
      · rw [f4 e hek, i4]
        by_cases hin : 0 ≤ e ∧ e < (k : Int)
        · rw [if_pos hin, if_pos ⟨hin.1, by push_cast; omega⟩]
        · rw [if_neg hin, if_neg (by push_cast; omega)]
  exact (key k).2.2.2 e

/-- C10, at a failing input: on `loopMesh`, `Set` stores the aspect ratio 0 for the
self-loop edge 0, and `AspectRatio` then replaces it by the missing value `-999` of
the flow length of the edge divided by the average length 2 of the edge and its
opposite edge: a negative number that is not the missing value. -/
theorem C10_self_loop_edge_negative_aspect_ratio :
    (Set Example.env Example.loopMesh Example.newOrthogonalization 0 0 0
      Example.parameters).2.2.aspectRatios 0 = 0 ∧
    Example.loopAfterAspectRatio.aspectRatios 0 = -999 / 2 ∧
    Example.loopAfterAspectRatio.aspectRatios 0 < 0 ∧
    Example.loopAfterAspectRatio.aspectRatios 0 ≠ Example.env.doubleMissingValue := by
  have h : Example.loopAfterAspectRatio.aspectRatios 0 = -999 / 2 := by
    have hloc : Example.loopAfterAspectRatio.aspectRatios =
        (forRange (AspectRatio.curvilinearBody Example.env Example.loopMeshAfterSet) 4
          (forRange (AspectRatio.faceBody Example.env Example.loopMeshAfterSet) 1
            (forRange (AspectRatio.edgeBody Example.env Example.loopMeshAfterSet) 4
              { averageEdgesLength := fun _ _ => -999
                averageFlowEdgesLength := fun _ => -999
                curvilinearGridIndicator := fun _ => true
                edgesLength := fun _ => 0
                aspectRatios := (Set Example.env Example.loopMesh Example.newOrthogonalization
                  0 0 0 Example.parameters).2.2.aspectRatios }))).aspectRatios := by
      unfold Example.loopAfterAspectRatio AspectRatio AspectRatio.locals
      simp only []
      rw [if_neg (by norm_num [Example.env])]
      rfl
    rw [hloc, Example.loop_edges, AspectRatio.curvilinearLoop_apply,
      if_pos ⟨le_refl _, by norm_num⟩]
    obtain ⟨b1, b2, b3⟩ := Example.loop_faces
      (Set Example.env Example.loopMesh Example.newOrthogonalization 0 0 0
        Example.parameters).2.2.aspectRatios
    generalize forRange (AspectRatio.faceBody Example.env Example.loopMeshAfterSet) 1 _ = L
      at b1 b2 b3 ⊢
    norm_num [AspectRatio.curvilinearBody, Example.env, Example.loopMeshAfterSet, Set,
      Set.maskedMesh, Example.loopMesh, Example.ofList, b1, b2, b3]
  refine ⟨rfl, h, ?_, ?_⟩
  · rw [h]; norm_num
  · rw [h]; norm_num [Example.env]

/-! ## Aspect ratios of edges that join two different nodes -/

/-- An iteration of the first loop of `AspectRatio` either skips its edge, a
self-loop, or stores two distances for it. -/
theorem AspectRatio.edgeBody_cases (env : Env) (mesh : Mesh) (e : Int)
    (l : AspectRatioLocals) :
    ((mesh.edges e).1 = (mesh.edges e).2 ∧ AspectRatio.edgeBody env mesh e l = l) ∨
    ((mesh.edges e).1 ≠ (mesh.edges e).2 ∧ ∃ p q a b : Point,
      AspectRatio.edgeBody env mesh e l =
        { l with
          edgesLength := Function.update l.edgesLength e (env.Distance p q mesh.projection)
          averageFlowEdgesLength := Function.update l.averageFlowEdgesLength e
            (env.Distance a b mesh.projection) }) := by
  unfold AspectRatio.edgeBody
  simp only []
  by_cases h : (mesh.edges e).1 = (mesh.edges e).2
  · left
    rw [if_pos h]
    exact ⟨h, rfl⟩
  · right
    rw [if_neg h]
    exact ⟨h, _, _, _, _, rfl⟩

/-- After the first loop of `AspectRatio` on a mesh whose edges join two different
nodes, with non-negative distances: the lengths are non-negative, every edge of the
mesh has a non-negative flow length, and so has every edge with a length. -/
theorem AspectRatio.edgeLoop_spec (env : Env) (mesh : Mesh)
    (hdist : ∀ (a b : Point) (p : Projections), 0 ≤ env.Distance a b p)
    (hloops : ∀ e : Int, 0 ≤ e → e < mesh.numEdges → (mesh.edges e).1 ≠ (mesh.edges e).2)
    (l0 : AspectRatioLocals) (h0 : ∀ e : Int, l0.edgesLength e = 0) (k : Nat)
    (hk : k ≤ mesh.numEdges) :
    (forRange (AspectRatio.edgeBody env mesh) k l0).averageEdgesLength =
      l0.averageEdgesLength ∧
    (forRange (AspectRatio.edgeBody env mesh) k l0).aspectRatios = l0.aspectRatios ∧
    (∀ e : Int, 0 ≤ (forRange (AspectRatio.edgeBody env mesh) k l0).edgesLength e) ∧
    (∀ e : Int, (forRange (AspectRatio.edgeBody env mesh) k l0).edgesLength e ≠ 0 →
      0 ≤ (forRange (AspectRatio.edgeBody env mesh) k l0).averageFlowEdgesLength e) ∧
    (∀ e : Int, 0 ≤ e → e < k →
      0 ≤ (forRange (AspectRatio.edgeBody env mesh) k l0).averageFlowEdgesLength e) := by
  induction k with
  | zero =>
    refine ⟨rfl, rfl, fun e => ?_, fun e he => ?_, fun e h0e hek => ?_⟩
    · rw [forRange_zero, h0 e]
    · rw [forRange_zero] at he
      exact absurd (h0 e) he
    · simp only [Nat.cast_zero] at hek
      omega
  | succ k ih =>
    obtain ⟨i1, i2, i3, i4, i5⟩ := ih (Nat.le_of_succ_le hk)
    rw [forRange_succ]
    rcases AspectRatio.edgeBody_cases env mesh (k : Int)
      (forRange (AspectRatio.edgeBody env mesh) k l0) with ⟨hself, _⟩ | ⟨_, p, q, a, b, hbody⟩
    · exact absurd hself (hloops k (by positivity) (by exact_mod_cast hk))
    · rw [hbody]
      refine ⟨i1, i2, fun e => ?_, fun e he => ?_, fun e h0e hek => ?_⟩
      · dsimp only
        rw [Function.update_apply]
        split_ifs
        · exact hdist _ _ _
        · exact i3 e
      · dsimp only
        rw [Function.update_apply]
        split_ifs with hek
        · exact hdist _ _ _
        · apply i4 e
          have he2 : Function.update
              (forRange (AspectRatio.edgeBody env mesh) k l0).edgesLength (k : Int)
              (env.Distance p q mesh.projection) e ≠ 0 := he
          rw [Function.update_noteq hek] at he2
          exact he2
      · dsimp only
        rw [Function.update_apply]
        split_ifs with hek2
        · exact hdist _ _ _
        · exact i5 e h0e (by push_cast at hek; omega)

/-- An iteration of the loop over the nodes of a face keeps the lengths and the flow
lengths and keeps the locals free of negative quantities. -/
theorem AspectRatio.faceNodeBody_spec (env : Env) (mesh : Mesh) (f n : Int)
    (l : AspectRatioLocals) (h : AspectRatio.NonNegative env l) :
    AspectRatio.NonNegative env (AspectRatio.faceNodeBody env mesh f n l) ∧
    (AspectRatio.faceNodeBody env mesh f n l).edgesLength = l.edgesLength ∧
    (AspectRatio.faceNodeBody env mesh f n l).averageFlowEdgesLength =
      l.averageFlowEdgesLength := by
  have mark : ∀ l : AspectRatioLocals, AspectRatio.NonNegative env l →
      AspectRatio.NonNegative env (AspectRatio.faceNodeBody.mark mesh f n l) ∧
      (AspectRatio.faceNodeBody.mark mesh f n l).edgesLength = l.edgesLength ∧
      (AspectRatio.faceNodeBody.mark mesh f n l).averageFlowEdgesLength =
        l.averageFlowEdgesLength := by
    intro l h
    unfold AspectRatio.faceNodeBody.mark
    split_ifs
    · exact ⟨⟨h.length, h.flow, h.average, h.aspect⟩, rfl, rfl⟩
    · exact ⟨h, rfl, rfl⟩
  have ratio : ∀ (e : Int) (l : AspectRatioLocals), AspectRatio.NonNegative env l →
      AspectRatio.NonNegative env (AspectRatio.faceNodeBody.ratio e l) ∧
      (AspectRatio.faceNodeBody.ratio e l).edgesLength = l.edgesLength ∧
      (AspectRatio.faceNodeBody.ratio e l).averageFlowEdgesLength =
        l.averageFlowEdgesLength := by
    intro e l h
    unfold AspectRatio.faceNodeBody.ratio
    split_ifs with hlen
    · refine ⟨⟨h.length, h.flow, h.average, fun e1 => ?_⟩, rfl, rfl⟩
      dsimp only
      rw [Function.update_apply]
      split_ifs
      · exact div_nonneg (h.flow e hlen) (h.length e)
      · exact h.aspect e1
    · exact ⟨h, rfl, rfl⟩
  have length : ∀ l : AspectRatioLocals, AspectRatio.NonNegative env l →
      0 ≤ AspectRatio.faceNodeBody.length mesh f n l := by
    intro l h
    unfold AspectRatio.faceNodeBody.length
    simp only []
    split_ifs
    · exact mul_nonneg (by norm_num) (add_nonneg (h.length _) (h.length _))
    · exact mul_nonneg (by norm_num) (add_nonneg (h.length _) (h.length _))
    · exact h.length _
  have average : ∀ (e : Int) (v : ℚ) (l : AspectRatioLocals), 0 ≤ v →
      AspectRatio.NonNegative env l →
      AspectRatio.NonNegative env (AspectRatio.faceNodeBody.average env e v l) ∧
      (AspectRatio.faceNodeBody.average env e v l).edgesLength = l.edgesLength ∧
      (AspectRatio.faceNodeBody.average env e v l).averageFlowEdgesLength =
        l.averageFlowEdgesLength := by
    intro e v l hv h
    unfold AspectRatio.faceNodeBody.average
    split_ifs <;> refine ⟨⟨h.length, h.flow, fun e1 i => ?_, h.aspect⟩, rfl, rfl⟩ <;>
      dsimp only <;> rw [Function.update_apply] <;> split_ifs with he1 <;>
      first
        | exact h.average e1 i
        | (rw [Function.update_apply]
           split_ifs
           · exact Or.inr hv
           · exact h.average e i)
  unfold AspectRatio.faceNodeBody
  simp only []
  obtain ⟨m1, m2, m3⟩ := mark l h
  split_ifs
  · exact ⟨m1, m2, m3⟩
  · obtain ⟨r1, r2, r3⟩ := ratio (mesh.facesEdges f n) _ m1
    obtain ⟨a1, a2, a3⟩ := average (mesh.facesEdges f n) _ _ (length _ r1) r1
    exact ⟨a1, a2.trans (r2.trans m2), a3.trans (r3.trans m3)⟩

/-- The second loop of `AspectRatio` keeps the lengths and the flow lengths and keeps
the locals free of negative quantities. -/
theorem AspectRatio.faceLoop_spec (env : Env) (mesh : Mesh) (l : AspectRatioLocals)
    (h : AspectRatio.NonNegative env l) (k : Nat) :
    AspectRatio.NonNegative env (forRange (AspectRatio.faceBody env mesh) k l) ∧
    (forRange (AspectRatio.faceBody env mesh) k l).edgesLength = l.edgesLength ∧
    (forRange (AspectRatio.faceBody env mesh) k l).averageFlowEdgesLength =
      l.averageFlowEdgesLength := by
  apply forRange_invariant
    (fun t : AspectRatioLocals => AspectRatio.NonNegative env t ∧
      t.edgesLength = l.edgesLength ∧ t.averageFlowEdgesLength = l.averageFlowEdgesLength)
  · exact ⟨h, rfl, rfl⟩
  · intro f _ t ht
    unfold AspectRatio.faceBody
    simp only []
    split_ifs
    · exact ht
    · apply forRange_invariant
        (fun t : AspectRatioLocals => AspectRatio.NonNegative env t ∧
          t.edgesLength = l.edgesLength ∧ t.averageFlowEdgesLength = l.averageFlowEdgesLength)
      · exact ht
      · intro n _ u hu
        obtain ⟨b1, b2, b3⟩ := AspectRatio.faceNodeBody_spec env mesh f n u hu.1
        exact ⟨b1, b2.trans hu.2.1, b3.trans hu.2.2⟩

/-- The claim C10 holds on the meshes without self-loops: when the distances are
non-negative, `curvilinearToOrthogonalRatio` lies in `[0, 1]`, the aspect ratios on
entry are non-negative (`Set` stores zeros) and every edge of the mesh joins two
different nodes, no aspect ratio is negative after `AspectRatio`. -/
theorem AspectRatio_nonneg_of_no_self_loop (env : Env) (mesh : Mesh) (o : Orthogonalization)
    (hdist : ∀ (a b : Point) (p : Projections), 0 ≤ env.Distance a b p)
    (hr0 : 0 ≤ env.curvilinearToOrthogonalRatio) (hr1 : env.curvilinearToOrthogonalRatio ≤ 1)
    (hstart : ∀ e : Int, 0 ≤ o.aspectRatios e)
    (hloops : ∀ e : Int, 0 ≤ e → e < mesh.numEdges → (mesh.edges e).1 ≠ (mesh.edges e).2)
    (e : Int) : 0 ≤ (AspectRatio env mesh o).aspectRatios e := by
  obtain ⟨i1, i2, i3, i4, i5⟩ := AspectRatio.edgeLoop_spec env mesh hdist hloops
    { averageEdgesLength := fun _ _ => env.doubleMissingValue
      averageFlowEdgesLength := fun _ => env.doubleMissingValue
      curvilinearGridIndicator := fun _ => true
      edgesLength := fun _ => 0
      aspectRatios := o.aspectRatios } (fun _ => rfl) mesh.numEdges (le_refl _)
  have hN1 : AspectRatio.NonNegative env
      (forRange (AspectRatio.edgeBody env mesh) mesh.numEdges
        { averageEdgesLength := fun _ _ => env.doubleMissingValue
          averageFlowEdgesLength := fun _ => env.doubleMissingValue
          curvilinearGridIndicator := fun _ => true
          edgesLength := fun _ => 0
          aspectRatios := o.aspectRatios }) := by
    refine ⟨i3, i4, fun e1 i => ?_, fun e1 => ?_⟩
    · rw [i1]; exact Or.inl rfl
    · rw [i2]; exact hstart e1
  obtain ⟨j1, _, j3⟩ := AspectRatio.faceLoop_spec env mesh _ hN1 mesh.numFaces
  show 0 ≤ (AspectRatio.locals env mesh o).aspectRatios e
  unfold AspectRatio.locals
  simp only []
  split_ifs
  · exact j1.aspect e
  · rw [AspectRatio.curvilinearLoop_apply]
    split_ifs with hin
    · have hflow : 0 ≤ (forRange (AspectRatio.faceBody env mesh) mesh.numFaces
          (forRange (AspectRatio.edgeBody env mesh) mesh.numEdges
            { averageEdgesLength := fun _ _ => env.doubleMissingValue
              averageFlowEdgesLength := fun _ => env.doubleMissingValue
              curvilinearGridIndicator := fun _ => true
              edgesLength := fun _ => 0
              aspectRatios := o.aspectRatios })).averageFlowEdgesLength e := by
        rw [j3]
        exact i5 e hin.1 hin.2
      have havg : ∀ i : Int,
          (forRange (AspectRatio.faceBody env mesh) mesh.numFaces
            (forRange (AspectRatio.edgeBody env mesh) mesh.numEdges
              { averageEdgesLength := fun _ _ => env.doubleMissingValue
                averageFlowEdgesLength := fun _ => env.doubleMissingValue
                curvilinearGridIndicator := fun _ => true
                edgesLength := fun _ => 0
                aspectRatios := o.aspectRatios })).averageEdgesLength e i ≠
            env.doubleMissingValue →
          0 ≤ (forRange (AspectRatio.faceBody env mesh) mesh.numFaces
            (forRange (AspectRatio.edgeBody env mesh) mesh.numEdges
              { averageEdgesLength := fun _ _ => env.doubleMissingValue
                averageFlowEdgesLength := fun _ => env.doubleMissingValue
                curvilinearGridIndicator := fun _ => true
                edgesLength := fun _ => 0
                aspectRatios := o.aspectRatios })).averageEdgesLength e i := by
        intro i hne
        rcases j1.average e i with hm | hp
        · exact absurd hm hne
        · exact hp
      have hasp := j1.aspect e
      generalize forRange (AspectRatio.faceBody env mesh) mesh.numFaces _ = L
        at hflow havg hasp ⊢
      unfold AspectRatio.curvilinearBody
      simp only []
      split_ifs with c1 c2 c3 c4 c5 c6
      · exact hasp
      · exact hasp
      · exact hasp
      · dsimp only
        rw [Function.update_same]
        exact div_nonneg hflow (havg 0 c5.2)
      · exact hasp
      · dsimp only
        rw [Function.update_same]
        have ha0 := havg 0 c6.2.2.1
        have ha1 := havg 1 c6.2.2.2
        have h1r : 0 ≤ 1 - env.curvilinearToOrthogonalRatio := by linarith
        exact add_nonneg (mul_nonneg hr0 hasp)
          (div_nonneg (mul_nonneg h1r hflow)
            (mul_nonneg (by norm_num) (add_nonneg ha0 ha1)))
      · exact hasp
    · exact j1.aspect e

/-! ## Node administration: the first entry of the stored list -/

/-- Appending a node writes the cache and the list of the current node at a position
of at least 1. -/
theorem SmootherNodeAdministration.append_zero (currentNode node : Int)
    (st : SmootherNodeAdministration.Nodes) (h : 0 ≤ st.connectedNodesIndex) :
    0 ≤ (SmootherNodeAdministration.append currentNode node st).connectedNodesIndex ∧
    (SmootherNodeAdministration.append currentNode node st).connectedNodesCache 0 =
      st.connectedNodesCache 0 ∧
    ∀ n : Int, (SmootherNodeAdministration.append currentNode node st).connectedNodes n 0 =
      st.connectedNodes n 0 := by
  unfold SmootherNodeAdministration.append
  refine ⟨by dsimp only; omega, ?_, fun n => ?_⟩
  · dsimp only
    rw [Function.update_noteq (by omega)]
  · dsimp only
    rw [Function.update_apply]
    split_ifs with hn
    · rw [Function.update_noteq (by omega), hn]
    · rfl

/-- Walking the nodes of a shared face writes the cache and the list of the current
node at positions of at least 1 only. -/
theorem SmootherNodeAdministration.faceNodeBody_zero (mesh : Mesh)
    (currentNode f faceIndex n : Int) (w : SmootherNodeAdministration.Walk)
    (h : 0 ≤ w.nodes.connectedNodesIndex) :
    0 ≤ (SmootherNodeAdministration.faceNodeBody mesh currentNode f faceIndex n
      w).nodes.connectedNodesIndex ∧
    (SmootherNodeAdministration.faceNodeBody mesh currentNode f faceIndex n
      w).nodes.connectedNodesCache 0 = w.nodes.connectedNodesCache 0 ∧
    ∀ m : Int, (SmootherNodeAdministration.faceNodeBody mesh currentNode f faceIndex n
      w).nodes.connectedNodes m 0 = w.nodes.connectedNodes m 0 := by
  unfold SmootherNodeAdministration.faceNodeBody
  simp only []
  split_ifs <;>
    first
      | exact SmootherNodeAdministration.append_zero currentNode _ w.nodes h
      | exact ⟨h, rfl, fun _ => rfl⟩

/-- The loop over the nodes of one shared face never writes entry 0 of the cache or
of a stored list. -/
theorem SmootherNodeAdministration.sharedFaceBody_zero (mesh : Mesh) (currentNode : Int)
    (sharedFacesCache : Int → Int) (f : Int) (st : SmootherNodeAdministration.Nodes)
    (h : 0 ≤ st.connectedNodesIndex) :
    0 ≤ (SmootherNodeAdministration.sharedFaceBody mesh currentNode sharedFacesCache f
      st).connectedNodesIndex ∧
    (SmootherNodeAdministration.sharedFaceBody mesh currentNode sharedFacesCache f
      st).connectedNodesCache 0 = st.connectedNodesCache 0 ∧
    ∀ m : Int, (SmootherNodeAdministration.sharedFaceBody mesh currentNode sharedFacesCache f
      st).connectedNodes m 0 = st.connectedNodes m 0 := by
  unfold SmootherNodeAdministration.sharedFaceBody
  simp only []
  split_ifs
  · exact ⟨h, rfl, fun _ => rfl⟩
  · apply forRange_invariant
      (fun w : SmootherNodeAdministration.Walk => 0 ≤ w.nodes.connectedNodesIndex ∧
        w.nodes.connectedNodesCache 0 = st.connectedNodesCache 0 ∧
        ∀ m : Int, w.nodes.connectedNodes m 0 = st.connectedNodes m 0)
    · exact ⟨h, rfl, fun _ => rfl⟩
    · intro n _ w hw
      obtain ⟨a1, a2, a3⟩ := SmootherNodeAdministration.faceNodeBody_zero mesh currentNode f
        (sharedFacesCache f) n w hw.1
      exact ⟨a1, a2.trans hw.2.1, fun m => (a3 m).trans (hw.2.2 m)⟩

/-- The two loops of `SmootherNodeAdministration` that list the connected nodes keep
entry 0 of the cache, which holds the current node, and entry 0 of every stored
list. -/
theorem SmootherNodeAdministration.nodes_zero (mesh : Mesh) (currentNode : Int)
    (sharedFacesCache : Int → Int) (k1 k2 : Nat) (c : SmootherCaches) :
    (forRange (SmootherNodeAdministration.sharedFaceBody mesh currentNode sharedFacesCache) k2
      (forRange (SmootherNodeAdministration.edgeBody mesh currentNode) k1
        { connectedNodesIndex := 0
          connectedNodesCache := Function.update c.connectedNodesCache 0 currentNode
          connectedNodes := c.connectedNodes
          faceNodeMappingCache := c.faceNodeMappingCache })).connectedNodesCache 0 =
      currentNode ∧
    ∀ m : Int,
      (forRange (SmootherNodeAdministration.sharedFaceBody mesh currentNode sharedFacesCache) k2
        (forRange (SmootherNodeAdministration.edgeBody mesh currentNode) k1
          { connectedNodesIndex := 0
            connectedNodesCache := Function.update c.connectedNodesCache 0 currentNode
            connectedNodes := c.connectedNodes
            faceNodeMappingCache := c.faceNodeMappingCache })).connectedNodes m 0 =
        c.connectedNodes m 0 := by
  have h1 := forRange_invariant
    (fun st : SmootherNodeAdministration.Nodes => 0 ≤ st.connectedNodesIndex ∧
      st.connectedNodesCache 0 = currentNode ∧
      ∀ m : Int, st.connectedNodes m 0 = c.connectedNodes m 0)
    (SmootherNodeAdministration.edgeBody mesh currentNode) k1
    { connectedNodesIndex := 0
      connectedNodesCache := Function.update c.connectedNodesCache 0 currentNode
      connectedNodes := c.connectedNodes
      faceNodeMappingCache := c.faceNodeMappingCache }
    ⟨le_refl _, by dsimp only; rw [Function.update_same], fun _ => rfl⟩
    (by
      intro e _ st hst
      obtain ⟨a1, a2, a3⟩ := SmootherNodeAdministration.append_zero currentNode
        ((mesh.edges (mesh.nodesEdges currentNode e)).1 +
          (mesh.edges (mesh.nodesEdges currentNode e)).2 - currentNode) st hst.1
      exact ⟨a1, a2.trans hst.2.1, fun m => (a3 m).trans (hst.2.2 m)⟩)
  have h2 := forRange_invariant
    (fun st : SmootherNodeAdministration.Nodes => 0 ≤ st.connectedNodesIndex ∧
      st.connectedNodesCache 0 = currentNode ∧
      ∀ m : Int, st.connectedNodes m 0 = c.connectedNodes m 0)
    (SmootherNodeAdministration.sharedFaceBody mesh currentNode sharedFacesCache) k2 _ h1
    (by
      intro f _ st hst
      obtain ⟨a1, a2, a3⟩ := SmootherNodeAdministration.sharedFaceBody_zero mesh currentNode
        sharedFacesCache f st hst.1
      exact ⟨a1, a2.trans hst.2.1, fun m => (a3 m).trans (hst.2.2 m)⟩)
  exact h2.2

/-- `SmootherNodeAdministration` leaves entry 0 of every stored list of connected
nodes as it finds it. -/
theorem SmootherNodeAdministration_connectedNodes_zero (env : Env) (mesh : Mesh)
    (currentNode numSharedFaces numConnectedNodes : Int) (c : SmootherCaches) (n : Int) :
    (SmootherNodeAdministration env mesh currentNode numSharedFaces numConnectedNodes
      c).2.2.2.connectedNodes n 0 = c.connectedNodes n 0 := by
  unfold SmootherNodeAdministration
  simp only []
  split_ifs
  · rfl
  · rfl
  · exact (SmootherNodeAdministration.nodes_zero mesh currentNode _ _ _ c).2 n

/-- For a node that `SmootherNodeAdministration` administers, the number of shared
face slots it returns is the count of the first loop and entry 0 of the cache of
connected nodes is the node. -/
theorem SmootherNodeAdministration_administered (env : Env) (mesh : Mesh)
    (currentNode numSharedFaces numConnectedNodes : Int) (c : SmootherCaches)
    (hval : 2 ≤ mesh.nodesNumEdges currentNode)
    (hfaces : 1 ≤ (forRange (SmootherNodeAdministration.faceBody env mesh currentNode)
      (mesh.nodesNumEdges currentNode).toNat
      { newFaceIndex := env.intMissingValue, numSharedFaces := 0,
        sharedFacesCache := c.sharedFacesCache }).numSharedFaces) :
    (SmootherNodeAdministration env mesh currentNode numSharedFaces numConnectedNodes c).2.1 =
      (forRange (SmootherNodeAdministration.faceBody env mesh currentNode)
        (mesh.nodesNumEdges currentNode).toNat
        { newFaceIndex := env.intMissingValue, numSharedFaces := 0,
          sharedFacesCache := c.sharedFacesCache }).numSharedFaces ∧
    (SmootherNodeAdministration env mesh currentNode numSharedFaces numConnectedNodes
      c).2.2.2.connectedNodesCache 0 = currentNode := by
  unfold SmootherNodeAdministration
  simp only []
  rw [if_neg (by omega), if_neg (by omega)]
  exact ⟨rfl, (SmootherNodeAdministration.nodes_zero mesh currentNode _ _ _ c).1⟩

/-- The first loop of `SmootherNodeAdministration` for node 1 of `squareMesh`: the
quadrilateral in slot 0 and a missing face in slot 1. -/
theorem Example.square_faces :
    forRange (SmootherNodeAdministration.faceBody Example.env Example.squareMesh 1) 2
      { newFaceIndex := -999, numSharedFaces := 0, sharedFacesCache := fun _ => -1 } =
      { newFaceIndex := -999, numSharedFaces := 2,
        sharedFacesCache := Function.update (Function.update (fun _ => -1) 0 0) 1 (-999) } := by
  norm_num [forRange, SmootherNodeAdministration.faceBody, Example.env, Example.squareMesh,
    Example.ofList, Function.update_apply]

/-! ## Claims on the node administration -/

/-- C11, at a failing input: node 1 of `squareMesh` has two edges and
`SmootherNodeAdministration` gives it two shared face slots, so it is administered;
entry 0 of the cache of connected nodes is the node 1, and entry 0 of the stored list
`m_connectedNodes[1]` is the 0 that `InitializeSmoother` wrote, not the node. -/
theorem C11_stored_list_starts_with_zero :
    Example.squareMesh.nodesNumEdges 1 = 2 ∧
    Example.squareAdministration.2.1 = 2 ∧
    Example.squareAdministration.2.2.2.connectedNodesCache 0 = 1 ∧
    Example.squareAdministration.2.2.2.connectedNodes 1 0 = 0 := by
  have hval : (2 : Int) ≤ Example.squareMesh.nodesNumEdges 1 := by norm_num [Example.squareMesh]
  have hfaces : ∀ c : SmootherCaches, c.sharedFacesCache = (fun _ => -1) →
      (forRange (SmootherNodeAdministration.faceBody Example.env Example.squareMesh 1)
        (Example.squareMesh.nodesNumEdges 1).toNat
        { newFaceIndex := Example.env.intMissingValue, numSharedFaces := 0,
          sharedFacesCache := c.sharedFacesCache }).numSharedFaces = 2 := by
    intro c hc
    rw [hc]
    have e : (Example.squareMesh.nodesNumEdges 1).toNat = 2 := rfl
    rw [e]
    show (forRange (SmootherNodeAdministration.faceBody Example.env Example.squareMesh 1) 2
      { newFaceIndex := -999, numSharedFaces := 0,
        sharedFacesCache := fun _ => -1 }).numSharedFaces = 2
    rw [Example.square_faces]
  refine ⟨by norm_num [Example.squareMesh], ?_, ?_, ?_⟩
  · unfold Example.squareAdministration
    rw [(SmootherNodeAdministration_administered _ _ _ _ _ _ hval
      (by rw [hfaces _ rfl]; norm_num)).1]
    exact hfaces _ rfl
  · unfold Example.squareAdministration
    exact (SmootherNodeAdministration_administered _ _ _ _ _ _ hval
      (by rw [hfaces _ rfl]; norm_num)).2
  · unfold Example.squareAdministration
    rw [SmootherNodeAdministration_connectedNodes_zero]
    dsimp only
    rw [SmootherNodeAdministration_connectedNodes_zero]
    rfl

/-! ## The neighbouring nodes stored by `Set` -/

/-- The loop over the edge slots of one node writes the row of that node, slot by
slot, and nothing else. -/
theorem Set.nodesNodes_row (g : Int → Int) (n : Int) (k : Nat) (W : Int → Int → Int)
    (m j : Int) :
    forRange (fun nn (W : Int → Int → Int) =>
        Function.update W n (Function.update (W n) nn (g nn))) k W m j =
      if m = n ∧ 0 ≤ j ∧ j < k then g j else W m j := by
  induction k with
  | zero =>
    rw [forRange_zero, if_neg]
    intro h
    have := h.2.2
    simp only [Nat.cast_zero] at this
    omega
  | succ k ih =>
    rw [forRange_succ]
    by_cases hm : m = n
    · subst hm
      rw [Function.update_same]
      by_cases hj : j = (k : Int)
      · subst hj
        rw [Function.update_same]
        have hc : m = m ∧ (0 : Int) ≤ (k : Int) ∧ (k : Int) < ((k + 1 : Nat) : Int) :=
          ⟨rfl, by positivity, by push_cast; (clear ih; omega)⟩
        rw [if_pos hc]
      · rw [Function.update_noteq hj, ih]
        by_cases hin : m = m ∧ 0 ≤ j ∧ j < (k : Int)
        · have hc : m = m ∧ 0 ≤ j ∧ j < ((k + 1 : Nat) : Int) :=
            ⟨rfl, hin.2.1, by push_cast; (clear ih; omega)⟩
          rw [if_pos hin, if_pos hc]
        · have hc : ¬ (m = m ∧ 0 ≤ j ∧ j < ((k + 1 : Nat) : Int)) := by
            intro h
            apply hin
            exact ⟨rfl, h.2.1, by have := h.2.2; push_cast at this; (clear ih; omega)⟩
          rw [if_neg hin, if_neg hc]
    · rw [Function.update_noteq hm, ih, if_neg (fun h => hm h.1), if_neg (fun h => hm h.1)]

/-- The table `Set` builds: slot `k` of node `n` holds `first + second - n` of the
edge in that slot when `n` is a node of the mesh and `k` is below its valence, and the
missing value otherwise. -/
theorem Set.nodesNodes_apply (env : Env) (mesh : Mesh) (n k : Int) :
    Set.nodesNodes env mesh n k =
      if 0 ≤ n ∧ n < mesh.numNodes ∧ 0 ≤ k ∧ k < mesh.nodesNumEdges n then
        (mesh.edges (mesh.nodesEdges n k)).1 + (mesh.edges (mesh.nodesEdges n k)).2 - n
      else env.intMissingValue := by
  have key : ∀ K : Nat,
      forRange (fun n nodesNodes =>
          forRange (fun nn (nodesNodes : Int → Int → Int) =>
              Function.update nodesNodes n
                (Function.update (nodesNodes n) nn
                  ((mesh.edges (mesh.nodesEdges n nn)).1 +
                    (mesh.edges (mesh.nodesEdges n nn)).2 - n)))
            (mesh.nodesNumEdges n).toNat nodesNodes)
        K (fun _ _ => env.intMissingValue) n k =
      if 0 ≤ n ∧ n < K ∧ 0 ≤ k ∧ k < mesh.nodesNumEdges n then
        (mesh.edges (mesh.nodesEdges n k)).1 + (mesh.edges (mesh.nodesEdges n k)).2 - n
      else env.intMissingValue := by
    intro K
    induction K with
    | zero =>
      rw [forRange_zero, if_neg]
      intro h
      have := h.2.1
      simp only [Nat.cast_zero] at this
      omega
    | succ K ih =>
      rw [forRange_succ]
      rw [Set.nodesNodes_row (fun nn => (mesh.edges (mesh.nodesEdges (K : Int) nn)).1 +
        (mesh.edges (mesh.nodesEdges (K : Int) nn)).2 - (K : Int))]
      by_cases hn : n = (K : Int)
      · subst hn
        by_cases hk : 0 ≤ k ∧ k < ((mesh.nodesNumEdges (K : Int)).toNat : Int)
        · have hc : (0 : Int) ≤ (K : Int) ∧ (K : Int) < ((K + 1 : Nat) : Int) ∧ 0 ≤ k ∧
              k < mesh.nodesNumEdges (K : Int) :=
            ⟨by positivity, by push_cast; (clear ih; omega), hk.1, by (clear ih; omega)⟩
          rw [if_pos ⟨rfl, hk⟩, if_pos hc]
        · have hc1 : ¬ ((0 : Int) ≤ (K : Int) ∧ (K : Int) < (K : Int) ∧ 0 ≤ k ∧
              k < mesh.nodesNumEdges (K : Int)) := by
            intro h; (clear ih; omega)
          have hc2 : ¬ ((0 : Int) ≤ (K : Int) ∧ (K : Int) < ((K + 1 : Nat) : Int) ∧ 0 ≤ k ∧
              k < mesh.nodesNumEdges (K : Int)) := by
            intro h
            apply hk
            exact ⟨h.2.2.1, by (clear ih; omega)⟩
          rw [if_neg (fun h => hk h.2), ih, if_neg hc1, if_neg hc2]
      · rw [if_neg (fun h => hn h.1), ih]
        by_cases hin : 0 ≤ n ∧ n < (K : Int) ∧ 0 ≤ k ∧ k < mesh.nodesNumEdges n
        · have hc : 0 ≤ n ∧ n < ((K + 1 : Nat) : Int) ∧ 0 ≤ k ∧ k < mesh.nodesNumEdges n :=
            ⟨hin.1, by push_cast; (clear ih; omega), hin.2.2⟩
          rw [if_pos hin, if_pos hc]
        · have hc : ¬ (0 ≤ n ∧ n < ((K + 1 : Nat) : Int) ∧ 0 ≤ k ∧
              k < mesh.nodesNumEdges n) := by
            intro h
            apply hin
            exact ⟨h.1, by have := h.2.1; push_cast at this; (clear ih; omega), h.2.2⟩
          rw [if_neg hin, if_neg hc]
  exact key mesh.numNodes

/-- `PrapareOuterIteration` does not write the table of neighbouring nodes. -/
theorem PrapareOuterIteration_nodesNodes (env : Env) (mesh : Mesh) (o : Orthogonalization) :
    (PrapareOuterIteration env mesh o).2.nodesNodes = o.nodesNodes := by
  obtain ⟨ar, w, r, sm, h | h⟩ := PrapareOuterIteration_cases env mesh o
  · rw [h]
  · rw [h]
    show (AllocateLinearSystem mesh _).nodesNodes = o.nodesNodes
    unfold AllocateLinearSystem
    split <;> rfl

/-- The table of neighbouring nodes after `Set` is the one built from the masked
mesh. -/
theorem Set_nodesNodes (env : Env) (mesh : Mesh) (o : Orthogonalization) (a b c : Int)
    (params : OrthogonalizationParametersNative) :
    (Set env mesh o a b c params).2.2.nodesNodes =
      Set.nodesNodes env (Set.maskedMesh env mesh) := by
  show (Set.finish env _ _).2.nodesNodes = _
  unfold Set.finish
  split
  · split
    · simp only []
      split
      · rw [PrapareOuterIteration_nodesNodes]; rfl
      · show (PrapareOuterIteration env _ _).2.nodesNodes = _
        rw [PrapareOuterIteration_nodesNodes]; rfl
    · rfl
  · rfl

/-! ## Claims on `Set` -/

/-- A property that holds after `k` iterations and that every iteration keeps holds
after any larger number of iterations. -/
theorem forRange_invariant_from {σ : Type} (P : σ → Prop) (body : Int → σ → σ) (k j : Nat)
    (s : σ) (h0 : P (forRange body k s)) (hstep : ∀ (i : Int) (t : σ), P t → P (body i t)) :
    P (forRange body (k + j) s) := by
  induction j with
  | zero => exact h0
  | succ j ih =>
    rw [← Nat.add_assoc, forRange_succ]
    exact hstep _ _ ih

/-- Once `return false` has been executed no later node changes the state. -/
theorem ProjectOnOriginalMeshBoundary.nodeBody_returned (env : Env) (mesh : Mesh)
    (o : Orthogonalization) (n : Int) (st : ProjectOnOriginalMeshBoundary.Loop)
    (h : st.returned = true) :
    (ProjectOnOriginalMeshBoundary.nodeBody env mesh o n st).returned = true := by
  unfold ProjectOnOriginalMeshBoundary.nodeBody
  rw [if_pos h]
  exact h

/-- `InnerIteration` returns `true` whatever the boundary projection returned. -/
theorem InnerIteration_returns_true (env : Env) (mesh : Mesh) (o : Orthogonalization) :
    (InnerIteration env mesh o).1 = true := by
  unfold InnerIteration
  simp only []
  split <;> rfl

/-- `Compute` returns `true` whatever happened in its iterations. -/
theorem Compute_returns_true (env : Env) (mesh : Mesh) (o : Orthogonalization) :
    (Compute env mesh o).1 = true := rfl

/-- With index arrays that give no node a slot, the sweep changes no coordinate. -/
theorem InnerIteration.sweep_unallocated (env : Env) (mesh : Mesh) (o : Orthogonalization)
    (h : ∀ n : Int, o.linearSystem.compressedStartNodeIndex n -
      o.linearSystem.compressedEndNodeIndex n ≤ 1) :
    InnerIteration.sweep env mesh o = o.orthogonalCoordinates := by
  unfold InnerIteration.sweep
  apply forRange_invariant (fun c : Int → Point => c = o.orthogonalCoordinates)
  · rfl
  · intro n _ c hc
    rw [hc]
    unfold UpdateNodeCoordinates UpdateNodeCoordinates.increments
    simp only []
    have hz : (o.linearSystem.compressedStartNodeIndex n -
        o.linearSystem.compressedEndNodeIndex n - 1).toNat = 0 := by
      have := h n
      omega
    rw [hz, forRange_zero, if_pos (Or.inl (by norm_num))]

/-- Evaluation of `Int.toNat` at the indices the examples use. -/
theorem Example.toNat_small :
    Int.toNat 2 = 2 ∧ Int.toNat 3 = 3 ∧ Int.toNat 4 = 4 ∧ Int.toNat 5 = 5 ∧
    Int.toNat 6 = 6 ∧ Int.toNat 7 = 7 ∧ Int.toNat 8 = 8 ∧ Int.toNat 9 = 9 ∧
    Int.toNat 10 = 10 ∧ Int.toNat 11 = 11 :=
  ⟨rfl, rfl, rfl, rfl, rfl, rfl, rfl, rfl, rfl, rfl⟩

/-- The mesh `Set` returns is the masked mesh. -/
theorem Set_mesh (env : Env) (mesh : Mesh) (o : Orthogonalization) (a b c : Int)
    (params : OrthogonalizationParametersNative) :
    (Set env mesh o a b c params).2.1 = Set.maskedMesh env mesh := rfl

/-- On `stripMesh`, with node 1 anchored at node 2, the boundary projection returns
`false`, whatever the coordinates of the nodes are: the second boundary edge of node
2 is in slot 3, and slot 3 of the row of node 1 holds the missing value. -/
theorem Example.strip_projection_fails (p c : Int → Point) :
    (ProjectOnOriginalMeshBoundary Example.env
      { Example.stripMeshAfterSet with nodes := p }
      { Example.stripCrossed 1 2 with orthogonalCoordinates := c }).1 = false := by
  have hN : Example.stripMeshAfterSet.numNodes = 2 + 6 := by
    simp [Example.stripMeshAfterSet, Set_mesh, Set.maskedMesh, Example.stripMesh]
  unfold ProjectOnOriginalMeshBoundary
  dsimp only
  rw [hN, Bool.not_eq_false']
  apply forRange_invariant_from
    (fun st : ProjectOnOriginalMeshBoundary.Loop => st.returned = true)
  · norm_num [forRange, ProjectOnOriginalMeshBoundary.nodeBody,
      ProjectOnOriginalMeshBoundary.edgeBody, Example.stripCrossed,
      Example.stripMeshAfterSet, Set_mesh, Set_nodesNodes, Set.nodesNodes_apply,
      Set.maskedMesh, Example.stripMesh, Example.env, Example.ofList,
      Example.toNat_small]
  · intro i t ht
    exact ProjectOnOriginalMeshBoundary.nodeBody_returned _ _ _ i t ht

/-! ## Claims on the propagation of a failed projection -/

/-- C13, at a failing input: on `stripMesh` after `Set`, with node 1 anchored at
node 2, the boundary projection that `InnerIteration` runs meets the missing value
and returns `false`; `InnerIteration` itself returns `true` and so does `Compute`,
so the failure is not propagated and the driver does not stop. -/
theorem C13_projection_failure_is_not_propagated :
    (ProjectOnOriginalMeshBoundary Example.env
      { Example.stripMeshAfterSet with
        nodes := InnerIteration.sweep Example.env Example.stripMeshAfterSet
          (Example.stripCrossed 1 2) }
      { Example.stripCrossed 1 2 with
        orthogonalCoordinates := InnerIteration.sweep Example.env Example.stripMeshAfterSet
          (Example.stripCrossed 1 2) }).1 = false ∧
    (InnerIteration Example.env Example.stripMeshAfterSet (Example.stripCrossed 1 2)).1 = true ∧
    (Compute Example.env Example.stripMeshAfterSet (Example.stripCrossed 1 2)).1 = true :=
  ⟨Example.strip_projection_fails _ _, InnerIteration_returns_true _ _ _,
    Compute_returns_true _ _ _⟩

/-! ## Claims on the segments of the boundary projection -/

/-- C14, at a failing input: on `stripMesh` after `Set`, node 2 is anchored at node
1. The boundary edges in the edge list of the anchor are edge 1 = `(1, 2)` in slot 0
and edge 0 = `(0, 1)` in slot 2, whose far endpoints are the nodes 2 and 0. The code
takes slots 0 and 2 of the row of node 2 instead: the nodes 3 and 5, so the segments
projected onto end at `(3, 0)` and `(1, 1)`, not at `(2, 0)` and `(0, 0)`. -/
theorem C14_segments_end_at_neighbours_of_the_node :
    (Example.stripCrossed 2 1).nearestPoints 2 = 1 ∧
    Example.stripMeshAfterSet.nodesTypes 2 = 2 ∧
    (Example.stripMeshAfterSet.nodesEdges 1 0 = 1 ∧
      Example.stripMeshAfterSet.edgesNumFaces 1 = 1 ∧
      Example.stripMeshAfterSet.edges 1 = (1, 2)) ∧
    Example.stripMeshAfterSet.edgesNumFaces (Example.stripMeshAfterSet.nodesEdges 1 1) = 2 ∧
    (Example.stripMeshAfterSet.nodesEdges 1 2 = 0 ∧
      Example.stripMeshAfterSet.edgesNumFaces 0 = 1 ∧
      Example.stripMeshAfterSet.edges 0 = (0, 1)) ∧
    Example.stripNeighbours.failed = false ∧
    Example.stripNeighbours.leftNode = 3 ∧
    Example.stripNeighbours.rightNode = 5 ∧
    Example.stripNeighbours.secondPoint = { x := 3, y := 0 } ∧
    Example.stripNeighbours.thirdPoint = { x := 1, y := 1 } ∧
    (Example.stripCrossed 2 1).originalNodes 2 = { x := 2, y := 0 } ∧
    (Example.stripCrossed 2 1).originalNodes 0 = { x := 0, y := 0 } := by
  refine ⟨?_, ?_, ⟨?_, ?_, ?_⟩, ?_, ⟨?_, ?_, ?_⟩, ?_, ?_, ?_, ?_, ?_, ?_, ?_⟩
  · simp [Example.stripCrossed]
  all_goals
    norm_num [Example.stripNeighbours, forRange, ProjectOnOriginalMeshBoundary.edgeBody,
      Example.stripCrossed, Example.stripMeshAfterSet, Set_mesh, Set_nodesNodes,
      Set_originalNodes, Set.nodesNodes_apply, Set.maskedMesh, Example.stripMesh,
      Example.env, Example.ofList, Example.toNat_small]

/-! ## The boundary projection, node by node -/

/-- The loop over the edges of the anchor: as long as it has not failed, the point of
the first segment is the original position of the left node once one boundary edge
has been met, and the point of the second segment that of the right node once two
have been met. -/
theorem ProjectOnOriginalMeshBoundary.edgeLoop_points (env : Env) (mesh : Mesh)
    (o : Orthogonalization) (n a : Int) (k : Nat)
    (init : ProjectOnOriginalMeshBoundary.Neighbours) (h0 : init.numNodes = 0) :
    0 ≤ (forRange (ProjectOnOriginalMeshBoundary.edgeBody env mesh o n a) k init).numNodes ∧
    ((forRange (ProjectOnOriginalMeshBoundary.edgeBody env mesh o n a) k init).failed = false →
      (1 ≤ (forRange (ProjectOnOriginalMeshBoundary.edgeBody env mesh o n a) k init).numNodes →
        (forRange (ProjectOnOriginalMeshBoundary.edgeBody env mesh o n a) k init).secondPoint =
          o.originalNodes
            (forRange (ProjectOnOriginalMeshBoundary.edgeBody env mesh o n a) k init).leftNode) ∧
      (2 ≤ (forRange (ProjectOnOriginalMeshBoundary.edgeBody env mesh o n a) k init).numNodes →
        (forRange (ProjectOnOriginalMeshBoundary.edgeBody env mesh o n a) k init).thirdPoint =
          o.originalNodes
            (forRange (ProjectOnOriginalMeshBoundary.edgeBody env mesh o n a) k
              init).rightNode)) := by
  apply forRange_invariant
    (fun r : ProjectOnOriginalMeshBoundary.Neighbours => 0 ≤ r.numNodes ∧
      (r.failed = false →
        (1 ≤ r.numNodes → r.secondPoint = o.originalNodes r.leftNode) ∧
        (2 ≤ r.numNodes → r.thirdPoint = o.originalNodes r.rightNode)))
  · refine ⟨by rw [h0], fun _ => ⟨fun h => ?_, fun h => ?_⟩⟩ <;> rw [h0] at h <;> omega
  · intro nn _ r hr
    obtain ⟨hr0, hr1⟩ := hr
    unfold ProjectOnOriginalMeshBoundary.edgeBody
    simp only []
    split_ifs with c1 c2 c3 c4 c5 c6
    · exact ⟨hr0, hr1⟩
    · exact ⟨by dsimp only; omega, fun hf => absurd hf (by simp)⟩
    · have hf : r.failed = false := by simpa using c1
      refine ⟨by dsimp only; omega, fun _ => ⟨fun _ => rfl, fun h => ?_⟩⟩
      dsimp only at h
      omega
    · exact ⟨by dsimp only; omega, fun hf => absurd hf (by simp)⟩
    · have hf : r.failed = false := by simpa using c1
      refine ⟨by dsimp only; omega, fun _ => ⟨fun _ => ?_, fun _ => rfl⟩⟩
      dsimp only
      exact (hr1 hf).1 (by omega)
    · have hf : r.failed = false := by simpa using c1
      refine ⟨by dsimp only; omega, fun _ => ⟨fun _ => ?_, fun _ => ?_⟩⟩
      · dsimp only
        exact (hr1 hf).1 (by omega)
      · dsimp only
        exact (hr1 hf).2 (by omega)
    · exact ⟨hr0, hr1⟩

/-- The loop over the edges of the anchor does not fail when the slots it reads in the
row of the node hold no missing value. -/
theorem ProjectOnOriginalMeshBoundary.edgeLoop_succeeds (env : Env) (mesh : Mesh)
    (o : Orthogonalization) (n a : Int) (k : Nat)
    (init : ProjectOnOriginalMeshBoundary.Neighbours) (h0 : init.failed = false)
    (hrow : ∀ nn : Int, 0 ≤ nn → nn < k → o.nodesNodes n nn ≠ env.intMissingValue) :
    (forRange (ProjectOnOriginalMeshBoundary.edgeBody env mesh o n a) k init).failed = false := by
  apply forRange_invariant
    (fun r : ProjectOnOriginalMeshBoundary.Neighbours => r.failed = false)
  · exact h0
  · intro nn hnn r hr
    unfold ProjectOnOriginalMeshBoundary.edgeBody
    simp only []
    have hm := hrow nn (by positivity) (by exact_mod_cast hnn)
    split_ifs <;> exact hr

/-- An iteration of the loop over the nodes leaves the coordinates and the anchors of
the other nodes, and a node that is not a boundary node (type 2) leaves everything. -/
theorem ProjectOnOriginalMeshBoundary.nodeBody_other (env : Env) (mesh : Mesh)
    (o : Orthogonalization) (n : Int) (st : ProjectOnOriginalMeshBoundary.Loop) :
    (mesh.nodesTypes n ≠ 2 → ProjectOnOriginalMeshBoundary.nodeBody env mesh o n st = st) ∧
    ∀ m : Int, m ≠ n →
      (ProjectOnOriginalMeshBoundary.nodeBody env mesh o n st).nodes m = st.nodes m ∧
      (ProjectOnOriginalMeshBoundary.nodeBody env mesh o n st).nearestPoints m =
        st.nearestPoints m := by
  unfold ProjectOnOriginalMeshBoundary.nodeBody
  simp only []
  constructor
  · intro ht
    by_cases c1 : st.returned = true
    · rw [if_pos c1]
    · rw [if_neg c1, if_neg (fun h => ht h.1)]
  · intro m hm
    split_ifs <;>
      first
        | exact ⟨rfl, rfl⟩
        | exact ⟨Function.update_noteq hm _ _, Function.update_noteq hm _ _⟩
        | exact ⟨Function.update_noteq hm _ _, rfl⟩

/-- An iteration of the loop over the nodes that has not returned, for a boundary node
whose edge loop does not fail: the node is committed to the projection onto the
closer segment, the second one on a tie, and its anchor becomes the far node of that
segment exactly when the parametric ratio exceeds one half. -/
theorem ProjectOnOriginalMeshBoundary.nodeBody_commit (env : Env) (mesh : Mesh)
    (o : Orthogonalization) (n : Int) (st : ProjectOnOriginalMeshBoundary.Loop)
    (hret : st.returned = false) (htype : mesh.nodesTypes n = 2)
    (hval : 0 < mesh.nodesNumEdges n) (hvala : 0 < mesh.nodesNumEdges (st.nearestPoints n))
    (hok : (forRange
      (ProjectOnOriginalMeshBoundary.edgeBody env mesh o n (st.nearestPoints n))
      (mesh.nodesNumEdges (st.nearestPoints n)).toNat
      { failed := false, numNodes := 0, leftNode := env.indeterminateInt,
        rightNode := env.indeterminateInt, secondPoint := st.secondPoint,
        thirdPoint := st.thirdPoint }).failed = false) :
    ((env.DistanceFromLine (st.nodes n) (o.originalNodes (st.nearestPoints n))
        (forRange (ProjectOnOriginalMeshBoundary.edgeBody env mesh o n (st.nearestPoints n))
          (mesh.nodesNumEdges (st.nearestPoints n)).toNat
          { failed := false, numNodes := 0, leftNode := env.indeterminateInt,
            rightNode := env.indeterminateInt, secondPoint := st.secondPoint,
            thirdPoint := st.thirdPoint }).secondPoint mesh.projection).1 <
      (env.DistanceFromLine (st.nodes n) (o.originalNodes (st.nearestPoints n))
        (forRange (ProjectOnOriginalMeshBoundary.edgeBody env mesh o n (st.nearestPoints n))
          (mesh.nodesNumEdges (st.nearestPoints n)).toNat
          { failed := false, numNodes := 0, leftNode := env.indeterminateInt,
            rightNode := env.indeterminateInt, secondPoint := st.secondPoint,
            thirdPoint := st.thirdPoint }).thirdPoint mesh.projection).1 →
      (ProjectOnOriginalMeshBoundary.nodeBody env mesh o n st).nodes n =
        (env.DistanceFromLine (st.nodes n) (o.originalNodes (st.nearestPoints n))
          (forRange (ProjectOnOriginalMeshBoundary.edgeBody env mesh o n (st.nearestPoints n))
            (mesh.nodesNumEdges (st.nearestPoints n)).toNat
            { failed := false, numNodes := 0, leftNode := env.indeterminateInt,
              rightNode := env.indeterminateInt, secondPoint := st.secondPoint,
              thirdPoint := st.thirdPoint }).secondPoint mesh.projection).2.1 ∧
      (ProjectOnOriginalMeshBoundary.nodeBody env mesh o n st).nearestPoints n =
        if (env.DistanceFromLine (st.nodes n) (o.originalNodes (st.nearestPoints n))
          (forRange (ProjectOnOriginalMeshBoundary.edgeBody env mesh o n (st.nearestPoints n))
            (mesh.nodesNumEdges (st.nearestPoints n)).toNat
            { failed := false, numNodes := 0, leftNode := env.indeterminateInt,
              rightNode := env.indeterminateInt, secondPoint := st.secondPoint,
              thirdPoint := st.thirdPoint }).secondPoint mesh.projection).2.2 > 1 / 2
        then
          (forRange (ProjectOnOriginalMeshBoundary.edgeBody env mesh o n (st.nearestPoints n))
            (mesh.nodesNumEdges (st.nearestPoints n)).toNat
            { failed := false, numNodes := 0, leftNode := env.indeterminateInt,
              rightNode := env.indeterminateInt, secondPoint := st.secondPoint,
              thirdPoint := st.thirdPoint }).leftNode
        else st.nearestPoints n) ∧
    (¬ (env.DistanceFromLine (st.nodes n) (o.originalNodes (st.nearestPoints n))
        (forRange (ProjectOnOriginalMeshBoundary.edgeBody env mesh o n (st.nearestPoints n))
          (mesh.nodesNumEdges (st.nearestPoints n)).toNat
          { failed := false, numNodes := 0, leftNode := env.indeterminateInt,
            rightNode := env.indeterminateInt, secondPoint := st.secondPoint,
            thirdPoint := st.thirdPoint }).secondPoint mesh.projection).1 <
      (env.DistanceFromLine (st.nodes n) (o.originalNodes (st.nearestPoints n))
        (forRange (ProjectOnOriginalMeshBoundary.edgeBody env mesh o n (st.nearestPoints n))
          (mesh.nodesNumEdges (st.nearestPoints n)).toNat
          { failed := false, numNodes := 0, leftNode := env.indeterminateInt,
            rightNode := env.indeterminateInt, secondPoint := st.secondPoint,
            thirdPoint := st.thirdPoint }).thirdPoint mesh.projection).1 →
      (ProjectOnOriginalMeshBoundary.nodeBody env mesh o n st).nodes n =
        (env.DistanceFromLine (st.nodes n) (o.originalNodes (st.nearestPoints n))
          (forRange (ProjectOnOriginalMeshBoundary.edgeBody env mesh o n (st.nearestPoints n))
            (mesh.nodesNumEdges (st.nearestPoints n)).toNat
            { failed := false, numNodes := 0, leftNode := env.indeterminateInt,
              rightNode := env.indeterminateInt, secondPoint := st.secondPoint,
              thirdPoint := st.thirdPoint }).thirdPoint mesh.projection).2.1 ∧
      (ProjectOnOriginalMeshBoundary.nodeBody env mesh o n st).nearestPoints n =
        if (env.DistanceFromLine (st.nodes n) (o.originalNodes (st.nearestPoints n))
          (forRange (ProjectOnOriginalMeshBoundary.edgeBody env mesh o n (st.nearestPoints n))
            (mesh.nodesNumEdges (st.nearestPoints n)).toNat
            { failed := false, numNodes := 0, leftNode := env.indeterminateInt,
              rightNode := env.indeterminateInt, secondPoint := st.secondPoint,
              thirdPoint := st.thirdPoint }).thirdPoint mesh.projection).2.2 > 1 / 2
        then
          (forRange (ProjectOnOriginalMeshBoundary.edgeBody env mesh o n (st.nearestPoints n))
            (mesh.nodesNumEdges (st.nearestPoints n)).toNat
            { failed := false, numNodes := 0, leftNode := env.indeterminateInt,
              rightNode := env.indeterminateInt, secondPoint := st.secondPoint,
              thirdPoint := st.thirdPoint }).rightNode
        else st.nearestPoints n) := by
  generalize hr : forRange
    (ProjectOnOriginalMeshBoundary.edgeBody env mesh o n (st.nearestPoints n))
    (mesh.nodesNumEdges (st.nearestPoints n)).toNat
    { failed := false, numNodes := 0, leftNode := env.indeterminateInt,
      rightNode := env.indeterminateInt, secondPoint := st.secondPoint,
      thirdPoint := st.thirdPoint } = r at hok ⊢
  unfold ProjectOnOriginalMeshBoundary.nodeBody
  simp only []
  have hret2 : ¬ (st.returned = true) := by rw [hret]; simp
  have hok2 : ¬ (r.failed = true) := by rw [hok]; simp
  have ht3 : mesh.nodesTypes n ≠ 3 := by rw [htype]; norm_num
  rw [if_neg hret2, if_pos ⟨htype, hval, hvala⟩, hr, if_neg hok2]
  constructor
  · intro hlt
    rw [if_pos hlt]
    dsimp only
    refine ⟨Function.update_same _ _ _, ?_⟩
    split_ifs with c1 c2 c3
    · exact Function.update_same _ _ _
    · exact absurd c1.1 c2
    · exact absurd ⟨c3, ht3⟩ c1
    · rfl
  · intro hlt
    rw [if_neg hlt]
    dsimp only
    refine ⟨Function.update_same _ _ _, ?_⟩
    split_ifs with c1 c2 c3
    · exact Function.update_same _ _ _
    · exact absurd c1.1 c2
    · exact absurd ⟨c3, ht3⟩ c1
    · rfl

/-- The loop over the nodes has not touched the nodes it has not reached. -/
theorem ProjectOnOriginalMeshBoundary.nodeLoop_untouched (env : Env) (mesh : Mesh)
    (o : Orthogonalization) (init : ProjectOnOriginalMeshBoundary.Loop) (k : Nat) (m : Int)
    (hm : (k : Int) ≤ m) :
    (forRange (ProjectOnOriginalMeshBoundary.nodeBody env mesh o) k init).nodes m =
      init.nodes m ∧
    (forRange (ProjectOnOriginalMeshBoundary.nodeBody env mesh o) k init).nearestPoints m =
      init.nearestPoints m := by
  induction k with
  | zero => exact ⟨rfl, rfl⟩
  | succ k ih =>
    rw [forRange_succ]
    have hne : m ≠ (k : Int) := by push_cast at hm; clear ih; omega
    have hle : (k : Int) ≤ m := by push_cast at hm; clear ih; omega
    have h := (ProjectOnOriginalMeshBoundary.nodeBody_other env mesh o (k : Int)
      (forRange (ProjectOnOriginalMeshBoundary.nodeBody env mesh o) k init)).2 m hne
    exact ⟨h.1.trans (ih hle).1, h.2.trans (ih hle).2⟩

/-- The loop over the nodes does not touch a node again after its own iteration. -/
theorem ProjectOnOriginalMeshBoundary.nodeLoop_fixed (env : Env) (mesh : Mesh)
    (o : Orthogonalization) (init : ProjectOnOriginalMeshBoundary.Loop) (n j : Nat) :
    (forRange (ProjectOnOriginalMeshBoundary.nodeBody env mesh o) (n + 1 + j) init).nodes n =
      (forRange (ProjectOnOriginalMeshBoundary.nodeBody env mesh o) (n + 1) init).nodes n ∧
    (forRange (ProjectOnOriginalMeshBoundary.nodeBody env mesh o) (n + 1 + j)
        init).nearestPoints n =
      (forRange (ProjectOnOriginalMeshBoundary.nodeBody env mesh o) (n + 1)
        init).nearestPoints n := by
  induction j with
  | zero => exact ⟨rfl, rfl⟩
  | succ j ih =>
    rw [← Nat.add_assoc, forRange_succ]
    have hne : (n : Int) ≠ ((n + 1 + j : Nat) : Int) := by push_cast; clear ih; omega
    have h := (ProjectOnOriginalMeshBoundary.nodeBody_other env mesh o ((n + 1 + j : Nat) : Int)
      (forRange (ProjectOnOriginalMeshBoundary.nodeBody env mesh o) (n + 1 + j) init)).2
      (n : Int) hne
    exact ⟨h.1.trans ih.1, h.2.trans ih.2⟩

/-- A loop over the nodes that ends without `return false` had not executed it at any
earlier point. -/
theorem ProjectOnOriginalMeshBoundary.nodeLoop_not_returned (env : Env) (mesh : Mesh)
    (o : Orthogonalization) (init : ProjectOnOriginalMeshBoundary.Loop) (k j : Nat)
    (h : (forRange (ProjectOnOriginalMeshBoundary.nodeBody env mesh o) (k + j)
      init).returned = false) :
    (forRange (ProjectOnOriginalMeshBoundary.nodeBody env mesh o) k init).returned = false := by
  cases hk : (forRange (ProjectOnOriginalMeshBoundary.nodeBody env mesh o) k init).returned with
  | false => rfl
  | true =>
    have := forRange_invariant_from (fun t => t.returned = true)
      (ProjectOnOriginalMeshBoundary.nodeBody env mesh o) k j init hk
      (fun i t ht => ProjectOnOriginalMeshBoundary.nodeBody_returned env mesh o i t ht)
    exact absurd (h.symm.trans this) (by simp)

/-- An iteration of the loop over the nodes that does not execute `return false`, at
a boundary node with edges whose anchor has edges, had an edge loop that did not
fail. -/
theorem ProjectOnOriginalMeshBoundary.nodeBody_not_failed (env : Env) (mesh : Mesh)
    (o : Orthogonalization) (n : Int) (st : ProjectOnOriginalMeshBoundary.Loop)
    (hret : st.returned = false) (htype : mesh.nodesTypes n = 2)
    (hval : 0 < mesh.nodesNumEdges n) (hvala : 0 < mesh.nodesNumEdges (st.nearestPoints n))
    (h : (ProjectOnOriginalMeshBoundary.nodeBody env mesh o n st).returned = false) :
    (forRange
      (ProjectOnOriginalMeshBoundary.edgeBody env mesh o n (st.nearestPoints n))
      (mesh.nodesNumEdges (st.nearestPoints n)).toNat
      { failed := false, numNodes := 0, leftNode := env.indeterminateInt,
        rightNode := env.indeterminateInt, secondPoint := st.secondPoint,
        thirdPoint := st.thirdPoint }).failed = false := by
  unfold ProjectOnOriginalMeshBoundary.nodeBody at h
  simp only [] at h
  have hret2 : ¬ (st.returned = true) := by rw [hret]; simp
  rw [if_neg hret2, if_pos ⟨htype, hval, hvala⟩] at h
  by_contra hf
  rw [Bool.not_eq_false] at hf
  rw [if_pos hf] at h
  exact absurd h (by simp)

/-- An iteration of the loop over the nodes does not execute `return false` when the
slots it reads in the row of the node hold no missing value. -/
theorem ProjectOnOriginalMeshBoundary.nodeBody_succeeds (env : Env) (mesh : Mesh)
    (o : Orthogonalization) (n : Int) (st : ProjectOnOriginalMeshBoundary.Loop)
    (hret : st.returned = false)
    (hrow : ∀ nn : Int, 0 ≤ nn → nn < ((mesh.nodesNumEdges (st.nearestPoints n)).toNat : Int) →
      o.nodesNodes n nn ≠ env.intMissingValue) :
    (ProjectOnOriginalMeshBoundary.nodeBody env mesh o n st).returned = false := by
  have hr := ProjectOnOriginalMeshBoundary.edgeLoop_succeeds env mesh o n (st.nearestPoints n)
    (mesh.nodesNumEdges (st.nearestPoints n)).toNat
    { failed := false, numNodes := 0, leftNode := env.indeterminateInt,
      rightNode := env.indeterminateInt, secondPoint := st.secondPoint,
      thirdPoint := st.thirdPoint } rfl hrow
  unfold ProjectOnOriginalMeshBoundary.nodeBody
  simp only []
  have hret2 : ¬ (st.returned = true) := by rw [hret]; simp
  have hr2 : ¬ ((forRange
      (ProjectOnOriginalMeshBoundary.edgeBody env mesh o n (st.nearestPoints n))
      (mesh.nodesNumEdges (st.nearestPoints n)).toNat
      { failed := false, numNodes := 0, leftNode := env.indeterminateInt,
        rightNode := env.indeterminateInt, secondPoint := st.secondPoint,
        thirdPoint := st.thirdPoint }).failed = true) := by rw [hr]; simp
  rw [if_neg hret2]
  by_cases hc : mesh.nodesTypes n = 2 ∧ mesh.nodesNumEdges n > 0 ∧
      mesh.nodesNumEdges (st.nearestPoints n) > 0
  · rw [if_pos hc, if_neg hr2]
    split_ifs <;> rfl
  · rw [if_neg hc]
    exact hret

/-- The boundary projection returns `true` when, for every node, the slots of its row
up to the number of edges of its anchor hold no missing value. -/
theorem ProjectOnOriginalMeshBoundary_succeeds (env : Env) (mesh : Mesh)
    (o : Orthogonalization)
    (hrow : ∀ n : Nat, n < mesh.numNodes → ∀ nn : Int, 0 ≤ nn →
      nn < ((mesh.nodesNumEdges (o.nearestPoints n)).toNat : Int) →
      o.nodesNodes n nn ≠ env.intMissingValue) :
    (ProjectOnOriginalMeshBoundary env mesh o).1 = true := by
  have key : ∀ k : Nat, k ≤ mesh.numNodes →
      (forRange (ProjectOnOriginalMeshBoundary.nodeBody env mesh o) k
        { returned := false, secondPoint := env.indeterminatePoint,
          thirdPoint := env.indeterminatePoint, nodes := mesh.nodes,
          nearestPoints := o.nearestPoints }).returned = false := by
    intro k
    induction k with
    | zero => intro _; rfl
    | succ k ih =>
      intro hk
      rw [forRange_succ]
      apply ProjectOnOriginalMeshBoundary.nodeBody_succeeds
      · exact ih (Nat.le_of_succ_le hk)
      · rw [(ProjectOnOriginalMeshBoundary.nodeLoop_untouched env mesh o _ k (k : Int)
          (le_refl _)).2]
        exact hrow k hk
  unfold ProjectOnOriginalMeshBoundary
  dsimp only
  rw [key mesh.numNodes (le_refl _)]
  rfl

/-! ## Claims on what the boundary projection commits -/

/-- C15: in `ProjectOnOriginalMeshBoundary`, a node `n` whose type is not 2 keeps its
coordinates and its anchor. When the projection returns `true`, a node `n` of type 2
that has edges and whose anchor has edges is treated as follows, where `r` is the
state after the loop over the edges of the anchor (started with whatever the second
and third point held before): the loop did not fail, the second and third point are
the original positions of the left and right node once these are found, and with the
projections of `nodes[n]` onto the segments from the original position of the anchor
to the second and to the third point, the node is committed to the projection onto
the second point's segment when that one is strictly closer and onto the third
point's segment otherwise (so on a tie); its anchor becomes the far node of the
chosen segment exactly when the chosen parametric ratio exceeds one half. -/
theorem C15_projection_commits_the_closer_segment (env : Env) (mesh : Mesh)
    (o : Orthogonalization) (n : Nat) (hn : n < mesh.numNodes) :
    (mesh.nodesTypes n ≠ 2 →
      (ProjectOnOriginalMeshBoundary env mesh o).2.1.nodes n = mesh.nodes n ∧
      (ProjectOnOriginalMeshBoundary env mesh o).2.2.nearestPoints n = o.nearestPoints n) ∧
    ((ProjectOnOriginalMeshBoundary env mesh o).1 = true → mesh.nodesTypes n = 2 →
      0 < mesh.nodesNumEdges n → 0 < mesh.nodesNumEdges (o.nearestPoints n) →
      ∃ (p2 p3 : Point) (r : ProjectOnOriginalMeshBoundary.Neighbours),
        r = forRange
          (ProjectOnOriginalMeshBoundary.edgeBody env mesh o n (o.nearestPoints n))
          (mesh.nodesNumEdges (o.nearestPoints n)).toNat
          { failed := false, numNodes := 0, leftNode := env.indeterminateInt,
            rightNode := env.indeterminateInt, secondPoint := p2, thirdPoint := p3 } ∧
        r.failed = false ∧
        (1 ≤ r.numNodes → r.secondPoint = o.originalNodes r.leftNode) ∧
        (2 ≤ r.numNodes → r.thirdPoint = o.originalNodes r.rightNode) ∧
        ((env.DistanceFromLine (mesh.nodes n) (o.originalNodes (o.nearestPoints n))
              r.secondPoint mesh.projection).1 <
            (env.DistanceFromLine (mesh.nodes n) (o.originalNodes (o.nearestPoints n))
              r.thirdPoint mesh.projection).1 →
          (ProjectOnOriginalMeshBoundary env mesh o).2.1.nodes n =
            (env.DistanceFromLine (mesh.nodes n) (o.originalNodes (o.nearestPoints n))
              r.secondPoint mesh.projection).2.1 ∧
          (ProjectOnOriginalMeshBoundary env mesh o).2.2.nearestPoints n =
            if (env.DistanceFromLine (mesh.nodes n) (o.originalNodes (o.nearestPoints n))
              r.secondPoint mesh.projection).2.2 > 1 / 2
            then r.leftNode else o.nearestPoints n) ∧
        (¬ (env.DistanceFromLine (mesh.nodes n) (o.originalNodes (o.nearestPoints n))
              r.secondPoint mesh.projection).1 <
            (env.DistanceFromLine (mesh.nodes n) (o.originalNodes (o.nearestPoints n))
              r.thirdPoint mesh.projection).1 →
          (ProjectOnOriginalMeshBoundary env mesh o).2.1.nodes n =
            (env.DistanceFromLine (mesh.nodes n) (o.originalNodes (o.nearestPoints n))
              r.thirdPoint mesh.projection).2.1 ∧
          (ProjectOnOriginalMeshBoundary env mesh o).2.2.nearestPoints n =
            if (env.DistanceFromLine (mesh.nodes n) (o.originalNodes (o.nearestPoints n))
              r.thirdPoint mesh.projection).2.2 > 1 / 2
            then r.rightNode else o.nearestPoints n)) := by
  obtain ⟨j, hj⟩ : ∃ j, mesh.numNodes = n + 1 + j := ⟨mesh.numNodes - (n + 1), by omega⟩
  generalize hinit : ProjectOnOriginalMeshBoundary.Loop.mk false env.indeterminatePoint
    env.indeterminatePoint mesh.nodes o.nearestPoints = init
  have hnodes : init.nodes = mesh.nodes := by rw [← hinit]
  have hnear : init.nearestPoints = o.nearestPoints := by rw [← hinit]
  have e1 : (ProjectOnOriginalMeshBoundary env mesh o).2.1.nodes =
      (forRange (ProjectOnOriginalMeshBoundary.nodeBody env mesh o) (n + 1 + j) init).nodes := by
    rw [← hinit, ← hj]; rfl
  have e2 : (ProjectOnOriginalMeshBoundary env mesh o).2.2.nearestPoints =
      (forRange (ProjectOnOriginalMeshBoundary.nodeBody env mesh o) (n + 1 + j)
        init).nearestPoints := by
    rw [← hinit, ← hj]; rfl
  have e3 : (ProjectOnOriginalMeshBoundary env mesh o).1 =
      !(forRange (ProjectOnOriginalMeshBoundary.nodeBody env mesh o) (n + 1 + j)
        init).returned := by
    rw [← hinit, ← hj]; rfl
  have hfix := ProjectOnOriginalMeshBoundary.nodeLoop_fixed env mesh o init n j
  have hpre := ProjectOnOriginalMeshBoundary.nodeLoop_untouched env mesh o init n (n : Int)
    (le_refl _)
  rw [hnodes, hnear] at hpre
  have hs1 := ProjectOnOriginalMeshBoundary.nodeLoop_not_returned env mesh o init (n + 1) j
  have hs0 := ProjectOnOriginalMeshBoundary.nodeLoop_not_returned env mesh o init n 1
  rw [e1, e2, e3, hfix.1, hfix.2]
  rw [forRange_succ] at hs1 hs0 ⊢
  generalize forRange (ProjectOnOriginalMeshBoundary.nodeBody env mesh o) (n + 1 + j) init =
    fin at *
  generalize forRange (ProjectOnOriginalMeshBoundary.nodeBody env mesh o) n init = st at *
  constructor
  · intro ht
    rw [(ProjectOnOriginalMeshBoundary.nodeBody_other env mesh o (n : Int) _).1 ht]
    exact hpre
  · intro hret htype hval hvala
    have hfin : fin.returned = false := by
      cases hf : fin.returned with
      | false => rfl
      | true => rw [hf] at hret; exact absurd hret (by simp)
    have hbody := hs1 hfin
    have hst := hs0 hbody
    rw [← hpre.2] at hvala
    have hok := ProjectOnOriginalMeshBoundary.nodeBody_not_failed env mesh o (n : Int) st
      hst htype hval hvala hbody
    have hpts := (ProjectOnOriginalMeshBoundary.edgeLoop_points env mesh o (n : Int)
      (st.nearestPoints n) (mesh.nodesNumEdges (st.nearestPoints n)).toNat
      { failed := false, numNodes := 0, leftNode := env.indeterminateInt,
        rightNode := env.indeterminateInt, secondPoint := st.secondPoint,
        thirdPoint := st.thirdPoint } rfl).2 hok
    have hcommit := ProjectOnOriginalMeshBoundary.nodeBody_commit env mesh o (n : Int) st
      hst htype hval hvala hok
    rw [hpre.1, hpre.2] at hcommit
    rw [hpre.2] at hok hpts
    exact ⟨st.secondPoint, st.thirdPoint, _, rfl, hok, hpts.1, hpts.2, hcommit.1, hcommit.2⟩

/-- On `stripMesh`, `Set` anchors every node at itself. -/
theorem Example.strip_nearestPoints (n : Int) :
    Example.stripAfterSet.nearestPoints n = if 0 ≤ n ∧ n < 8 then n else 0 := by
  simp [Example.stripAfterSet, Set, Set.finish, Set.members, Set.maskedMesh,
    Example.stripMesh, Example.newOrthogonalization]

/-- On `stripMesh` after `Set` the boundary projection returns `true`. -/
theorem Example.strip_projection_succeeds :
    (ProjectOnOriginalMeshBoundary Example.env Example.stripMeshAfterSet
      Example.stripAfterSet).1 = true := by
  apply ProjectOnOriginalMeshBoundary_succeeds
  intro n hn nn h0 h1
  have hN : Example.stripMeshAfterSet.numNodes = 8 := by
    simp [Example.stripMeshAfterSet, Set_mesh, Set.maskedMesh, Example.stripMesh]
  rw [hN] at hn
  rw [Example.strip_nearestPoints] at h1
  interval_cases n <;>
    norm_num [Example.stripMeshAfterSet, Set_mesh, Set.maskedMesh, Example.stripMesh,
      Example.ofList, Example.toNat_small] at h1 <;>
    interval_cases nn <;>
    norm_num [Example.stripAfterSet, Example.stripMeshAfterSet, Set_mesh, Set_nodesNodes,
      Set.nodesNodes_apply, Set.maskedMesh, Example.stripMesh, Example.env, Example.ofList,
      Example.toNat_small]

/-- C15 on `stripMesh` after `Set`: the projection returns `true`; node 1 is a
boundary node anchored at itself, both candidate segments start at its own position,
the distances tie, and the node is committed to its projection onto the second
segment, which is its own position, with its anchor kept since the ratio is 0. -/
theorem C15_witness :
    (1 : Nat) < Example.stripMeshAfterSet.numNodes ∧
    (ProjectOnOriginalMeshBoundary Example.env Example.stripMeshAfterSet
      Example.stripAfterSet).1 = true ∧
    Example.stripMeshAfterSet.nodesTypes 1 = 2 ∧
    (ProjectOnOriginalMeshBoundary Example.env Example.stripMeshAfterSet
      Example.stripAfterSet).2.1.nodes 1 = { x := 1, y := 0 } ∧
    (ProjectOnOriginalMeshBoundary Example.env Example.stripMeshAfterSet
      Example.stripAfterSet).2.2.nearestPoints 1 = 1 := by
  have hN : (1 : Nat) < Example.stripMeshAfterSet.numNodes := by
    simp [Example.stripMeshAfterSet, Set_mesh, Set.maskedMesh, Example.stripMesh]
  have htype : Example.stripMeshAfterSet.nodesTypes 1 = 2 := by
    norm_num [Example.stripMeshAfterSet, Set_mesh, Set.maskedMesh, Example.stripMesh,
      Example.ofList, Example.env, forRange]
  have hanchor : Example.stripAfterSet.nearestPoints 1 = 1 := by
    rw [Example.strip_nearestPoints]; norm_num
  have hval : Example.stripMeshAfterSet.nodesNumEdges 1 = 3 := by
    norm_num [Example.stripMeshAfterSet, Set_mesh, Set.maskedMesh, Example.stripMesh,
      Example.ofList]
  obtain ⟨p2, p3, r, hr, -, -, -, -, hcommit⟩ :=
    (C15_projection_commits_the_closer_segment Example.env Example.stripMeshAfterSet
      Example.stripAfterSet 1 hN).2 Example.strip_projection_succeeds htype
      (by rw [Nat.cast_one, hval]; norm_num) (by rw [Nat.cast_one, hanchor, hval]; norm_num)
  rw [Nat.cast_one] at hr hcommit
  rw [hanchor, hval] at hr
  rw [hanchor] at hcommit
  have h2 : r.secondPoint = { x := 2, y := 0 } := by
    rw [hr]
    norm_num [hanchor, hval, forRange, ProjectOnOriginalMeshBoundary.edgeBody,
      Example.stripAfterSet, Example.stripMeshAfterSet, Set_mesh, Set_nodesNodes,
      Set_originalNodes, Set.nodesNodes_apply, Set.maskedMesh, Example.stripMesh,
      Example.env, Example.ofList, Example.toNat_small]
  have h3 : r.thirdPoint = { x := 0, y := 0 } := by
    rw [hr]
    norm_num [hanchor, hval, forRange, ProjectOnOriginalMeshBoundary.edgeBody,
      Example.stripAfterSet, Example.stripMeshAfterSet, Set_mesh, Set_nodesNodes,
      Set_originalNodes, Set.nodesNodes_apply, Set.maskedMesh, Example.stripMesh,
      Example.env, Example.ofList, Example.toNat_small]
  have hnode : Example.stripMeshAfterSet.nodes 1 = { x := 1, y := 0 } := by
    norm_num [Example.stripMeshAfterSet, Set_mesh, Set.maskedMesh, Example.stripMesh,
      Example.ofList]
  have horig : Example.stripAfterSet.originalNodes 1 = { x := 1, y := 0 } := by
    norm_num [Example.stripAfterSet, Set_originalNodes, Example.stripMesh, Example.ofList]
  rw [h2, h3, hnode, horig] at hcommit
  have hs : Rat.sqrt 0 = 0 := by simp
  have hd2 : Example.env.DistanceFromLine { x := 1, y := 0 } { x := 1, y := 0 }
      { x := 2, y := 0 } Example.stripMeshAfterSet.projection = (0, { x := 1, y := 0 }, 0) := by
    norm_num [Example.env, Example.distanceFromLine, Example.distance, hs]
  have hd3 : Example.env.DistanceFromLine { x := 1, y := 0 } { x := 1, y := 0 }
      { x := 0, y := 0 } Example.stripMeshAfterSet.projection = (0, { x := 1, y := 0 }, 0) := by
    norm_num [Example.env, Example.distanceFromLine, Example.distance, hs]
  rw [hd2, hd3] at hcommit
  have hres := hcommit (lt_irrefl _)
  refine ⟨hN, Example.strip_projection_succeeds, htype, hres.1, ?_⟩
  rw [hres.2]
  norm_num

/-! ## The compressed terms of a node -/

/-- The loop over the slots of node `n`: slot `j + 1` is stored at the index
`m_compressedEndNodeIndex[n] + j` with equal weights in both directions, the indices
outside the slots visited are left, and so is the right-hand side. -/
theorem ComputeLinearSystemTerms.slotLoop_content (mesh : Mesh) (o : Orthogonalization)
    (n : Int) (atpfLoc atpf1Loc : ℚ) (cnt : Nat) (ls : LinearSystem) :
    (∀ j : Nat, j < cnt →
      (forRange (ComputeLinearSystemTerms.slotBody mesh o n atpfLoc atpf1Loc) cnt
          ls).compressedNodesNodes (o.linearSystem.compressedEndNodeIndex n + j) =
        (if (j : Int) + 1 < mesh.nodesNumEdges n + 1 then o.nodesNodes n ((j : Int) + 1 - 1)
          else o.smoother.caches.connectedNodes n ((j : Int) + 1)) ∧
      (forRange (ComputeLinearSystemTerms.slotBody mesh o n atpfLoc atpf1Loc) cnt
          ls).compressedWeightX (o.linearSystem.compressedEndNodeIndex n + j) =
        (if (j : Int) + 1 < mesh.nodesNumEdges n + 1 then
          (if atpf1Loc > 0 ∧ mesh.nodesTypes n = 1 then
              atpf1Loc * o.smoother.wSmoother n ((j : Int) + 1) else 0) +
            atpfLoc * o.wOrthogonalizer n ((j : Int) + 1 - 1)
          else (if atpf1Loc > 0 ∧ mesh.nodesTypes n = 1 then
              atpf1Loc * o.smoother.wSmoother n ((j : Int) + 1) else 0)) ∧
      (forRange (ComputeLinearSystemTerms.slotBody mesh o n atpfLoc atpf1Loc) cnt
          ls).compressedWeightY (o.linearSystem.compressedEndNodeIndex n + j) =
        (forRange (ComputeLinearSystemTerms.slotBody mesh o n atpfLoc atpf1Loc) cnt
          ls).compressedWeightX (o.linearSystem.compressedEndNodeIndex n + j)) ∧
    (∀ idx : Int,
      ¬ (o.linearSystem.compressedEndNodeIndex n ≤ idx ∧
          idx < o.linearSystem.compressedEndNodeIndex n + cnt) →
      (forRange (ComputeLinearSystemTerms.slotBody mesh o n atpfLoc atpf1Loc) cnt
          ls).compressedNodesNodes idx = ls.compressedNodesNodes idx) ∧
    (forRange (ComputeLinearSystemTerms.slotBody mesh o n atpfLoc atpf1Loc) cnt
      ls).compressedRhs = ls.compressedRhs := by
  induction cnt with
  | zero => exact ⟨fun j hj => absurd hj (Nat.not_lt_zero j), fun _ _ => rfl, rfl⟩
  | succ k ih =>
    obtain ⟨h1, h2, h3⟩ := ih
    simp only [forRange_succ, ComputeLinearSystemTerms.slotBody]
    refine ⟨?_, ?_, h3⟩
    · intro j hj
      by_cases hjk : j = k
      · subst hjk
        simp only [Function.update_same]
        refine ⟨?_, ?_, ?_⟩ <;> trivial
      · have hlt : j < k := by omega
        have hne : o.linearSystem.compressedEndNodeIndex n + (j : Int) ≠
            o.linearSystem.compressedEndNodeIndex n + (k : Int) := by
          intro h
          have : (j : Int) = k := by linarith
          exact hjk (by exact_mod_cast this)
        simp only [Function.update_noteq hne]
        exact h1 j hlt
    · intro idx hidx
      have hne : idx ≠ o.linearSystem.compressedEndNodeIndex n + (k : Int) := by
        intro h; apply hidx; rw [h]; push_cast; constructor <;> omega
      simp only [Function.update_noteq hne]
      exact h2 idx (by intro h; apply hidx; push_cast; exact ⟨h.1, by omega⟩)

/-- An iteration of the loop over the nodes writes neighbour ids only inside the range
of its node, and right-hand sides only at the two entries of its node. -/
theorem ComputeLinearSystemTerms.nodeBody_frame_ids (mesh : Mesh) (o : Orthogonalization)
    (m : Int) (ls : LinearSystem) :
    (∀ idx : Int,
      ¬ (o.linearSystem.compressedEndNodeIndex m ≤ idx ∧
          idx < o.linearSystem.compressedStartNodeIndex m) →
      (ComputeLinearSystemTerms.nodeBody mesh o m ls).compressedNodesNodes idx =
        ls.compressedNodesNodes idx) ∧
    (∀ i : Int, i ≠ m * 2 → i ≠ m * 2 + 1 →
      (ComputeLinearSystemTerms.nodeBody mesh o m ls).compressedRhs i = ls.compressedRhs i) := by
  unfold ComputeLinearSystemTerms.nodeBody
  simp only []
  split
  · exact ⟨fun _ _ => rfl, fun _ _ _ => rfl⟩
  · split
    · exact ⟨fun _ _ => rfl, fun _ _ _ => rfl⟩
    · obtain ⟨-, h2, h3⟩ := ComputeLinearSystemTerms.slotLoop_content mesh o m
        (if mesh.nodesTypes m = 2 then
          max o.orthogonalizationToSmoothingFactorBoundary o.orthogonalizationToSmoothingFactor
          else o.orthogonalizationToSmoothingFactor)
        (1 - (if mesh.nodesTypes m = 2 then
          max o.orthogonalizationToSmoothingFactorBoundary o.orthogonalizationToSmoothingFactor
          else o.orthogonalizationToSmoothingFactor))
        (o.linearSystem.compressedStartNodeIndex m - o.linearSystem.compressedEndNodeIndex m
          - 1).toNat ls
      constructor
      · intro idx hidx
        apply h2
        intro hin
        apply hidx
        refine ⟨hin.1, ?_⟩
        have := hin.2
        omega
      · intro i hi0 hi1
        dsimp only
        rw [Function.update_noteq hi1, Function.update_noteq hi0, h3]

/-- An iteration of the loop over the nodes at a node that is not skipped: the slots
`1 .. width - 1` of the node and the two entries of its right-hand side. -/
theorem ComputeLinearSystemTerms.nodeBody_content (mesh : Mesh) (o : Orthogonalization)
    (n : Int) (ls : LinearSystem) (atpfLoc : ℚ)
    (hatpf : atpfLoc = if mesh.nodesTypes n = 2 then
      max o.orthogonalizationToSmoothingFactorBoundary o.orthogonalizationToSmoothingFactor
      else o.orthogonalizationToSmoothingFactor)
    (hmov : ¬ NotMovable mesh.nodesTypes mesh.nodesNumEdges n)
    (hkeep : o.keepCircumcentersAndMassCenters = false) :
    (∀ j : Nat, j < (o.linearSystem.compressedStartNodeIndex n -
        o.linearSystem.compressedEndNodeIndex n - 1).toNat →
      (ComputeLinearSystemTerms.nodeBody mesh o n ls).compressedNodesNodes
          (o.linearSystem.compressedEndNodeIndex n + j) =
        (if (j : Int) + 1 < mesh.nodesNumEdges n + 1 then o.nodesNodes n ((j : Int) + 1 - 1)
          else o.smoother.caches.connectedNodes n ((j : Int) + 1)) ∧
      (ComputeLinearSystemTerms.nodeBody mesh o n ls).compressedWeightX
          (o.linearSystem.compressedEndNodeIndex n + j) =
        (if (j : Int) + 1 < mesh.nodesNumEdges n + 1 then
          (if 1 - atpfLoc > 0 ∧ mesh.nodesTypes n = 1 then
              (1 - atpfLoc) * o.smoother.wSmoother n ((j : Int) + 1) else 0) +
            atpfLoc * o.wOrthogonalizer n ((j : Int) + 1 - 1)
          else (if 1 - atpfLoc > 0 ∧ mesh.nodesTypes n = 1 then
              (1 - atpfLoc) * o.smoother.wSmoother n ((j : Int) + 1) else 0)) ∧
      (ComputeLinearSystemTerms.nodeBody mesh o n ls).compressedWeightY
          (o.linearSystem.compressedEndNodeIndex n + j) =
        (ComputeLinearSystemTerms.nodeBody mesh o n ls).compressedWeightX
          (o.linearSystem.compressedEndNodeIndex n + j)) ∧
    (ComputeLinearSystemTerms.nodeBody mesh o n ls).compressedRhs (n * 2) =
      atpfLoc * o.rhsOrthogonalizer n 0 ∧
    (ComputeLinearSystemTerms.nodeBody mesh o n ls).compressedRhs (n * 2 + 1) =
      atpfLoc * o.rhsOrthogonalizer n 1 := by
  subst hatpf
  have hmov2 : ¬ ((mesh.nodesTypes n ≠ 1 ∧ mesh.nodesTypes n ≠ 2) ∨ mesh.nodesNumEdges n < 2) :=
    hmov
  have hkeep2 : ¬ (o.keepCircumcentersAndMassCenters ≠ false ∧
      (mesh.nodesNumEdges n ≠ 3 ∨ mesh.nodesNumEdges n ≠ 1)) := fun h => h.1 hkeep
  unfold ComputeLinearSystemTerms.nodeBody
  simp only []
  rw [if_neg hmov2, if_neg hkeep2]
  dsimp only
  refine ⟨?_, ?_, Function.update_same _ _ _⟩
  · exact (ComputeLinearSystemTerms.slotLoop_content mesh o n _ _ _ ls).1
  · rw [Function.update_noteq (by omega), Function.update_same]

/-- The iterations after that of node `n` leave the range of node `n` and its two
right-hand side entries. -/
theorem ComputeLinearSystemTerms.loop_keeps (mesh : Mesh) (o : Orthogonalization)
    (hdisjoint : ∀ a b : Int, 0 ≤ a → a < b → b < mesh.numNodes →
      o.linearSystem.compressedStartNodeIndex a ≤ o.linearSystem.compressedEndNodeIndex b)
    (n : Nat) (idx : Int)
    (hidx : o.linearSystem.compressedEndNodeIndex n ≤ idx ∧
      idx < o.linearSystem.compressedStartNodeIndex n)
    (ls : LinearSystem) (j : Nat) (hj : n + 1 + j ≤ mesh.numNodes) :
    (forRange (ComputeLinearSystemTerms.nodeBody mesh o) (n + 1 + j) ls).compressedNodesNodes idx =
      (forRange (ComputeLinearSystemTerms.nodeBody mesh o) (n + 1) ls).compressedNodesNodes idx ∧
    (forRange (ComputeLinearSystemTerms.nodeBody mesh o) (n + 1 + j) ls).compressedWeightX idx =
      (forRange (ComputeLinearSystemTerms.nodeBody mesh o) (n + 1) ls).compressedWeightX idx ∧
    (forRange (ComputeLinearSystemTerms.nodeBody mesh o) (n + 1 + j) ls).compressedWeightY idx =
      (forRange (ComputeLinearSystemTerms.nodeBody mesh o) (n + 1) ls).compressedWeightY idx ∧
    (forRange (ComputeLinearSystemTerms.nodeBody mesh o) (n + 1 + j) ls).compressedRhs
        ((n : Int) * 2) =
      (forRange (ComputeLinearSystemTerms.nodeBody mesh o) (n + 1) ls).compressedRhs
        ((n : Int) * 2) ∧
    (forRange (ComputeLinearSystemTerms.nodeBody mesh o) (n + 1 + j) ls).compressedRhs
        ((n : Int) * 2 + 1) =
      (forRange (ComputeLinearSystemTerms.nodeBody mesh o) (n + 1) ls).compressedRhs
        ((n : Int) * 2 + 1) := by
  induction j with
  | zero => exact ⟨rfl, rfl, rfl, rfl, rfl⟩
  | succ j ih =>
    obtain ⟨i1, i2, i3, i4, i5⟩ := ih (by omega)
    rw [← Nat.add_assoc, forRange_succ]
    have hdis := hdisjoint (n : Int) ((n + 1 + j : Nat) : Int) (by positivity)
      (by push_cast; omega) (by exact_mod_cast hj)
    have hout : ¬ (o.linearSystem.compressedEndNodeIndex ((n + 1 + j : Nat) : Int) ≤ idx ∧
        idx < o.linearSystem.compressedStartNodeIndex ((n + 1 + j : Nat) : Int)) := by
      intro h
      have h1 := h.1
      have h2 := hidx.2
      omega
    obtain ⟨-, -, f3⟩ := ComputeLinearSystemTerms.nodeBody_frame mesh o ((n + 1 + j : Nat) : Int)
      (forRange (ComputeLinearSystemTerms.nodeBody mesh o) (n + 1 + j) ls)
    obtain ⟨g1, g2⟩ := ComputeLinearSystemTerms.nodeBody_frame_ids mesh o
      ((n + 1 + j : Nat) : Int)
      (forRange (ComputeLinearSystemTerms.nodeBody mesh o) (n + 1 + j) ls)
    have f := f3 idx (Or.inr hout)
    refine ⟨(g1 idx hout).trans i1, f.1.trans i2, f.2.trans i3, ?_, ?_⟩
    · exact (g2 _ (by push_cast; omega) (by push_cast; omega)).trans i4
    · exact (g2 _ (by push_cast; omega) (by push_cast; omega)).trans i5

/-! ## Claims on the compressed linear system -/

/-- On `stripMesh` after `Set` and `AllocateLinearSystem`: the members
`ComputeLinearSystemTerms` reads and the range of node 1. -/
theorem Example.strip_allocated :
    Example.stripAllocated.keepCircumcentersAndMassCenters = false ∧
    Example.stripAllocated.orthogonalizationToSmoothingFactor = 39 / 40 ∧
    Example.stripAllocated.orthogonalizationToSmoothingFactorBoundary = 39 / 40 ∧
    Example.stripAllocated.linearSystem.compressedEndNodeIndex 1 = 3 ∧
    Example.stripAllocated.linearSystem.compressedStartNodeIndex 1 = 7 ∧
    Example.stripAllocated.nodesNodes 1 0 = 2 ∧
    Example.stripAllocated.wOrthogonalizer 1 0 = 0 := by
  have hN : Example.stripMeshAfterSet.numNodes = 8 := by
    simp [Example.stripMeshAfterSet, Set_mesh, Set.maskedMesh, Example.stripMesh]
  have h0 : Example.stripAfterSet.linearSystem.nodeCacheSize = 0 := by
    simp [Example.stripAfterSet, Set, Set.finish, Set.members, Set.maskedMesh,
      Example.stripMesh, Example.newOrthogonalization]
  have hc : ∀ m : Int, Example.stripAfterSet.smoother.caches.numConnectedNodes m = 0 := by
    intro m
    simp [Example.stripAfterSet, Set, Set.finish, Set.members, Set.maskedMesh,
      Example.stripMesh, Example.newOrthogonalization, Example.newSmoother]
  unfold Example.stripAllocated AllocateLinearSystem
  rw [if_pos h0, hN]
  refine ⟨?_, ?_, ?_, ?_, ?_, ?_, ?_⟩
  · simp [Example.stripAfterSet, Set, Set.finish, Set.members, Set.maskedMesh,
      Example.stripMesh, Example.newOrthogonalization]
  · simp [Example.stripAfterSet, Set, Set.finish, Set.members, Set.maskedMesh,
      Example.stripMesh, Example.newOrthogonalization, Example.parameters]
  · simp [Example.stripAfterSet, Set, Set.finish, Set.members, Set.maskedMesh,
      Example.stripMesh, Example.newOrthogonalization, Example.parameters]
  · norm_num [h0, hc, forRange, AllocateLinearSystem.nodeBody, Example.stripMeshAfterSet,
      Set_mesh, Set.maskedMesh, Example.stripMesh, Example.ofList, Example.toNat_small,
      Function.update_apply]
  · norm_num [h0, hc, forRange, AllocateLinearSystem.nodeBody, Example.stripMeshAfterSet,
      Set_mesh, Set.maskedMesh, Example.stripMesh, Example.ofList, Example.toNat_small,
      Function.update_apply]
  · norm_num [Example.stripAfterSet, Set_nodesNodes, Set.nodesNodes_apply, Set.maskedMesh,
      Example.stripMesh, Example.ofList, Example.toNat_small]
  · simp [Example.stripAfterSet, Set, Set.finish, Set.members, Set.maskedMesh,
      Example.stripMesh, Example.newOrthogonalization]

/-! ## The ranges of the compressed linear system -/

/-- The loop of `AllocateLinearSystem`, started with a cache size of zero, after `k`
nodes: the ranges of the nodes follow one another from index 0 up to the cache size,
each as wide as the larger of the valence plus one and the number of connected
nodes. -/
theorem AllocateLinearSystem.loop_ranges (mesh : Mesh) (ncn : Int → Int)
    (hval : ∀ n : Int, 0 ≤ n → n < mesh.numNodes → 0 ≤ mesh.nodesNumEdges n)
    (ls0 : LinearSystem) (h0 : ls0.nodeCacheSize = 0) (k : Nat) (hk : k ≤ mesh.numNodes) :
    0 ≤ (forRange (AllocateLinearSystem.nodeBody mesh ncn) k ls0).nodeCacheSize ∧
    (∀ n : Int, 0 ≤ n → n < k →
      (forRange (AllocateLinearSystem.nodeBody mesh ncn) k ls0).compressedStartNodeIndex n -
        (forRange (AllocateLinearSystem.nodeBody mesh ncn) k ls0).compressedEndNodeIndex n =
          max (mesh.nodesNumEdges n + 1) (ncn n) ∧
      0 ≤ (forRange (AllocateLinearSystem.nodeBody mesh ncn) k ls0).compressedEndNodeIndex n ∧
      (forRange (AllocateLinearSystem.nodeBody mesh ncn) k ls0).compressedStartNodeIndex n ≤
        (forRange (AllocateLinearSystem.nodeBody mesh ncn) k ls0).nodeCacheSize) ∧
    (0 < k →
      (forRange (AllocateLinearSystem.nodeBody mesh ncn) k ls0).compressedEndNodeIndex 0 = 0) ∧
    (∀ n : Int, 0 ≤ n → n + 1 < k →
      (forRange (AllocateLinearSystem.nodeBody mesh ncn) k ls0).compressedEndNodeIndex (n + 1) =
        (forRange (AllocateLinearSystem.nodeBody mesh ncn) k ls0).compressedStartNodeIndex n) ∧
    (0 < k →
      (forRange (AllocateLinearSystem.nodeBody mesh ncn) k ls0).compressedStartNodeIndex
          ((k : Int) - 1) =
        (forRange (AllocateLinearSystem.nodeBody mesh ncn) k ls0).nodeCacheSize) ∧
    (∀ idx : Int, 0 ≤ idx →
      idx < (forRange (AllocateLinearSystem.nodeBody mesh ncn) k ls0).nodeCacheSize →
      ∃ n : Int, 0 ≤ n ∧ n < k ∧
        (forRange (AllocateLinearSystem.nodeBody mesh ncn) k ls0).compressedEndNodeIndex n ≤ idx ∧
        idx < (forRange (AllocateLinearSystem.nodeBody mesh ncn) k ls0).compressedStartNodeIndex
          n) := by
  induction k with
  | zero =>
    refine ⟨by rw [forRange_zero, h0], ?_, ?_, ?_, ?_, ?_⟩
    · intro n hn0 hn1; exact absurd hn1 (by push_cast; omega)
    · intro h; exact absurd h (lt_irrefl 0)
    · intro n hn0 hn1; exact absurd hn1 (by push_cast; omega)
    · intro h; exact absurd h (lt_irrefl 0)
    · intro idx hi0 hi1; rw [forRange_zero, h0] at hi1; omega
  | succ k ih =>
    obtain ⟨i0, i1, i2, i3, i4, i5⟩ := ih (Nat.le_of_succ_le hk)
    have hw : 0 ≤ max (mesh.nodesNumEdges (k : Int) + 1) (ncn k) := by
      have := hval (k : Int) (by positivity) (by exact_mod_cast hk)
      exact le_trans (by linarith) (le_max_left _ _)
    simp only [forRange_succ, AllocateLinearSystem.nodeBody]
    have hsize0 : k = 0 →
        (forRange (AllocateLinearSystem.nodeBody mesh ncn) k ls0).nodeCacheSize = 0 := by
      intro h; rw [h]; exact h0
    generalize forRange (AllocateLinearSystem.nodeBody mesh ncn) k ls0 = ls at *
    refine ⟨by linarith, ?_, ?_, ?_, ?_, ?_⟩
    · intro n hn0 hn1
      by_cases hnk : n = k
      · subst hnk
        simp only [Function.update_same]
        exact ⟨by ring, i0, le_refl _⟩
      · have hlt : n < k := by push_cast at hn1; omega
        simp only [Function.update_noteq hnk]
        obtain ⟨a, b, c⟩ := i1 n hn0 hlt
        exact ⟨a, b, by linarith⟩
    · intro _
      by_cases hk0 : k = 0
      · subst hk0
        exact (Function.update_same (0 : Int) _ _).trans (hsize0 rfl)
      · have hne : (0 : Int) ≠ (k : Int) := by
          intro h; exact hk0 (by exact_mod_cast h.symm)
        simp only [Function.update_noteq hne]
        exact i2 (Nat.pos_of_ne_zero hk0)
    · intro n hn0 hn1
      have hnk : n ≠ (k : Int) := by push_cast at hn1; omega
      by_cases hn1k : n + 1 = k
      · rw [hn1k]
        simp only [Function.update_same, Function.update_noteq hnk]
        have hkpos : 0 < k := by
          have : (0 : Int) < k := by omega
          exact_mod_cast this
        have := i4 hkpos
        rw [show (k : Int) - 1 = n by omega] at this
        exact this.symm
      · have hlt : n + 1 < k := by push_cast at hn1; omega
        simp only [Function.update_noteq hn1k, Function.update_noteq hnk]
        exact i3 n hn0 hlt
    · intro _
      have : ((k + 1 : Nat) : Int) - 1 = k := by push_cast; ring
      rw [this]
      simp only [Function.update_same]
    · intro idx hi0 hi1
      by_cases hlt : idx < ls.nodeCacheSize
      · obtain ⟨n, hn0, hn1, a, b⟩ := i5 idx hi0 hlt
        have hnk : n ≠ (k : Int) := by omega
        refine ⟨n, hn0, by push_cast; omega, ?_, ?_⟩
        · simp only [Function.update_noteq hnk]; exact a
        · simp only [Function.update_noteq hnk]; exact b
      · refine ⟨k, by positivity, by push_cast; omega, ?_, ?_⟩
        · simp only [Function.update_same]; omega
        · simp only [Function.update_same]; exact hi1

/-- C17: after `AllocateLinearSystem` on an empty cache (cache size zero), on a mesh
whose valences are not negative: `end_idx[0] = 0`; for every node `n` the width
`start_idx[n] - end_idx[n]` is `max(valence(n) + 1, num_connected_nodes[n])`;
`end_idx[n+1] = start_idx[n]`; hence the ranges `[end_idx[n], start_idx[n])` are
pairwise disjoint, lie inside `[0, nodeCacheSize)`, and every index of
`[0, nodeCacheSize)` is in the range of a node. -/
theorem C17_allocated_ranges_partition_the_cache (mesh : Mesh) (o : Orthogonalization)
    (h0 : o.linearSystem.nodeCacheSize = 0)
    (hval : ∀ n : Int, 0 ≤ n → n < mesh.numNodes → 0 ≤ mesh.nodesNumEdges n) :
    (0 < mesh.numNodes →
      (AllocateLinearSystem mesh o).linearSystem.compressedEndNodeIndex 0 = 0) ∧
    (∀ n : Int, 0 ≤ n → n < mesh.numNodes →
      (AllocateLinearSystem mesh o).linearSystem.compressedStartNodeIndex n -
        (AllocateLinearSystem mesh o).linearSystem.compressedEndNodeIndex n =
          max (mesh.nodesNumEdges n + 1) (o.smoother.caches.numConnectedNodes n)) ∧
    (∀ n : Int, 0 ≤ n → n + 1 < mesh.numNodes →
      (AllocateLinearSystem mesh o).linearSystem.compressedEndNodeIndex (n + 1) =
        (AllocateLinearSystem mesh o).linearSystem.compressedStartNodeIndex n) ∧
    (∀ n m : Int, 0 ≤ n → n < m → m < mesh.numNodes →
      (AllocateLinearSystem mesh o).linearSystem.compressedStartNodeIndex n ≤
        (AllocateLinearSystem mesh o).linearSystem.compressedEndNodeIndex m) ∧
    (∀ n : Int, 0 ≤ n → n < mesh.numNodes →
      0 ≤ (AllocateLinearSystem mesh o).linearSystem.compressedEndNodeIndex n ∧
      (AllocateLinearSystem mesh o).linearSystem.compressedEndNodeIndex n ≤
        (AllocateLinearSystem mesh o).linearSystem.compressedStartNodeIndex n ∧
      (AllocateLinearSystem mesh o).linearSystem.compressedStartNodeIndex n ≤
        (AllocateLinearSystem mesh o).linearSystem.nodeCacheSize) ∧
    (∀ idx : Int, 0 ≤ idx → idx < (AllocateLinearSystem mesh o).linearSystem.nodeCacheSize →
      ∃ n : Int, 0 ≤ n ∧ n < mesh.numNodes ∧
        (AllocateLinearSystem mesh o).linearSystem.compressedEndNodeIndex n ≤ idx ∧
        idx < (AllocateLinearSystem mesh o).linearSystem.compressedStartNodeIndex n) := by
  have hs := AllocateLinearSystem_slots mesh o mesh.nodesTypes hval h0
  obtain ⟨-, r1, r2, r3, -, r5⟩ := AllocateLinearSystem.loop_ranges mesh
    o.smoother.caches.numConnectedNodes hval
    { nodeCacheSize := o.linearSystem.nodeCacheSize
      compressedRhs := fun _ => 0
      compressedEndNodeIndex := fun _ => 0
      compressedStartNodeIndex := fun _ => 0
      compressedNodesNodes := fun _ => 0
      compressedWeightX := fun _ => 0
      compressedWeightY := fun _ => 0 } h0 mesh.numNodes (le_refl _)
  have hls : (AllocateLinearSystem mesh o).linearSystem =
      forRange (AllocateLinearSystem.nodeBody mesh o.smoother.caches.numConnectedNodes)
        mesh.numNodes
        { nodeCacheSize := o.linearSystem.nodeCacheSize
          compressedRhs := fun _ => 0
          compressedEndNodeIndex := fun _ => 0
          compressedStartNodeIndex := fun _ => 0
          compressedNodesNodes := fun _ => 0
          compressedWeightX := fun _ => 0
          compressedWeightY := fun _ => 0 } := by
    unfold AllocateLinearSystem
    rw [if_pos h0]
  rw [← hls] at r1 r2 r3 r5
  refine ⟨r2, fun n hn0 hn1 => (r1 n hn0 hn1).1, ?_, hs.disjoint, ?_, r5⟩
  · intro n hn0 hn1
    exact r3 n hn0 (by exact_mod_cast hn1)
  · intro n hn0 hn1
    exact ⟨(r1 n hn0 hn1).2.1, hs.ordered n hn0 hn1, (r1 n hn0 hn1).2.2⟩

/-- C17 on `stripMesh` after `Set`: the cache is empty and no valence is negative;
the range of node 0, which has two edges, starts at 0 and is three wide, and the
range of node 1 starts where it ends. -/
theorem C17_witness :
    Example.stripAfterSet.linearSystem.nodeCacheSize = 0 ∧
    Example.stripAllocated.linearSystem.compressedEndNodeIndex 0 = 0 ∧
    Example.stripAllocated.linearSystem.compressedStartNodeIndex 0 -
      Example.stripAllocated.linearSystem.compressedEndNodeIndex 0 = 3 ∧
    Example.stripAllocated.linearSystem.compressedEndNodeIndex (0 + 1) =
      Example.stripAllocated.linearSystem.compressedStartNodeIndex 0 := by
  have hN : Example.stripMeshAfterSet.numNodes = 8 := by
    simp [Example.stripMeshAfterSet, Set_mesh, Set.maskedMesh, Example.stripMesh]
  have h0 : Example.stripAfterSet.linearSystem.nodeCacheSize = 0 := by
    simp [Example.stripAfterSet, Set, Set.finish, Set.members, Set.maskedMesh,
      Example.stripMesh, Example.newOrthogonalization]
  have hvals : ∀ n : Int, 0 ≤ n → n < Example.stripMeshAfterSet.numNodes →
      0 ≤ Example.stripMeshAfterSet.nodesNumEdges n := by
    intro n hn0 hn1
    rw [hN] at hn1
    have hn2 : n < 8 := by exact_mod_cast hn1
    interval_cases n <;>
      norm_num [Example.stripMeshAfterSet, Set_mesh, Set.maskedMesh, Example.stripMesh,
        Example.ofList, Example.toNat_small]
  have hc : Example.stripAfterSet.smoother.caches.numConnectedNodes 0 = 0 := by
    simp [Example.stripAfterSet, Set, Set.finish, Set.members, Set.maskedMesh,
      Example.stripMesh, Example.newOrthogonalization, Example.newSmoother]
  have hv : Example.stripMeshAfterSet.nodesNumEdges 0 = 2 := by
    norm_num [Example.stripMeshAfterSet, Set_mesh, Set.maskedMesh, Example.stripMesh,
      Example.ofList]
  obtain ⟨c1, c2, c3, -, -, -⟩ := C17_allocated_ranges_partition_the_cache
    Example.stripMeshAfterSet Example.stripAfterSet h0 hvals
  refine ⟨h0, c1 (by rw [hN]; norm_num), ?_, c3 0 (le_refl _) (by rw [hN]; norm_num)⟩
  have h := c2 0 (le_refl _) (by rw [hN]; norm_num)
  rw [hc, hv] at h
  rw [show Example.stripAllocated = AllocateLinearSystem Example.stripMeshAfterSet
    Example.stripAfterSet from rfl, h]
  norm_num

/-! ## The update of a node in Cartesian projection -/

/-- In Cartesian projection the loop of `UpdateNodeCoordinates` accumulates, over the
slots of the node, the weights and the weighted coordinate differences between the
neighbour of the slot and the node. -/
theorem UpdateNodeCoordinates.increments_cartesian (env : Env) (n : Int) (mesh : Mesh)
    (o : Orthogonalization) (hproj : mesh.projection = Projections.cartesian) :
    (UpdateNodeCoordinates.increments env n mesh o).increments0 =
      sumRange (fun j => o.linearSystem.compressedWeightX
          (o.linearSystem.compressedEndNodeIndex n + j))
        (o.linearSystem.compressedStartNodeIndex n -
          o.linearSystem.compressedEndNodeIndex n - 1).toNat ∧
    (UpdateNodeCoordinates.increments env n mesh o).increments1 =
      sumRange (fun j => o.linearSystem.compressedWeightY
          (o.linearSystem.compressedEndNodeIndex n + j))
        (o.linearSystem.compressedStartNodeIndex n -
          o.linearSystem.compressedEndNodeIndex n - 1).toNat ∧
    (UpdateNodeCoordinates.increments env n mesh o).dx0 =
      sumRange (fun j => o.linearSystem.compressedWeightX
          (o.linearSystem.compressedEndNodeIndex n + j) *
          ((mesh.nodes (o.linearSystem.compressedNodesNodes
            (o.linearSystem.compressedEndNodeIndex n + j))).x - (mesh.nodes n).x))
        (o.linearSystem.compressedStartNodeIndex n -
          o.linearSystem.compressedEndNodeIndex n - 1).toNat ∧
    (UpdateNodeCoordinates.increments env n mesh o).dy0 =
      sumRange (fun j => o.linearSystem.compressedWeightY
          (o.linearSystem.compressedEndNodeIndex n + j) *
          ((mesh.nodes (o.linearSystem.compressedNodesNodes
            (o.linearSystem.compressedEndNodeIndex n + j))).y - (mesh.nodes n).y))
        (o.linearSystem.compressedStartNodeIndex n -
          o.linearSystem.compressedEndNodeIndex n - 1).toNat := by
  unfold UpdateNodeCoordinates.increments
  simp only []
  generalize (o.linearSystem.compressedStartNodeIndex n -
    o.linearSystem.compressedEndNodeIndex n - 1).toNat = cnt
  induction cnt with
  | zero => exact ⟨rfl, rfl, rfl, rfl⟩
  | succ k ih =>
    obtain ⟨i1, i2, i3, i4⟩ := ih
    rw [forRange_succ, sumRange_succ, sumRange_succ, sumRange_succ, sumRange_succ,
      ← i1, ← i2, ← i3, ← i4]
    unfold ComputeLocalIncrements
    rw [hproj]
    exact ⟨rfl, rfl, rfl, rfl⟩

/-! ## Claims on the update of a node -/

/-- C18: in Cartesian projection `UpdateNodeCoordinates(n)` computes `inc_x`, `inc_y`
as the sums of the x and y weights of the slots of the node and `d_x`, `d_y` as the
sums over the slots of the weight times the coordinate difference between the
neighbour of the slot and node `n`; when `inc_x <= 1e-8` or `inc_y <= 1e-8` it
leaves `orthogonal_coordinates` as it is; otherwise it writes
`orthogonal_coordinates[n] = 0.75 * (node + ((d_x + rhs_x) / inc_x,
(d_y + rhs_y) / inc_y)) + 0.25 * node` and nothing else. -/
theorem C18_cartesian_update_of_a_node (env : Env) (n : Int) (mesh : Mesh)
    (o : Orthogonalization) (c : Int → Point)
    (hproj : mesh.projection = Projections.cartesian) :
    let cnt : Nat := (o.linearSystem.compressedStartNodeIndex n -
      o.linearSystem.compressedEndNodeIndex n - 1).toNat
    let wx : Int → ℚ := fun j =>
      o.linearSystem.compressedWeightX (o.linearSystem.compressedEndNodeIndex n + j)
    let wy : Int → ℚ := fun j =>
      o.linearSystem.compressedWeightY (o.linearSystem.compressedEndNodeIndex n + j)
    let neighbour : Int → Point := fun j =>
      mesh.nodes (o.linearSystem.compressedNodesNodes
        (o.linearSystem.compressedEndNodeIndex n + j))
    let incx : ℚ := sumRange wx cnt
    let incy : ℚ := sumRange wy cnt
    let dx : ℚ := sumRange (fun j => wx j * ((neighbour j).x - (mesh.nodes n).x)) cnt
    let dy : ℚ := sumRange (fun j => wy j * ((neighbour j).y - (mesh.nodes n).y)) cnt
    (incx ≤ 1 / 100000000 ∨ incy ≤ 1 / 100000000 →
      UpdateNodeCoordinates env n mesh o c = c) ∧
    (¬ (incx ≤ 1 / 100000000 ∨ incy ≤ 1 / 100000000) →
      UpdateNodeCoordinates env n mesh o c =
        Function.update c n
          { x := 3 / 4 * ((mesh.nodes n).x +
                (dx + o.linearSystem.compressedRhs (n * 2)) / incx) +
              1 / 4 * (mesh.nodes n).x
            y := 3 / 4 * ((mesh.nodes n).y +
                (dy + o.linearSystem.compressedRhs (n * 2 + 1)) / incy) +
              1 / 4 * (mesh.nodes n).y }) := by
  intro cnt wx wy neighbour incx incy dx dy
  obtain ⟨h1, h2, h3, h4⟩ := UpdateNodeCoordinates.increments_cartesian env n mesh o hproj
  unfold UpdateNodeCoordinates
  simp only []
  rw [h1, h2, h3, h4, hproj]
  constructor
  · intro h
    rw [if_pos h]
  · intro h
    rw [if_neg h]
    dsimp only
    rw [show (1 : ℚ) - 3 / 4 = 1 / 4 by norm_num]

/-- C18 on `diamondMesh` with the system `diamondSystem`: the weights of node 0 sum to
1, the weighted differences to `(3/8, 1/8)`, and the node at the origin is written as
`0.75 * (3/8, 1/8) = (9/32, 3/32)`. -/
theorem C18_witness :
    Example.diamondMesh.projection = Projections.cartesian ∧
    UpdateNodeCoordinates Example.env 0 Example.diamondMesh Example.diamondSystem
      Example.diamondMesh.nodes 0 = { x := 9 / 32, y := 3 / 32 } := by
  have hproj : Example.diamondMesh.projection = Projections.cartesian := rfl
  have h := (C18_cartesian_update_of_a_node Example.env 0 Example.diamondMesh
    Example.diamondSystem Example.diamondMesh.nodes hproj).2
    (by norm_num [sumRange, forRange, Example.diamondSystem, Example.ofList,
      Example.toNat_small])
  refine ⟨hproj, ?_⟩
  rw [h, Function.update_same]
  norm_num [sumRange, forRange, Example.diamondSystem, Example.diamondMesh, Example.ofList,
    Example.toNat_small]

/-! ## The sweep of the inner iteration -/

/-- The entry that `UpdateNodeCoordinates(n)` writes depends on the coordinates being
written through entry `n` alone (it is read in the accurate spherical projection
only). -/
theorem UpdateNodeCoordinates_own_entry (env : Env) (n : Int) (mesh : Mesh)
    (o : Orthogonalization) (c d : Int → Point) (h : c n = d n) :
    UpdateNodeCoordinates env n mesh o c n = UpdateNodeCoordinates env n mesh o d n := by
  unfold UpdateNodeCoordinates
  simp only []
  split
  · exact h
  · cases mesh.projection <;> simp only [Function.update_same, h]

/-- The call `UpdateNodeCoordinates(n)` changes entry `n` only. -/
theorem UpdateNodeCoordinates_eq_update (env : Env) (n : Int) (mesh : Mesh)
    (o : Orthogonalization) (c : Int → Point) :
    UpdateNodeCoordinates env n mesh o c =
      Function.update c n (UpdateNodeCoordinates env n mesh o c n) := by
  funext m
  by_cases hm : m = n
  · rw [hm, Function.update_same]
  · rw [Function.update_noteq hm, UpdateNodeCoordinates_apply_of_ne env n m mesh o c hm]

/-- The updates of two nodes commute. -/
theorem UpdateNodeCoordinates_comm (env : Env) (m n : Int) (mesh : Mesh)
    (o : Orthogonalization) (c : Int → Point) :
    UpdateNodeCoordinates env m mesh o (UpdateNodeCoordinates env n mesh o c) =
      UpdateNodeCoordinates env n mesh o (UpdateNodeCoordinates env m mesh o c) := by
  by_cases hmn : m = n
  · rw [hmn]
  · have hnm : n ≠ m := fun h => hmn h.symm
    funext k
    by_cases hkm : k = m
    · rw [hkm, UpdateNodeCoordinates_apply_of_ne env n m mesh o _ hmn]
      exact UpdateNodeCoordinates_own_entry env m mesh o _ c
        (UpdateNodeCoordinates_apply_of_ne env n m mesh o c hmn)
    · rw [UpdateNodeCoordinates_apply_of_ne env m k mesh o _ hkm]
      by_cases hkn : k = n
      · rw [hkn]
        exact (UpdateNodeCoordinates_own_entry env n mesh o _ c
          (UpdateNodeCoordinates_apply_of_ne env m n mesh o c hnm)).symm
      · rw [UpdateNodeCoordinates_apply_of_ne env n k mesh o _ hkn,
          UpdateNodeCoordinates_apply_of_ne env n k mesh o _ hkn,
          UpdateNodeCoordinates_apply_of_ne env m k mesh o _ hkm]

/-- A loop over `0 .. k-1` is a fold over the list of these indices. -/
theorem forRange_eq_foldl {σ : Type} (body : Int → σ → σ) (k : Nat) (s : σ) :
    forRange body k s = (List.range k).foldl (fun t (i : Nat) => body (i : Int) t) s := by
  induction k with
  | zero => rfl
  | succ k ih => rw [forRange_succ, List.range_succ, List.foldl_append, ← ih]; rfl

/-! ## Claims on the sweep of the inner iteration -/

/-- C19: one sweep of `InnerIteration` has Jacobi semantics. `UpdateNodeCoordinates(n)`
is given the mesh as it is before the sweep and writes entry `n` of the coordinates
only; what it writes does not depend on the other entries being written; so updating
the nodes in any order, each node once, gives the coordinates the loop of
`InnerIteration` computes, which are the ones committed to the mesh. -/
theorem C19_sweep_is_order_independent (env : Env) (mesh : Mesh) (o : Orthogonalization)
    (order : List Nat) (horder : List.Perm order (List.range mesh.numNodes)) :
    (∀ (n m : Int) (c : Int → Point), m ≠ n →
      UpdateNodeCoordinates env n mesh o c m = c m) ∧
    (∀ (n : Int) (c d : Int → Point), c n = d n →
      UpdateNodeCoordinates env n mesh o c n = UpdateNodeCoordinates env n mesh o d n) ∧
    order.foldl (fun c (n : Nat) => UpdateNodeCoordinates env (n : Int) mesh o c)
      o.orthogonalCoordinates = InnerIteration.sweep env mesh o := by
  refine ⟨fun n m c h => UpdateNodeCoordinates_apply_of_ne env n m mesh o c h,
    fun n c d h => UpdateNodeCoordinates_own_entry env n mesh o c d h, ?_⟩
  unfold InnerIteration.sweep
  rw [forRange_eq_foldl]
  exact List.Perm.foldl_eq' horder
    (fun x _ y _ z => UpdateNodeCoordinates_comm env (y : Int) (x : Int) mesh o z)
    o.orthogonalCoordinates

/-- C19 on `diamondMesh` with the system `diamondSystem`: updating the five nodes from
the last to the first gives the coordinates of the loop of `InnerIteration`. -/
theorem C19_witness :
    List.Perm [4, 3, 2, 1, 0] (List.range Example.diamondMesh.numNodes) ∧
    [4, 3, 2, 1, 0].foldl
      (fun c (n : Nat) =>
        UpdateNodeCoordinates Example.env (n : Int) Example.diamondMesh Example.diamondSystem c)
      Example.diamondSystem.orthogonalCoordinates =
        InnerIteration.sweep Example.env Example.diamondMesh Example.diamondSystem := by
  have hperm : List.Perm [4, 3, 2, 1, 0] (List.range Example.diamondMesh.numNodes) :=
    List.reverse_perm (List.range 5)
  exact ⟨hperm, (C19_sweep_is_order_independent Example.env Example.diamondMesh
    Example.diamondSystem [4, 3, 2, 1, 0] hperm).2.2⟩

/-! ## Claims on the ramp coefficient set by `Set` -/

/-- On a mesh that is not in the accurate spherical projection, `Set` computes
`m_mumax` and `m_mu` from the value `m_smoothorarea` holds on entry and stores the
parameter in `m_smoothorarea` afterwards. -/
theorem Set_mumax (env : Env) (mesh : Mesh) (o : Orthogonalization) (a b c : Int)
    (params : OrthogonalizationParametersNative)
    (h : mesh.projection ≠ Projections.sphericalAccurate) :
    (Set env mesh o a b c params).2.2.mumax = (1 - o.smoothorarea) * (1 / 2) ∧
    (Set env mesh o a b c params).2.2.mu = min (1 / 100) ((1 - o.smoothorarea) * (1 / 2)) ∧
    (Set env mesh o a b c params).2.2.smoothorarea = params.Smoothorarea := by
  have hp : (Set.maskedMesh env mesh).projection = mesh.projection := rfl
  have hf : (Set env mesh o a b c params).2.2 =
      Set.members env (Set.maskedMesh env mesh) o a b c params := by
    show (Set.finish env _ _).2 = _
    unfold Set.finish
    rw [hp, if_neg h]
  rw [hf]
  exact ⟨rfl, rfl, rfl⟩

/-- C20, at a failing input: `Set` is called with the parameter `Smoothorarea = 1/2` on
a solver whose field `m_smoothorarea` holds 1. The claim gives
`mu_max = (1 - 1/2) / 2 = 1/4` and `mu = min(1e-2, 1/4) = 1/100`; the code computes
both from the old field, before it stores the parameter, and leaves `mu_max = 0` and
`mu = 0`. -/
theorem C20_mumax_uses_the_old_smoothorarea :
    Example.halfParameters.Smoothorarea = 1 / 2 ∧
    Example.newOrthogonalization.smoothorarea = 1 ∧
    (Set Example.env Example.squareMesh Example.newOrthogonalization 0 0 0
      Example.halfParameters).2.2.smoothorarea = 1 / 2 ∧
    (Set Example.env Example.squareMesh Example.newOrthogonalization 0 0 0
      Example.halfParameters).2.2.mumax = 0 ∧
    (Set Example.env Example.squareMesh Example.newOrthogonalization 0 0 0
      Example.halfParameters).2.2.mu = 0 ∧
    (Set Example.env Example.squareMesh Example.newOrthogonalization 0 0 0
      Example.halfParameters).2.2.mumax ≠ (1 - Example.halfParameters.Smoothorarea) / 2 ∧
    (Set Example.env Example.squareMesh Example.newOrthogonalization 0 0 0
      Example.halfParameters).2.2.mu ≠
        min (1 / 100) ((1 - Example.halfParameters.Smoothorarea) / 2) := by
  obtain ⟨h1, h2, h3⟩ := Set_mumax Example.env Example.squareMesh
    Example.newOrthogonalization 0 0 0 Example.halfParameters
    (by simp [Example.squareMesh])
  have hs : Example.newOrthogonalization.smoothorarea = 1 := rfl
  have hp : Example.halfParameters.Smoothorarea = 1 / 2 := rfl
  rw [h1, h2, h3, hs, hp]
  norm_num

/-! ## The ramp coefficient -/

/-- A finalization of the outer iteration leaves `m_mumax`. -/
theorem FinalizeOuterIteration_mumax (env : Env) (mesh : Mesh) (o : Orthogonalization) :
    (FinalizeOuterIteration env mesh o).2.mumax = o.mumax := by
  unfold FinalizeOuterIteration
  simp only []
  split <;> rfl

/-- A finalization of the outer iteration sets `m_mu` to `min(2 * m_mu, m_mumax)`. -/
theorem FinalizeOuterIteration_mu (env : Env) (mesh : Mesh) (o : Orthogonalization) :
    (FinalizeOuterIteration env mesh o).2.mu = min (2 * o.mu) o.mumax := by
  unfold FinalizeOuterIteration
  simp only []
  split <;> rfl

/-! ## Claims on the ramp coefficient -/

/-- C21: each `FinalizeOuterIteration` sets `mu` to `min(2 * mu, mu_max)` and leaves
`mu_max`; hence, when `mu_max >= 0`, after `k >= 1` finalizations in a row, from the
value `mu0`, `mu = min(2^k * mu0, mu_max)`, and `mu` does not exceed `mu_max`. -/
theorem C21_mu_after_finalizations (env : Env) (mesh : Mesh) (o : Orthogonalization)
    (k : Nat) (hmumax : 0 ≤ o.mumax) (hk : 1 ≤ k) :
    (FinalizeOuterIteration env mesh o).2.mu = min (2 * o.mu) o.mumax ∧
    (forRange (fun _ (st : Mesh × Orthogonalization) => FinalizeOuterIteration env st.1 st.2)
      k (mesh, o)).2.mumax = o.mumax ∧
    (forRange (fun _ (st : Mesh × Orthogonalization) => FinalizeOuterIteration env st.1 st.2)
      k (mesh, o)).2.mu = min (2 ^ k * o.mu) o.mumax ∧
    (forRange (fun _ (st : Mesh × Orthogonalization) => FinalizeOuterIteration env st.1 st.2)
      k (mesh, o)).2.mu ≤ o.mumax := by
  have key : ∀ j : Nat,
      (forRange (fun _ (st : Mesh × Orthogonalization) =>
        FinalizeOuterIteration env st.1 st.2) (j + 1) (mesh, o)).2.mumax = o.mumax ∧
      (forRange (fun _ (st : Mesh × Orthogonalization) =>
        FinalizeOuterIteration env st.1 st.2) (j + 1) (mesh, o)).2.mu =
          min (2 ^ (j + 1) * o.mu) o.mumax := by
    intro j
    induction j with
    | zero =>
      rw [forRange_succ, forRange_zero]
      exact ⟨FinalizeOuterIteration_mumax env mesh o, by
        rw [FinalizeOuterIteration_mu]; norm_num⟩
    | succ j ih =>
      rw [forRange_succ]
      refine ⟨(FinalizeOuterIteration_mumax env _ _).trans ih.1, ?_⟩
      rw [FinalizeOuterIteration_mu, ih.1, ih.2]
      have hp : (2 : ℚ) ^ (j + 1 + 1) * o.mu = 2 * (2 ^ (j + 1) * o.mu) := by ring
      rw [hp]
      rcases le_total (2 ^ (j + 1) * o.mu) o.mumax with h | h
      · rw [min_eq_left h]
      · rw [min_eq_right h, min_eq_right (by linarith), min_eq_right (by linarith)]
  obtain ⟨j, rfl⟩ : ∃ j, k = j + 1 := ⟨k - 1, by omega⟩
  exact ⟨FinalizeOuterIteration_mu env mesh o, (key j).1, (key j).2, by
    rw [(key j).2]; exact min_le_right _ _⟩

/-- C21 on the solver `rampSolver`, where `mu_max = 1/4` and `mu = 1/100`: after three
finalizations `mu = 8/100`, and after five `mu = min(32/100, 1/4) = 1/4`. -/
theorem C21_witness :
    Example.rampSolver.mumax = 1 / 4 ∧ Example.rampSolver.mu = 1 / 100 ∧
    (forRange (fun _ (st : Mesh × Orthogonalization) =>
      FinalizeOuterIteration Example.env st.1 st.2) 3
      (Example.squareMesh, Example.rampSolver)).2.mu = 2 / 25 ∧
    (forRange (fun _ (st : Mesh × Orthogonalization) =>
      FinalizeOuterIteration Example.env st.1 st.2) 5
      (Example.squareMesh, Example.rampSolver)).2.mu = 1 / 4 := by
  obtain ⟨h1, h2, -⟩ := Set_mumax Example.env Example.squareMesh
    { Example.newOrthogonalization with smoothorarea := 1 / 2 } 0 0 0 Example.halfParameters
    (by simp [Example.squareMesh])
  have hmumax : Example.rampSolver.mumax = 1 / 4 := by
    unfold Example.rampSolver; rw [h1]; norm_num
  have hmu : Example.rampSolver.mu = 1 / 100 := by
    unfold Example.rampSolver; rw [h2]; norm_num
  have h3 := (C21_mu_after_finalizations Example.env Example.squareMesh Example.rampSolver 3
    (by rw [hmumax]; norm_num) (by norm_num)).2.2.1
  have h5 := (C21_mu_after_finalizations Example.env Example.squareMesh Example.rampSolver 5
    (by rw [hmumax]; norm_num) (by norm_num)).2.2.1
  rw [hmumax, hmu] at h3 h5
  refine ⟨hmumax, hmu, ?_, ?_⟩
  · rw [h3]; norm_num
  · rw [h5]; norm_num

/-! ## The diagnostics, edge by edge -/

/-- An iteration of the loop of `GetOrthogonality` changes the entry of its edge
only. -/
theorem GetOrthogonality.edgeBody_other_edge (env : Env) (mesh : Mesh) (e i : Int) (out : Int → ℚ)
    (h : i ≠ e) : GetOrthogonality.edgeBody env mesh e out i = out i := by
  unfold GetOrthogonality.edgeBody
  simp only []
  split_ifs <;> simp only [Function.update_noteq h]

/-- The entry of edge `e` after `GetOrthogonality` is the one its own iteration
writes. -/
theorem GetOrthogonality_apply (env : Env) (mesh : Mesh) (out : Int → ℚ) (e : Nat)
    (he : e < mesh.numEdges) :
    GetOrthogonality env mesh out e =
      GetOrthogonality.edgeBody env mesh e
        (forRange (GetOrthogonality.edgeBody env mesh) e out) e := by
  obtain ⟨j, hj⟩ : ∃ j, mesh.numEdges = e + 1 + j := ⟨mesh.numEdges - (e + 1), by omega⟩
  unfold GetOrthogonality
  rw [hj]
  clear hj he
  induction j with
  | zero => rfl
  | succ j ih =>
    rw [← Nat.add_assoc, forRange_succ,
      GetOrthogonality.edgeBody_other_edge env mesh _ _ _ (by push_cast; omega)]
    exact ih

/-- What `GetOrthogonality` writes for an edge: the missing value when an end of the
edge is node 0 or the edge does not have two faces, and otherwise the normalized
inner product of the edge and the segment between the circumcenters of its faces, in
absolute value unless it is the missing value. -/
theorem GetOrthogonality_entry (env : Env) (mesh : Mesh) (out : Int → ℚ) (e : Nat)
    (he : e < mesh.numEdges) :
    GetOrthogonality env mesh out e =
      if (mesh.edges e).1 ≠ 0 ∧ (mesh.edges e).2 ≠ 0 ∧ mesh.edgesNumFaces e = 2 then
        if env.NormalizedInnerProductTwoSegments (mesh.nodes (mesh.edges e).1)
            (mesh.nodes (mesh.edges e).2) (mesh.facesCircumcenters (mesh.edgesFaces e 0))
            (mesh.facesCircumcenters (mesh.edgesFaces e 1)) mesh.projection ≠
              env.doubleMissingValue then
          |env.NormalizedInnerProductTwoSegments (mesh.nodes (mesh.edges e).1)
            (mesh.nodes (mesh.edges e).2) (mesh.facesCircumcenters (mesh.edgesFaces e 0))
            (mesh.facesCircumcenters (mesh.edgesFaces e 1)) mesh.projection|
        else env.doubleMissingValue
      else env.doubleMissingValue := by
  rw [GetOrthogonality_apply env mesh out e he]
  unfold GetOrthogonality.edgeBody
  simp only []
  have hlt : ((e : Int) < (mesh.numEdges : Int)) := by exact_mod_cast he
  by_cases h1 : (mesh.edges e).1 ≠ 0 ∧ (mesh.edges e).2 ≠ 0
  · by_cases h2 : mesh.edgesNumFaces e = 2
    · have h3 : (mesh.edges e).1 ≠ 0 ∧ (mesh.edges e).2 ≠ 0 ∧ mesh.edgesNumFaces e = 2 :=
        ⟨h1.1, h1.2, h2⟩
      rw [if_pos h1, if_pos ⟨hlt, h2⟩, if_pos h3]
      by_cases h4 : env.NormalizedInnerProductTwoSegments (mesh.nodes (mesh.edges e).1)
          (mesh.nodes (mesh.edges e).2) (mesh.facesCircumcenters (mesh.edgesFaces e 0))
          (mesh.facesCircumcenters (mesh.edgesFaces e 1)) mesh.projection ≠
            env.doubleMissingValue
      · rw [if_pos h4, if_pos h4, Function.update_same]
      · rw [if_neg h4, if_neg h4, Function.update_same]
        exact not_not.mp h4
    · rw [if_pos h1, if_neg (fun h => h2 h.2), if_neg (fun h => h2 h.2.2)]
      exact Function.update_same _ _ _
  · rw [if_neg h1, if_neg (fun h => h1 ⟨h.1, h.2.1⟩)]
    exact Function.update_same _ _ _

/-- An iteration of the loop of `GetSmoothness` changes the entry of its edge only. -/
theorem GetSmoothness.edgeBody_other_entry (env : Env) (mesh : Mesh) (e i : Int) (out : Int → ℚ)
    (h : i ≠ e) : GetSmoothness.edgeBody env mesh e out i = out i := by
  unfold GetSmoothness.edgeBody
  simp only []
  split_ifs <;> simp only [Function.update_noteq h]

/-- The entry of edge `e` after `GetSmoothness` is the one its own iteration writes. -/
theorem GetSmoothness_apply (env : Env) (mesh : Mesh) (out : Int → ℚ) (e : Nat)
    (he : e < mesh.numEdges) :
    GetSmoothness env mesh out e =
      GetSmoothness.edgeBody env mesh e
        (forRange (GetSmoothness.edgeBody env mesh) e out) e := by
  obtain ⟨j, hj⟩ : ∃ j, mesh.numEdges = e + 1 + j := ⟨mesh.numEdges - (e + 1), by omega⟩
  unfold GetSmoothness
  rw [hj]
  clear hj he
  induction j with
  | zero => rfl
  | succ j ih =>
    rw [← Nat.add_assoc, forRange_succ,
      GetSmoothness.edgeBody_other_entry env mesh _ _ _ (by push_cast; omega)]
    exact ih

/-- What `GetSmoothness` writes for an edge: the missing value when an end of the edge
is node 0 or the edge does not have two faces; otherwise the ratio of the right to the
left face area when one of them is below the minimum cell area, and the missing value
when none is, each replaced by its reciprocal when it is below 1. -/
theorem GetSmoothness_entry (env : Env) (mesh : Mesh) (out : Int → ℚ) (e : Nat)
    (he : e < mesh.numEdges) :
    GetSmoothness env mesh out e =
      if (mesh.edges e).1 ≠ 0 ∧ (mesh.edges e).2 ≠ 0 ∧ mesh.edgesNumFaces e = 2 then
        if mesh.faceArea (mesh.edgesFaces e 0) < env.minimumCellArea ∨
            mesh.faceArea (mesh.edgesFaces e 1) < env.minimumCellArea then
          if mesh.faceArea (mesh.edgesFaces e 1) / mesh.faceArea (mesh.edgesFaces e 0) < 1 then
            1 / (mesh.faceArea (mesh.edgesFaces e 1) / mesh.faceArea (mesh.edgesFaces e 0))
          else mesh.faceArea (mesh.edgesFaces e 1) / mesh.faceArea (mesh.edgesFaces e 0)
        else
          if env.doubleMissingValue < 1 then 1 / env.doubleMissingValue
          else env.doubleMissingValue
      else env.doubleMissingValue := by
  rw [GetSmoothness_apply env mesh out e he]
  unfold GetSmoothness.edgeBody
  simp only []
  have hlt : ((e : Int) < (mesh.numEdges : Int)) := by exact_mod_cast he
  by_cases h1 : (mesh.edges e).1 ≠ 0 ∧ (mesh.edges e).2 ≠ 0
  · by_cases h2 : mesh.edgesNumFaces e = 2
    · have h3 : (mesh.edges e).1 ≠ 0 ∧ (mesh.edges e).2 ≠ 0 ∧ mesh.edgesNumFaces e = 2 :=
        ⟨h1.1, h1.2, h2⟩
      rw [if_pos h1, if_pos ⟨hlt, h2⟩, if_pos h3]
      by_cases h4 : mesh.faceArea (mesh.edgesFaces e 0) < env.minimumCellArea ∨
          mesh.faceArea (mesh.edgesFaces e 1) < env.minimumCellArea
      · rw [if_pos h4, if_pos h4]
        simp only [Function.update_same]
        split_ifs <;> simp only [Function.update_same]
      · rw [if_neg h4, if_neg h4]
        simp only [Function.update_same]
        split_ifs <;> simp only [Function.update_same]
    · rw [if_pos h1, if_neg (fun h => h2 h.2), if_neg (fun h => h2 h.2.2)]
      exact Function.update_same _ _ _
  · rw [if_neg h1, if_neg (fun h => h1 ⟨h.1, h.2.1⟩)]
    exact Function.update_same _ _ _

/-! ## Claims on the diagnostics -/

/-- C22, at a failing input: edge 0 of `diamondMesh` joins node 0 and node 1 and has
the two faces 0 and 3, whose circumcenters are `(1/2, 1/2)` and `(1/2, -1/2)`; the
normalized inner product of the edge with the segment between them is 0, so the claim
gives 0. `GetOrthogonality` tests both ends of the edge against 0 and leaves the
missing value -999, whatever the array held before. -/
theorem C22_edges_at_node_zero_get_the_missing_value (out : Int → ℚ) :
    Example.diamondMesh.edges 0 = (0, 1) ∧
    Example.diamondMesh.edgesNumFaces 0 = 2 ∧
    |Example.env.NormalizedInnerProductTwoSegments
      (Example.diamondMesh.nodes (Example.diamondMesh.edges 0).1)
      (Example.diamondMesh.nodes (Example.diamondMesh.edges 0).2)
      (Example.diamondMesh.facesCircumcenters (Example.diamondMesh.edgesFaces 0 0))
      (Example.diamondMesh.facesCircumcenters (Example.diamondMesh.edgesFaces 0 1))
      Example.diamondMesh.projection| = 0 ∧
    GetOrthogonality Example.env Example.diamondMesh out 0 = -999 := by
  have hs : Rat.sqrt 1 = 1 := by simp
  refine ⟨by norm_num [Example.diamondMesh, Example.ofList],
    by norm_num [Example.diamondMesh, Example.ofList], ?_, ?_⟩
  · norm_num [Example.env, Example.normalizedInnerProductTwoSegments,
      Example.innerProductTwoSegments, Example.distance, Example.diamondMesh, Example.ofList,
      Example.toNat_small, hs]
  · have h := GetOrthogonality_entry Example.env Example.diamondMesh out 0
      (by norm_num [Example.diamondMesh])
    rw [Nat.cast_zero] at h
    rw [h]
    norm_num [Example.diamondMesh, Example.ofList, Example.env]

/-- C23, at a failing input: edge 7 of `stripMesh` joins the nodes 1 and 5 and has
the two faces 0 and 1 of areas 1 and 1/2, none below the minimum cell area, so the
claim gives the missing value -999. `GetSmoothness` does not assign the ratio, but
line 1770 still finds the entry below 1 and replaces the missing value by its
reciprocal: the entry is `-1/999`, whatever the array held before. -/
theorem C23_reciprocal_of_the_missing_value (out : Int → ℚ) :
    Example.stripMesh.edges 7 = (1, 5) ∧
    Example.stripMesh.edgesNumFaces 7 = 2 ∧
    Example.stripMesh.faceArea (Example.stripMesh.edgesFaces 7 0) = 1 ∧
    Example.stripMesh.faceArea (Example.stripMesh.edgesFaces 7 1) = 1 / 2 ∧
    Example.env.minimumCellArea = 1 / 1000000000000 ∧
    Example.env.doubleMissingValue = -999 ∧
    GetSmoothness Example.env Example.stripMesh out 7 = -1 / 999 := by
  refine ⟨by norm_num [Example.stripMesh, Example.ofList, Example.toNat_small],
    by norm_num [Example.stripMesh, Example.ofList, Example.toNat_small],
    by norm_num [Example.stripMesh, Example.ofList, Example.toNat_small],
    by norm_num [Example.stripMesh, Example.ofList, Example.toNat_small], rfl, rfl, ?_⟩
  have h := GetSmoothness_entry Example.env Example.stripMesh out 7
    (by norm_num [Example.stripMesh])
  rw [Nat.cast_ofNat] at h
  rw [h]
  norm_num [Example.stripMesh, Example.ofList, Example.env, Example.toNat_small]

/-! ## Claims on the Jacobian -/

/-- `ComputeJacobian` does not read the lists of connected nodes of the nodes. -/
theorem ComputeJacobian_caches (env : Env) (n : Int) (mesh : Mesh) (s : Smoother)
    (c : SmootherCaches) :
    ComputeJacobian env n mesh { s with caches := c } = ComputeJacobian env n mesh s := rfl

/-- C24, at a failing input: on `boundaryMesh` the rim nodes 1 and 2 are in class 1,
which node 1 created, so the class records the connected nodes `1, 4, 0, 2` of node
1, while the list of node 2 holds `1, 0, 3` at the positions 1 to 3. With
`Jxi = (0, 1/2, 0, -1/2)` the claim gives `J[0] = (x_1 - x_3) / 2 = 1` and
`J[1] = (y_1 - y_3) / 2 = 0` for node 2; `ComputeJacobian(2)` takes the nodes of the
class and returns `J[0] = (x_4 - x_2) / 2 = 0` and `J[1] = (y_4 - y_2) / 2 = -1`. -/
theorem C24_jacobian_uses_the_nodes_of_the_class_creator :
    Example.boundaryMesh.projection = Projections.cartesian ∧
    Example.rimSmoother.topologies.nodeTopologyMapping 1 = 1 ∧
    Example.rimSmoother.topologies.nodeTopologyMapping 2 = 1 ∧
    Example.rimSmoother.topologies.numTopologyNodes 1 = 4 ∧
    (Example.rimSmoother.topologies.topologyConnectedNodes 1 1 = 4 ∧
      Example.rimSmoother.topologies.topologyConnectedNodes 1 3 = 2) ∧
    (Example.rimSmoother.caches.connectedNodes 2 1 = 1 ∧
      Example.rimSmoother.caches.connectedNodes 2 3 = 3) ∧
    sumRange (fun i => Example.rimSmoother.operators.Jxi 1 i *
      (Example.boundaryMesh.nodes (Example.rimSmoother.caches.connectedNodes 2 i)).x) 4 = 1 ∧
    sumRange (fun i => Example.rimSmoother.operators.Jxi 1 i *
      (Example.boundaryMesh.nodes (Example.rimSmoother.caches.connectedNodes 2 i)).y) 4 = 0 ∧
    (ComputeJacobian Example.env 2 Example.boundaryMesh Example.rimSmoother).1 = 0 ∧
    (ComputeJacobian Example.env 2 Example.boundaryMesh Example.rimSmoother).2.1 = -1 := by
  refine ⟨rfl, ?_, ?_, ?_, ⟨?_, ?_⟩, ⟨?_, ?_⟩, ?_, ?_, ?_, ?_⟩ <;>
    norm_num [ComputeJacobian, sumRange, forRange, Example.rimSmoother,
      Example.boundarySmoother, Example.boundaryMesh, Example.diamondMesh, Example.ofList,
      Example.toNat_small]

/-! ## Claims on the determinant of the Jacobian -/

/-- C25, at a failing input: on `shearedDiamondMesh` with the operators of the
five-point stencil the Jacobian of node 0 is `(a, b; c, d) = (1, 1; 0, 1)`, whose
determinant `a*d - b*c` is 1. Line 459 computes `J[0]*J[3] - J[3]*J[1] = a*d - d*b = 0`
instead, so the node, which is interior with four edges, is skipped and its weights
are left as they were. -/
theorem C25_determinant_of_line_459 :
    Example.shearedDiamondMesh.nodesTypes 0 = 1 ∧
    Example.shearedDiamondMesh.nodesNumEdges 0 = 4 ∧
    ComputeJacobian Example.env 0 Example.shearedDiamondMesh Example.fivePointSmoother =
      (1, 1, 0, 1) ∧
    (1 : ℚ) * 1 - 1 * 0 ≠ 0 ∧
    ComputeSmootherWeights.determinant
      (ComputeJacobian Example.env 0 Example.shearedDiamondMesh Example.fivePointSmoother) = 0 ∧
    ComputeSmootherWeights.nodeBody Example.env Example.shearedDiamondMesh 0
      Example.fivePointSmoother = Example.fivePointSmoother := by
  have hJ : ComputeJacobian Example.env 0 Example.shearedDiamondMesh Example.fivePointSmoother =
      (1, 1, 0, 1) := by
    norm_num [ComputeJacobian, sumRange, forRange, Example.fivePointSmoother,
      Example.shearedDiamondMesh, Example.diamondMesh, Example.ofList, Example.toNat_small]
  have hd : ComputeSmootherWeights.determinant
      (ComputeJacobian Example.env 0 Example.shearedDiamondMesh Example.fivePointSmoother) = 0 := by
    rw [hJ]
    norm_num [ComputeSmootherWeights.determinant]
  refine ⟨by norm_num [Example.shearedDiamondMesh, Example.diamondMesh, Example.ofList],
    by norm_num [Example.shearedDiamondMesh, Example.diamondMesh, Example.ofList],
    hJ, by norm_num, hd, ?_⟩
  unfold ComputeSmootherWeights.nodeBody
  simp only []
  rw [if_neg (by norm_num [Example.shearedDiamondMesh, Example.diamondMesh, Example.ofList]),
    if_pos (Or.inl (by
      norm_num [Example.shearedDiamondMesh, Example.diamondMesh, Example.ofList])),
    if_pos hd]

/-! ## The regularisation coefficient -/

/-- When no reference weight `ww2[i]` of the slots `i >= 1` exceeds 1, the loop of
lines 519-523 computes the coefficient of the specification. -/
theorem ComputeSmootherWeights.alpha_eq_alphaSpec (tm : ComputeSmootherWeights.NodeTerms)
    (w : Int → ℚ)
    (hww2 : ∀ i : Int, 1 ≤ i → i < tm.numTopologyNodes → tm.ww2 i ≤ 1) :
    ComputeSmootherWeights.alpha tm w = ComputeSmootherWeights.alphaSpec tm w := by
  unfold ComputeSmootherWeights.alpha ComputeSmootherWeights.alphaSpec
  have key : ∀ k : Nat, (k : Int) ≤ tm.numTopologyNodes - 1 →
      forRange (fun j alpha => max alpha (-(w (j + 1))) / max 1 (tm.ww2 (j + 1))) k 0 =
        forRange (fun j largest =>
          max largest (max (-(w (j + 1))) 0 / max 1 (tm.ww2 (j + 1)))) k 0 ∧
      0 ≤ forRange (fun j largest =>
          max largest (max (-(w (j + 1))) 0 / max 1 (tm.ww2 (j + 1)))) k 0 := by
    intro k
    induction k with
    | zero => intro _; exact ⟨rfl, le_refl _⟩
    | succ k ih =>
      intro hk
      have hk' : (k : Int) ≤ tm.numTopologyNodes - 1 := by push_cast at hk; omega
      obtain ⟨i1, i2⟩ := ih hk'
      have h1 : max 1 (tm.ww2 ((k : Int) + 1)) = 1 :=
        max_eq_left (hww2 _ (by omega) (by push_cast at hk; omega))
      rw [forRange_succ, forRange_succ, i1, h1, div_one, div_one]
      generalize forRange (fun j largest =>
        max largest (max (-(w (j + 1))) 0 / max 1 (tm.ww2 (j + 1)))) k 0 = a at i2 ⊢
      constructor
      · rw [← max_assoc, max_eq_left (le_max_of_le_left i2 : 0 ≤ max a (-(w ((k : Int) + 1))))]
      · exact le_max_of_le_left i2
  by_cases hn : 0 ≤ tm.numTopologyNodes - 1
  · exact (key _ (by rw [Int.toNat_of_nonneg hn])).1
  · have h0 : (tm.numTopologyNodes - 1).toNat = 0 := Int.toNat_of_nonpos (by omega)
    rw [h0]
    rfl

/-! ## Claims on the regularisation coefficient -/

/-- C26, at a failing input: a node with two neighbours, accumulated weights
`w[1] = -2`, `w[2] = 0` and reference weights `ww2[1] = 1`, `ww2[2] = 2`. The claim
gives `alpha = max(2 / 1, 0 / 2) = 2`. The loop of line 522 divides the running
maximum at every slot, `alpha = max(max(0, 2) / 1, 0) / 2 = 1`, and with this
coefficient the regularised weight `w[1] = -2 + 1 * 1` is still negative. -/
theorem C26_alpha_divides_the_running_maximum :
    Example.alphaTerms.numTopologyNodes = 3 ∧
    ComputeSmootherWeights.alphaSpec Example.alphaTerms (Example.ofList [0, -2, 0] 0) = 2 ∧
    ComputeSmootherWeights.alpha Example.alphaTerms (Example.ofList [0, -2, 0] 0) = 1 ∧
    (ComputeSmootherWeights.regularize Example.alphaTerms
      (ComputeSmootherWeights.alpha Example.alphaTerms (Example.ofList [0, -2, 0] 0))
      (Example.ofList [0, -2, 0] 0)).1 1 = -1 := by
  have ha : ComputeSmootherWeights.alpha Example.alphaTerms (Example.ofList [0, -2, 0] 0) = 1 := by
    norm_num [ComputeSmootherWeights.alpha, forRange, Example.alphaTerms, Example.ofList,
      Example.toNat_small]
  refine ⟨rfl, ?_, ha, ?_⟩
  · norm_num [ComputeSmootherWeights.alphaSpec, forRange, Example.alphaTerms, Example.ofList,
      Example.toNat_small]
  · rw [ha]
    norm_num [ComputeSmootherWeights.regularize, forRange, Example.alphaTerms, Example.ofList,
      Example.toNat_small, Function.update_apply]

/-! ## Repeated computation of the smoother weights -/

/-- An iteration of the main loop of `ComputeSmootherWeights` writes the weights
only. -/
theorem ComputeSmootherWeights.nodeBody_weights_only (env : Env) (mesh : Mesh) (n : Int)
    (s : Smoother) :
    (ComputeSmootherWeights.nodeBody env mesh n s).topologies = s.topologies ∧
    (ComputeSmootherWeights.nodeBody env mesh n s).operators = s.operators := by
  unfold ComputeSmootherWeights.nodeBody
  simp only []
  split_ifs <;> exact ⟨rfl, rfl⟩

/-- `ComputeSmootherWeights` leaves the topology tables and the operators. -/
theorem ComputeSmootherWeights_frame (env : Env) (mesh : Mesh) (s : Smoother) :
    (ComputeSmootherWeights env mesh s).topologies = s.topologies ∧
    (ComputeSmootherWeights env mesh s).operators = s.operators := by
  unfold ComputeSmootherWeights
  exact forRange_invariant (fun t => t.topologies = s.topologies ∧ t.operators = s.operators)
    _ _ _ ⟨rfl, rfl⟩ (fun i _ t ht =>
      ⟨(ComputeSmootherWeights.nodeBody_weights_only env mesh i t).1.trans ht.1,
        (ComputeSmootherWeights.nodeBody_weights_only env mesh i t).2.trans ht.2⟩)

/-- The Jacobian and the terms of a node depend on the smoother through the topology
tables and the operators only. -/
theorem ComputeSmootherWeights.terms_congr (env : Env) (mesh : Mesh) (s t : Smoother) (n : Int)
    (ht : t.topologies = s.topologies) (ho : t.operators = s.operators) :
    ComputeJacobian env n mesh t = ComputeJacobian env n mesh s ∧
    ∀ (J : ℚ × ℚ × ℚ × ℚ) (d : ℚ),
      ComputeSmootherWeights.terms t n J d = ComputeSmootherWeights.terms s n J d := by
  unfold ComputeJacobian ComputeSmootherWeights.terms
  rw [ht, ho]
  exact ⟨rfl, fun _ _ => rfl⟩

/-- The row of node `n` after two calls of `ComputeSmootherWeights` in succession is
the row computation applied twice: the second call starts from the weights the first
one left. -/
theorem ComputeSmootherWeights_twice (env : Env) (mesh : Mesh) (s : Smoother) (n : Int)
    (hn0 : 0 ≤ n) (hnN : n < mesh.numNodes)
    (htype : mesh.nodesTypes n = 1 ∨ mesh.nodesTypes n = 2)
    (hval : 2 ≤ mesh.nodesNumEdges n)
    (hdet : ComputeSmootherWeights.determinant (ComputeJacobian env n mesh s) ≠ 0) :
    (ComputeSmootherWeights env mesh (ComputeSmootherWeights env mesh s)).wSmoother n =
      ComputeSmootherWeights.row
        (ComputeSmootherWeights.terms s n (ComputeJacobian env n mesh s)
          (ComputeSmootherWeights.determinant (ComputeJacobian env n mesh s)))
        (ComputeSmootherWeights.row
          (ComputeSmootherWeights.terms s n (ComputeJacobian env n mesh s)
            (ComputeSmootherWeights.determinant (ComputeJacobian env n mesh s)))
          (s.wSmoother n)) := by
  obtain ⟨f1, f2⟩ := ComputeSmootherWeights_frame env mesh s
  obtain ⟨c1, c2⟩ := ComputeSmootherWeights.terms_congr env mesh s
    (ComputeSmootherWeights env mesh s) n f1 f2
  rw [ComputeSmootherWeights_row env mesh (ComputeSmootherWeights env mesh s) n hn0 hnN htype
    hval (by rw [c1]; exact hdet), c1, c2, ComputeSmootherWeights_row env mesh s n hn0 hnN
    htype hval hdet]

set_option maxRecDepth 8000 in
/-- The row of node 0 of `diamondMesh` with the five-point operators when the row
computation is applied a second time to its own result. -/
theorem Example.fivePoint_row_twice :
    ComputeSmootherWeights.row
        (ComputeSmootherWeights.terms Example.fivePointSmoother 0 (1, 0, 0, 1) 1)
        (ComputeSmootherWeights.row
          (ComputeSmootherWeights.terms Example.fivePointSmoother 0 (1, 0, 0, 1) 1)
          (fun _ => 0)) 1 = 49999999900000000 / 199999999200000001 := by
  simp [ComputeSmootherWeights.row, ComputeSmootherWeights.terms,
    ComputeSmootherWeights.normalize, ComputeSmootherWeights.regularize,
    ComputeSmootherWeights.alpha, ComputeSmootherWeights.accumulate, MatrixNorm,
    sumRange, forRange, Example.fivePointSmoother, Example.newSmoother, Example.ofList,
    Function.update_apply]
  norm_num

/-! ## Claims on the repeated computation of the smoother weights -/

/-- C27, at a failing input: on `diamondMesh` with the operators of the five-point
stencil and zero weights, one call of `ComputeSmootherWeights` gives the first
neighbour of node 0 the weight `1 / (4 - 1e-8)`. A second call on the same mesh and
operators accumulates onto the weights of the first (line 434 resizes without
clearing, lines 509 and 513 use `-=` and `+=`) and gives
`(5 - 1e-8) / (20 - 8e-8 + 1e-16)`, a different weight. -/
theorem C27_second_call_accumulates_onto_the_first :
    (ComputeSmootherWeights Example.env Example.diamondMesh
      Example.fivePointSmoother).wSmoother 0 1 = 100000000 / 399999999 ∧
    (ComputeSmootherWeights Example.env Example.diamondMesh
      (ComputeSmootherWeights Example.env Example.diamondMesh
        Example.fivePointSmoother)).wSmoother 0 1 =
      49999999900000000 / 199999999200000001 ∧
    (ComputeSmootherWeights Example.env Example.diamondMesh
      (ComputeSmootherWeights Example.env Example.diamondMesh
        Example.fivePointSmoother)).wSmoother 0 1 ≠
      (ComputeSmootherWeights Example.env Example.diamondMesh
        Example.fivePointSmoother).wSmoother 0 1 := by
  have hdet : ComputeSmootherWeights.determinant (1, 0, 0, 1) = 1 := by
    norm_num [ComputeSmootherWeights.determinant]
  have hzero : Example.fivePointSmoother.wSmoother 0 = fun _ => 0 := rfl
  have hrow := ComputeSmootherWeights_row Example.env Example.diamondMesh
    Example.fivePointSmoother 0 (le_refl _) (by simp [Example.diamondMesh])
    (Or.inl (by simp [Example.diamondMesh, Example.ofList]))
    (by simp [Example.diamondMesh, Example.ofList])
    Example.fivePoint_determinant
  have htwice := ComputeSmootherWeights_twice Example.env Example.diamondMesh
    Example.fivePointSmoother 0 (le_refl _) (by simp [Example.diamondMesh])
    (Or.inl (by simp [Example.diamondMesh, Example.ofList]))
    (by simp [Example.diamondMesh, Example.ofList])
    Example.fivePoint_determinant
  rw [Example.fivePoint_jacobian, hdet, hzero] at hrow htwice
  have h1 : (ComputeSmootherWeights Example.env Example.diamondMesh
      Example.fivePointSmoother).wSmoother 0 1 = 100000000 / 399999999 := by
    rw [hrow]; exact Example.fivePoint_row.2
  have h2 : (ComputeSmootherWeights Example.env Example.diamondMesh
      (ComputeSmootherWeights Example.env Example.diamondMesh
        Example.fivePointSmoother)).wSmoother 0 1 =
      49999999900000000 / 199999999200000001 := by
    rw [htwice]; exact Example.fivePoint_row_twice
  refine ⟨h1, h2, ?_⟩
  rw [h1, h2]
  norm_num

/-! ## Node administration: the list of connected nodes only grows -/

theorem SmootherNodeAdministration.Extends.refl (s : SmootherNodeAdministration.Nodes) :
    SmootherNodeAdministration.Extends s s :=
  ⟨le_refl _, fun _ _ => rfl, fun _ _ _ => rfl⟩

theorem SmootherNodeAdministration.Extends.trans {s t u : SmootherNodeAdministration.Nodes}
    (h1 : SmootherNodeAdministration.Extends s t) (h2 : SmootherNodeAdministration.Extends t u) :
    SmootherNodeAdministration.Extends s u :=
  ⟨le_trans h1.index h2.index,
    fun p hp => (h2.cache p (le_trans hp h1.index)).trans (h1.cache p hp),
    fun m p hp => (h2.list m p (le_trans hp h1.index)).trans (h1.list m p hp)⟩

/-- A mapping entry that is not rewritten stays right when the list is extended. -/
theorem SmootherNodeAdministration.Mapped.extend {mesh : Mesh}
    {s t : SmootherNodeAdministration.Nodes} {f face k : Int}
    (h : SmootherNodeAdministration.Mapped mesh s f face k)
    (hext : SmootherNodeAdministration.Extends s t)
    (hmap : t.faceNodeMappingCache f k = s.faceNodeMappingCache f k) :
    SmootherNodeAdministration.Mapped mesh t f face k := by
  refine ⟨?_, ?_, ?_⟩
  · rw [hmap]; exact h.nonneg
  · rw [hmap]; exact le_trans h.filled hext.index
  · rw [hmap, hext.cache _ h.filled]; exact h.node

/-- Appending a node extends the list by the position after the last, where the cache
and the list of the current node hold the node; the mapping is not touched. -/
theorem SmootherNodeAdministration.append_extends (currentNode node : Int)
    (st : SmootherNodeAdministration.Nodes) :
    SmootherNodeAdministration.Extends st
      (SmootherNodeAdministration.append currentNode node st) ∧
    (SmootherNodeAdministration.append currentNode node st).connectedNodesIndex =
      st.connectedNodesIndex + 1 ∧
    (SmootherNodeAdministration.append currentNode node st).connectedNodesCache
      (st.connectedNodesIndex + 1) = node ∧
    (SmootherNodeAdministration.append currentNode node st).connectedNodes currentNode
      (st.connectedNodesIndex + 1) = node ∧
    (SmootherNodeAdministration.append currentNode node st).faceNodeMappingCache =
      st.faceNodeMappingCache := by
  unfold SmootherNodeAdministration.append
  refine ⟨⟨?_, ?_, ?_⟩, rfl, ?_, ?_, rfl⟩
  · dsimp only; omega
  · intro p hp
    dsimp only
    rw [Function.update_noteq (by omega)]
  · intro m p hp
    dsimp only
    rw [Function.update_apply]
    split_ifs with hm
    · rw [Function.update_noteq (by omega), hm]
    · rfl
  · dsimp only
    rw [Function.update_same]
  · dsimp only
    rw [Function.update_same, Function.update_same]

/-- The search of a node in the cache: when it is found, the position returned is a
filled one and the cache holds the node there. -/
theorem SmootherNodeAdministration.lookup_found (cache : Int → Int) (node idx : Int)
    (h : (SmootherNodeAdministration.lookup cache node idx).1 = false) :
    0 ≤ (SmootherNodeAdministration.lookup cache node idx).2 ∧
    (SmootherNodeAdministration.lookup cache node idx).2 ≤ idx ∧
    cache (SmootherNodeAdministration.lookup cache node idx).2 = node := by
  unfold SmootherNodeAdministration.lookup at h ⊢
  have key : ∀ k : Nat,
      (forRange (fun n (st : Bool × Int) =>
        if st.1 = false then st else if node = cache n then (false, n) else st) k
          (true, 0)).1 = false →
      0 ≤ (forRange (fun n (st : Bool × Int) =>
        if st.1 = false then st else if node = cache n then (false, n) else st) k
          (true, 0)).2 ∧
      (forRange (fun n (st : Bool × Int) =>
        if st.1 = false then st else if node = cache n then (false, n) else st) k
          (true, 0)).2 < k ∧
      cache (forRange (fun n (st : Bool × Int) =>
        if st.1 = false then st else if node = cache n then (false, n) else st) k
          (true, 0)).2 = node := by
    intro k
    induction k with
    | zero => intro h0; exact absurd h0 (by simp [forRange])
    | succ k ih =>
      rw [forRange_succ]
      generalize forRange (fun n (st : Bool × Int) =>
        if st.1 = false then st else if node = cache n then (false, n) else st) k
          (true, 0) = st at ih ⊢
      intro h1
      by_cases c1 : st.1 = false
      · rw [if_pos c1] at h1 ⊢
        obtain ⟨a, b, c⟩ := ih c1
        exact ⟨a, by push_cast; omega, c⟩
      · rw [if_neg c1] at h1 ⊢
        by_cases c2 : node = cache k
        · rw [if_pos c2]
          exact ⟨by positivity, by push_cast; omega, c2.symm⟩
        · rw [if_neg c2] at h1
          exact absurd h1 c1
  obtain ⟨a, b, c⟩ := key _ h
  refine ⟨a, ?_, c⟩
  have hpos : 0 < (idx + 1).toNat := by
    rcases Nat.eq_zero_or_pos (idx + 1).toNat with h0 | h0
    · rw [h0] at a b; push_cast at b; omega
    · exact h0
  have : ((idx + 1).toNat : Int) = idx + 1 := Int.toNat_of_nonneg (by
    have := Int.lt_toNat.mp hpos; omega)
  omega

/-! ## Node administration: the walk around a shared face -/

/-- One step of the walk around the shared face in slot `f`: the position `p` in the
face is the running index reduced by the number of face nodes when it has reached it;
the list is extended, entry `p` of row `f` of the mapping becomes right, and no other
entry of the mapping is written. -/
theorem SmootherNodeAdministration.faceNodeBody_step (mesh : Mesh)
    (currentNode f faceIndex n : Int) (w : SmootherNodeAdministration.Walk)
    (p : Int)
    (hp : p = if w.faceNodeIndex ≥ mesh.numFaceEdges faceIndex
      then w.faceNodeIndex - mesh.numFaceEdges faceIndex else w.faceNodeIndex)
    (hidx : 0 ≤ w.nodes.connectedNodesIndex) :
    (SmootherNodeAdministration.faceNodeBody mesh currentNode f faceIndex n w).faceNodeIndex =
      p + 1 ∧
    SmootherNodeAdministration.Extends w.nodes
      (SmootherNodeAdministration.faceNodeBody mesh currentNode f faceIndex n w).nodes ∧
    SmootherNodeAdministration.Mapped mesh
      (SmootherNodeAdministration.faceNodeBody mesh currentNode f faceIndex n w).nodes
      f faceIndex p ∧
    ∀ f' k' : Int, f' ≠ f ∨ k' ≠ p →
      (SmootherNodeAdministration.faceNodeBody mesh currentNode f faceIndex n
        w).nodes.faceNodeMappingCache f' k' = w.nodes.faceNodeMappingCache f' k' := by
  subst hp
  unfold SmootherNodeAdministration.faceNodeBody
  simp only []
  generalize (if w.faceNodeIndex ≥ mesh.numFaceEdges faceIndex
    then w.faceNodeIndex - mesh.numFaceEdges faceIndex else w.faceNodeIndex) = p
  have hother : ∀ (g : Int → Int → Int) (v : Int) (f' k' : Int), f' ≠ f ∨ k' ≠ p →
      Function.update g f (Function.update (g f) p v) f' k' = g f' k' := by
    intro g v f' k' h
    by_cases hf : f' = f
    · rw [hf, Function.update_same]
      rcases h with h | h
      · exact absurd hf h
      · rw [Function.update_noteq h]
    · rw [Function.update_noteq hf]
  have hsame : ∀ (g : Int → Int → Int) (v : Int),
      Function.update g f (Function.update (g f) p v) f p = v := by
    intro g v
    rw [Function.update_same, Function.update_same]
  cases hr : (SmootherNodeAdministration.lookup w.nodes.connectedNodesCache
      (mesh.facesNodes faceIndex p) w.nodes.connectedNodesIndex).1 with
  | true =>
    obtain ⟨a1, a2, a3, -, a5⟩ := SmootherNodeAdministration.append_extends currentNode
      (mesh.facesNodes faceIndex p) w.nodes
    simp only [if_true]
    refine ⟨trivial, ⟨a1.index, a1.cache, a1.list⟩, ⟨?_, ?_, ?_⟩, ?_⟩
    · dsimp only; rw [hsame, a2]; omega
    · dsimp only; rw [hsame]
    · dsimp only; rw [hsame, a2]; exact a3
    · intro f' k' h
      rw [hother _ _ f' k' h, a5]
  | false =>
    obtain ⟨b1, b2, b3⟩ := SmootherNodeAdministration.lookup_found _ _ _ hr
    simp only [Bool.false_eq_true, if_false]
    refine ⟨trivial, ⟨le_refl _, fun _ _ => rfl, fun _ _ _ => rfl⟩, ⟨?_, ?_, ?_⟩, ?_⟩
    · dsimp only; rw [hsame]; exact b1
    · dsimp only; rw [hsame]; exact b2
    · dsimp only; rw [hsame]; exact b3
    · intro f' k' h
      rw [hother _ _ f' k' h]

/-- The start of the walk is a position of the face, or 0. -/
theorem SmootherNodeAdministration.findFaceNode_range (mesh : Mesh)
    (faceIndex currentNode : Int) :
    0 ≤ SmootherNodeAdministration.findFaceNode mesh faceIndex currentNode ∧
    (SmootherNodeAdministration.findFaceNode mesh faceIndex currentNode = 0 ∨
      SmootherNodeAdministration.findFaceNode mesh faceIndex currentNode <
        mesh.numFaceEdges faceIndex) := by
  unfold SmootherNodeAdministration.findFaceNode
  have key : ∀ k : Nat,
      (forRange (fun n (st : Bool × Int) =>
        if st.1 then st else
        if mesh.facesNodes faceIndex n = currentNode then (true, n) else st) k (false, 0)).2 = 0 ∨
      (0 ≤ (forRange (fun n (st : Bool × Int) =>
        if st.1 then st else
        if mesh.facesNodes faceIndex n = currentNode then (true, n) else st) k (false, 0)).2 ∧
      (forRange (fun n (st : Bool × Int) =>
        if st.1 then st else
        if mesh.facesNodes faceIndex n = currentNode then (true, n) else st) k (false, 0)).2 <
          k) := by
    intro k
    induction k with
    | zero => exact Or.inl rfl
    | succ k ih =>
      rw [forRange_succ]
      generalize forRange (fun n (st : Bool × Int) =>
        if st.1 then st else
        if mesh.facesNodes faceIndex n = currentNode then (true, n) else st) k (false, 0) =
          st at ih ⊢
      split_ifs
      · rcases ih with h | h
        · exact Or.inl h
        · exact Or.inr ⟨h.1, by push_cast; omega⟩
      · exact Or.inr ⟨by positivity, by push_cast; omega⟩
      · rcases ih with h | h
        · exact Or.inl h
        · exact Or.inr ⟨h.1, by push_cast; omega⟩
  rcases key (mesh.numFaceEdges faceIndex).toNat with h | h
  · exact ⟨by rw [h], Or.inl h⟩
  · refine ⟨h.1, Or.inr ?_⟩
    have h2 := h.2
    have hpos : 0 < (mesh.numFaceEdges faceIndex).toNat := by
      have : (0 : Int) < ((mesh.numFaceEdges faceIndex).toNat : Int) := lt_of_le_of_lt h.1 h2
      exact_mod_cast this
    have : ((mesh.numFaceEdges faceIndex).toNat : Int) = mesh.numFaceEdges faceIndex :=
      Int.toNat_of_nonneg (by have := Int.lt_toNat.mp hpos; omega)
    omega

/-- The walk around the shared face in slot `f`, after `j` steps from the position `s`:
the running index, the extension of the list, the entries of row `f` at the positions
passed, which are right, and the other rows of the mapping, which are not written. -/
theorem SmootherNodeAdministration.walk_invariant (mesh : Mesh)
    (currentNode f faceIndex : Int) (st : SmootherNodeAdministration.Nodes) (s : Int)
    (hidx : 0 ≤ st.connectedNodesIndex) (hsN : s < mesh.numFaceEdges faceIndex)
    (j : Nat) (hj : (j : Int) ≤ mesh.numFaceEdges faceIndex) :
    (forRange (SmootherNodeAdministration.faceNodeBody mesh currentNode f faceIndex) j
      { faceNodeIndex := s, nodes := st }).faceNodeIndex =
        (if s + j ≤ mesh.numFaceEdges faceIndex then s + j
          else s + j - mesh.numFaceEdges faceIndex) ∧
    SmootherNodeAdministration.Extends st
      (forRange (SmootherNodeAdministration.faceNodeBody mesh currentNode f faceIndex) j
        { faceNodeIndex := s, nodes := st }).nodes ∧
    (∀ k : Int, 0 ≤ k → k < mesh.numFaceEdges faceIndex →
      (s ≤ k ∧ k < s + j) ∨ k + mesh.numFaceEdges faceIndex < s + j →
      SmootherNodeAdministration.Mapped mesh
        (forRange (SmootherNodeAdministration.faceNodeBody mesh currentNode f faceIndex) j
          { faceNodeIndex := s, nodes := st }).nodes f faceIndex k) ∧
    (∀ f' k' : Int, f' ≠ f →
      (forRange (SmootherNodeAdministration.faceNodeBody mesh currentNode f faceIndex) j
        { faceNodeIndex := s, nodes := st }).nodes.faceNodeMappingCache f' k' =
          st.faceNodeMappingCache f' k') := by
  induction j with
  | zero =>
    refine ⟨?_, SmootherNodeAdministration.Extends.refl _, ?_, fun _ _ _ => rfl⟩
    · rw [forRange_zero, if_pos (by push_cast; omega)]
      push_cast; ring
    · intro k hk _ h
      push_cast at h
      omega
  | succ j ih =>
    have hj' : (j : Int) ≤ mesh.numFaceEdges faceIndex := by push_cast at hj; omega
    have hjlt : (j : Int) < mesh.numFaceEdges faceIndex := by push_cast at hj; omega
    obtain ⟨i1, i2, i3, i4⟩ := ih hj'
    rw [forRange_succ]
    generalize forRange (SmootherNodeAdministration.faceNodeBody mesh currentNode f faceIndex) j
      { faceNodeIndex := s, nodes := st } = w at i1 i2 i3 i4 ⊢
    have hwidx : 0 ≤ w.nodes.connectedNodesIndex := le_trans hidx i2.index
    obtain ⟨p, hp⟩ : ∃ p : Int, p = if w.faceNodeIndex ≥ mesh.numFaceEdges faceIndex
        then w.faceNodeIndex - mesh.numFaceEdges faceIndex else w.faceNodeIndex := ⟨_, rfl⟩
    obtain ⟨s1, s2, s3, s4⟩ := SmootherNodeAdministration.faceNodeBody_step mesh currentNode f
      faceIndex (j : Int) w p hp hwidx
    have hpval : p = if s + j < mesh.numFaceEdges faceIndex then s + j
        else s + j - mesh.numFaceEdges faceIndex := by
      rw [hp, i1]
      split_ifs <;> omega
    refine ⟨?_, i2.trans s2, ?_, ?_⟩
    · rw [s1, hpval]
      push_cast
      split_ifs <;> omega
    · intro k hk hkN hvis
      by_cases hkp : k = p
      · rw [hkp]; exact s3
      · have hprev : (s ≤ k ∧ k < s + j) ∨ k + mesh.numFaceEdges faceIndex < s + j := by
          rw [hpval] at hkp
          push_cast at hvis
          split_ifs at hkp <;> omega
        exact (i3 k hk hkN hprev).extend s2 (s4 f k (Or.inr hkp))
    · intro f' k' hf
      rw [s4 f' k' (Or.inl hf)]
      exact i4 f' k' hf

/-- The loop over the nodes of the shared face in slot `f`: the list is extended; when
the slot holds a face, every entry of row `f` of the mapping below the number of face
nodes is right afterwards; the other rows of the mapping are not written. -/
theorem SmootherNodeAdministration.sharedFaceBody_step (mesh : Mesh) (currentNode : Int)
    (sharedFacesCache : Int → Int) (f : Int) (st : SmootherNodeAdministration.Nodes)
    (hidx : 0 ≤ st.connectedNodesIndex) :
    SmootherNodeAdministration.Extends st
      (SmootherNodeAdministration.sharedFaceBody mesh currentNode sharedFacesCache f st) ∧
    (0 ≤ sharedFacesCache f → ∀ k : Int, 0 ≤ k → k < mesh.numFaceEdges (sharedFacesCache f) →
      SmootherNodeAdministration.Mapped mesh
        (SmootherNodeAdministration.sharedFaceBody mesh currentNode sharedFacesCache f st)
        f (sharedFacesCache f) k) ∧
    (∀ f' k' : Int, f' ≠ f →
      (SmootherNodeAdministration.sharedFaceBody mesh currentNode sharedFacesCache f
        st).faceNodeMappingCache f' k' = st.faceNodeMappingCache f' k') := by
  unfold SmootherNodeAdministration.sharedFaceBody
  simp only []
  by_cases hneg : sharedFacesCache f < 0
  · rw [if_pos hneg]
    exact ⟨SmootherNodeAdministration.Extends.refl _, fun h => absurd h (by omega),
      fun _ _ _ => rfl⟩
  · rw [if_neg hneg]
    by_cases hN : mesh.numFaceEdges (sharedFacesCache f) ≤ 0
    · rw [Int.toNat_of_nonpos hN, forRange_zero]
      exact ⟨SmootherNodeAdministration.Extends.refl _, fun _ k hk0 hk => absurd hk (by omega),
        fun _ _ _ => rfl⟩
    · have hcast : ((mesh.numFaceEdges (sharedFacesCache f)).toNat : Int) =
          mesh.numFaceEdges (sharedFacesCache f) := Int.toNat_of_nonneg (by omega)
      obtain ⟨r0, r1⟩ := SmootherNodeAdministration.findFaceNode_range mesh
        (sharedFacesCache f) currentNode
      have hs : SmootherNodeAdministration.findFaceNode mesh (sharedFacesCache f) currentNode <
          mesh.numFaceEdges (sharedFacesCache f) := by
        rcases r1 with h | h
        · rw [h]; omega
        · exact h
      obtain ⟨-, w2, w3, w4⟩ := SmootherNodeAdministration.walk_invariant mesh currentNode f
        (sharedFacesCache f) st _ hidx hs (mesh.numFaceEdges (sharedFacesCache f)).toNat
        (le_of_eq hcast)
      refine ⟨w2, fun _ k hk0 hk => w3 k hk0 hk ?_, w4⟩
      rw [hcast]
      omega

/-- The loop over the shared faces, after `F` slots: the list has been extended, and
every entry below the number of face nodes of a row of the mapping whose slot, among
the first `F`, holds a face is right. -/
theorem SmootherNodeAdministration.sharedFaces_invariant (mesh : Mesh) (currentNode : Int)
    (sharedFacesCache : Int → Int) (st : SmootherNodeAdministration.Nodes)
    (hidx : 0 ≤ st.connectedNodesIndex) (F : Nat) :
    SmootherNodeAdministration.Extends st
      (forRange (SmootherNodeAdministration.sharedFaceBody mesh currentNode sharedFacesCache)
        F st) ∧
    ∀ f : Int, 0 ≤ f → f < F → 0 ≤ sharedFacesCache f →
      ∀ k : Int, 0 ≤ k → k < mesh.numFaceEdges (sharedFacesCache f) →
        SmootherNodeAdministration.Mapped mesh
          (forRange
            (SmootherNodeAdministration.sharedFaceBody mesh currentNode sharedFacesCache) F st)
          f (sharedFacesCache f) k := by
  induction F with
  | zero =>
    exact ⟨SmootherNodeAdministration.Extends.refl _, fun f h0 h1 => absurd h1 (by
      push_cast; omega)⟩
  | succ F ih =>
    obtain ⟨i1, i2⟩ := ih
    rw [forRange_succ]
    obtain ⟨s1, s2, s3⟩ := SmootherNodeAdministration.sharedFaceBody_step mesh currentNode
      sharedFacesCache (F : Int)
      (forRange (SmootherNodeAdministration.sharedFaceBody mesh currentNode sharedFacesCache)
        F st) (le_trans hidx i1.index)
    refine ⟨i1.trans s1, ?_⟩
    intro f hf0 hfF hface k hk0 hk
    by_cases hfe : f = (F : Int)
    · rw [hfe] at hface hk ⊢
      exact s2 hface k hk0 hk
    · exact (i2 f hf0 (by push_cast at hfF; omega) hface k hk0 hk).extend s1 (s3 f k hfe)

/-- The loop over the edges of the node, after `k` edges: the list ends at position
`k`, and position `j + 1` of the cache and of the stored list of the node holds the
other end of the edge in slot `j`. -/
theorem SmootherNodeAdministration.edges_invariant (mesh : Mesh) (currentNode : Int)
    (st : SmootherNodeAdministration.Nodes) (hidx : st.connectedNodesIndex = 0) (k : Nat) :
    (forRange (SmootherNodeAdministration.edgeBody mesh currentNode) k
      st).connectedNodesIndex = k ∧
    (forRange (SmootherNodeAdministration.edgeBody mesh currentNode) k
      st).faceNodeMappingCache = st.faceNodeMappingCache ∧
    ∀ j : Int, 0 ≤ j → j < k →
      (forRange (SmootherNodeAdministration.edgeBody mesh currentNode) k
        st).connectedNodesCache (j + 1) =
          (mesh.edges (mesh.nodesEdges currentNode j)).1 +
            (mesh.edges (mesh.nodesEdges currentNode j)).2 - currentNode ∧
      (forRange (SmootherNodeAdministration.edgeBody mesh currentNode) k
        st).connectedNodes currentNode (j + 1) =
          (mesh.edges (mesh.nodesEdges currentNode j)).1 +
            (mesh.edges (mesh.nodesEdges currentNode j)).2 - currentNode := by
  induction k with
  | zero =>
    exact ⟨by rw [forRange_zero, hidx]; rfl, rfl, fun j h0 h1 => absurd h1 (by
      push_cast; omega)⟩
  | succ k ih =>
    obtain ⟨i1, i2, i3⟩ := ih
    rw [forRange_succ]
    have he : SmootherNodeAdministration.edgeBody mesh currentNode (k : Int)
        (forRange (SmootherNodeAdministration.edgeBody mesh currentNode) k st) =
        SmootherNodeAdministration.append currentNode
          ((mesh.edges (mesh.nodesEdges currentNode (k : Int))).1 +
            (mesh.edges (mesh.nodesEdges currentNode (k : Int))).2 - currentNode)
          (forRange (SmootherNodeAdministration.edgeBody mesh currentNode) k st) := rfl
    rw [he]
    obtain ⟨a1, a2, a3, a4, a5⟩ := SmootherNodeAdministration.append_extends currentNode
      ((mesh.edges (mesh.nodesEdges currentNode (k : Int))).1 +
        (mesh.edges (mesh.nodesEdges currentNode (k : Int))).2 - currentNode)
      (forRange (SmootherNodeAdministration.edgeBody mesh currentNode) k st)
    refine ⟨by rw [a2, i1]; push_cast; ring, a5.trans i2, ?_⟩
    intro j hj0 hjk
    by_cases hje : j = (k : Int)
    · rw [hje]
      rw [i1] at a3 a4
      exact ⟨a3, a4⟩
    · have hlt : j < k := by push_cast at hjk; omega
      rw [a1.cache (j + 1) (by rw [i1]; omega), a1.list currentNode (j + 1) (by rw [i1]; omega)]
      exact i3 j hj0 hlt

/-! ## Node administration: the result for an administered node -/

/-- For a node with at least two edges the number of shared face slots returned is the
count of the first loop, and the cache of shared faces is the one that loop leaves. -/
theorem SmootherNodeAdministration_faces (env : Env) (mesh : Mesh)
    (currentNode numSharedFaces numConnectedNodes : Int) (c : SmootherCaches)
    (hval : 2 ≤ mesh.nodesNumEdges currentNode) :
    (SmootherNodeAdministration env mesh currentNode numSharedFaces numConnectedNodes c).2.1 =
      (forRange (SmootherNodeAdministration.faceBody env mesh currentNode)
        (mesh.nodesNumEdges currentNode).toNat
        { newFaceIndex := env.intMissingValue, numSharedFaces := 0,
          sharedFacesCache := c.sharedFacesCache }).numSharedFaces ∧
    (SmootherNodeAdministration env mesh currentNode numSharedFaces numConnectedNodes
      c).2.2.2.sharedFacesCache =
      (forRange (SmootherNodeAdministration.faceBody env mesh currentNode)
        (mesh.nodesNumEdges currentNode).toNat
        { newFaceIndex := env.intMissingValue, numSharedFaces := 0,
          sharedFacesCache := c.sharedFacesCache }).sharedFacesCache := by
  unfold SmootherNodeAdministration
  simp only []
  rw [if_neg (by omega)]
  split_ifs <;> exact ⟨rfl, rfl⟩

/-- For a node with at least two edges and at least one shared face slot, the members
that list the connected nodes are those the loop over the edges and the loop over the
shared faces leave, and the number of connected nodes is the last position plus one. -/
theorem SmootherNodeAdministration_nodes (env : Env) (mesh : Mesh)
    (currentNode numSharedFaces numConnectedNodes : Int) (c : SmootherCaches)
    (hval : 2 ≤ mesh.nodesNumEdges currentNode)
    (hfaces : 1 ≤ (SmootherNodeAdministration env mesh currentNode numSharedFaces
      numConnectedNodes c).2.1) :
    ∃ n2 : SmootherNodeAdministration.Nodes,
      n2 = forRange
        (SmootherNodeAdministration.sharedFaceBody mesh currentNode
          (SmootherNodeAdministration env mesh currentNode numSharedFaces numConnectedNodes
            c).2.2.2.sharedFacesCache)
        (SmootherNodeAdministration env mesh currentNode numSharedFaces numConnectedNodes
          c).2.1.toNat
        (forRange (SmootherNodeAdministration.edgeBody mesh currentNode)
          (mesh.nodesNumEdges currentNode).toNat
          { connectedNodesIndex := 0
            connectedNodesCache := Function.update c.connectedNodesCache 0 currentNode
            connectedNodes := c.connectedNodes
            faceNodeMappingCache := c.faceNodeMappingCache }) ∧
      (SmootherNodeAdministration env mesh currentNode numSharedFaces numConnectedNodes
        c).2.2.2.connectedNodesCache = n2.connectedNodesCache ∧
      (SmootherNodeAdministration env mesh currentNode numSharedFaces numConnectedNodes
        c).2.2.2.connectedNodes = n2.connectedNodes ∧
      (SmootherNodeAdministration env mesh currentNode numSharedFaces numConnectedNodes
        c).2.2.2.faceNodeMappingCache = n2.faceNodeMappingCache ∧
      (SmootherNodeAdministration env mesh currentNode numSharedFaces numConnectedNodes
        c).2.2.1 = n2.connectedNodesIndex + 1 ∧
      (SmootherNodeAdministration env mesh currentNode numSharedFaces numConnectedNodes
        c).2.2.2.numConnectedNodes currentNode = n2.connectedNodesIndex + 1 := by
  obtain ⟨f1, f2⟩ := SmootherNodeAdministration_faces env mesh currentNode numSharedFaces
    numConnectedNodes c hval
  rw [f1] at hfaces
  refine ⟨_, rfl, ?_⟩
  rw [f1, f2]
  unfold SmootherNodeAdministration
  simp only []
  rw [if_neg (by omega), if_neg (by omega)]
  exact ⟨rfl, rfl, rfl, rfl, Function.update_same _ _ _⟩

/-! ## Claims on the lists of the node administration -/

/-- C28: after `SmootherNodeAdministration(n)` on a node with at least two edges, for
every shared face slot `f` below the number of slots returned that holds a face (an
index that is not negative, which is what the code tests) and every position `k` below
the number of nodes of that face, `face_node_mapping_cache[f][k]` is a filled position
of the connected-node list and
`connected_nodes_cache[face_node_mapping_cache[f][k]] = faces_nodes[shared_faces_cache[f]][k]`. -/
theorem C28_face_node_mapping_points_at_the_face_node (env : Env) (mesh : Mesh)
    (currentNode numSharedFaces numConnectedNodes : Int) (c : SmootherCaches) (f k : Int)
    (hval : 2 ≤ mesh.nodesNumEdges currentNode)
    (hf0 : 0 ≤ f)
    (hf : f < (SmootherNodeAdministration env mesh currentNode numSharedFaces
      numConnectedNodes c).2.1)
    (hface : 0 ≤ (SmootherNodeAdministration env mesh currentNode numSharedFaces
      numConnectedNodes c).2.2.2.sharedFacesCache f)
    (hk0 : 0 ≤ k)
    (hk : k < mesh.numFaceEdges ((SmootherNodeAdministration env mesh currentNode
      numSharedFaces numConnectedNodes c).2.2.2.sharedFacesCache f)) :
    (SmootherNodeAdministration env mesh currentNode numSharedFaces numConnectedNodes
      c).2.2.2.connectedNodesCache
        ((SmootherNodeAdministration env mesh currentNode numSharedFaces numConnectedNodes
          c).2.2.2.faceNodeMappingCache f k) =
      mesh.facesNodes ((SmootherNodeAdministration env mesh currentNode numSharedFaces
        numConnectedNodes c).2.2.2.sharedFacesCache f) k ∧
    0 ≤ (SmootherNodeAdministration env mesh currentNode numSharedFaces numConnectedNodes
      c).2.2.2.faceNodeMappingCache f k ∧
    (SmootherNodeAdministration env mesh currentNode numSharedFaces numConnectedNodes
      c).2.2.2.faceNodeMappingCache f k <
      (SmootherNodeAdministration env mesh currentNode numSharedFaces numConnectedNodes
        c).2.2.1 := by
  obtain ⟨n2, hn2, e1, -, e3, e4, -⟩ := SmootherNodeAdministration_nodes env mesh currentNode
    numSharedFaces numConnectedNodes c hval (by omega)
  obtain ⟨g1, -, -⟩ := SmootherNodeAdministration.edges_invariant mesh currentNode
    { connectedNodesIndex := 0
      connectedNodesCache := Function.update c.connectedNodesCache 0 currentNode
      connectedNodes := c.connectedNodes
      faceNodeMappingCache := c.faceNodeMappingCache } rfl
    (mesh.nodesNumEdges currentNode).toNat
  obtain ⟨-, m2⟩ := SmootherNodeAdministration.sharedFaces_invariant mesh currentNode
    (SmootherNodeAdministration env mesh currentNode numSharedFaces numConnectedNodes
      c).2.2.2.sharedFacesCache
    (forRange (SmootherNodeAdministration.edgeBody mesh currentNode)
      (mesh.nodesNumEdges currentNode).toNat
      { connectedNodesIndex := 0
        connectedNodesCache := Function.update c.connectedNodesCache 0 currentNode
        connectedNodes := c.connectedNodes
        faceNodeMappingCache := c.faceNodeMappingCache })
    (by rw [g1]; positivity)
    (SmootherNodeAdministration env mesh currentNode numSharedFaces numConnectedNodes
      c).2.1.toNat
  have hcast : (((SmootherNodeAdministration env mesh currentNode numSharedFaces
      numConnectedNodes c).2.1.toNat : Nat) : Int) =
      (SmootherNodeAdministration env mesh currentNode numSharedFaces numConnectedNodes
        c).2.1 := Int.toNat_of_nonneg (by omega)
  have hm := m2 f hf0 (by rw [hcast]; exact hf) hface k hk0 hk
  rw [← hn2] at hm
  rw [e1, e3, e4]
  exact ⟨hm.node, hm.nonneg, by have := hm.filled; omega⟩

/-- C29: after `SmootherNodeAdministration(n)` on a node `n` of the mesh with at least
two edges and at least one shared face slot, for every `k < valence(n)` entry `k + 1`
of the cache of connected nodes and of the stored list `connected_nodes[n]` is
`first + second - n` of the edge `nodes_edges[n][k]`, the other end of the edge, which
is `nodes_nodes[n][k]` as `Set` computes it, and the number of connected nodes, in the
output argument and in `num_connected_nodes[n]`, is at least `valence(n) + 1`. -/
theorem C29_edge_connected_nodes_follow_the_node (env : Env) (mesh : Mesh)
    (currentNode numSharedFaces numConnectedNodes : Int) (c : SmootherCaches) (k : Int)
    (hn0 : 0 ≤ currentNode) (hnN : currentNode < mesh.numNodes)
    (hval : 2 ≤ mesh.nodesNumEdges currentNode)
    (hfaces : 1 ≤ (SmootherNodeAdministration env mesh currentNode numSharedFaces
      numConnectedNodes c).2.1)
    (hk0 : 0 ≤ k) (hk : k < mesh.nodesNumEdges currentNode) :
    (SmootherNodeAdministration env mesh currentNode numSharedFaces numConnectedNodes
      c).2.2.2.connectedNodesCache (k + 1) =
      (mesh.edges (mesh.nodesEdges currentNode k)).1 +
        (mesh.edges (mesh.nodesEdges currentNode k)).2 - currentNode ∧
    (SmootherNodeAdministration env mesh currentNode numSharedFaces numConnectedNodes
      c).2.2.2.connectedNodes currentNode (k + 1) =
      (mesh.edges (mesh.nodesEdges currentNode k)).1 +
        (mesh.edges (mesh.nodesEdges currentNode k)).2 - currentNode ∧
    (SmootherNodeAdministration env mesh currentNode numSharedFaces numConnectedNodes
      c).2.2.2.connectedNodesCache (k + 1) = Set.nodesNodes env mesh currentNode k ∧
    mesh.nodesNumEdges currentNode + 1 ≤
      (SmootherNodeAdministration env mesh currentNode numSharedFaces numConnectedNodes
        c).2.2.1 ∧
    mesh.nodesNumEdges currentNode + 1 ≤
      (SmootherNodeAdministration env mesh currentNode numSharedFaces numConnectedNodes
        c).2.2.2.numConnectedNodes currentNode := by
  obtain ⟨n2, hn2, e1, e2, -, e4, e5⟩ := SmootherNodeAdministration_nodes env mesh currentNode
    numSharedFaces numConnectedNodes c hval hfaces
  obtain ⟨g1, -, g3⟩ := SmootherNodeAdministration.edges_invariant mesh currentNode
    { connectedNodesIndex := 0
      connectedNodesCache := Function.update c.connectedNodesCache 0 currentNode
      connectedNodes := c.connectedNodes
      faceNodeMappingCache := c.faceNodeMappingCache } rfl
    (mesh.nodesNumEdges currentNode).toNat
  obtain ⟨m1, -⟩ := SmootherNodeAdministration.sharedFaces_invariant mesh currentNode
    (SmootherNodeAdministration env mesh currentNode numSharedFaces numConnectedNodes
      c).2.2.2.sharedFacesCache
    (forRange (SmootherNodeAdministration.edgeBody mesh currentNode)
      (mesh.nodesNumEdges currentNode).toNat
      { connectedNodesIndex := 0
        connectedNodesCache := Function.update c.connectedNodesCache 0 currentNode
        connectedNodes := c.connectedNodes
        faceNodeMappingCache := c.faceNodeMappingCache })
    (by rw [g1]; positivity)
    (SmootherNodeAdministration env mesh currentNode numSharedFaces numConnectedNodes
      c).2.1.toNat
  rw [← hn2] at m1
  have hcast : ((mesh.nodesNumEdges currentNode).toNat : Int) = mesh.nodesNumEdges currentNode :=
    Int.toNat_of_nonneg (by omega)
  rw [hcast] at g1 g3
  have hidx := m1.index
  rw [g1] at hidx
  have hc := m1.cache (k + 1) (by rw [g1]; omega)
  have hl := m1.list currentNode (k + 1) (by rw [g1]; omega)
  obtain ⟨v1, v2⟩ := g3 k hk0 hk
  rw [e1, e2, e4, e5, hc, hl, Set.nodesNodes_apply, if_pos ⟨hn0, hnN, hk0, hk⟩]
  exact ⟨v1, v2, v1, by omega, by omega⟩

/-- The shared face slots of node 1 of `squareMesh`, administered on initialized
caches: two slots, the face 0 and the missing value. -/
theorem Example.square_administration_faces :
    (SmootherNodeAdministration Example.env Example.squareMesh 1 0 0
      (InitializeSmoother Example.newSmoother).caches).2.1 = 2 ∧
    (SmootherNodeAdministration Example.env Example.squareMesh 1 0 0
      (InitializeSmoother Example.newSmoother).caches).2.2.2.sharedFacesCache 0 = 0 ∧
    (SmootherNodeAdministration Example.env Example.squareMesh 1 0 0
      (InitializeSmoother Example.newSmoother).caches).2.2.2.sharedFacesCache 1 = -999 := by
  have hval : (2 : Int) ≤ Example.squareMesh.nodesNumEdges 1 := by norm_num [Example.squareMesh]
  obtain ⟨f1, f2⟩ := SmootherNodeAdministration_faces Example.env Example.squareMesh 1 0 0
    (InitializeSmoother Example.newSmoother).caches hval
  have e : (Example.squareMesh.nodesNumEdges 1).toNat = 2 := rfl
  have hinit : (InitializeSmoother Example.newSmoother).caches.sharedFacesCache =
      fun _ => -1 := rfl
  have hmiss : Example.env.intMissingValue = -999 := rfl
  rw [e, hinit, hmiss, Example.square_faces] at f1 f2
  rw [f1, f2]
  refine ⟨rfl, ?_, ?_⟩
  · show Function.update (Function.update (fun _ : Int => (-1 : Int)) 0 0) 1 (-999) 0 = 0
    rw [Function.update_noteq (by norm_num), Function.update_same]
  · show Function.update (Function.update (fun _ : Int => (-1 : Int)) 0 0) 1 (-999) 1 = -999
    rw [Function.update_same]

/-- C28 on node 1 of `squareMesh`, administered on initialized caches: slot 0 holds
the face 0, whose node at position 2 is node 2, and the mapping of that position
leads to node 2 in the cache of connected nodes. -/
theorem C28_witness :
    Example.squareMesh.nodesNumEdges 1 = 2 ∧
    (SmootherNodeAdministration Example.env Example.squareMesh 1 0 0
      (InitializeSmoother Example.newSmoother).caches).2.2.2.sharedFacesCache 0 = 0 ∧
    (SmootherNodeAdministration Example.env Example.squareMesh 1 0 0
      (InitializeSmoother Example.newSmoother).caches).2.2.2.connectedNodesCache
        ((SmootherNodeAdministration Example.env Example.squareMesh 1 0 0
          (InitializeSmoother Example.newSmoother).caches).2.2.2.faceNodeMappingCache 0 2) =
      2 := by
  obtain ⟨a1, a2, -⟩ := Example.square_administration_faces
  have h := (C28_face_node_mapping_points_at_the_face_node Example.env Example.squareMesh 1 0 0
    (InitializeSmoother Example.newSmoother).caches 0 2
    (by norm_num [Example.squareMesh]) (le_refl _) (by rw [a1]; norm_num)
    (by rw [a2]) (by norm_num) (by rw [a2]; norm_num [Example.squareMesh])).1
  rw [a2] at h
  refine ⟨by norm_num [Example.squareMesh], a2, ?_⟩
  rw [h]
  norm_num [Example.squareMesh, Example.ofList, Example.toNat_small]

/-- C29 on node 1 of `squareMesh`, administered on initialized caches: the node has the
edges 1 and 0, in this order; entry 1 of the cache and of the stored list is node 2,
the other end of edge 1 = `(1, 2)`, and there are at least three connected nodes. -/
theorem C29_witness :
    Example.squareMesh.nodesNumEdges 1 = 2 ∧
    (SmootherNodeAdministration Example.env Example.squareMesh 1 0 0
      (InitializeSmoother Example.newSmoother).caches).2.1 = 2 ∧
    (SmootherNodeAdministration Example.env Example.squareMesh 1 0 0
      (InitializeSmoother Example.newSmoother).caches).2.2.2.connectedNodesCache (0 + 1) = 2 ∧
    (SmootherNodeAdministration Example.env Example.squareMesh 1 0 0
      (InitializeSmoother Example.newSmoother).caches).2.2.2.connectedNodes 1 (0 + 1) = 2 ∧
    (2 : Int) + 1 ≤ (SmootherNodeAdministration Example.env Example.squareMesh 1 0 0
      (InitializeSmoother Example.newSmoother).caches).2.2.2.numConnectedNodes 1 := by
  obtain ⟨a1, -, -⟩ := Example.square_administration_faces
  have hv : Example.squareMesh.nodesNumEdges 1 = 2 := by norm_num [Example.squareMesh]
  obtain ⟨h1, h2, -, -, h5⟩ := C29_edge_connected_nodes_follow_the_node Example.env
    Example.squareMesh 1 0 0 (InitializeSmoother Example.newSmoother).caches 0
    (by norm_num) (by norm_num [Example.squareMesh]) (by rw [hv]) (by rw [a1]; norm_num)
    (le_refl _) (by rw [hv]; norm_num)
  rw [hv] at h5
  refine ⟨hv, a1, ?_, ?_, h5⟩
  · rw [h1]; norm_num [Example.squareMesh, Example.ofList, Example.toNat_small]
  · rw [h2]; norm_num [Example.squareMesh, Example.ofList, Example.toNat_small]

/-! ## Node administration: the shared face of a pair of edges -/

/-- An iteration of the first loop never lowers the number of slots and leaves the
slots below it. -/
theorem SmootherNodeAdministration.faceBody_frame (env : Env) (mesh : Mesh)
    (currentNode e : Int) (st : SmootherNodeAdministration.Faces) :
    st.numSharedFaces ≤
      (SmootherNodeAdministration.faceBody env mesh currentNode e st).numSharedFaces ∧
    ∀ p : Int, p < st.numSharedFaces →
      (SmootherNodeAdministration.faceBody env mesh currentNode e st).sharedFacesCache p =
        st.sharedFacesCache p := by
  unfold SmootherNodeAdministration.faceBody
  simp only []
  split_ifs
  all_goals first
    | exact ⟨le_refl _, fun _ _ => rfl⟩
    | skip
  all_goals
    refine ⟨?_, fun p hp => ?_⟩
    · show st.numSharedFaces ≤ st.numSharedFaces + 1
      omega
    · show Function.update st.sharedFacesCache st.numSharedFaces _ p = st.sharedFacesCache p
      rw [Function.update_noteq (by omega)]

/-- An iteration of the first loop for a pair of edges that both have a face: it
writes one slot; the face written is the missing value or a face on both lists; and
it is a face on both lists when the edges have at most two faces each, share a face
other than the face found for the previous pair, and the node is not a corner of
valence 2 in its second pair. -/
theorem SmootherNodeAdministration.faceBody_entry (env : Env) (mesh : Mesh)
    (currentNode e : Int) (st : SmootherNodeAdministration.Faces)
    (h1 : 1 ≤ mesh.edgesNumFaces (mesh.nodesEdges currentNode e))
    (h2 : 1 ≤ mesh.edgesNumFaces (mesh.nodesEdges currentNode
      (if e + 1 ≥ mesh.nodesNumEdges currentNode then 0 else e + 1))) :
    (SmootherNodeAdministration.faceBody env mesh currentNode e st).numSharedFaces =
      st.numSharedFaces + 1 ∧
    (SmootherNodeAdministration.faceBody env mesh currentNode e st).sharedFacesCache
      st.numSharedFaces =
      (SmootherNodeAdministration.faceBody env mesh currentNode e st).newFaceIndex ∧
    ((SmootherNodeAdministration.faceBody env mesh currentNode e st).newFaceIndex =
        env.intMissingValue ∨
      SmootherNodeAdministration.OnBothLists mesh (mesh.nodesEdges currentNode e)
        (mesh.nodesEdges currentNode
          (if e + 1 ≥ mesh.nodesNumEdges currentNode then 0 else e + 1))
        (SmootherNodeAdministration.faceBody env mesh currentNode e st).newFaceIndex) ∧
    (mesh.edgesNumFaces (mesh.nodesEdges currentNode e) ≤ 2 →
      mesh.edgesNumFaces (mesh.nodesEdges currentNode
        (if e + 1 ≥ mesh.nodesNumEdges currentNode then 0 else e + 1)) ≤ 2 →
      (∃ g : Int, SmootherNodeAdministration.OnBothLists mesh (mesh.nodesEdges currentNode e)
        (mesh.nodesEdges currentNode
          (if e + 1 ≥ mesh.nodesNumEdges currentNode then 0 else e + 1)) g ∧
        g ≠ st.newFaceIndex) →
      ¬ (mesh.nodesNumEdges currentNode = 2 ∧ e = 1 ∧ mesh.nodesTypes currentNode = 3) →
      SmootherNodeAdministration.OnBothLists mesh (mesh.nodesEdges currentNode e)
        (mesh.nodesEdges currentNode
          (if e + 1 ≥ mesh.nodesNumEdges currentNode then 0 else e + 1))
        (SmootherNodeAdministration.faceBody env mesh currentNode e st).newFaceIndex) := by
  unfold SmootherNodeAdministration.faceBody SmootherNodeAdministration.OnBothLists
  simp only []
  generalize mesh.nodesEdges currentNode e = a at h1 ⊢
  generalize mesh.nodesEdges currentNode
    (if e + 1 ≥ mesh.nodesNumEdges currentNode then 0 else e + 1) = b at h2 ⊢
  rw [if_neg (by omega)]
  dsimp only
  have hfi0 : 0 ≤ max (min (mesh.edgesNumFaces a) 2) 1 - 1 := by omega
  have hfi1 : max (min (mesh.edgesNumFaces a) 2) 1 - 1 < mesh.edgesNumFaces a := by omega
  have hsj0 : 0 ≤ max (min (mesh.edgesNumFaces b) 2) 1 - 1 := by omega
  have hsj1 : max (min (mesh.edgesNumFaces b) 2) 1 - 1 < mesh.edgesNumFaces b := by omega
  have key : ∀ g : Int, g = mesh.edgesFaces b 0 ∨
      g = mesh.edgesFaces b (max (min (mesh.edgesNumFaces b) 2) 1 - 1) →
      ∃ j : Int, 0 ≤ j ∧ j < mesh.edgesNumFaces b ∧ mesh.edgesFaces b j = g := by
    intro g hg
    rcases hg with hg | hg
    · exact ⟨0, le_refl _, by omega, hg.symm⟩
    · exact ⟨_, hsj0, hsj1, hg.symm⟩
  refine ⟨rfl, Function.update_same _ _ _, ?_, ?_⟩
  · by_cases hA : mesh.edgesFaces a 0 ≠ st.newFaceIndex ∧
        (mesh.edgesFaces a 0 = mesh.edgesFaces b 0 ∨
          mesh.edgesFaces a 0 =
            mesh.edgesFaces b (max (min (mesh.edgesNumFaces b) 2) 1 - 1))
    · rw [if_pos hA]
      split_ifs
      · exact Or.inl rfl
      · exact Or.inr ⟨⟨0, le_refl _, by omega, rfl⟩, key _ hA.2⟩
    · rw [if_neg hA]
      by_cases hB : mesh.edgesFaces a (max (min (mesh.edgesNumFaces a) 2) 1 - 1) ≠
          st.newFaceIndex ∧
          (mesh.edgesFaces a (max (min (mesh.edgesNumFaces a) 2) 1 - 1) =
              mesh.edgesFaces b 0 ∨
            mesh.edgesFaces a (max (min (mesh.edgesNumFaces a) 2) 1 - 1) =
              mesh.edgesFaces b (max (min (mesh.edgesNumFaces b) 2) 1 - 1))
      · rw [if_pos hB]
        split_ifs
        · exact Or.inl rfl
        · exact Or.inr ⟨⟨_, hfi0, hfi1, rfl⟩, key _ hB.2⟩
      · rw [if_neg hB]
        left
        split_ifs <;> rfl
  · intro ha2 hb2 hshare hcorner
    rw [if_neg (fun h => hcorner ⟨h.1, h.2.1, h.2.2.1⟩)]
    obtain ⟨g, ⟨⟨i, hi0, hi1, hig⟩, ⟨j, hj0, hj1, hjg⟩⟩, hgprev⟩ := hshare
    have hj : j = 0 ∨ j = max (min (mesh.edgesNumFaces b) 2) 1 - 1 := by omega
    have hgb : g = mesh.edgesFaces b 0 ∨
        g = mesh.edgesFaces b (max (min (mesh.edgesNumFaces b) 2) 1 - 1) := by
      rcases hj with hj | hj
      · left; rw [← hjg, hj]
      · right; rw [← hjg, ← hj]
    have hi : i = 0 ∨ i = max (min (mesh.edgesNumFaces a) 2) 1 - 1 := by omega
    by_cases hA : mesh.edgesFaces a 0 ≠ st.newFaceIndex ∧
        (mesh.edgesFaces a 0 = mesh.edgesFaces b 0 ∨
          mesh.edgesFaces a 0 =
            mesh.edgesFaces b (max (min (mesh.edgesNumFaces b) 2) 1 - 1))
    · rw [if_pos hA]
      exact ⟨⟨0, le_refl _, by omega, rfl⟩, key _ hA.2⟩
    · rw [if_neg hA]
      have hB : mesh.edgesFaces a (max (min (mesh.edgesNumFaces a) 2) 1 - 1) ≠
          st.newFaceIndex ∧
          (mesh.edgesFaces a (max (min (mesh.edgesNumFaces a) 2) 1 - 1) =
              mesh.edgesFaces b 0 ∨
            mesh.edgesFaces a (max (min (mesh.edgesNumFaces a) 2) 1 - 1) =
              mesh.edgesFaces b (max (min (mesh.edgesNumFaces b) 2) 1 - 1)) := by
        rcases hi with hi | hi
        · exfalso
          apply hA
          rw [hi] at hig
          rw [hig]
          exact ⟨hgprev, hgb⟩
        · rw [← hi, hig]
          exact ⟨hgprev, hgb⟩
      rw [if_pos hB]
      exact ⟨⟨_, hfi0, hfi1, rfl⟩, key _ hB.2⟩

/-- The slot that the iteration for the edge slot `e` writes holds, when
`SmootherNodeAdministration` returns, the face that iteration found. -/
theorem SmootherNodeAdministration_shared_face (env : Env) (mesh : Mesh)
    (currentNode numSharedFaces numConnectedNodes : Int) (c : SmootherCaches) (e : Nat)
    (hval : 2 ≤ mesh.nodesNumEdges currentNode)
    (he : (e : Int) < mesh.nodesNumEdges currentNode)
    (h1 : 1 ≤ mesh.edgesNumFaces (mesh.nodesEdges currentNode e))
    (h2 : 1 ≤ mesh.edgesNumFaces (mesh.nodesEdges currentNode
      (if (e : Int) + 1 ≥ mesh.nodesNumEdges currentNode then 0 else e + 1))) :
    (SmootherNodeAdministration env mesh currentNode numSharedFaces numConnectedNodes
      c).2.2.2.sharedFacesCache
        (SmootherNodeAdministration.facesBefore env mesh currentNode c e).numSharedFaces =
      (SmootherNodeAdministration.faceBody env mesh currentNode e
        (SmootherNodeAdministration.facesBefore env mesh currentNode c e)).newFaceIndex := by
  rw [(SmootherNodeAdministration_faces env mesh currentNode numSharedFaces numConnectedNodes
    c hval).2]
  obtain ⟨j, hj⟩ : ∃ j, (mesh.nodesNumEdges currentNode).toNat = e + 1 + j :=
    ⟨(mesh.nodesNumEdges currentNode).toNat - (e + 1), by omega⟩
  rw [hj]
  obtain ⟨a1, a2, -, -⟩ := SmootherNodeAdministration.faceBody_entry env mesh currentNode e
    (SmootherNodeAdministration.facesBefore env mesh currentNode c e) h1 h2
  refine (forRange_invariant_from
    (fun t : SmootherNodeAdministration.Faces =>
      (SmootherNodeAdministration.facesBefore env mesh currentNode c e).numSharedFaces + 1 ≤
        t.numSharedFaces ∧
      t.sharedFacesCache
          (SmootherNodeAdministration.facesBefore env mesh currentNode c e).numSharedFaces =
        (SmootherNodeAdministration.faceBody env mesh currentNode e
          (SmootherNodeAdministration.facesBefore env mesh currentNode c e)).newFaceIndex)
    (SmootherNodeAdministration.faceBody env mesh currentNode) (e + 1) j _ ?_ ?_).2
  · rw [forRange_succ]
    exact ⟨le_of_eq a1.symm, a2⟩
  · intro i t ht
    obtain ⟨b1, b2⟩ := SmootherNodeAdministration.faceBody_frame env mesh currentNode i t
    exact ⟨le_trans ht.1 b1, (b2 _ (by omega)).trans ht.2⟩

/-! ## Claim on the shared face of a pair of edges -/

/-- C30 (amended): in `SmootherNodeAdministration` for a node of valence at least 2,
take the pair of the edge in slot `e` and the circularly next edge, both with at least
one face. The entry of `m_sharedFacesCache` recorded for the pair is the missing value
or a face on the face lists of both edges; it is the missing value when the edges
share no face; and it is a face on both lists when the edges have at most two faces
each, share a face other than the face found for the preceding pair, and the pair is
not the second pair of a corner node (type 3) of valence 2. -/
theorem C30_shared_face_of_an_edge_pair (env : Env) (mesh : Mesh)
    (currentNode numSharedFaces numConnectedNodes : Int) (c : SmootherCaches) (e : Nat)
    (hval : 2 ≤ mesh.nodesNumEdges currentNode)
    (he : (e : Int) < mesh.nodesNumEdges currentNode)
    (h1 : 1 ≤ mesh.edgesNumFaces (mesh.nodesEdges currentNode e))
    (h2 : 1 ≤ mesh.edgesNumFaces (mesh.nodesEdges currentNode
      (if (e : Int) + 1 ≥ mesh.nodesNumEdges currentNode then 0 else e + 1))) :
    ((SmootherNodeAdministration env mesh currentNode numSharedFaces numConnectedNodes
        c).2.2.2.sharedFacesCache
          (SmootherNodeAdministration.facesBefore env mesh currentNode c e).numSharedFaces =
        env.intMissingValue ∨
      SmootherNodeAdministration.OnBothLists mesh (mesh.nodesEdges currentNode e)
        (mesh.nodesEdges currentNode
          (if (e : Int) + 1 ≥ mesh.nodesNumEdges currentNode then 0 else e + 1))
        ((SmootherNodeAdministration env mesh currentNode numSharedFaces numConnectedNodes
          c).2.2.2.sharedFacesCache
            (SmootherNodeAdministration.facesBefore env mesh currentNode c
              e).numSharedFaces)) ∧
    ((¬ ∃ g : Int, SmootherNodeAdministration.OnBothLists mesh (mesh.nodesEdges currentNode e)
        (mesh.nodesEdges currentNode
          (if (e : Int) + 1 ≥ mesh.nodesNumEdges currentNode then 0 else e + 1)) g) →
      (SmootherNodeAdministration env mesh currentNode numSharedFaces numConnectedNodes
        c).2.2.2.sharedFacesCache
          (SmootherNodeAdministration.facesBefore env mesh currentNode c e).numSharedFaces =
        env.intMissingValue) ∧
    (mesh.edgesNumFaces (mesh.nodesEdges currentNode e) ≤ 2 →
      mesh.edgesNumFaces (mesh.nodesEdges currentNode
        (if (e : Int) + 1 ≥ mesh.nodesNumEdges currentNode then 0 else e + 1)) ≤ 2 →
      (∃ g : Int, SmootherNodeAdministration.OnBothLists mesh (mesh.nodesEdges currentNode e)
        (mesh.nodesEdges currentNode
          (if (e : Int) + 1 ≥ mesh.nodesNumEdges currentNode then 0 else e + 1)) g ∧
        g ≠ (SmootherNodeAdministration.facesBefore env mesh currentNode c e).newFaceIndex) →
      ¬ (mesh.nodesNumEdges currentNode = 2 ∧ (e : Int) = 1 ∧
        mesh.nodesTypes currentNode = 3) →
      SmootherNodeAdministration.OnBothLists mesh (mesh.nodesEdges currentNode e)
        (mesh.nodesEdges currentNode
          (if (e : Int) + 1 ≥ mesh.nodesNumEdges currentNode then 0 else e + 1))
        ((SmootherNodeAdministration env mesh currentNode numSharedFaces numConnectedNodes
          c).2.2.2.sharedFacesCache
            (SmootherNodeAdministration.facesBefore env mesh currentNode c
              e).numSharedFaces)) := by
  rw [SmootherNodeAdministration_shared_face env mesh currentNode numSharedFaces
    numConnectedNodes c e hval he h1 h2]
  obtain ⟨-, -, a3, a4⟩ := SmootherNodeAdministration.faceBody_entry env mesh currentNode e
    (SmootherNodeAdministration.facesBefore env mesh currentNode c e) h1 h2
  exact ⟨a3, fun hno => a3.resolve_right (fun h => hno ⟨_, h⟩), a4⟩

/-- The first loop of `SmootherNodeAdministration` for node 0 of `diamondMesh` on entry
of the second pair: face 0 was found for the first pair and one slot is written. -/
theorem Example.diamond_faces_before :
    (SmootherNodeAdministration.facesBefore Example.env Example.diamondMesh 0
      (InitializeSmoother Example.newSmoother).caches 1).newFaceIndex = 0 ∧
    (SmootherNodeAdministration.facesBefore Example.env Example.diamondMesh 0
      (InitializeSmoother Example.newSmoother).caches 1).numSharedFaces = 1 := by
  norm_num [SmootherNodeAdministration.facesBefore, forRange,
    SmootherNodeAdministration.faceBody, Example.env, Example.diamondMesh, Example.ofList,
    Example.toNat_small]

/-- C30 on the interior node 0 of `diamondMesh`, second pair: the edges 1 and 2 share
the face 1, the face found for the first pair is 0, and the entry recorded in slot 1 is
a face on the lists of both edges. -/
theorem C30_witness :
    Example.diamondMesh.nodesEdges 0 1 = 1 ∧ Example.diamondMesh.nodesEdges 0 2 = 2 ∧
    SmootherNodeAdministration.OnBothLists Example.diamondMesh 1 2
      ((SmootherNodeAdministration Example.env Example.diamondMesh 0 0 0
        (InitializeSmoother Example.newSmoother).caches).2.2.2.sharedFacesCache 1) := by
  have hv : Example.diamondMesh.nodesNumEdges 0 = 4 := by
    norm_num [Example.diamondMesh, Example.ofList]
  have hfirst : Example.diamondMesh.nodesEdges 0 ((1 : Nat) : Int) = 1 := by
    norm_num [Example.diamondMesh, Example.ofList, Example.toNat_small]
  have hsecond : Example.diamondMesh.nodesEdges 0
      (if ((1 : Nat) : Int) + 1 ≥ Example.diamondMesh.nodesNumEdges 0 then 0
        else ((1 : Nat) : Int) + 1) = 2 := by
    norm_num [Example.diamondMesh, Example.ofList, Example.toNat_small]
  have hn1 : Example.diamondMesh.edgesNumFaces 1 = 2 := by
    norm_num [Example.diamondMesh, Example.ofList, Example.toNat_small]
  have hn2 : Example.diamondMesh.edgesNumFaces 2 = 2 := by
    norm_num [Example.diamondMesh, Example.ofList, Example.toNat_small]
  obtain ⟨hprev, hnum⟩ := Example.diamond_faces_before
  have h := (C30_shared_face_of_an_edge_pair Example.env Example.diamondMesh 0 0 0
    (InitializeSmoother Example.newSmoother).caches 1 (by rw [hv]; norm_num)
    (by rw [hv]; norm_num) (by rw [hfirst, hn1]; norm_num)
    (by rw [hsecond, hn2]; norm_num)).2.2
    (by rw [hfirst, hn1]) (by rw [hsecond, hn2])
    (by
      rw [hfirst, hsecond, hprev]
      refine ⟨1, ⟨⟨0, le_refl _, by rw [hn1]; norm_num, ?_⟩,
        ⟨1, by norm_num, by rw [hn2]; norm_num, ?_⟩⟩, by norm_num⟩
      · norm_num [Example.diamondMesh, Example.ofList, Example.toNat_small]
      · norm_num [Example.diamondMesh, Example.ofList, Example.toNat_small])
    (by rw [hv]; norm_num)
  rw [hfirst, hsecond, hnum] at h
  refine ⟨?_, ?_, h⟩
  · norm_num [Example.diamondMesh, Example.ofList, Example.toNat_small]
  · norm_num [Example.diamondMesh, Example.ofList, Example.toNat_small]

/-- Counterexample to C30 as stated: node 1 of `squareMesh` has the edges 1 and 0, each
with the face 0 alone. For the second pair, the edge 0 and the edge 1, the face 0 is on
both lists, and the entry recorded in slot 1 is the missing value. -/
theorem C30_counterexample :
    Example.squareMesh.nodesEdges 1 1 = 0 ∧ Example.squareMesh.nodesEdges 1 0 = 1 ∧
    1 ≤ Example.squareMesh.edgesNumFaces 0 ∧ 1 ≤ Example.squareMesh.edgesNumFaces 1 ∧
    SmootherNodeAdministration.OnBothLists Example.squareMesh 0 1 0 ∧
    (SmootherNodeAdministration.facesBefore Example.env Example.squareMesh 1
      (InitializeSmoother Example.newSmoother).caches 1).numSharedFaces = 1 ∧
    (SmootherNodeAdministration Example.env Example.squareMesh 1 0 0
      (InitializeSmoother Example.newSmoother).caches).2.2.2.sharedFacesCache 1 =
      Example.env.intMissingValue := by
  refine ⟨?_, ?_, ?_, ?_, ⟨⟨0, le_refl _, ?_, rfl⟩, ⟨0, le_refl _, ?_, rfl⟩⟩, ?_,
    Example.square_administration_faces.2.2⟩
  all_goals
    norm_num [SmootherNodeAdministration.facesBefore, forRange,
      SmootherNodeAdministration.faceBody, Example.env, Example.squareMesh, Example.ofList,
      Example.toNat_small]

/-! ## Claims on the guard of the kept circumcenters -/

/-- C36: when `m_keepCircumcentersAndMassCenters` is set, `ComputeLinearSystemTerms`
skips every node: the condition `valence != 3 || valence != 1` of line 266 holds for
every valence, so every iteration of the loop over the nodes leaves the compressed
system as it is, and no neighbour id, weight or right-hand side entry is written. -/
theorem C36_kept_centers_skip_every_node (mesh : Mesh) (o : Orthogonalization)
    (hkeep : o.keepCircumcentersAndMassCenters = true) :
    (∀ v : Int, v ≠ 3 ∨ v ≠ 1) ∧
    (∀ (n : Int) (ls : LinearSystem), ComputeLinearSystemTerms.nodeBody mesh o n ls = ls) ∧
    (ComputeLinearSystemTerms mesh o).linearSystem = o.linearSystem := by
  have hv : ∀ v : Int, v ≠ 3 ∨ v ≠ 1 := fun v => by omega
  have hbody : ∀ (n : Int) (ls : LinearSystem),
      ComputeLinearSystemTerms.nodeBody mesh o n ls = ls := by
    intro n ls
    unfold ComputeLinearSystemTerms.nodeBody
    simp only []
    by_cases h1 : (mesh.nodesTypes n ≠ 1 ∧ mesh.nodesTypes n ≠ 2) ∨ mesh.nodesNumEdges n < 2
    · rw [if_pos h1]
    · rw [if_neg h1, if_pos ⟨by rw [hkeep]; simp, hv _⟩]
  refine ⟨hv, hbody, ?_⟩
  show forRange (ComputeLinearSystemTerms.nodeBody mesh o) mesh.numNodes o.linearSystem = _
  exact forRange_frame (fun ls => ls) _ _ _ (fun i _ t => hbody i t)

/-- C36 on `diamondMesh` with the compressed system `diamondSystem` and the flag set:
the interior node 0 has four edges, and its first slot keeps the weight 1/2. -/
theorem C36_witness :
    Example.diamondMesh.nodesTypes 0 = 1 ∧ Example.diamondMesh.nodesNumEdges 0 = 4 ∧
    (ComputeLinearSystemTerms Example.diamondMesh Example.keptSystem).linearSystem.compressedWeightX
      0 = 1 / 2 := by
  have h := (C36_kept_centers_skip_every_node Example.diamondMesh Example.keptSystem rfl).2.2
  rw [h]
  refine ⟨?_, ?_, ?_⟩ <;>
    norm_num [Example.keptSystem, Example.diamondSystem, Example.diamondMesh, Example.ofList,
      Example.toNat_small]

/-! ## Claims on the flag of `ComputeSmootherTopologies` -/

/-- When no step fails, the flag `ComputeSmootherTopologies` hands to its caller is the
value of a function that ended without a `return` statement. -/
theorem ComputeSmootherTopologies_flag (env : Env) (mesh : Mesh) (s : Smoother)
    (h : (forRange (ComputeSmootherTopologies.nodeBody env mesh) mesh.numNodes
      (true, InitializeSmoother s)).1 = true) :
    (ComputeSmootherTopologies env mesh s).1 = env.indeterminateBool := by
  unfold ComputeSmootherTopologies
  simp only []
  rw [if_neg (by rw [h]; simp)]

/-- C37, at a failing input: on `squareMesh`, with subroutines that succeed for every
node, the loop of `ComputeSmootherTopologies` ends with `successful = true`; the
function then ends without a `return` statement (line 588), and a caller that reads
`false` there sees a failure although no step failed. -/
theorem C37_success_path_has_no_return :
    (forRange (ComputeSmootherTopologies.nodeBody Example.falseEnv Example.squareMesh)
      Example.squareMesh.numNodes (true, InitializeSmoother Example.newSmoother)).1 = true ∧
    (ComputeSmootherTopologies Example.falseEnv Example.squareMesh Example.newSmoother).1 =
      false := by
  have h : (forRange (ComputeSmootherTopologies.nodeBody Example.falseEnv Example.squareMesh)
      Example.squareMesh.numNodes (true, InitializeSmoother Example.newSmoother)).1 = true := by
    refine forRange_invariant (fun st : Bool × Smoother => st.1 = true) _ _ _ rfl ?_
    intro i _ t ht
    unfold ComputeSmootherTopologies.nodeBody
    simp only []
    rw [if_neg (by rw [ht]; simp)]
    rfl
  exact ⟨h, ComputeSmootherTopologies_flag _ _ _ h⟩

/-! ## Optimal angles -/

/-- With the value -1 for one of the angles, or for a face that is not a triangle,
`OptimalEdgeAngle` returns `pi * (1 - 2 / k)`. -/
theorem OptimalEdgeAngle_default (k : Int) (theta1 theta2 : ℚ) (b : Bool)
    (h : theta1 = -1 ∨ theta2 = -1 ∨ k ≠ 3) :
    OptimalEdgeAngle k theta1 theta2 b = M_PI * (1 - 2 / (k : ℚ)) := by
  unfold OptimalEdgeAngle
  simp only []
  rw [if_neg]
  rintro ⟨h1, h2, h3⟩
  rcases h with h | h | h
  · exact h1 h
  · exact h2 h
  · exact h h3

/-- For a triangle and two angles other than -1, `OptimalEdgeAngle` returns `pi / 2`
when the angles add up to `M_PI` and the edge is not a boundary edge, and `pi / 4`
otherwise. -/
theorem OptimalEdgeAngle_triangle (theta1 theta2 : ℚ) (b : Bool)
    (h1 : theta1 ≠ -1) (h2 : theta2 ≠ -1) :
    OptimalEdgeAngle 3 theta1 theta2 b =
      if theta1 + theta2 = M_PI ∧ b = false then 1 / 2 * M_PI else 1 / 4 * M_PI := by
  unfold OptimalEdgeAngle
  simp only []
  rw [if_pos ⟨h1, h2, trivial⟩]

/-- The constant `M_PI` is positive. -/
theorem M_PI_pos : 0 < M_PI := by
  unfold M_PI
  norm_num

/-- C32 as stated fails for a triangle whose two angles are both unknown in the sense
of the claim, that is, hold the missing value -999 with which `thetaSquare` is
initialised. The claim gives `pi * (1 - 2/3) = pi / 3`. `OptimalEdgeAngle` compares the
angles with -1 (line 1362), the value of an angle that is not passed, takes -999 for
a known angle and returns `pi / 4`. -/
theorem C32_unknown_angles_are_compared_with_minus_one :
    Example.env.doubleMissingValue = -999 ∧
    M_PI * (1 - 2 / ((3 : Int) : ℚ)) = 1 / 3 * M_PI ∧
    OptimalEdgeAngle 3 Example.env.doubleMissingValue Example.env.doubleMissingValue false =
      1 / 4 * M_PI ∧
    OptimalEdgeAngle 3 Example.env.doubleMissingValue Example.env.doubleMissingValue false ≠
      M_PI * (1 - 2 / ((3 : Int) : ℚ)) := by
  have h : OptimalEdgeAngle 3 Example.env.doubleMissingValue Example.env.doubleMissingValue
      false = 1 / 4 * M_PI := by
    rw [OptimalEdgeAngle_triangle _ _ _ (by norm_num [Example.env])
      (by norm_num [Example.env])]
    rw [if_neg]
    rintro ⟨h, -⟩
    norm_num [Example.env, M_PI] at h
  refine ⟨rfl, by norm_num; ring, h, ?_⟩
  rw [h]
  have hpi := M_PI_pos
  intro h2
  norm_num at h2
  linarith

/-! ## The budget of the sector angles -/

/-- The comparison loop leaves the flag unset when every compared angle of the caches
is within the tolerance of the angle of the class. -/
theorem SaveSmootherNodeTopologyIfNeeded.anglesDiffer_of_close (env : Env)
    (c : SmootherCaches) (t : Topologies) (numConnectedNodes topo : Int)
    (h : ∀ i : Int, 1 ≤ i → i < numConnectedNodes →
      |env.atan2 (c.etaCache i) (c.xiCache i) -
        env.atan2 (t.topologyEta topo i) (t.topologyXi topo i)| ≤ env.thetaTolerance) :
    SaveSmootherNodeTopologyIfNeeded.anglesDiffer env c t numConnectedNodes topo = false := by
  unfold SaveSmootherNodeTopologyIfNeeded.anglesDiffer
  have key : ∀ k : Nat, (k : Int) ≤ (numConnectedNodes - 1).toNat →
      forRange (fun j isNewTopology =>
        isNewTopology || decide (|env.atan2 (c.etaCache (j + 1)) (c.xiCache (j + 1)) -
          env.atan2 (t.topologyEta topo (j + 1)) (t.topologyXi topo (j + 1))| >
            env.thetaTolerance)) k false = false := by
    intro k
    induction k with
    | zero => intro _; rfl
    | succ k ih =>
      intro hk
      rw [forRange_succ, ih (by push_cast at hk ⊢; omega)]
      have hc := h ((k : Int) + 1) (by omega) (by push_cast at hk; omega)
      simp only [Bool.false_or, decide_eq_false_iff_not, not_lt, gt_iff_lt]
      exact hc
  exact key _ (le_refl _)

/-- A class that does not match the node has other counts or makes the comparison
loop set the flag. -/
theorem SaveSmootherNodeTopologyIfNeeded.not_matches (env : Env) (c : SmootherCaches)
    (t : Topologies) (numSharedFaces numConnectedNodes topo : Int)
    (h : ¬ SaveSmootherNodeTopologyIfNeeded.Matches env c t numSharedFaces numConnectedNodes
      topo) :
    (numSharedFaces ≠ t.numTopologyFaces topo ∨ numConnectedNodes ≠ t.numTopologyNodes topo) ∨
    SaveSmootherNodeTopologyIfNeeded.anglesDiffer env c t numConnectedNodes topo = true := by
  by_cases hcount : numSharedFaces ≠ t.numTopologyFaces topo ∨
      numConnectedNodes ≠ t.numTopologyNodes topo
  · exact Or.inl hcount
  · right
    by_contra hang
    have hang2 : SaveSmootherNodeTopologyIfNeeded.anglesDiffer env c t numConnectedNodes
        topo = false := by simpa using hang
    apply h
    refine ⟨?_, ?_, SaveSmootherNodeTopologyIfNeeded.anglesDiffer_false env c t
      numConnectedNodes topo hang2⟩
    · by_contra hne
      exact hcount (Or.inl (fun e => hne e.symm))
    · by_contra hne
      exact hcount (Or.inr (fun e => hne e.symm))

/-- While no class matches, the scan leaves its locals as they were on entry. -/
theorem SaveSmootherNodeTopologyIfNeeded.scan_without_match (env : Env)
    (c : SmootherCaches) (t : Topologies) (currentNode numSharedFaces numConnectedNodes : Int)
    (k : Nat)
    (h : ∀ q : Nat, q < k →
      ¬ SaveSmootherNodeTopologyIfNeeded.Matches env c t numSharedFaces numConnectedNodes q) :
    forRange (SaveSmootherNodeTopologyIfNeeded.scanBody env c t currentNode numSharedFaces
        numConnectedNodes) k
      { isNewTopology := true, stopped := false,
        nodeTopologyMapping := t.nodeTopologyMapping } =
      { isNewTopology := true, stopped := false,
        nodeTopologyMapping := t.nodeTopologyMapping } := by
  induction k with
  | zero => rfl
  | succ k ih =>
    rw [forRange_succ, ih (fun q hq => h q (Nat.lt_succ_of_lt hq))]
    unfold SaveSmootherNodeTopologyIfNeeded.scanBody
    rw [if_neg (by simp)]
    rcases SaveSmootherNodeTopologyIfNeeded.not_matches env c t numSharedFaces
      numConnectedNodes k (h k (Nat.lt_succ_self k)) with hc | ha
    · rw [if_pos hc]
    · by_cases hc : numSharedFaces ≠ t.numTopologyFaces k ∨
          numConnectedNodes ≠ t.numTopologyNodes k
      · rw [if_pos hc]
      · rw [if_neg hc, if_pos ha]

/-- From the first class that matches on, the scan holds the node mapped to that
class. -/
theorem SaveSmootherNodeTopologyIfNeeded.scan_with_match (env : Env)
    (c : SmootherCaches) (t : Topologies) (currentNode numSharedFaces numConnectedNodes : Int)
    (topo j : Nat)
    (hm : SaveSmootherNodeTopologyIfNeeded.Matches env c t numSharedFaces numConnectedNodes
      topo)
    (h : ∀ q : Nat, q < topo →
      ¬ SaveSmootherNodeTopologyIfNeeded.Matches env c t numSharedFaces numConnectedNodes q) :
    forRange (SaveSmootherNodeTopologyIfNeeded.scanBody env c t currentNode numSharedFaces
        numConnectedNodes) (topo + 1 + j)
      { isNewTopology := true, stopped := false,
        nodeTopologyMapping := t.nodeTopologyMapping } =
      { isNewTopology := false, stopped := true,
        nodeTopologyMapping := Function.update t.nodeTopologyMapping currentNode topo } := by
  induction j with
  | zero =>
    rw [Nat.add_zero, forRange_succ,
      SaveSmootherNodeTopologyIfNeeded.scan_without_match env c t currentNode numSharedFaces
        numConnectedNodes topo h]
    unfold SaveSmootherNodeTopologyIfNeeded.scanBody
    rw [if_neg (by simp), if_neg (by
        rintro (hc | hc)
        · exact hc hm.1.symm
        · exact hc hm.2.1.symm),
      if_neg (by
        rw [SaveSmootherNodeTopologyIfNeeded.anglesDiffer_of_close env c t numConnectedNodes
          topo hm.2.2]
        simp)]
  | succ j ih =>
    rw [← Nat.add_assoc, forRange_succ, ih]
    unfold SaveSmootherNodeTopologyIfNeeded.scanBody
    rw [if_pos rfl]

/-! ## Claims on the class of a node -/

/-- C31: `SaveSmootherNodeTopologyIfNeeded(n, F, C)`. If an existing class has `F`
faces and `C` nodes and angles within the tolerance of the cached ones for every
`1 <= i < C`, the node is mapped to the lowest such class, and the number of classes
and every class record stay as they are. If no existing class does, one class is
appended, at the index of the old number of classes, with the counts `F` and `C` and
copies of the caches, and the node is mapped to it. -/
theorem C31_node_joins_the_lowest_matching_class_or_opens_one (env : Env)
    (c : SmootherCaches) (t : Topologies)
    (currentNode numSharedFaces numConnectedNodes : Int) :
    (∀ topo : Nat, topo < t.numTopologies →
      SaveSmootherNodeTopologyIfNeeded.Matches env c t numSharedFaces numConnectedNodes topo →
      (∀ q : Nat, q < topo →
        ¬ SaveSmootherNodeTopologyIfNeeded.Matches env c t numSharedFaces numConnectedNodes
          q) →
      SaveSmootherNodeTopologyIfNeeded env c t currentNode numSharedFaces numConnectedNodes =
        { t with
          nodeTopologyMapping := Function.update t.nodeTopologyMapping currentNode topo }) ∧
    ((∀ topo : Nat, topo < t.numTopologies →
        ¬ SaveSmootherNodeTopologyIfNeeded.Matches env c t numSharedFaces numConnectedNodes
          topo) →
      SaveSmootherNodeTopologyIfNeeded env c t currentNode numSharedFaces numConnectedNodes =
        { numTopologies := t.numTopologies + 1
          nodeTopologyMapping :=
            Function.update t.nodeTopologyMapping currentNode t.numTopologies
          numTopologyNodes :=
            Function.update t.numTopologyNodes t.numTopologies numConnectedNodes
          numTopologyFaces :=
            Function.update t.numTopologyFaces t.numTopologies numSharedFaces
          topologyXi := Function.update t.topologyXi t.numTopologies c.xiCache
          topologyEta := Function.update t.topologyEta t.numTopologies c.etaCache
          topologySharedFaces :=
            Function.update t.topologySharedFaces t.numTopologies c.sharedFacesCache
          topologyConnectedNodes :=
            Function.update t.topologyConnectedNodes t.numTopologies c.connectedNodesCache
          topologyFaceNodeMapping :=
            Function.update t.topologyFaceNodeMapping t.numTopologies
              c.faceNodeMappingCache }) := by
  constructor
  · intro topo htopo hm hleast
    obtain ⟨j, hj⟩ : ∃ j, t.numTopologies = topo + 1 + j :=
      ⟨t.numTopologies - (topo + 1), by omega⟩
    have hscan := SaveSmootherNodeTopologyIfNeeded.scan_with_match env c t currentNode
      numSharedFaces numConnectedNodes topo j hm hleast
    rw [← hj] at hscan
    unfold SaveSmootherNodeTopologyIfNeeded
    simp only []
    rw [hscan, if_neg (by simp)]
  · intro hnone
    have hscan := SaveSmootherNodeTopologyIfNeeded.scan_without_match env c t currentNode
      numSharedFaces numConnectedNodes t.numTopologies hnone
    have hidx : (((t.numTopologies + 1 : Nat)) : Int) - 1 = (t.numTopologies : Int) := by
      push_cast; ring
    unfold SaveSmootherNodeTopologyIfNeeded
    simp only []
    rw [hscan, if_pos rfl, hidx]

/-- C31 on the initialized tables: the first node, with two face slots, four connected
nodes and the caches `angleCaches 0`, finds no class and opens class 0; a second node
with the same counts and caches matches class 0 and joins it, and the number of
classes stays 1. -/
theorem C31_witness :
    (SaveSmootherNodeTopologyIfNeeded Example.env (Example.angleCaches 0)
      (InitializeSmoother Example.newSmoother).topologies 0 2 4).numTopologies = 1 ∧
    (SaveSmootherNodeTopologyIfNeeded Example.env (Example.angleCaches 0)
      (InitializeSmoother Example.newSmoother).topologies 0 2 4).nodeTopologyMapping 0 = 0 ∧
    (SaveSmootherNodeTopologyIfNeeded Example.env (Example.angleCaches 0)
      (SaveSmootherNodeTopologyIfNeeded Example.env (Example.angleCaches 0)
        (InitializeSmoother Example.newSmoother).topologies 0 2 4) 1 2 4).numTopologies = 1 ∧
    (SaveSmootherNodeTopologyIfNeeded Example.env (Example.angleCaches 0)
      (SaveSmootherNodeTopologyIfNeeded Example.env (Example.angleCaches 0)
        (InitializeSmoother Example.newSmoother).topologies 0 2 4) 1 2 4).nodeTopologyMapping
      1 = 0 := by
  have h0 := (C31_node_joins_the_lowest_matching_class_or_opens_one Example.env
    (Example.angleCaches 0) (InitializeSmoother Example.newSmoother).topologies 0 2 4).2
    (fun topo h => absurd h (Nat.not_lt_zero topo))
  have hz : (((InitializeSmoother Example.newSmoother).topologies.numTopologies : Nat) : Int)
      = 0 := rfl
  rw [hz] at h0
  have hm : SaveSmootherNodeTopologyIfNeeded.Matches Example.env (Example.angleCaches 0)
      (SaveSmootherNodeTopologyIfNeeded Example.env (Example.angleCaches 0)
        (InitializeSmoother Example.newSmoother).topologies 0 2 4) 2 4 ((0 : Nat) : Int) := by
    rw [h0, Nat.cast_zero]
    refine ⟨by simp, by simp, fun i _ _ => ?_⟩
    simp only [Function.update_same, sub_self, abs_zero]
    norm_num [Example.env]
  have h1 := (C31_node_joins_the_lowest_matching_class_or_opens_one Example.env
    (Example.angleCaches 0)
    (SaveSmootherNodeTopologyIfNeeded Example.env (Example.angleCaches 0)
      (InitializeSmoother Example.newSmoother).topologies 0 2 4) 1 2 4).1 0
    (by rw [h0]; exact Nat.zero_lt_one) hm (fun q hq => absurd hq (Nat.not_lt_zero q))
  rw [h1]
  refine ⟨?_, ?_, ?_, ?_⟩
  · rw [h0]; rfl
  · rw [h0]; simp
  · show (SaveSmootherNodeTopologyIfNeeded Example.env (Example.angleCaches 0)
      (InitializeSmoother Example.newSmoother).topologies 0 2 4).numTopologies = 1
    rw [h0]; rfl
  · simp

/-! ## The update of a node as a weighted mean -/

/-- A sum of values weighted with non-negative weights lies between the bounds of the
values times the sum of the weights. -/
theorem sumRange_weighted_bounds (w v : Int → ℚ) (a b : ℚ) (k : Nat)
    (hw : ∀ j : Nat, j < k → 0 ≤ w j) (hv : ∀ j : Nat, j < k → a ≤ v j ∧ v j ≤ b) :
    a * sumRange w k ≤ sumRange (fun j => w j * v j) k ∧
    sumRange (fun j => w j * v j) k ≤ b * sumRange w k := by
  induction k with
  | zero =>
    constructor
    · show a * 0 ≤ (0 : ℚ)
      norm_num
    · show (0 : ℚ) ≤ b * 0
      norm_num
  | succ k ih =>
    obtain ⟨i1, i2⟩ := ih (fun j hj => hw j (Nat.lt_succ_of_lt hj))
      (fun j hj => hv j (Nat.lt_succ_of_lt hj))
    have h0 := hw k (Nat.lt_succ_self k)
    obtain ⟨ha, hb⟩ := hv k (Nat.lt_succ_self k)
    rw [sumRange_succ, sumRange_succ]
    have e1 : w k * a ≤ w k * v k := mul_le_mul_of_nonneg_left ha h0
    have e2 : w k * v k ≤ w k * b := mul_le_mul_of_nonneg_left hb h0
    constructor
    · nlinarith
    · nlinarith

/-- In Cartesian projection, when both sums of weights exceed `1e-8`,
`UpdateNodeCoordinates(n)` writes for node `n` the point
`0.75 * (node + ((d_x + rhs_x) / inc_x, (d_y + rhs_y) / inc_y)) + 0.25 * node`. -/
theorem UpdateNodeCoordinates_written (env : Env) (n : Int) (mesh : Mesh)
    (o : Orthogonalization) (c : Int → Point)
    (hproj : mesh.projection = Projections.cartesian)
    (hx : 1 / 100000000 < sumRange (fun j => o.linearSystem.compressedWeightX
        (o.linearSystem.compressedEndNodeIndex n + j))
      (o.linearSystem.compressedStartNodeIndex n -
        o.linearSystem.compressedEndNodeIndex n - 1).toNat)
    (hy : 1 / 100000000 < sumRange (fun j => o.linearSystem.compressedWeightY
        (o.linearSystem.compressedEndNodeIndex n + j))
      (o.linearSystem.compressedStartNodeIndex n -
        o.linearSystem.compressedEndNodeIndex n - 1).toNat) :
    UpdateNodeCoordinates env n mesh o c n =
      { x := 3 / 4 * ((mesh.nodes n).x +
            (sumRange (fun j => o.linearSystem.compressedWeightX
                (o.linearSystem.compressedEndNodeIndex n + j) *
                ((mesh.nodes (o.linearSystem.compressedNodesNodes
                  (o.linearSystem.compressedEndNodeIndex n + j))).x - (mesh.nodes n).x))
              (o.linearSystem.compressedStartNodeIndex n -
                o.linearSystem.compressedEndNodeIndex n - 1).toNat +
              o.linearSystem.compressedRhs (n * 2)) /
            sumRange (fun j => o.linearSystem.compressedWeightX
                (o.linearSystem.compressedEndNodeIndex n + j))
              (o.linearSystem.compressedStartNodeIndex n -
                o.linearSystem.compressedEndNodeIndex n - 1).toNat) +
          1 / 4 * (mesh.nodes n).x
        y := 3 / 4 * ((mesh.nodes n).y +
            (sumRange (fun j => o.linearSystem.compressedWeightY
                (o.linearSystem.compressedEndNodeIndex n + j) *
                ((mesh.nodes (o.linearSystem.compressedNodesNodes
                  (o.linearSystem.compressedEndNodeIndex n + j))).y - (mesh.nodes n).y))
              (o.linearSystem.compressedStartNodeIndex n -
                o.linearSystem.compressedEndNodeIndex n - 1).toNat +
              o.linearSystem.compressedRhs (n * 2 + 1)) /
            sumRange (fun j => o.linearSystem.compressedWeightY
                (o.linearSystem.compressedEndNodeIndex n + j))
              (o.linearSystem.compressedStartNodeIndex n -
                o.linearSystem.compressedEndNodeIndex n - 1).toNat) +
          1 / 4 * (mesh.nodes n).y } := by
  obtain ⟨h1, h2, h3, h4⟩ := UpdateNodeCoordinates.increments_cartesian env n mesh o hproj
  unfold UpdateNodeCoordinates
  simp only []
  rw [h1, h2, h3, h4, hproj, if_neg (by
    rintro (h | h)
    · exact absurd hx (not_lt.2 h)
    · exact absurd hy (not_lt.2 h))]
  dsimp only
  rw [Function.update_same, show (1 : ℚ) - 3 / 4 = 1 / 4 by norm_num]

/-- A relaxed step from a value inside an interval towards a mean inside the same
interval stays inside. -/
theorem relaxed_step_bounds (x s inc lo hi : ℚ) (hinc : 0 < inc)
    (hlo : lo ≤ x) (hhi : x ≤ hi) (h1 : (lo - x) * inc ≤ s) (h2 : s ≤ (hi - x) * inc) :
    lo ≤ 3 / 4 * (x + (s + 0) / inc) + 1 / 4 * x ∧
    3 / 4 * (x + (s + 0) / inc) + 1 / 4 * x ≤ hi := by
  have e1 : lo - x ≤ s / inc := by rw [le_div_iff₀ hinc]; exact h1
  have e2 : s / inc ≤ hi - x := by rw [div_le_iff₀ hinc]; exact h2
  rw [add_zero]
  constructor <;> linarith

/-! ## Claims on the maximum principle of the sweep -/

/-- C39: in Cartesian projection, for a node `n` whose slot weights are all
non-negative, with both sums above `1e-8`, and whose right-hand side is zero, each
coordinate that `UpdateNodeCoordinates` writes lies between any lower and upper bound
of that coordinate over `n` and the neighbours of its slots, hence between their
minimum and maximum; and a node that is the weighted mean of its neighbours, in that
the weighted differences add up to zero, is written back unchanged. -/
theorem C39_update_stays_between_the_neighbours (env : Env) (n : Int) (mesh : Mesh)
    (o : Orthogonalization) (c : Int → Point)
    (hproj : mesh.projection = Projections.cartesian)
    (hwx : ∀ j : Nat, j < (o.linearSystem.compressedStartNodeIndex n -
        o.linearSystem.compressedEndNodeIndex n - 1).toNat →
      0 ≤ o.linearSystem.compressedWeightX (o.linearSystem.compressedEndNodeIndex n + j))
    (hwy : ∀ j : Nat, j < (o.linearSystem.compressedStartNodeIndex n -
        o.linearSystem.compressedEndNodeIndex n - 1).toNat →
      0 ≤ o.linearSystem.compressedWeightY (o.linearSystem.compressedEndNodeIndex n + j))
    (hx : 1 / 100000000 < sumRange (fun j => o.linearSystem.compressedWeightX
        (o.linearSystem.compressedEndNodeIndex n + j))
      (o.linearSystem.compressedStartNodeIndex n -
        o.linearSystem.compressedEndNodeIndex n - 1).toNat)
    (hy : 1 / 100000000 < sumRange (fun j => o.linearSystem.compressedWeightY
        (o.linearSystem.compressedEndNodeIndex n + j))
      (o.linearSystem.compressedStartNodeIndex n -
        o.linearSystem.compressedEndNodeIndex n - 1).toNat)
    (hrhsx : o.linearSystem.compressedRhs (n * 2) = 0)
    (hrhsy : o.linearSystem.compressedRhs (n * 2 + 1) = 0) :
    (∀ lo hi : ℚ, lo ≤ (mesh.nodes n).x → (mesh.nodes n).x ≤ hi →
      (∀ j : Nat, j < (o.linearSystem.compressedStartNodeIndex n -
          o.linearSystem.compressedEndNodeIndex n - 1).toNat →
        lo ≤ (mesh.nodes (o.linearSystem.compressedNodesNodes
          (o.linearSystem.compressedEndNodeIndex n + j))).x ∧
        (mesh.nodes (o.linearSystem.compressedNodesNodes
          (o.linearSystem.compressedEndNodeIndex n + j))).x ≤ hi) →
      lo ≤ (UpdateNodeCoordinates env n mesh o c n).x ∧
      (UpdateNodeCoordinates env n mesh o c n).x ≤ hi) ∧
    (∀ lo hi : ℚ, lo ≤ (mesh.nodes n).y → (mesh.nodes n).y ≤ hi →
      (∀ j : Nat, j < (o.linearSystem.compressedStartNodeIndex n -
          o.linearSystem.compressedEndNodeIndex n - 1).toNat →
        lo ≤ (mesh.nodes (o.linearSystem.compressedNodesNodes
          (o.linearSystem.compressedEndNodeIndex n + j))).y ∧
        (mesh.nodes (o.linearSystem.compressedNodesNodes
          (o.linearSystem.compressedEndNodeIndex n + j))).y ≤ hi) →
      lo ≤ (UpdateNodeCoordinates env n mesh o c n).y ∧
      (UpdateNodeCoordinates env n mesh o c n).y ≤ hi) ∧
    (sumRange (fun j => o.linearSystem.compressedWeightX
          (o.linearSystem.compressedEndNodeIndex n + j) *
          ((mesh.nodes (o.linearSystem.compressedNodesNodes
            (o.linearSystem.compressedEndNodeIndex n + j))).x - (mesh.nodes n).x))
        (o.linearSystem.compressedStartNodeIndex n -
          o.linearSystem.compressedEndNodeIndex n - 1).toNat = 0 →
      sumRange (fun j => o.linearSystem.compressedWeightY
          (o.linearSystem.compressedEndNodeIndex n + j) *
          ((mesh.nodes (o.linearSystem.compressedNodesNodes
            (o.linearSystem.compressedEndNodeIndex n + j))).y - (mesh.nodes n).y))
        (o.linearSystem.compressedStartNodeIndex n -
          o.linearSystem.compressedEndNodeIndex n - 1).toNat = 0 →
      UpdateNodeCoordinates env n mesh o c n = mesh.nodes n) := by
  have hw := UpdateNodeCoordinates_written env n mesh o c hproj hx hy
  rw [hrhsx, hrhsy] at hw
  rw [hw]
  refine ⟨?_, ?_, ?_⟩
  · intro lo hi hlo hhi hnb
    obtain ⟨b1, b2⟩ := sumRange_weighted_bounds
      (fun j => o.linearSystem.compressedWeightX (o.linearSystem.compressedEndNodeIndex n + j))
      (fun j => (mesh.nodes (o.linearSystem.compressedNodesNodes
        (o.linearSystem.compressedEndNodeIndex n + j))).x - (mesh.nodes n).x)
      (lo - (mesh.nodes n).x) (hi - (mesh.nodes n).x) _ hwx
      (fun j hj => ⟨sub_le_sub_right (hnb j hj).1 _, sub_le_sub_right (hnb j hj).2 _⟩)
    exact relaxed_step_bounds _ _ _ lo hi (by linarith) hlo hhi b1 b2
  · intro lo hi hlo hhi hnb
    obtain ⟨b1, b2⟩ := sumRange_weighted_bounds
      (fun j => o.linearSystem.compressedWeightY (o.linearSystem.compressedEndNodeIndex n + j))
      (fun j => (mesh.nodes (o.linearSystem.compressedNodesNodes
        (o.linearSystem.compressedEndNodeIndex n + j))).y - (mesh.nodes n).y)
      (lo - (mesh.nodes n).y) (hi - (mesh.nodes n).y) _ hwy
      (fun j hj => ⟨sub_le_sub_right (hnb j hj).1 _, sub_le_sub_right (hnb j hj).2 _⟩)
    exact relaxed_step_bounds _ _ _ lo hi (by linarith) hlo hhi b1 b2
  · intro h1 h2
    rw [h1, h2]
    simp only [add_zero, zero_div]
    generalize mesh.nodes n = p
    cases p with
    | mk px py =>
      show ({ x := 3 / 4 * px + 1 / 4 * px, y := 3 / 4 * py + 1 / 4 * py } : Point) = _
      congr 1 <;> ring

/-- C39 on `diamondMesh` with the system `diamondSystem`: the slots of node 0 carry the
weights 1/2, 1/4, 1/8, 1/8 and a zero right-hand side, the x-coordinates of the node
and of its four neighbours lie in `[-1, 1]`, and so does the x-coordinate written for
the node. -/
theorem C39_witness :
    Example.diamondMesh.projection = Projections.cartesian ∧
    (-1 : ℚ) ≤ (UpdateNodeCoordinates Example.env 0 Example.diamondMesh Example.diamondSystem
      Example.diamondMesh.nodes 0).x ∧
    (UpdateNodeCoordinates Example.env 0 Example.diamondMesh Example.diamondSystem
      Example.diamondMesh.nodes 0).x ≤ 1 := by
  have hcnt : (Example.diamondSystem.linearSystem.compressedStartNodeIndex 0 -
      Example.diamondSystem.linearSystem.compressedEndNodeIndex 0 - 1).toNat = 4 := by
    norm_num [Example.diamondSystem, Example.toNat_small]
  have h := (C39_update_stays_between_the_neighbours Example.env 0 Example.diamondMesh
    Example.diamondSystem Example.diamondMesh.nodes rfl
    (by
      intro j hj
      rw [hcnt] at hj
      interval_cases j <;>
        norm_num [Example.diamondSystem, Example.ofList, Example.toNat_small])
    (by
      intro j hj
      rw [hcnt] at hj
      interval_cases j <;>
        norm_num [Example.diamondSystem, Example.ofList, Example.toNat_small])
    (by norm_num [sumRange, forRange, Example.diamondSystem, Example.ofList,
      Example.toNat_small])
    (by norm_num [sumRange, forRange, Example.diamondSystem, Example.ofList,
      Example.toNat_small])
    rfl rfl).1 (-1) 1
    (by norm_num [Example.diamondMesh, Example.ofList])
    (by norm_num [Example.diamondMesh, Example.ofList])
    (by
      intro j hj
      rw [hcnt] at hj
      interval_cases j <;>
        norm_num [Example.diamondSystem, Example.diamondMesh, Example.ofList,
          Example.toNat_small])
  exact ⟨rfl, h⟩

/-! ## Splines: the two passes of the tridiagonal solver -/

/-- Invariant of the first loop of `SecondOrderDerivative`: entry 0 of both arrays is
0; the entries written lie in `(-1/2, 0]`, so that every divisor `p` lies in
`(7/4, 2]`; and each entry written satisfies the equation of its elimination step. -/
theorem Splines.SecondOrderDerivative.forward_invariant (coordinates d0 : Int → ℚ)
    (k : Nat) :
    (fun s : Splines.SecondOrderDerivative.State =>
      s.coordinatesDerivatives 0 = 0 ∧ s.u 0 = 0 ∧
      (∀ i : Int, 0 ≤ i → i ≤ k →
        -(1 / 2) < s.coordinatesDerivatives i ∧ s.coordinatesDerivatives i ≤ 0) ∧
      (∀ i : Int, 1 ≤ i → i ≤ k →
        (s.coordinatesDerivatives (i - 1) * (1 / 2) + 2) * s.coordinatesDerivatives i =
          -(1 / 2) ∧
        (s.coordinatesDerivatives (i - 1) * (1 / 2) + 2) * s.u i =
          (coordinates (i + 1) - coordinates i - (coordinates i - coordinates (i - 1))) * 6 / 2 -
            s.u (i - 1) * (1 / 2)))
      (forRange (Splines.SecondOrderDerivative.forwardBody coordinates) k
        { u := fun _ => 0, coordinatesDerivatives := Function.update d0 0 0 }) := by
  induction k with
  | zero =>
    refine ⟨?_, rfl, ?_, ?_⟩
    · show Function.update d0 0 0 0 = (0 : ℚ)
      exact Function.update_same _ _ _
    · intro i h0 h1
      have hi : i = 0 := by push_cast at h1; omega
      subst hi
      show -(1 / 2) < Function.update d0 0 0 0 ∧ Function.update d0 0 0 0 ≤ (0 : ℚ)
      rw [Function.update_same]
      norm_num
    · intro i h0 h1
      push_cast at h1
      omega
  | succ k ih =>
    rw [forRange_succ]
    generalize forRange (Splines.SecondOrderDerivative.forwardBody coordinates) k
      { u := fun _ => 0, coordinatesDerivatives := Function.update d0 0 0 } = s at ih ⊢
    obtain ⟨a1, a2, a3, a4⟩ := ih
    have hk := a3 k (Int.natCast_nonneg k) (le_refl _)
    have hp : 0 < s.coordinatesDerivatives k * (1 / 2) + 2 := by linarith [hk.1]
    have hne : ((k : Int) + 1) ≠ 0 := by omega
    unfold Splines.SecondOrderDerivative.forwardBody
    simp only [add_sub_cancel_right]
    refine ⟨?_, ?_, ?_, ?_⟩
    · rw [Function.update_noteq (Ne.symm hne)]
      exact a1
    · rw [Function.update_noteq (Ne.symm hne)]
      exact a2
    · intro i h0 h1
      by_cases hi : i = (k : Int) + 1
      · rw [hi, Function.update_same]
        constructor
        · rw [neg_div, neg_lt_neg_iff, div_lt_iff₀ hp]
          linarith [hk.1]
        · rw [neg_div, neg_nonpos]
          exact div_nonneg (by norm_num) (le_of_lt hp)
      · rw [Function.update_noteq hi]
        exact a3 i h0 (by push_cast at h1; omega)
    · intro i h0 h1
      by_cases hi : i = (k : Int) + 1
      · rw [hi, Function.update_same, Function.update_same, add_sub_cancel_right,
          Function.update_noteq (by omega), Function.update_noteq (by omega)]
        constructor
        · rw [mul_comm, div_mul_cancel₀ _ (ne_of_gt hp)]
        · rw [mul_comm, div_mul_cancel₀ _ (ne_of_gt hp)]
      · have hi2 : i - 1 ≠ (k : Int) + 1 := by push_cast at h1; omega
        rw [Function.update_noteq hi, Function.update_noteq hi, Function.update_noteq hi2,
          Function.update_noteq hi2]
        exact a4 i h0 (by push_cast at h1; omega)

/-- Invariant of the second loop of `SecondOrderDerivative`: the entries it has
written satisfy the substitution step, the last entry is 0, and the entries it has not
reached are those of the first loop. -/
theorem Splines.SecondOrderDerivative.backward_invariant (numNodes : Int) (u c : Int → ℚ)
    (j : Nat) :
    (fun d : Int → ℚ =>
      (∀ i : Int, numNodes - 1 - j ≤ i → i ≤ numNodes - 2 → d i = c i * d (i + 1) + u i) ∧
      d (numNodes - 1) = 0 ∧
      (∀ i : Int, i < numNodes - 1 - j → d i = c i))
      (forRange (Splines.SecondOrderDerivative.backwardBody numNodes u) j
        (Function.update c (numNodes - 1) 0)) := by
  induction j with
  | zero =>
    refine ⟨?_, Function.update_same _ _ _, ?_⟩
    · intro i h0 h1
      push_cast at h0
      omega
    · intro i h0
      show Function.update c (numNodes - 1) 0 i = c i
      rw [Function.update_noteq (by push_cast at h0; omega)]
  | succ j ih =>
    rw [forRange_succ]
    generalize forRange (Splines.SecondOrderDerivative.backwardBody numNodes u) j
      (Function.update c (numNodes - 1) 0) = d at ih ⊢
    obtain ⟨a1, a2, a3⟩ := ih
    unfold Splines.SecondOrderDerivative.backwardBody
    refine ⟨?_, ?_, ?_⟩
    · intro i h0 h1
      by_cases hi : i = numNodes - 2 - (j : Int)
      · rw [hi, Function.update_same, Function.update_noteq (by omega),
          a3 (numNodes - 2 - (j : Int)) (by omega)]
      · rw [Function.update_noteq hi, Function.update_noteq (by push_cast at h0; omega)]
        exact a1 i (by push_cast at h0; omega) h1
    · rw [Function.update_noteq (by omega)]
      exact a2
    · intro i h0
      rw [Function.update_noteq (by push_cast at h0; omega)]
      exact a3 i (by push_cast at h0; omega)

/-- For a sequence of at least two numbers `SecondOrderDerivative` returns the second
derivatives of the natural cubic spline with unit knot spacing: the first and the
last are 0, and the interior ones satisfy the tridiagonal system. -/
theorem Splines.SecondOrderDerivative_natural_spline (coordinates d0 : Int → ℚ)
    (numNodes : Int) (h : 2 ≤ numNodes) :
    Splines.SecondOrderDerivative coordinates numNodes d0 0 = 0 ∧
    Splines.SecondOrderDerivative coordinates numNodes d0 (numNodes - 1) = 0 ∧
    ∀ i : Int, 1 ≤ i → i ≤ numNodes - 2 →
      Splines.SecondOrderDerivative coordinates numNodes d0 (i - 1) +
        4 * Splines.SecondOrderDerivative coordinates numNodes d0 i +
        Splines.SecondOrderDerivative coordinates numNodes d0 (i + 1) =
      6 * (coordinates (i + 1) - 2 * coordinates i + coordinates (i - 1)) := by
  obtain ⟨f1, f2, -, f4⟩ := Splines.SecondOrderDerivative.forward_invariant coordinates d0
    (numNodes - 2).toNat
  have hm : (((numNodes - 2).toNat : Nat) : Int) = numNodes - 2 := Int.toNat_of_nonneg (by omega)
  have hj : (((numNodes - 1).toNat : Nat) : Int) = numNodes - 1 := Int.toNat_of_nonneg (by omega)
  obtain ⟨b1, b2, -⟩ := Splines.SecondOrderDerivative.backward_invariant numNodes
    (forRange (Splines.SecondOrderDerivative.forwardBody coordinates) (numNodes - 2).toNat
      { u := fun _ => 0, coordinatesDerivatives := Function.update d0 0 0 }).u
    (forRange (Splines.SecondOrderDerivative.forwardBody coordinates) (numNodes - 2).toNat
      { u := fun _ => 0, coordinatesDerivatives := Function.update d0 0 0 }).coordinatesDerivatives
    (numNodes - 1).toNat
  rw [hj] at b1
  rw [hm] at f4
  unfold Splines.SecondOrderDerivative
  generalize forRange (Splines.SecondOrderDerivative.forwardBody coordinates)
    (numNodes - 2).toNat
    { u := fun _ => 0, coordinatesDerivatives := Function.update d0 0 0 } = s
    at f1 f2 f4 b1 b2 ⊢
  generalize forRange (Splines.SecondOrderDerivative.backwardBody numNodes s.u)
    (numNodes - 1).toNat (Function.update s.coordinatesDerivatives (numNodes - 1) 0) = d
    at b1 b2 ⊢
  refine ⟨?_, b2, ?_⟩
  · rw [b1 0 (by omega) (by omega), f1, f2]
    ring
  · intro i h1 h2
    have e1 := b1 i (by omega) h2
    have e2 := b1 (i - 1) (by omega) (by omega)
    rw [sub_add_cancel] at e2
    obtain ⟨e3, e4⟩ := f4 i h1 h2
    linear_combination e2 + 2 * (s.coordinatesDerivatives (i - 1) * (1 / 2) + 2) * e1 +
      2 * d (i + 1) * e3 + 2 * e4

/-- Every divisor `p` of the first loop of `SecondOrderDerivative` exceeds `7/4`: the
loop does not divide by zero. -/
theorem Splines.SecondOrderDerivative_divisor (coordinates d0 : Int → ℚ) (k : Nat) :
    7 / 4 < (forRange (Splines.SecondOrderDerivative.forwardBody coordinates) k
      { u := fun _ => 0, coordinatesDerivatives := Function.update d0 0 0 }).coordinatesDerivatives
        (((k : Int) + 1) - 1) * (1 / 2) + 2 := by
  obtain ⟨-, -, f3, -⟩ := Splines.SecondOrderDerivative.forward_invariant coordinates d0 k
  have h := (f3 k (Int.natCast_nonneg k) (le_refl _)).1
  rw [add_sub_cancel_right]
  linarith

/-- The first loop for a sequence of points works on the two coordinates separately:
the x-coordinates of its arrays are the arrays of the first loop for the sequence of
the x-coordinates, and likewise for y. -/
theorem Splines.SecondOrderDerivativeOfPoints.forward_components (coordinates d0 : Int → Point)
    (k : Nat) (i : Int) :
    ((forRange (Splines.SecondOrderDerivativeOfPoints.forwardBody coordinates) k
        { u := fun _ => { x := 0, y := 0 }
          coordinatesDerivatives :=
            Function.update d0 0 { x := 0, y := 0 } }).coordinatesDerivatives i).x =
      (forRange (Splines.SecondOrderDerivative.forwardBody (fun n => (coordinates n).x)) k
        { u := fun _ => 0
          coordinatesDerivatives :=
            Function.update (fun n => (d0 n).x) 0 0 }).coordinatesDerivatives i ∧
    ((forRange (Splines.SecondOrderDerivativeOfPoints.forwardBody coordinates) k
        { u := fun _ => { x := 0, y := 0 }
          coordinatesDerivatives := Function.update d0 0 { x := 0, y := 0 } }).u i).x =
      (forRange (Splines.SecondOrderDerivative.forwardBody (fun n => (coordinates n).x)) k
        { u := fun _ => 0
          coordinatesDerivatives := Function.update (fun n => (d0 n).x) 0 0 }).u i ∧
    ((forRange (Splines.SecondOrderDerivativeOfPoints.forwardBody coordinates) k
        { u := fun _ => { x := 0, y := 0 }
          coordinatesDerivatives :=
            Function.update d0 0 { x := 0, y := 0 } }).coordinatesDerivatives i).y =
      (forRange (Splines.SecondOrderDerivative.forwardBody (fun n => (coordinates n).y)) k
        { u := fun _ => 0
          coordinatesDerivatives :=
            Function.update (fun n => (d0 n).y) 0 0 }).coordinatesDerivatives i ∧
    ((forRange (Splines.SecondOrderDerivativeOfPoints.forwardBody coordinates) k
        { u := fun _ => { x := 0, y := 0 }
          coordinatesDerivatives := Function.update d0 0 { x := 0, y := 0 } }).u i).y =
      (forRange (Splines.SecondOrderDerivative.forwardBody (fun n => (coordinates n).y)) k
        { u := fun _ => 0
          coordinatesDerivatives := Function.update (fun n => (d0 n).y) 0 0 }).u i := by
  induction k generalizing i with
  | zero =>
    refine ⟨?_, rfl, ?_, rfl⟩
    · show (Function.update d0 0 { x := 0, y := 0 } i).x =
        Function.update (fun n => (d0 n).x) 0 0 i
      by_cases hi : i = 0
      · rw [hi, Function.update_same, Function.update_same]
      · rw [Function.update_noteq hi, Function.update_noteq hi]
    · show (Function.update d0 0 { x := 0, y := 0 } i).y =
        Function.update (fun n => (d0 n).y) 0 0 i
      by_cases hi : i = 0
      · rw [hi, Function.update_same, Function.update_same]
      · rw [Function.update_noteq hi, Function.update_noteq hi]
  | succ k ih =>
    rw [forRange_succ, forRange_succ, forRange_succ]
    generalize forRange (Splines.SecondOrderDerivativeOfPoints.forwardBody coordinates) k
      { u := fun _ => { x := 0, y := 0 }
        coordinatesDerivatives := Function.update d0 0 { x := 0, y := 0 } } = sp at ih ⊢
    generalize forRange (Splines.SecondOrderDerivative.forwardBody
      (fun n => (coordinates n).x)) k
      { u := fun _ => 0, coordinatesDerivatives := Function.update (fun n => (d0 n).x) 0 0 }
      = sx at ih ⊢
    generalize forRange (Splines.SecondOrderDerivative.forwardBody
      (fun n => (coordinates n).y)) k
      { u := fun _ => 0, coordinatesDerivatives := Function.update (fun n => (d0 n).y) 0 0 }
      = sy at ih ⊢
    unfold Splines.SecondOrderDerivativeOfPoints.forwardBody
      Splines.SecondOrderDerivative.forwardBody
    simp only [Point.mulScalar, Point.addScalar, Point.divScalar, Point.sub, Point.div]
    by_cases hi : i = (k : Int) + 1
    · rw [hi]
      simp only [Function.update_same]
      rw [← (ih _).1, ← (ih _).2.1, ← (ih _).2.2.1, ← (ih _).2.2.2]
      exact ⟨rfl, rfl, rfl, rfl⟩
    · simp only [Function.update_noteq hi]
      exact ih i

/-- The second loop for a sequence of points works on the two coordinates
separately. -/
theorem Splines.SecondOrderDerivativeOfPoints.backward_components (numNodes : Int)
    (up dp : Int → Point) (ux dx uy dy : Int → ℚ)
    (hux : ∀ i, (up i).x = ux i) (hdx : ∀ i, (dp i).x = dx i)
    (huy : ∀ i, (up i).y = uy i) (hdy : ∀ i, (dp i).y = dy i) (j : Nat) (i : Int) :
    (forRange (Splines.SecondOrderDerivativeOfPoints.backwardBody numNodes up) j dp i).x =
      forRange (Splines.SecondOrderDerivative.backwardBody numNodes ux) j dx i ∧
    (forRange (Splines.SecondOrderDerivativeOfPoints.backwardBody numNodes up) j dp i).y =
      forRange (Splines.SecondOrderDerivative.backwardBody numNodes uy) j dy i := by
  induction j generalizing i with
  | zero => exact ⟨hdx i, hdy i⟩
  | succ j ih =>
    rw [forRange_succ, forRange_succ, forRange_succ]
    generalize forRange (Splines.SecondOrderDerivativeOfPoints.backwardBody numNodes up) j dp
      = ep at ih ⊢
    generalize forRange (Splines.SecondOrderDerivative.backwardBody numNodes ux) j dx = ex
      at ih ⊢
    generalize forRange (Splines.SecondOrderDerivative.backwardBody numNodes uy) j dy = ey
      at ih ⊢
    unfold Splines.SecondOrderDerivativeOfPoints.backwardBody
      Splines.SecondOrderDerivative.backwardBody
    simp only [Point.mul, Point.add]
    by_cases hi : i = numNodes - 2 - (j : Int)
    · rw [hi]
      simp only [Function.update_same]
      rw [← (ih _).1, ← (ih _).1, ← (ih _).2, ← (ih _).2, hux, huy]
      exact ⟨rfl, rfl⟩
    · simp only [Function.update_noteq hi]
      exact ih i

/-- The second derivatives of a sequence of points are, coordinate by coordinate, the
second derivatives of the sequences of the coordinates. -/
theorem Splines.SecondOrderDerivativeOfPoints_components (coordinates d0 : Int → Point)
    (numNodes : Int) (i : Int) :
    (Splines.SecondOrderDerivativeOfPoints coordinates numNodes d0 i).x =
      Splines.SecondOrderDerivative (fun n => (coordinates n).x) numNodes
        (fun n => (d0 n).x) i ∧
    (Splines.SecondOrderDerivativeOfPoints coordinates numNodes d0 i).y =
      Splines.SecondOrderDerivative (fun n => (coordinates n).y) numNodes
        (fun n => (d0 n).y) i := by
  have hf := Splines.SecondOrderDerivativeOfPoints.forward_components coordinates d0
    (numNodes - 2).toNat
  unfold Splines.SecondOrderDerivativeOfPoints Splines.SecondOrderDerivative
  refine Splines.SecondOrderDerivativeOfPoints.backward_components numNodes _ _ _ _ _ _
    (fun n => (hf n).2.1) ?_ (fun n => (hf n).2.2.2) ?_ _ i
  · intro n
    by_cases hn : n = numNodes - 1
    · rw [hn, Function.update_same, Function.update_same]
    · rw [Function.update_noteq hn, Function.update_noteq hn]
      exact (hf n).1
  · intro n
    by_cases hn : n = numNodes - 1
    · rw [hn, Function.update_same, Function.update_same]
    · rw [Function.update_noteq hn, Function.update_noteq hn]
      exact (hf n).2.2.1

/-! ## Claims on the second derivatives of a spline -/

/-- C40: for every sequence of `numNodes >= 2` coordinates, the divisors of
`Splines::SecondOrderDerivative` all exceed `7/4`, so it does not divide by zero, and
it returns the second derivatives `d` of the natural cubic spline with unit knot
spacing: `d[0] = d[numNodes-1] = 0` and
`d[i-1] + 4 * d[i] + d[i+1] = 6 * (y[i+1] - 2 * y[i] + y[i-1])` for
`1 <= i <= numNodes-2`; for a sequence of points the same holds for each of the two
coordinates. -/
theorem C40_second_derivatives_of_the_natural_spline (numNodes : Int) (h : 2 ≤ numNodes) :
    (∀ coordinates d0 : Int → ℚ,
      (∀ k : Nat, 7 / 4 <
        (forRange (Splines.SecondOrderDerivative.forwardBody coordinates) k
          { u := fun _ => 0
            coordinatesDerivatives := Function.update d0 0 0 }).coordinatesDerivatives
          (((k : Int) + 1) - 1) * (1 / 2) + 2) ∧
      Splines.SecondOrderDerivative coordinates numNodes d0 0 = 0 ∧
      Splines.SecondOrderDerivative coordinates numNodes d0 (numNodes - 1) = 0 ∧
      ∀ i : Int, 1 ≤ i → i ≤ numNodes - 2 →
        Splines.SecondOrderDerivative coordinates numNodes d0 (i - 1) +
          4 * Splines.SecondOrderDerivative coordinates numNodes d0 i +
          Splines.SecondOrderDerivative coordinates numNodes d0 (i + 1) =
        6 * (coordinates (i + 1) - 2 * coordinates i + coordinates (i - 1))) ∧
    (∀ coordinates d0 : Int → Point,
      Splines.SecondOrderDerivativeOfPoints coordinates numNodes d0 0 = { x := 0, y := 0 } ∧
      Splines.SecondOrderDerivativeOfPoints coordinates numNodes d0 (numNodes - 1) =
        { x := 0, y := 0 } ∧
      ∀ i : Int, 1 ≤ i → i ≤ numNodes - 2 →
        (Splines.SecondOrderDerivativeOfPoints coordinates numNodes d0 (i - 1)).x +
          4 * (Splines.SecondOrderDerivativeOfPoints coordinates numNodes d0 i).x +
          (Splines.SecondOrderDerivativeOfPoints coordinates numNodes d0 (i + 1)).x =
        6 * ((coordinates (i + 1)).x - 2 * (coordinates i).x + (coordinates (i - 1)).x) ∧
        (Splines.SecondOrderDerivativeOfPoints coordinates numNodes d0 (i - 1)).y +
          4 * (Splines.SecondOrderDerivativeOfPoints coordinates numNodes d0 i).y +
          (Splines.SecondOrderDerivativeOfPoints coordinates numNodes d0 (i + 1)).y =
        6 * ((coordinates (i + 1)).y - 2 * (coordinates i).y + (coordinates (i - 1)).y)) := by
  constructor
  · intro coordinates d0
    exact ⟨Splines.SecondOrderDerivative_divisor coordinates d0,
      Splines.SecondOrderDerivative_natural_spline coordinates d0 numNodes h⟩
  · intro coordinates d0
    obtain ⟨x1, x2, x3⟩ := Splines.SecondOrderDerivative_natural_spline
      (fun n => (coordinates n).x) (fun n => (d0 n).x) numNodes h
    obtain ⟨y1, y2, y3⟩ := Splines.SecondOrderDerivative_natural_spline
      (fun n => (coordinates n).y) (fun n => (d0 n).y) numNodes h
    have hc := Splines.SecondOrderDerivativeOfPoints_components coordinates d0 numNodes
    have hext : ∀ p : Point, p.x = 0 → p.y = 0 → p = { x := 0, y := 0 } := by
      intro p hx hy
      cases p with
      | mk px py =>
        simp only at hx hy
        rw [hx, hy]
    refine ⟨hext _ ((hc 0).1.trans x1) ((hc 0).2.trans y1),
      hext _ ((hc _).1.trans x2) ((hc _).2.trans y2), ?_⟩
    intro i h1 h2
    rw [(hc (i - 1)).1, (hc i).1, (hc (i + 1)).1, (hc (i - 1)).2, (hc i).2, (hc (i + 1)).2]
    exact ⟨x3 i h1 h2, y3 i h1 h2⟩

/-- C40 on the four ordinates `0, 1, 4, 9`: the first and the last second derivative
are 0 and the two interior ones are `12/5`, the solution of `4 d1 + d2 = 12`,
`d1 + 4 d2 = 12`. -/
theorem C40_witness :
    Splines.SecondOrderDerivative (Example.ofList [0, 1, 4, 9] 0) 4 (fun _ => 0) 0 = 0 ∧
    Splines.SecondOrderDerivative (Example.ofList [0, 1, 4, 9] 0) 4 (fun _ => 0) 1 = 12 / 5 ∧
    Splines.SecondOrderDerivative (Example.ofList [0, 1, 4, 9] 0) 4 (fun _ => 0) 2 = 12 / 5 ∧
    Splines.SecondOrderDerivative (Example.ofList [0, 1, 4, 9] 0) 4 (fun _ => 0) 3 = 0 := by
  obtain ⟨-, h0, h3, ht⟩ := (C40_second_derivatives_of_the_natural_spline 4
    (by norm_num)).1 (Example.ofList [0, 1, 4, 9] 0) (fun _ => 0)
  have e1 := ht 1 (le_refl _) (by norm_num)
  have e2 := ht 2 (by norm_num) (by norm_num)
  norm_num [Example.ofList, Example.toNat_small] at e1 e2 h3
  rw [h0] at e1
  rw [h3] at e2
  refine ⟨h0, ?_, ?_, h3⟩
  · linarith
  · linarith

/-! ## Aspect ratios of edges of zero length -/

/-- The first loop of `AspectRatio` on `pinchedMesh`: the edge 0 between the two
coinciding nodes has the length 0 and the flow length 5; the other edges have the
lengths 3, 4, 5 and the flow lengths 4, 3, 0. -/
theorem Example.pinched_edges (a : Int → ℚ) :
    forRange (AspectRatio.edgeBody Example.env Example.pinchedMeshAfterSet) 4
      { averageEdgesLength := fun _ _ => -999
        averageFlowEdgesLength := fun _ => -999
        curvilinearGridIndicator := fun _ => true
        edgesLength := fun _ => 0
        aspectRatios := a } =
      { averageEdgesLength := fun _ _ => -999
        averageFlowEdgesLength :=
          Function.update (Function.update (Function.update
            (Function.update (fun _ => -999) 0 5) 1 4) 2 3) 3 0
        curvilinearGridIndicator := fun _ => true
        edgesLength := Function.update (Function.update (Function.update
          (Function.update (fun _ => 0) 0 0) 1 3) 2 4) 3 5
        aspectRatios := a } := by
  have h9 : Rat.sqrt 9 = 3 := by
    rw [show (9 : ℚ) = 3 * 3 by norm_num, Rat.sqrt_eq]; norm_num
  have h16 : Rat.sqrt 16 = 4 := by
    rw [show (16 : ℚ) = 4 * 4 by norm_num, Rat.sqrt_eq]; norm_num
  have h25 : Rat.sqrt 25 = 5 := by
    rw [show (25 : ℚ) = 5 * 5 by norm_num, Rat.sqrt_eq]; norm_num
  have h0 : Rat.sqrt 0 = 0 := by
    rw [show (0 : ℚ) = 0 * 0 by norm_num, Rat.sqrt_eq]; norm_num
  norm_num [forRange, AspectRatio.edgeBody, Example.env, Example.pinchedMeshAfterSet, Set,
    Set.maskedMesh, Example.pinchedMesh, Example.ofList,
    Example.distance, Example.innerProductTwoSegments, h9, h16, h25, h0,
    show Int.toNat 2 = 2 from rfl, show Int.toNat 3 = 3 from rfl]

/-- The second loop of `AspectRatio` on `pinchedMesh`, at the edge 0 of zero length:
its average length becomes 2, the mean of its own length 0 and the length 4 of the
opposite edge; its flow length and its aspect ratio stay as they are. -/
theorem Example.pinched_faces (a : Int → ℚ) :
    (forRange (AspectRatio.faceBody Example.env Example.pinchedMeshAfterSet) 1
      { averageEdgesLength := fun _ _ => -999
        averageFlowEdgesLength :=
          Function.update (Function.update (Function.update
            (Function.update (fun _ => -999) 0 5) 1 4) 2 3) 3 0
        curvilinearGridIndicator := fun _ => true
        edgesLength := Function.update (Function.update (Function.update
          (Function.update (fun _ => 0) 0 0) 1 3) 2 4) 3 5
        aspectRatios := a }).averageEdgesLength 0 0 = 2 ∧
    (forRange (AspectRatio.faceBody Example.env Example.pinchedMeshAfterSet) 1
      { averageEdgesLength := fun _ _ => -999
        averageFlowEdgesLength :=
          Function.update (Function.update (Function.update
            (Function.update (fun _ => -999) 0 5) 1 4) 2 3) 3 0
        curvilinearGridIndicator := fun _ => true
        edgesLength := Function.update (Function.update (Function.update
          (Function.update (fun _ => 0) 0 0) 1 3) 2 4) 3 5
        aspectRatios := a }).averageFlowEdgesLength 0 = 5 ∧
    (∀ n : Int, (forRange (AspectRatio.faceBody Example.env Example.pinchedMeshAfterSet) 1
      { averageEdgesLength := fun _ _ => -999
        averageFlowEdgesLength :=
          Function.update (Function.update (Function.update
            (Function.update (fun _ => -999) 0 5) 1 4) 2 3) 3 0
        curvilinearGridIndicator := fun _ => true
        edgesLength := Function.update (Function.update (Function.update
          (Function.update (fun _ => 0) 0 0) 1 3) 2 4) 3 5
        aspectRatios := a }).curvilinearGridIndicator n = true) ∧
    (forRange (AspectRatio.faceBody Example.env Example.pinchedMeshAfterSet) 1
      { averageEdgesLength := fun _ _ => -999
        averageFlowEdgesLength :=
          Function.update (Function.update (Function.update
            (Function.update (fun _ => -999) 0 5) 1 4) 2 3) 3 0
        curvilinearGridIndicator := fun _ => true
        edgesLength := Function.update (Function.update (Function.update
          (Function.update (fun _ => 0) 0 0) 1 3) 2 4) 3 5
        aspectRatios := a }).aspectRatios 0 = a 0 := by
  norm_num [forRange, AspectRatio.faceBody, AspectRatio.faceNodeBody, AspectRatio.faceNodeBody.mark,
    AspectRatio.faceNodeBody.ratio, AspectRatio.faceNodeBody.length,
    AspectRatio.faceNodeBody.average, Example.env,
    Example.pinchedMeshAfterSet, Set, Set.maskedMesh, Example.pinchedMesh, Example.ofList,
    Function.update_apply,
    show Int.toNat 2 = 2 from rfl, show Int.toNat 3 = 3 from rfl,
    show Int.toNat 4 = 4 from rfl]

/-! ## Claims on the edges of zero length -/

/-- C35 as stated fails on `pinchedMesh`: the edge 0 joins the nodes 0 and 1, which
lie at the same place, so its endpoints are at distance 0, and `Set` stores the aspect
ratio 0 for it. The second loop of `AspectRatio` skips the edge, but the third loop
(line 1485) tests the average length 2 of the edge and its opposite edge, not the
length of the edge, and writes the flow length 5 divided by 2. -/
theorem C35_zero_length_edge_of_a_quadrilateral_is_written :
    Example.pinchedMesh.edges 0 = (0, 1) ∧
    Example.env.Distance (Example.pinchedMesh.nodes 0) (Example.pinchedMesh.nodes 1)
      Example.pinchedMesh.projection = 0 ∧
    (Set Example.env Example.pinchedMesh Example.newOrthogonalization 0 0 0
      Example.parameters).2.2.aspectRatios 0 = 0 ∧
    Example.pinchedAfterAspectRatio.aspectRatios 0 = 5 / 2 := by
  have h0 : Rat.sqrt 0 = 0 := by
    rw [show (0 : ℚ) = 0 * 0 by norm_num, Rat.sqrt_eq]; norm_num
  have h : Example.pinchedAfterAspectRatio.aspectRatios 0 = 5 / 2 := by
    have hloc : Example.pinchedAfterAspectRatio.aspectRatios =
        (forRange (AspectRatio.curvilinearBody Example.env Example.pinchedMeshAfterSet) 4
          (forRange (AspectRatio.faceBody Example.env Example.pinchedMeshAfterSet) 1
            (forRange (AspectRatio.edgeBody Example.env Example.pinchedMeshAfterSet) 4
              { averageEdgesLength := fun _ _ => -999
                averageFlowEdgesLength := fun _ => -999
                curvilinearGridIndicator := fun _ => true
                edgesLength := fun _ => 0
                aspectRatios := (Set Example.env Example.pinchedMesh
                  Example.newOrthogonalization 0 0 0
                  Example.parameters).2.2.aspectRatios }))).aspectRatios := by
      unfold Example.pinchedAfterAspectRatio AspectRatio AspectRatio.locals
      simp only []
      rw [if_neg (by norm_num [Example.env])]
      rfl
    rw [hloc, Example.pinched_edges, AspectRatio.curvilinearLoop_apply,
      if_pos ⟨le_refl _, by norm_num⟩]
    obtain ⟨b1, b2, b3, -⟩ := Example.pinched_faces
      (Set Example.env Example.pinchedMesh Example.newOrthogonalization 0 0 0
        Example.parameters).2.2.aspectRatios
    generalize forRange (AspectRatio.faceBody Example.env Example.pinchedMeshAfterSet) 1 _ = L
      at b1 b2 b3 ⊢
    norm_num [AspectRatio.curvilinearBody, Example.env, Example.pinchedMeshAfterSet, Set,
      Set.maskedMesh, Example.pinchedMesh, Example.ofList, b1, b2, b3]
  refine ⟨by norm_num [Example.pinchedMesh, Example.ofList], ?_, rfl, h⟩
  norm_num [Example.env, Example.distance, Example.pinchedMesh, Example.ofList, h0]

/-! ## The ghost center of a boundary edge -/

/-- The flow length that an iteration of the first loop of `AspectRatio` stores for an
edge between two different nodes is the distance between its two centers. -/
theorem AspectRatio.edgeBody_flow (env : Env) (mesh : Mesh) (e : Int)
    (l : AspectRatioLocals) (hne : (mesh.edges e).1 ≠ (mesh.edges e).2) :
    (AspectRatio.edgeBody env mesh e l).averageFlowEdgesLength e =
      env.Distance (AspectRatio.leftCenter mesh e) (AspectRatio.rightCenter env mesh e)
        mesh.projection := by
  unfold AspectRatio.edgeBody AspectRatio.leftCenter AspectRatio.rightCenter
    AspectRatio.dinry AspectRatio.leftCenter
  simp only []
  rw [if_neg hne]
  exact Function.update_same _ _ _

/-- An iteration of the first loop of `AspectRatio` leaves the flow lengths of the
other edges. -/
theorem AspectRatio.edgeBody_flow_other (env : Env) (mesh : Mesh) (i e : Int)
    (l : AspectRatioLocals) (hie : e ≠ i) :
    (AspectRatio.edgeBody env mesh i l).averageFlowEdgesLength e =
      l.averageFlowEdgesLength e := by
  rcases AspectRatio.edgeBody_cases env mesh i l with ⟨-, h⟩ | ⟨-, p, q, a, b, h⟩
  · rw [h]
  · rw [h]
    exact Function.update_noteq hie _ _

/-- After the first loop of `AspectRatio` the flow length of an edge of the mesh
between two different nodes is the distance between its two centers. -/
theorem AspectRatio.edgeLoop_flow (env : Env) (mesh : Mesh) (l0 : AspectRatioLocals)
    (e : Nat) (he : e < mesh.numEdges)
    (hne : (mesh.edges e).1 ≠ (mesh.edges e).2) :
    (forRange (AspectRatio.edgeBody env mesh) mesh.numEdges l0).averageFlowEdgesLength e =
      env.Distance (AspectRatio.leftCenter mesh e) (AspectRatio.rightCenter env mesh e)
        mesh.projection := by
  obtain ⟨j, hj⟩ : ∃ j, mesh.numEdges = e + 1 + j := ⟨mesh.numEdges - (e + 1), by omega⟩
  rw [hj]
  refine forRange_invariant_from
    (fun l : AspectRatioLocals => l.averageFlowEdgesLength e =
      env.Distance (AspectRatio.leftCenter mesh e) (AspectRatio.rightCenter env mesh e)
        mesh.projection)
    (AspectRatio.edgeBody env mesh) (e + 1) j l0 ?_ ?_
  · rw [forRange_succ]
    exact AspectRatio.edgeBody_flow env mesh e _ hne
  · intro i t ht
    by_cases hie : (e : Int) = i
    · rw [← hie]
      exact AspectRatio.edgeBody_flow env mesh e _ hne
    · rw [AspectRatio.edgeBody_flow_other env mesh i e t hie]
      exact ht

/-! ## Claims on the ghost center of a boundary edge -/

/-- C34: in `AspectRatio` with Cartesian projection, take a boundary edge `e` from `a`
to `b` whose squared length is at least the minimum edge length, where `Distance` and
`InnerProductTwoSegments` are the Euclidean ones at the points concerned. The ghost
right center `g` is the mirror image of the left circumcenter `c` in the line through
`a` and `b`: the midpoint of `c` and `g` is the point `(1 - t) a + t b` of the line,
`g - c` is perpendicular to `b - a`, and the squared flow length stored for the edge
is four times the squared distance `cross(b - a, c - a)^2 / |b - a|^2` from `c` to
the line. -/
theorem C34_ghost_center_mirrors_the_circumcenter (env : Env) (mesh : Mesh)
    (l0 : AspectRatioLocals) (e : Nat) (he : e < mesh.numEdges)
    (hproj : mesh.projection = Projections.cartesian)
    (hboundary : mesh.edgesNumFaces e = 1)
    (heps : 0 < env.minimumEdgeLength)
    (hlen : env.minimumEdgeLength ≤
      env.Distance (mesh.nodes (mesh.edges e).1) (mesh.nodes (mesh.edges e).2)
          Projections.cartesian *
        env.Distance (mesh.nodes (mesh.edges e).1) (mesh.nodes (mesh.edges e).2)
          Projections.cartesian)
    (hL : env.Distance (mesh.nodes (mesh.edges e).1) (mesh.nodes (mesh.edges e).2)
          Projections.cartesian *
        env.Distance (mesh.nodes (mesh.edges e).1) (mesh.nodes (mesh.edges e).2)
          Projections.cartesian =
      ((mesh.nodes (mesh.edges e).2).x - (mesh.nodes (mesh.edges e).1).x) ^ 2 +
        ((mesh.nodes (mesh.edges e).2).y - (mesh.nodes (mesh.edges e).1).y) ^ 2)
    (hI : env.InnerProductTwoSegments (mesh.nodes (mesh.edges e).1)
        (mesh.nodes (mesh.edges e).2) (mesh.nodes (mesh.edges e).1)
        (AspectRatio.leftCenter mesh e) Projections.cartesian =
      ((mesh.nodes (mesh.edges e).2).x - (mesh.nodes (mesh.edges e).1).x) *
          ((AspectRatio.leftCenter mesh e).x - (mesh.nodes (mesh.edges e).1).x) +
        ((mesh.nodes (mesh.edges e).2).y - (mesh.nodes (mesh.edges e).1).y) *
          ((AspectRatio.leftCenter mesh e).y - (mesh.nodes (mesh.edges e).1).y))
    (hD : env.Distance (AspectRatio.leftCenter mesh e) (AspectRatio.rightCenter env mesh e)
          Projections.cartesian ^ 2 =
      ((AspectRatio.rightCenter env mesh e).x - (AspectRatio.leftCenter mesh e).x) ^ 2 +
        ((AspectRatio.rightCenter env mesh e).y - (AspectRatio.leftCenter mesh e).y) ^ 2) :
    AspectRatio.leftCenter mesh e = mesh.facesCircumcenters (mesh.edgesFaces e 0) ∧
    (((AspectRatio.leftCenter mesh e).x + (AspectRatio.rightCenter env mesh e).x) / 2 =
        (1 - AspectRatio.dinry env mesh e) * (mesh.nodes (mesh.edges e).1).x +
          AspectRatio.dinry env mesh e * (mesh.nodes (mesh.edges e).2).x ∧
      ((AspectRatio.leftCenter mesh e).y + (AspectRatio.rightCenter env mesh e).y) / 2 =
        (1 - AspectRatio.dinry env mesh e) * (mesh.nodes (mesh.edges e).1).y +
          AspectRatio.dinry env mesh e * (mesh.nodes (mesh.edges e).2).y) ∧
    ((AspectRatio.rightCenter env mesh e).x - (AspectRatio.leftCenter mesh e).x) *
        ((mesh.nodes (mesh.edges e).2).x - (mesh.nodes (mesh.edges e).1).x) +
      ((AspectRatio.rightCenter env mesh e).y - (AspectRatio.leftCenter mesh e).y) *
        ((mesh.nodes (mesh.edges e).2).y - (mesh.nodes (mesh.edges e).1).y) = 0 ∧
    (forRange (AspectRatio.edgeBody env mesh) mesh.numEdges l0).averageFlowEdgesLength e ^ 2 *
        (((mesh.nodes (mesh.edges e).2).x - (mesh.nodes (mesh.edges e).1).x) ^ 2 +
          ((mesh.nodes (mesh.edges e).2).y - (mesh.nodes (mesh.edges e).1).y) ^ 2) =
      4 * (((mesh.nodes (mesh.edges e).2).x - (mesh.nodes (mesh.edges e).1).x) *
          ((AspectRatio.leftCenter mesh e).y - (mesh.nodes (mesh.edges e).1).y) -
        ((mesh.nodes (mesh.edges e).2).y - (mesh.nodes (mesh.edges e).1).y) *
          ((AspectRatio.leftCenter mesh e).x - (mesh.nodes (mesh.edges e).1).x)) ^ 2 := by
  have hne : (mesh.edges e).1 ≠ (mesh.edges e).2 := by
    intro h
    rw [h] at hL hlen
    have h0 : env.Distance (mesh.nodes (mesh.edges e).2) (mesh.nodes (mesh.edges e).2)
          Projections.cartesian *
        env.Distance (mesh.nodes (mesh.edges e).2) (mesh.nodes (mesh.edges e).2)
          Projections.cartesian = 0 := by
      rw [hL]; ring
    linarith
  have hflow := AspectRatio.edgeLoop_flow env mesh l0 e he hne
  rw [hproj] at hflow
  rw [hflow, hD]
  have hleft : AspectRatio.leftCenter mesh e =
      mesh.facesCircumcenters (mesh.edgesFaces e 0) := by
    unfold AspectRatio.leftCenter
    rw [if_pos (by omega)]
  have hdin : AspectRatio.dinry env mesh e *
      (((mesh.nodes (mesh.edges e).2).x - (mesh.nodes (mesh.edges e).1).x) ^ 2 +
        ((mesh.nodes (mesh.edges e).2).y - (mesh.nodes (mesh.edges e).1).y) ^ 2) =
      ((mesh.nodes (mesh.edges e).2).x - (mesh.nodes (mesh.edges e).1).x) *
          ((AspectRatio.leftCenter mesh e).x - (mesh.nodes (mesh.edges e).1).x) +
        ((mesh.nodes (mesh.edges e).2).y - (mesh.nodes (mesh.edges e).1).y) *
          ((AspectRatio.leftCenter mesh e).y - (mesh.nodes (mesh.edges e).1).y) := by
    unfold AspectRatio.dinry
    simp only []
    rw [hproj, hI, max_eq_left hlen, hL]
    exact div_mul_cancel₀ _ (by rw [← hL]; linarith)
  have hright : AspectRatio.rightCenter env mesh e =
      { x := 2 * ((1 - AspectRatio.dinry env mesh e) * (mesh.nodes (mesh.edges e).1).x +
            AspectRatio.dinry env mesh e * (mesh.nodes (mesh.edges e).2).x) -
          (AspectRatio.leftCenter mesh e).x
        y := 2 * ((1 - AspectRatio.dinry env mesh e) * (mesh.nodes (mesh.edges e).1).y +
            AspectRatio.dinry env mesh e * (mesh.nodes (mesh.edges e).2).y) -
          (AspectRatio.leftCenter mesh e).y } := by
    unfold AspectRatio.rightCenter
    simp only []
    rw [if_neg (by omega)]
  rw [hright]
  generalize AspectRatio.dinry env mesh e = t at hdin ⊢
  generalize AspectRatio.leftCenter mesh e = c at hleft hdin ⊢
  generalize mesh.nodes (mesh.edges e).1 = a at hdin ⊢
  generalize mesh.nodes (mesh.edges e).2 = b at hdin ⊢
  refine ⟨hleft, ⟨by ring, by ring⟩, ?_, ?_⟩
  · linear_combination 2 * hdin
  · linear_combination (4 * (t * ((b.x - a.x) ^ 2 + (b.y - a.y) ^ 2) -
      ((b.x - a.x) * (c.x - a.x) + (b.y - a.y) * (c.y - a.y)))) * hdin

/-- The centers of the boundary edge 0 of `squareMesh`, from `(0,0)` to `(1,0)`: the
circumcenter `(1/2, 1/2)` of the square and the ghost point `(1/2, -1/2)`. -/
theorem Example.square_centers :
    AspectRatio.leftCenter Example.squareMesh ((0 : Nat) : Int) = { x := 1 / 2, y := 1 / 2 } ∧
    AspectRatio.rightCenter Example.env Example.squareMesh ((0 : Nat) : Int) =
      { x := 1 / 2, y := -1 / 2 } := by
  have hs : Rat.sqrt 1 = 1 := by simp
  constructor
  · norm_num [AspectRatio.leftCenter, Example.squareMesh]
  · norm_num [AspectRatio.rightCenter, AspectRatio.dinry, AspectRatio.leftCenter, Example.env,
      Example.squareMesh, Example.ofList, Example.distance, Example.innerProductTwoSegments, hs]

/-- C34 on the boundary edge 0 of `squareMesh`, from `(0,0)` to `(1,0)`, with the
circumcenter `(1/2, 1/2)`: the ghost center is `(1/2, -1/2)` and the squared flow
length after the first loop is 1, four times the squared distance 1/4 of the
circumcenter from the edge. -/
theorem C34_witness :
    Example.squareMesh.edgesNumFaces 0 = 1 ∧
    AspectRatio.rightCenter Example.env Example.squareMesh 0 = { x := 1 / 2, y := -1 / 2 } ∧
    (forRange (AspectRatio.edgeBody Example.env Example.squareMesh) Example.squareMesh.numEdges
      { averageEdgesLength := fun _ _ => -999
        averageFlowEdgesLength := fun _ => -999
        curvilinearGridIndicator := fun _ => true
        edgesLength := fun _ => 0
        aspectRatios := fun _ => 0 }).averageFlowEdgesLength 0 ^ 2 = 1 := by
  have hs : Rat.sqrt 1 = 1 := by simp
  obtain ⟨hc, hg⟩ := Example.square_centers
  have hd : Example.env.Distance
      (Example.squareMesh.nodes (Example.squareMesh.edges ((0 : Nat) : Int)).1)
      (Example.squareMesh.nodes (Example.squareMesh.edges ((0 : Nat) : Int)).2)
      Projections.cartesian = 1 := by
    norm_num [Example.env, Example.squareMesh, Example.ofList, Example.distance, hs]
  have h := (C34_ghost_center_mirrors_the_circumcenter Example.env Example.squareMesh
    { averageEdgesLength := fun _ _ => -999
      averageFlowEdgesLength := fun _ => -999
      curvilinearGridIndicator := fun _ => true
      edgesLength := fun _ => 0
      aspectRatios := fun _ => 0 } 0 (by norm_num [Example.squareMesh]) rfl rfl
    (by norm_num [Example.env])
    (by rw [hd]; norm_num [Example.env])
    (by rw [hd]; norm_num [Example.squareMesh, Example.ofList])
    rfl
    (by
      rw [hc, hg]
      norm_num [Example.env, Example.distance, hs])).2.2.2
  have ha : Example.squareMesh.nodes (Example.squareMesh.edges ((0 : Nat) : Int)).1 =
      { x := 0, y := 0 } := by
    norm_num [Example.squareMesh, Example.ofList]
  have hb : Example.squareMesh.nodes (Example.squareMesh.edges ((0 : Nat) : Int)).2 =
      { x := 1, y := 0 } := by
    norm_num [Example.squareMesh, Example.ofList]
  rw [hc, ha, hb, Nat.cast_zero] at h
  rw [Nat.cast_zero] at hg
  refine ⟨rfl, hg, ?_⟩
  generalize (forRange (AspectRatio.edgeBody Example.env Example.squareMesh)
    Example.squareMesh.numEdges _).averageFlowEdgesLength 0 = F at h ⊢
  dsimp only at h
  linarith

/-! ## The gradient rows of a node -/

/-- The accumulated sum is linear. -/
theorem sumRange_linear (a b : ℚ) (f g : Int → ℚ) (k : Nat) :
    sumRange (fun i => a * f i + b * g i) k = a * sumRange f k + b * sumRange g k := by
  induction k with
  | zero => show (0 : ℚ) = a * 0 + b * 0; norm_num
  | succ k ih => rw [sumRange_succ, sumRange_succ, sumRange_succ, ih]; ring

/-- A loop that assigns entry `i` in iteration `i` leaves the values assigned in the
entries of the range and the old values elsewhere. -/
theorem forRange_assign (v : Int → ℚ) (k : Nat) (row : Int → ℚ) (i : Int) :
    forRange (fun i r => Function.update r i (v i)) k row i =
      if 0 ≤ i ∧ i < k then v i else row i := by
  induction k with
  | zero =>
    rw [forRange_zero, if_neg]
    intro h
    have := h.2
    simp only [Nat.cast_zero] at this
    omega
  | succ k ih =>
    rw [forRange_succ]
    by_cases hi : i = (k : Int)
    · subst hi
      rw [Function.update_same, if_pos ⟨by positivity, by push_cast; omega⟩]
    · rw [Function.update_noteq hi, ih]
      by_cases hin : 0 ≤ i ∧ i < (k : Int)
      · rw [if_pos hin, if_pos ⟨hin.1, by push_cast; omega⟩]
      · rw [if_neg hin, if_neg (by push_cast; omega)]

/-- The sum of a gradient row: the factors of the two faces times the sums of their
rows of `m_Az`, plus the factors of the far node and of the node itself. -/
theorem ComputeSmootherOperatorsNode.gradientRow_sum (facL facR fac1 fac0 : ℚ)
    (numFaces : Int) (azLeft azRight : Int → ℚ) (N : Nat) (f : Int) (row : Int → ℚ)
    (hf0 : 0 ≤ f) (hfN : f + 1 < N) :
    sumRange (ComputeSmootherOperatorsNode.gradientRow facL facR fac1 fac0 numFaces azLeft
      azRight N f row) N =
      facL * sumRange azLeft N + (if numFaces = 2 then facR * sumRange azRight N else 0) +
        fac1 + fac0 := by
  unfold ComputeSmootherOperatorsNode.gradientRow
  simp only []
  rw [sumRange_update, sumRange_update,
    if_pos (show (0 : Int) ≤ 0 ∧ (0 : Int) < N from ⟨le_refl _, by omega⟩),
    if_pos (show 0 ≤ f + 1 ∧ f + 1 < N from ⟨by omega, hfN⟩)]
  have hrow : sumRange (forRange (fun i r => Function.update r i
      (if numFaces = 2 then facL * azLeft i + facR * azRight i else facL * azLeft i)) N row) N =
      facL * sumRange azLeft N + (if numFaces = 2 then facR * sumRange azRight N else 0) := by
    rw [sumRange_congr _ (fun i => facL * azLeft i +
      (if numFaces = 2 then facR else 0) * azRight i) N]
    · rw [sumRange_linear]
      by_cases h2 : numFaces = 2
      · rw [if_pos h2, if_pos h2]
      · rw [if_neg h2, if_neg h2]; ring
    · intro i hi
      rw [forRange_assign, if_pos ⟨Int.natCast_nonneg i, by exact_mod_cast hi⟩]
      by_cases h2 : numFaces = 2
      · rw [if_pos h2, if_pos h2]
      · rw [if_neg h2, if_neg h2]; ring
  rw [hrow]
  ring

/-- The factors of the node itself and of the far node cancel against the factors of
the faces: the sum of the factors of a boundary edge with the doubled left factor
taken once, and of an interior edge with both face factors, is zero. -/
theorem ComputeSmootherOperatorsNode.factors_cancel
    (loc : ComputeSmootherOperatorsNode.EdgeLocals) (xiOne etaOne : ℚ) (numFaces : Int) :
    (ComputeSmootherOperatorsNode.factors loc xiOne etaOne numFaces).facxiL +
        (if numFaces = 2 then
          (ComputeSmootherOperatorsNode.factors loc xiOne etaOne numFaces).facxiR else 0) +
        (ComputeSmootherOperatorsNode.factors loc xiOne etaOne numFaces).facxi1 +
        (ComputeSmootherOperatorsNode.factors loc xiOne etaOne numFaces).facxi0 =
      (if numFaces = 1 ∨ numFaces = 2 then 0 else
        (ComputeSmootherOperatorsNode.factors loc xiOne etaOne numFaces).facxiL) ∧
    (ComputeSmootherOperatorsNode.factors loc xiOne etaOne numFaces).facetaL +
        (if numFaces = 2 then
          (ComputeSmootherOperatorsNode.factors loc xiOne etaOne numFaces).facetaR else 0) +
        (ComputeSmootherOperatorsNode.factors loc xiOne etaOne numFaces).faceta1 +
        (ComputeSmootherOperatorsNode.factors loc xiOne etaOne numFaces).faceta0 =
      (if numFaces = 1 ∨ numFaces = 2 then 0 else
        (ComputeSmootherOperatorsNode.factors loc xiOne etaOne numFaces).facetaL) := by
  unfold ComputeSmootherOperatorsNode.factors
  simp only []
  split_ifs <;> first
    | omega
    | (constructor <;> (dsimp only; ring))

/-- The rows that the end of an iteration writes: row `f` of `m_Gxi` and of `m_Geta`
of the class are the gradient rows of the edge, and the other rows are kept. -/
theorem ComputeSmootherOperatorsNode.gradientFinish_rows (mesh : Mesh) (t : Topologies)
    (Az : Int → Int → Int → ℚ) (currentNode f : Int)
    (loc : ComputeSmootherOperatorsNode.EdgeLocals) (faceLeftIndex faceRightIndex : Int)
    (xiBoundary etaBoundary : ℚ) (ops : NodeOperators) :
    (ComputeSmootherOperatorsNode.gradientFinish mesh t Az currentNode f loc faceLeftIndex
        faceRightIndex xiBoundary etaBoundary ops).operators.Gxi
        (t.nodeTopologyMapping currentNode) f =
      ComputeSmootherOperatorsNode.gradientRow
        (ComputeSmootherOperatorsNode.factors loc
          (t.topologyXi (t.nodeTopologyMapping currentNode) (f + 1))
          (t.topologyEta (t.nodeTopologyMapping currentNode) (f + 1))
          (mesh.edgesNumFaces (mesh.nodesEdges currentNode f))).facxiL
        (ComputeSmootherOperatorsNode.factors loc
          (t.topologyXi (t.nodeTopologyMapping currentNode) (f + 1))
          (t.topologyEta (t.nodeTopologyMapping currentNode) (f + 1))
          (mesh.edgesNumFaces (mesh.nodesEdges currentNode f))).facxiR
        (ComputeSmootherOperatorsNode.factors loc
          (t.topologyXi (t.nodeTopologyMapping currentNode) (f + 1))
          (t.topologyEta (t.nodeTopologyMapping currentNode) (f + 1))
          (mesh.edgesNumFaces (mesh.nodesEdges currentNode f))).facxi1
        (ComputeSmootherOperatorsNode.factors loc
          (t.topologyXi (t.nodeTopologyMapping currentNode) (f + 1))
          (t.topologyEta (t.nodeTopologyMapping currentNode) (f + 1))
          (mesh.edgesNumFaces (mesh.nodesEdges currentNode f))).facxi0
        (mesh.edgesNumFaces (mesh.nodesEdges currentNode f))
        (Az (t.nodeTopologyMapping currentNode) faceLeftIndex)
        (Az (t.nodeTopologyMapping currentNode) faceRightIndex)
        (t.numTopologyNodes (t.nodeTopologyMapping currentNode)).toNat f
        (ops.Gxi (t.nodeTopologyMapping currentNode) f) ∧
    (ComputeSmootherOperatorsNode.gradientFinish mesh t Az currentNode f loc faceLeftIndex
        faceRightIndex xiBoundary etaBoundary ops).operators.Geta
        (t.nodeTopologyMapping currentNode) f =
      ComputeSmootherOperatorsNode.gradientRow
        (ComputeSmootherOperatorsNode.factors loc
          (t.topologyXi (t.nodeTopologyMapping currentNode) (f + 1))
          (t.topologyEta (t.nodeTopologyMapping currentNode) (f + 1))
          (mesh.edgesNumFaces (mesh.nodesEdges currentNode f))).facetaL
        (ComputeSmootherOperatorsNode.factors loc
          (t.topologyXi (t.nodeTopologyMapping currentNode) (f + 1))
          (t.topologyEta (t.nodeTopologyMapping currentNode) (f + 1))
          (mesh.edgesNumFaces (mesh.nodesEdges currentNode f))).facetaR
        (ComputeSmootherOperatorsNode.factors loc
          (t.topologyXi (t.nodeTopologyMapping currentNode) (f + 1))
          (t.topologyEta (t.nodeTopologyMapping currentNode) (f + 1))
          (mesh.edgesNumFaces (mesh.nodesEdges currentNode f))).faceta1
        (ComputeSmootherOperatorsNode.factors loc
          (t.topologyXi (t.nodeTopologyMapping currentNode) (f + 1))
          (t.topologyEta (t.nodeTopologyMapping currentNode) (f + 1))
          (mesh.edgesNumFaces (mesh.nodesEdges currentNode f))).faceta0
        (mesh.edgesNumFaces (mesh.nodesEdges currentNode f))
        (Az (t.nodeTopologyMapping currentNode) faceLeftIndex)
        (Az (t.nodeTopologyMapping currentNode) faceRightIndex)
        (t.numTopologyNodes (t.nodeTopologyMapping currentNode)).toNat f
        (ops.Geta (t.nodeTopologyMapping currentNode) f) ∧
    ∀ g : Int, g ≠ f →
      (ComputeSmootherOperatorsNode.gradientFinish mesh t Az currentNode f loc faceLeftIndex
          faceRightIndex xiBoundary etaBoundary ops).operators.Gxi
          (t.nodeTopologyMapping currentNode) g =
        ops.Gxi (t.nodeTopologyMapping currentNode) g ∧
      (ComputeSmootherOperatorsNode.gradientFinish mesh t Az currentNode f loc faceLeftIndex
          faceRightIndex xiBoundary etaBoundary ops).operators.Geta
          (t.nodeTopologyMapping currentNode) g =
        ops.Geta (t.nodeTopologyMapping currentNode) g := by
  unfold ComputeSmootherOperatorsNode.gradientFinish
  simp only []
  refine ⟨?_, ?_, fun g hg => ⟨?_, ?_⟩⟩
  · rw [Function.update_same, Function.update_same]
  · rw [Function.update_same, Function.update_same]
  · rw [Function.update_same, Function.update_noteq hg]
  · rw [Function.update_same, Function.update_noteq hg]

/-- An iteration of the second loop of `ComputeSmootherOperatorsNode` either leaves
`m_Gxi` and `m_Geta`, or ends with the gradient rows of its edge, taken from the row of
`m_Az` of the left face and, for an edge that is not a boundary edge, from that of the
face before it. -/
theorem ComputeSmootherOperatorsNode.gradientBody_cases (env : Env) (mesh : Mesh)
    (t : Topologies) (Az : Int → Int → Int → ℚ) (currentNode f : Int)
    (st : ComputeSmootherOperatorsNode.Gradients) :
    ((ComputeSmootherOperatorsNode.gradientBody env mesh t Az currentNode f st).operators.Gxi =
        st.operators.Gxi ∧
      (ComputeSmootherOperatorsNode.gradientBody env mesh t Az currentNode f st).operators.Geta =
        st.operators.Geta ∧
      (st.returned = true ∨
        t.topologySharedFaces (t.nodeTopologyMapping currentNode)
            (env.FindIndex (t.topologySharedFaces (t.nodeTopologyMapping currentNode))
              (mesh.edgesFaces (mesh.nodesEdges currentNode f) 0)) ≠
          mesh.edgesFaces (mesh.nodesEdges currentNode f) 0 ∨
        (mesh.edgesNumFaces (mesh.nodesEdges currentNode f) ≠ 1 ∧
          (env.NextCircularBackwardIndex f
              (t.numTopologyFaces (t.nodeTopologyMapping currentNode)) < 0 ∨
            (t.topologySharedFaces (t.nodeTopologyMapping currentNode) f ≠
                mesh.edgesFaces (mesh.nodesEdges currentNode f) 0 ∧
              t.topologySharedFaces (t.nodeTopologyMapping currentNode) f ≠
                mesh.edgesFaces (mesh.nodesEdges currentNode f) 1) ∨
            (t.topologySharedFaces (t.nodeTopologyMapping currentNode)
                  (env.NextCircularBackwardIndex f
                    (t.numTopologyFaces (t.nodeTopologyMapping currentNode))) ≠
                mesh.edgesFaces (mesh.nodesEdges currentNode f) 0 ∧
              t.topologySharedFaces (t.nodeTopologyMapping currentNode)
                  (env.NextCircularBackwardIndex f
                    (t.numTopologyFaces (t.nodeTopologyMapping currentNode))) ≠
                mesh.edgesFaces (mesh.nodesEdges currentNode f) 1))))) ∨
    ∃ (loc : ComputeSmootherOperatorsNode.EdgeLocals) (faceRightIndex : Int)
      (xiBoundary etaBoundary : ℚ) (ops : NodeOperators),
      ops.Gxi = st.operators.Gxi ∧ ops.Geta = st.operators.Geta ∧
      (mesh.edgesNumFaces (mesh.nodesEdges currentNode f) ≠ 1 →
        faceRightIndex = env.NextCircularBackwardIndex f
          (t.numTopologyFaces (t.nodeTopologyMapping currentNode))) ∧
      ComputeSmootherOperatorsNode.gradientBody env mesh t Az currentNode f st =
        ComputeSmootherOperatorsNode.gradientFinish mesh t Az currentNode f loc
          (if mesh.edgesNumFaces (mesh.nodesEdges currentNode f) = 1 then
            env.FindIndex (t.topologySharedFaces (t.nodeTopologyMapping currentNode))
              (mesh.edgesFaces (mesh.nodesEdges currentNode f) 0)
          else f)
          faceRightIndex xiBoundary etaBoundary ops := by
  unfold ComputeSmootherOperatorsNode.gradientBody
  simp only []
  by_cases hret : st.returned = true
  · left
    rw [if_pos hret]
    exact ⟨rfl, rfl, Or.inl hret⟩
  · rw [if_neg hret]
    by_cases hfound : t.topologySharedFaces (t.nodeTopologyMapping currentNode)
        (env.FindIndex (t.topologySharedFaces (t.nodeTopologyMapping currentNode))
          (mesh.edgesFaces (mesh.nodesEdges currentNode f) 0)) ≠
        mesh.edgesFaces (mesh.nodesEdges currentNode f) 0
    · left
      rw [if_pos hfound]
      exact ⟨rfl, rfl, Or.inr (Or.inl hfound)⟩
    · rw [if_neg hfound]
      by_cases hb : mesh.edgesNumFaces (mesh.nodesEdges currentNode f) = 1
      · right
        rw [if_pos hb, if_pos hb]
        refine ⟨_, _, _, _, _, ?_, ?_, fun h => absurd hb h, rfl⟩
        · rfl
        · rfl
      · rw [if_neg hb]
        by_cases hneg : env.NextCircularBackwardIndex f
            (t.numTopologyFaces (t.nodeTopologyMapping currentNode)) < 0
        · left
          rw [if_pos hneg]
          exact ⟨rfl, rfl, Or.inr (Or.inr ⟨hb, Or.inl hneg⟩)⟩
        · rw [if_neg hneg]
          by_cases hcheck : (t.topologySharedFaces (t.nodeTopologyMapping currentNode) f ≠
                mesh.edgesFaces (mesh.nodesEdges currentNode f) 0 ∧
              t.topologySharedFaces (t.nodeTopologyMapping currentNode) f ≠
                mesh.edgesFaces (mesh.nodesEdges currentNode f) 1) ∨
            (t.topologySharedFaces (t.nodeTopologyMapping currentNode)
                  (env.NextCircularBackwardIndex f
                    (t.numTopologyFaces (t.nodeTopologyMapping currentNode))) ≠
                mesh.edgesFaces (mesh.nodesEdges currentNode f) 0 ∧
              t.topologySharedFaces (t.nodeTopologyMapping currentNode)
                  (env.NextCircularBackwardIndex f
                    (t.numTopologyFaces (t.nodeTopologyMapping currentNode))) ≠
                mesh.edgesFaces (mesh.nodesEdges currentNode f) 1)
          · left
            rw [if_pos hcheck]
            exact ⟨rfl, rfl, Or.inr (Or.inr ⟨hb, Or.inr hcheck⟩)⟩
          · right
            rw [if_neg hcheck, if_neg hb]
            refine ⟨_, _, _, _, _, ?_, ?_, ?_, rfl⟩
            · rfl
            · rfl
            · exact fun _ => rfl

/-- The end of an iteration leaves the gradient rows of the edge with sum zero when the
rows of `m_Az` of the faces at the edge sum to one. -/
theorem ComputeSmootherOperatorsNode.gradientFinish_sums (mesh : Mesh) (t : Topologies)
    (Az : Int → Int → Int → ℚ) (currentNode f : Int)
    (loc : ComputeSmootherOperatorsNode.EdgeLocals) (faceLeftIndex faceRightIndex : Int)
    (xiBoundary etaBoundary : ℚ) (ops : NodeOperators)
    (hf0 : 0 ≤ f)
    (hfN : f + 1 < ((t.numTopologyNodes (t.nodeTopologyMapping currentNode)).toNat : Int))
    (hedge : mesh.edgesNumFaces (mesh.nodesEdges currentNode f) = 1 ∨
      mesh.edgesNumFaces (mesh.nodesEdges currentNode f) = 2)
    (hleft : sumRange (Az (t.nodeTopologyMapping currentNode) faceLeftIndex)
      (t.numTopologyNodes (t.nodeTopologyMapping currentNode)).toNat = 1)
    (hright : mesh.edgesNumFaces (mesh.nodesEdges currentNode f) = 2 →
      sumRange (Az (t.nodeTopologyMapping currentNode) faceRightIndex)
        (t.numTopologyNodes (t.nodeTopologyMapping currentNode)).toNat = 1) :
    sumRange ((ComputeSmootherOperatorsNode.gradientFinish mesh t Az currentNode f loc
        faceLeftIndex faceRightIndex xiBoundary etaBoundary ops).operators.Gxi
        (t.nodeTopologyMapping currentNode) f)
      (t.numTopologyNodes (t.nodeTopologyMapping currentNode)).toNat = 0 ∧
    sumRange ((ComputeSmootherOperatorsNode.gradientFinish mesh t Az currentNode f loc
        faceLeftIndex faceRightIndex xiBoundary etaBoundary ops).operators.Geta
        (t.nodeTopologyMapping currentNode) f)
      (t.numTopologyNodes (t.nodeTopologyMapping currentNode)).toNat = 0 := by
  obtain ⟨hxi, heta, _⟩ := ComputeSmootherOperatorsNode.gradientFinish_rows mesh t Az
    currentNode f loc faceLeftIndex faceRightIndex xiBoundary etaBoundary ops
  obtain ⟨cxi, ceta⟩ := ComputeSmootherOperatorsNode.factors_cancel loc
    (t.topologyXi (t.nodeTopologyMapping currentNode) (f + 1))
    (t.topologyEta (t.nodeTopologyMapping currentNode) (f + 1))
    (mesh.edgesNumFaces (mesh.nodesEdges currentNode f))
  rw [if_pos hedge] at cxi ceta
  rw [hxi, heta, ComputeSmootherOperatorsNode.gradientRow_sum _ _ _ _ _ _ _ _ _ _ hf0 hfN,
    ComputeSmootherOperatorsNode.gradientRow_sum _ _ _ _ _ _ _ _ _ _ hf0 hfN, hleft]
  by_cases h2 : mesh.edgesNumFaces (mesh.nodesEdges currentNode f) = 2
  · rw [if_pos h2, if_pos h2, hright h2]
    simp only [mul_one]
    rw [if_pos h2] at cxi ceta
    exact ⟨cxi, ceta⟩
  · rw [if_neg h2, if_neg h2]
    simp only [mul_one]
    rw [if_neg h2] at cxi ceta
    exact ⟨cxi, ceta⟩

/-- The end of an iteration does not set the return flag. -/
theorem ComputeSmootherOperatorsNode.gradientFinish_returned (mesh : Mesh) (t : Topologies)
    (Az : Int → Int → Int → ℚ) (currentNode f : Int)
    (loc : ComputeSmootherOperatorsNode.EdgeLocals) (faceLeftIndex faceRightIndex : Int)
    (xiBoundary etaBoundary : ℚ) (ops : NodeOperators) :
    (ComputeSmootherOperatorsNode.gradientFinish mesh t Az currentNode f loc faceLeftIndex
      faceRightIndex xiBoundary etaBoundary ops).returned = false := rfl

/-- When `return false` is executed: an iteration of the second loop of
`ComputeSmootherOperatorsNode` returns exactly when the left face of the edge is not on
the list of shared faces or, for an edge that is not a boundary edge whose preceding
face index is not negative, one of the two faces around it is no face of the edge. -/
theorem ComputeSmootherOperatorsNode.gradientBody_returned (env : Env) (mesh : Mesh)
    (t : Topologies) (Az : Int → Int → Int → ℚ) (currentNode f : Int)
    (st : ComputeSmootherOperatorsNode.Gradients) :
    (ComputeSmootherOperatorsNode.gradientBody env mesh t Az currentNode f st).returned = true ↔
      (st.returned = true ∨
        t.topologySharedFaces (t.nodeTopologyMapping currentNode)
            (env.FindIndex (t.topologySharedFaces (t.nodeTopologyMapping currentNode))
              (mesh.edgesFaces (mesh.nodesEdges currentNode f) 0)) ≠
          mesh.edgesFaces (mesh.nodesEdges currentNode f) 0 ∨
        (mesh.edgesNumFaces (mesh.nodesEdges currentNode f) ≠ 1 ∧
          ¬ env.NextCircularBackwardIndex f
              (t.numTopologyFaces (t.nodeTopologyMapping currentNode)) < 0 ∧
          ((t.topologySharedFaces (t.nodeTopologyMapping currentNode) f ≠
                mesh.edgesFaces (mesh.nodesEdges currentNode f) 0 ∧
              t.topologySharedFaces (t.nodeTopologyMapping currentNode) f ≠
                mesh.edgesFaces (mesh.nodesEdges currentNode f) 1) ∨
            (t.topologySharedFaces (t.nodeTopologyMapping currentNode)
                  (env.NextCircularBackwardIndex f
                    (t.numTopologyFaces (t.nodeTopologyMapping currentNode))) ≠
                mesh.edgesFaces (mesh.nodesEdges currentNode f) 0 ∧
              t.topologySharedFaces (t.nodeTopologyMapping currentNode)
                  (env.NextCircularBackwardIndex f
                    (t.numTopologyFaces (t.nodeTopologyMapping currentNode))) ≠
                mesh.edgesFaces (mesh.nodesEdges currentNode f) 1)))) := by
  unfold ComputeSmootherOperatorsNode.gradientBody
  simp only []
  by_cases hret : st.returned = true
  · rw [if_pos hret]
    exact ⟨fun _ => Or.inl hret, fun _ => hret⟩
  · rw [if_neg hret]
    by_cases hfound : t.topologySharedFaces (t.nodeTopologyMapping currentNode)
        (env.FindIndex (t.topologySharedFaces (t.nodeTopologyMapping currentNode))
          (mesh.edgesFaces (mesh.nodesEdges currentNode f) 0)) ≠
        mesh.edgesFaces (mesh.nodesEdges currentNode f) 0
    · rw [if_pos hfound]
      exact ⟨fun _ => Or.inr (Or.inl hfound), fun _ => rfl⟩
    · rw [if_neg hfound]
      by_cases hb : mesh.edgesNumFaces (mesh.nodesEdges currentNode f) = 1
      · rw [if_pos hb, ComputeSmootherOperatorsNode.gradientFinish_returned]
        constructor
        · intro h
          exact absurd h (by decide)
        · rintro (h | h | ⟨h, _⟩)
          · exact absurd h hret
          · exact absurd h hfound
          · exact absurd hb h
      · rw [if_neg hb]
        by_cases hneg : env.NextCircularBackwardIndex f
            (t.numTopologyFaces (t.nodeTopologyMapping currentNode)) < 0
        · rw [if_pos hneg]
          constructor
          · intro h
            exact absurd h hret
          · rintro (h | h | ⟨_, h, _⟩)
            · exact absurd h hret
            · exact absurd h hfound
            · exact absurd hneg h
        · rw [if_neg hneg]
          by_cases hcheck : (t.topologySharedFaces (t.nodeTopologyMapping currentNode) f ≠
                mesh.edgesFaces (mesh.nodesEdges currentNode f) 0 ∧
              t.topologySharedFaces (t.nodeTopologyMapping currentNode) f ≠
                mesh.edgesFaces (mesh.nodesEdges currentNode f) 1) ∨
            (t.topologySharedFaces (t.nodeTopologyMapping currentNode)
                  (env.NextCircularBackwardIndex f
                    (t.numTopologyFaces (t.nodeTopologyMapping currentNode))) ≠
                mesh.edgesFaces (mesh.nodesEdges currentNode f) 0 ∧
              t.topologySharedFaces (t.nodeTopologyMapping currentNode)
                  (env.NextCircularBackwardIndex f
                    (t.numTopologyFaces (t.nodeTopologyMapping currentNode))) ≠
                mesh.edgesFaces (mesh.nodesEdges currentNode f) 1)
          · rw [if_pos hcheck]
            exact ⟨fun _ => Or.inr (Or.inr ⟨hb, hneg, hcheck⟩), fun _ => rfl⟩
          · rw [if_neg hcheck, ComputeSmootherOperatorsNode.gradientFinish_returned]
            constructor
            · intro h
              exact absurd h (by decide)
            · rintro (h | h | ⟨_, _, h⟩)
              · exact absurd h hret
              · exact absurd h hfound
              · exact absurd h hcheck

/-- After `return false` no later iteration changes the state. -/
theorem ComputeSmootherOperatorsNode.gradientBody_after_return (env : Env) (mesh : Mesh)
    (t : Topologies) (Az : Int → Int → Int → ℚ) (currentNode f : Int)
    (st : ComputeSmootherOperatorsNode.Gradients) (h : st.returned = true) :
    ComputeSmootherOperatorsNode.gradientBody env mesh t Az currentNode f st = st := by
  unfold ComputeSmootherOperatorsNode.gradientBody
  rw [if_pos h]

/-- A loop that ends without `return false` has not returned after any number of its
first iterations. -/
theorem ComputeSmootherOperatorsNode.gradients_earlier (env : Env) (mesh : Mesh)
    (t : Topologies) (Az : Int → Int → Int → ℚ) (currentNode : Int)
    (s : ComputeSmootherOperatorsNode.Gradients) (k j : Nat)
    (h : (forRange (ComputeSmootherOperatorsNode.gradientBody env mesh t Az currentNode)
      (k + j) s).returned = false) :
    (forRange (ComputeSmootherOperatorsNode.gradientBody env mesh t Az currentNode)
      k s).returned = false := by
  by_contra hk
  have hk1 : (forRange (ComputeSmootherOperatorsNode.gradientBody env mesh t Az currentNode)
      k s).returned = true := by simpa using hk
  have h1 := forRange_invariant_from (fun u => u.returned = true)
    (ComputeSmootherOperatorsNode.gradientBody env mesh t Az currentNode) k j s hk1
    (fun i u hu => by
      show (ComputeSmootherOperatorsNode.gradientBody env mesh t Az currentNode i u).returned
        = true
      rw [ComputeSmootherOperatorsNode.gradientBody_after_return env mesh t Az currentNode i u
        hu]
      exact hu)
  rw [show (forRange (ComputeSmootherOperatorsNode.gradientBody env mesh t Az currentNode)
    (k + j) s).returned = true from h1] at h
  exact absurd h (by decide)

/-- The iteration of another edge leaves the gradient rows of edge `f`. -/
theorem ComputeSmootherOperatorsNode.gradientBody_keeps (env : Env) (mesh : Mesh)
    (t : Topologies) (Az : Int → Int → Int → ℚ) (currentNode i f : Int) (hif : f ≠ i)
    (st : ComputeSmootherOperatorsNode.Gradients) :
    (ComputeSmootherOperatorsNode.gradientBody env mesh t Az currentNode i st).operators.Gxi
        (t.nodeTopologyMapping currentNode) f =
      st.operators.Gxi (t.nodeTopologyMapping currentNode) f ∧
    (ComputeSmootherOperatorsNode.gradientBody env mesh t Az currentNode i st).operators.Geta
        (t.nodeTopologyMapping currentNode) f =
      st.operators.Geta (t.nodeTopologyMapping currentNode) f := by
  rcases ComputeSmootherOperatorsNode.gradientBody_cases env mesh t Az currentNode i st with
    ⟨hxi, heta, _⟩ | ⟨loc, R, xb, eb, ops, hxi, heta, _, hbody⟩
  · rw [hxi, heta]
    exact ⟨rfl, rfl⟩
  · obtain ⟨_, _, hother⟩ := ComputeSmootherOperatorsNode.gradientFinish_rows mesh t Az
      currentNode i loc
      (if mesh.edgesNumFaces (mesh.nodesEdges currentNode i) = 1 then
        env.FindIndex (t.topologySharedFaces (t.nodeTopologyMapping currentNode))
          (mesh.edgesFaces (mesh.nodesEdges currentNode i) 0)
      else i) R xb eb ops
    rw [hbody, (hother f hif).1, (hother f hif).2, hxi, heta]
    exact ⟨rfl, rfl⟩

/-- Vanishing row sums of edge `f` are kept by every iteration of the second loop: the
iterations of other edges leave its rows, and its own iteration leaves them or writes
rows with sum zero. -/
theorem ComputeSmootherOperatorsNode.gradientBody_sums (env : Env) (mesh : Mesh)
    (t : Topologies) (Az : Int → Int → Int → ℚ) (currentNode i f : Int)
    (st : ComputeSmootherOperatorsNode.Gradients)
    (hf0 : 0 ≤ f)
    (hfN : f + 1 < ((t.numTopologyNodes (t.nodeTopologyMapping currentNode)).toNat : Int))
    (hedge : mesh.edgesNumFaces (mesh.nodesEdges currentNode f) = 1 ∨
      mesh.edgesNumFaces (mesh.nodesEdges currentNode f) = 2)
    (hboundary : mesh.edgesNumFaces (mesh.nodesEdges currentNode f) = 1 →
      sumRange (Az (t.nodeTopologyMapping currentNode)
          (env.FindIndex (t.topologySharedFaces (t.nodeTopologyMapping currentNode))
            (mesh.edgesFaces (mesh.nodesEdges currentNode f) 0)))
        (t.numTopologyNodes (t.nodeTopologyMapping currentNode)).toNat = 1)
    (hinterior : mesh.edgesNumFaces (mesh.nodesEdges currentNode f) = 2 →
      sumRange (Az (t.nodeTopologyMapping currentNode) f)
          (t.numTopologyNodes (t.nodeTopologyMapping currentNode)).toNat = 1 ∧
        sumRange (Az (t.nodeTopologyMapping currentNode)
            (env.NextCircularBackwardIndex f
              (t.numTopologyFaces (t.nodeTopologyMapping currentNode))))
          (t.numTopologyNodes (t.nodeTopologyMapping currentNode)).toNat = 1)
    (hst : sumRange (st.operators.Gxi (t.nodeTopologyMapping currentNode) f)
        (t.numTopologyNodes (t.nodeTopologyMapping currentNode)).toNat = 0 ∧
      sumRange (st.operators.Geta (t.nodeTopologyMapping currentNode) f)
        (t.numTopologyNodes (t.nodeTopologyMapping currentNode)).toNat = 0) :
    sumRange ((ComputeSmootherOperatorsNode.gradientBody env mesh t Az currentNode i
        st).operators.Gxi (t.nodeTopologyMapping currentNode) f)
      (t.numTopologyNodes (t.nodeTopologyMapping currentNode)).toNat = 0 ∧
    sumRange ((ComputeSmootherOperatorsNode.gradientBody env mesh t Az currentNode i
        st).operators.Geta (t.nodeTopologyMapping currentNode) f)
      (t.numTopologyNodes (t.nodeTopologyMapping currentNode)).toNat = 0 := by
  by_cases hif : f = i
  · subst hif
    rcases ComputeSmootherOperatorsNode.gradientBody_cases env mesh t Az currentNode f st with
      ⟨hxi, heta, _⟩ | ⟨loc, R, xb, eb, ops, _, _, hR0, hbody⟩
    · rw [hxi, heta]
      exact hst
    have hL : sumRange (Az (t.nodeTopologyMapping currentNode)
        (if mesh.edgesNumFaces (mesh.nodesEdges currentNode f) = 1 then
          env.FindIndex (t.topologySharedFaces (t.nodeTopologyMapping currentNode))
            (mesh.edgesFaces (mesh.nodesEdges currentNode f) 0)
        else f))
        (t.numTopologyNodes (t.nodeTopologyMapping currentNode)).toNat = 1 := by
      rcases hedge with h1 | h2
      · rw [if_pos h1]
        exact hboundary h1
      · rw [if_neg (by omega)]
        exact (hinterior h2).1
    have hR : mesh.edgesNumFaces (mesh.nodesEdges currentNode f) = 2 →
        sumRange (Az (t.nodeTopologyMapping currentNode) R)
          (t.numTopologyNodes (t.nodeTopologyMapping currentNode)).toNat = 1 := by
      intro h2
      rw [hR0 (by omega)]
      exact (hinterior h2).2
    rw [hbody]
    exact ComputeSmootherOperatorsNode.gradientFinish_sums mesh t Az currentNode f loc _ R xb eb
      ops hf0 hfN hedge hL hR
  · obtain ⟨hxi, heta⟩ := ComputeSmootherOperatorsNode.gradientBody_keeps env mesh t Az
      currentNode i f hif st
    rw [hxi, heta]
    exact hst

/-- The iteration of edge `f` that neither starts nor ends after `return false`, and
that is not skipped for a negative index of the preceding face, writes gradient rows
with sum zero. -/
theorem ComputeSmootherOperatorsNode.gradientBody_own (env : Env) (mesh : Mesh)
    (t : Topologies) (Az : Int → Int → Int → ℚ) (currentNode f : Int)
    (st : ComputeSmootherOperatorsNode.Gradients)
    (hf0 : 0 ≤ f)
    (hfN : f + 1 < ((t.numTopologyNodes (t.nodeTopologyMapping currentNode)).toNat : Int))
    (hedge : mesh.edgesNumFaces (mesh.nodesEdges currentNode f) = 1 ∨
      mesh.edgesNumFaces (mesh.nodesEdges currentNode f) = 2)
    (hboundary : mesh.edgesNumFaces (mesh.nodesEdges currentNode f) = 1 →
      sumRange (Az (t.nodeTopologyMapping currentNode)
          (env.FindIndex (t.topologySharedFaces (t.nodeTopologyMapping currentNode))
            (mesh.edgesFaces (mesh.nodesEdges currentNode f) 0)))
        (t.numTopologyNodes (t.nodeTopologyMapping currentNode)).toNat = 1)
    (hinterior : mesh.edgesNumFaces (mesh.nodesEdges currentNode f) = 2 →
      sumRange (Az (t.nodeTopologyMapping currentNode) f)
          (t.numTopologyNodes (t.nodeTopologyMapping currentNode)).toNat = 1 ∧
        sumRange (Az (t.nodeTopologyMapping currentNode)
            (env.NextCircularBackwardIndex f
              (t.numTopologyFaces (t.nodeTopologyMapping currentNode))))
          (t.numTopologyNodes (t.nodeTopologyMapping currentNode)).toNat = 1)
    (hidx : mesh.edgesNumFaces (mesh.nodesEdges currentNode f) = 2 →
      0 ≤ env.NextCircularBackwardIndex f
        (t.numTopologyFaces (t.nodeTopologyMapping currentNode)))
    (hbefore : st.returned = false)
    (hafter : (ComputeSmootherOperatorsNode.gradientBody env mesh t Az currentNode f
      st).returned = false) :
    sumRange ((ComputeSmootherOperatorsNode.gradientBody env mesh t Az currentNode f
        st).operators.Gxi (t.nodeTopologyMapping currentNode) f)
      (t.numTopologyNodes (t.nodeTopologyMapping currentNode)).toNat = 0 ∧
    sumRange ((ComputeSmootherOperatorsNode.gradientBody env mesh t Az currentNode f
        st).operators.Geta (t.nodeTopologyMapping currentNode) f)
      (t.numTopologyNodes (t.nodeTopologyMapping currentNode)).toNat = 0 := by
  have hnot := (ComputeSmootherOperatorsNode.gradientBody_returned env mesh t Az currentNode f
    st).not.mp (by rw [hafter]; decide)
  rcases ComputeSmootherOperatorsNode.gradientBody_cases env mesh t Az currentNode f st with
    ⟨_, _, hcause⟩ | ⟨loc, R, xb, eb, ops, _, _, hR0, hbody⟩
  · exfalso
    rcases hcause with h | h | ⟨hb, h | h⟩
    · rw [hbefore] at h
      exact absurd h (by decide)
    · exact hnot (Or.inr (Or.inl h))
    · have h2 : mesh.edgesNumFaces (mesh.nodesEdges currentNode f) = 2 := by omega
      have := hidx h2
      omega
    · have h2 : mesh.edgesNumFaces (mesh.nodesEdges currentNode f) = 2 := by omega
      have h0 := hidx h2
      exact hnot (Or.inr (Or.inr ⟨hb, by omega, h⟩))
  have hL : sumRange (Az (t.nodeTopologyMapping currentNode)
      (if mesh.edgesNumFaces (mesh.nodesEdges currentNode f) = 1 then
        env.FindIndex (t.topologySharedFaces (t.nodeTopologyMapping currentNode))
          (mesh.edgesFaces (mesh.nodesEdges currentNode f) 0)
      else f))
      (t.numTopologyNodes (t.nodeTopologyMapping currentNode)).toNat = 1 := by
    rcases hedge with h1 | h2
    · rw [if_pos h1]
      exact hboundary h1
    · rw [if_neg (by omega)]
      exact (hinterior h2).1
  have hR : mesh.edgesNumFaces (mesh.nodesEdges currentNode f) = 2 →
      sumRange (Az (t.nodeTopologyMapping currentNode) R)
        (t.numTopologyNodes (t.nodeTopologyMapping currentNode)).toNat = 1 := by
    intro h2
    rw [hR0 (by omega)]
    exact (hinterior h2).2
  rw [hbody]
  exact ComputeSmootherOperatorsNode.gradientFinish_sums mesh t Az currentNode f loc _ R xb eb
    ops hf0 hfN hedge hL hR

/-- The second loop of `ComputeSmootherOperatorsNode` is not left by `return false`
when the face checks pass at every edge slot. -/
theorem ComputeSmootherOperatorsNode.gradients_returned (env : Env) (mesh : Mesh)
    (t : Topologies) (Az : Int → Int → Int → ℚ) (currentNode : Int) (ops : NodeOperators)
    (hchecks : ∀ i : Nat, i < (t.numTopologyFaces (t.nodeTopologyMapping currentNode)).toNat →
      ¬ (t.topologySharedFaces (t.nodeTopologyMapping currentNode)
            (env.FindIndex (t.topologySharedFaces (t.nodeTopologyMapping currentNode))
              (mesh.edgesFaces (mesh.nodesEdges currentNode i) 0)) ≠
          mesh.edgesFaces (mesh.nodesEdges currentNode i) 0 ∨
        (mesh.edgesNumFaces (mesh.nodesEdges currentNode i) ≠ 1 ∧
          ¬ env.NextCircularBackwardIndex i
              (t.numTopologyFaces (t.nodeTopologyMapping currentNode)) < 0 ∧
          ((t.topologySharedFaces (t.nodeTopologyMapping currentNode) i ≠
                mesh.edgesFaces (mesh.nodesEdges currentNode i) 0 ∧
              t.topologySharedFaces (t.nodeTopologyMapping currentNode) i ≠
                mesh.edgesFaces (mesh.nodesEdges currentNode i) 1) ∨
            (t.topologySharedFaces (t.nodeTopologyMapping currentNode)
                  (env.NextCircularBackwardIndex i
                    (t.numTopologyFaces (t.nodeTopologyMapping currentNode))) ≠
                mesh.edgesFaces (mesh.nodesEdges currentNode i) 0 ∧
              t.topologySharedFaces (t.nodeTopologyMapping currentNode)
                  (env.NextCircularBackwardIndex i
                    (t.numTopologyFaces (t.nodeTopologyMapping currentNode))) ≠
                mesh.edgesFaces (mesh.nodesEdges currentNode i) 1))))) :
    (ComputeSmootherOperatorsNode.gradients env mesh t Az currentNode ops).returned = false := by
  unfold ComputeSmootherOperatorsNode.gradients
  refine forRange_invariant
    (fun u : ComputeSmootherOperatorsNode.Gradients => u.returned = false) _ _ _ rfl ?_
  intro i hi u hu
  show (ComputeSmootherOperatorsNode.gradientBody env mesh t Az currentNode i u).returned = false
  have hnot := (ComputeSmootherOperatorsNode.gradientBody_returned env mesh t Az currentNode i
    u).not.mpr (by
      rintro (h | h)
      · rw [hu] at h
        exact absurd h (by decide)
      · exact hchecks i hi h)
  simpa using hnot

/-- C38: for a node with topology class `t` and an incident edge slot `f` that the
second loop of `ComputeSmootherOperatorsNode` processes - the loop is not left by
`return false`, the edge has one face (boundary) or two (interior), and for an interior
edge the index of the preceding face is not negative - if the rows of `m_Az` of the
faces at the edge sum to 1 (for a boundary edge the row of the left face as `FindIndex`
gives it, for an interior edge the rows `f` and the preceding index), then after the
loop the gradient rows annihilate constants: `sum_i Gxi[t][f][i] = 0` and
`sum_i Geta[t][f][i] = 0`, the sums running over the `numTopologyNodes` entries of the
class, of which the entry `f + 1` of the far node is one. -/
theorem C38_gradient_rows_annihilate_constants (env : Env) (mesh : Mesh) (t : Topologies)
    (Az : Int → Int → Int → ℚ) (currentNode : Int) (ops : NodeOperators) (f : Nat)
    (hfaces : (f : Int) < t.numTopologyFaces (t.nodeTopologyMapping currentNode))
    (hnodes : (f : Int) + 1 < t.numTopologyNodes (t.nodeTopologyMapping currentNode))
    (hedge : mesh.edgesNumFaces (mesh.nodesEdges currentNode f) = 1 ∨
      mesh.edgesNumFaces (mesh.nodesEdges currentNode f) = 2)
    (hidx : mesh.edgesNumFaces (mesh.nodesEdges currentNode f) = 2 →
      0 ≤ env.NextCircularBackwardIndex f
        (t.numTopologyFaces (t.nodeTopologyMapping currentNode)))
    (hret : (ComputeSmootherOperatorsNode.gradients env mesh t Az currentNode ops).returned =
      false)
    (hboundary : mesh.edgesNumFaces (mesh.nodesEdges currentNode f) = 1 →
      sumRange (Az (t.nodeTopologyMapping currentNode)
          (env.FindIndex (t.topologySharedFaces (t.nodeTopologyMapping currentNode))
            (mesh.edgesFaces (mesh.nodesEdges currentNode f) 0)))
        (t.numTopologyNodes (t.nodeTopologyMapping currentNode)).toNat = 1)
    (hinterior : mesh.edgesNumFaces (mesh.nodesEdges currentNode f) = 2 →
      sumRange (Az (t.nodeTopologyMapping currentNode) f)
          (t.numTopologyNodes (t.nodeTopologyMapping currentNode)).toNat = 1 ∧
        sumRange (Az (t.nodeTopologyMapping currentNode)
            (env.NextCircularBackwardIndex f
              (t.numTopologyFaces (t.nodeTopologyMapping currentNode))))
          (t.numTopologyNodes (t.nodeTopologyMapping currentNode)).toNat = 1) :
    sumRange ((ComputeSmootherOperatorsNode.gradients env mesh t Az currentNode
        ops).operators.Gxi (t.nodeTopologyMapping currentNode) f)
      (t.numTopologyNodes (t.nodeTopologyMapping currentNode)).toNat = 0 ∧
    sumRange ((ComputeSmootherOperatorsNode.gradients env mesh t Az currentNode
        ops).operators.Geta (t.nodeTopologyMapping currentNode) f)
      (t.numTopologyNodes (t.nodeTopologyMapping currentNode)).toNat = 0 := by
  have hfM : f < (t.numTopologyFaces (t.nodeTopologyMapping currentNode)).toNat :=
    Int.lt_toNat.mpr hfaces
  have hfN : (f : Int) + 1 <
      ((t.numTopologyNodes (t.nodeTopologyMapping currentNode)).toNat : Int) := by
    rw [Int.toNat_of_nonneg (by omega)]
    exact hnodes
  obtain ⟨j, hj⟩ := Nat.exists_eq_add_of_lt hfM
  unfold ComputeSmootherOperatorsNode.gradients at hret ⊢
  rw [hj, show f + j + 1 = f + 1 + j by omega] at hret ⊢
  generalize ComputeSmootherOperatorsNode.Gradients.mk false 0 0 0 0 _ = s0 at hret ⊢
  have h1 := ComputeSmootherOperatorsNode.gradients_earlier env mesh t Az currentNode s0
    (f + 1) j hret
  have h0 := ComputeSmootherOperatorsNode.gradients_earlier env mesh t Az currentNode s0
    f 1 h1
  rw [forRange_succ] at h1
  have hown := ComputeSmootherOperatorsNode.gradientBody_own env mesh t Az currentNode f
    (forRange (ComputeSmootherOperatorsNode.gradientBody env mesh t Az currentNode) f s0)
    (Int.natCast_nonneg f) hfN hedge hboundary hinterior hidx h0 h1
  exact forRange_invariant_from
    (fun u : ComputeSmootherOperatorsNode.Gradients =>
      sumRange (u.operators.Gxi (t.nodeTopologyMapping currentNode) f)
        (t.numTopologyNodes (t.nodeTopologyMapping currentNode)).toNat = 0 ∧
      sumRange (u.operators.Geta (t.nodeTopologyMapping currentNode) f)
        (t.numTopologyNodes (t.nodeTopologyMapping currentNode)).toNat = 0)
    (ComputeSmootherOperatorsNode.gradientBody env mesh t Az currentNode) (f + 1) j s0
    (by rw [forRange_succ]; exact hown)
    (fun i u hu => ComputeSmootherOperatorsNode.gradientBody_sums env mesh t Az currentNode i f
      u (Int.natCast_nonneg f) hfN hedge hboundary hinterior hu)

/-- C38 on the interior node 0 of `diamondMesh` with the weights `thirdsAz`: the four
edge slots pass the face checks, the rows 0 and 3 of the weights sum to 1, and the
gradient rows of edge slot 0 sum to zero. -/
theorem C38_witness :
    sumRange (Example.thirdsAz 0 0) 5 = 1 ∧ sumRange (Example.thirdsAz 0 3) 5 = 1 ∧
    sumRange ((ComputeSmootherOperatorsNode.gradients Example.env Example.diamondMesh
        Example.fivePointSmoother.topologies Example.thirdsAz 0
        Example.newSmoother.operators).operators.Gxi 0 0) 5 = 0 ∧
    sumRange ((ComputeSmootherOperatorsNode.gradients Example.env Example.diamondMesh
        Example.fivePointSmoother.topologies Example.thirdsAz 0
        Example.newSmoother.operators).operators.Geta 0 0) 5 = 0 := by
  have ha : sumRange (Example.thirdsAz 0 0) 5 = 1 := by
    norm_num [sumRange, forRange, Example.thirdsAz, Example.ofList, Example.toNat_small]
  have hb : sumRange (Example.thirdsAz 0 3) 5 = 1 := by
    norm_num [sumRange, forRange, Example.thirdsAz, Example.ofList, Example.toNat_small]
  have hret : (ComputeSmootherOperatorsNode.gradients Example.env Example.diamondMesh
      Example.fivePointSmoother.topologies Example.thirdsAz 0
      Example.newSmoother.operators).returned = false := by
    apply ComputeSmootherOperatorsNode.gradients_returned
    intro i hi
    have hi4 : i < 4 := by
      simpa [Example.fivePointSmoother, Example.toNat_small] using hi
    interval_cases i <;>
      norm_num [Example.fivePointSmoother, Example.diamondMesh, Example.env, Example.findIndex,
        Example.nextCircularBackwardIndex, Example.ofList, Example.toNat_small]
  have h := C38_gradient_rows_annihilate_constants Example.env Example.diamondMesh
    Example.fivePointSmoother.topologies Example.thirdsAz 0 Example.newSmoother.operators 0
    (by norm_num [Example.fivePointSmoother])
    (by norm_num [Example.fivePointSmoother])
    (Or.inr (by norm_num [Example.diamondMesh, Example.ofList]))
    (fun _ => by norm_num [Example.env, Example.nextCircularBackwardIndex,
      Example.fivePointSmoother])
    hret
    (fun h1 => absurd h1 (by norm_num [Example.diamondMesh, Example.ofList]))
    (fun _ => by
      have h3 : Example.env.NextCircularBackwardIndex ((0 : Nat) : Int)
          (Example.fivePointSmoother.topologies.numTopologyFaces
            (Example.fivePointSmoother.topologies.nodeTopologyMapping 0)) = 3 := by
        norm_num [Example.env, Example.nextCircularBackwardIndex, Example.fivePointSmoother]
      rw [h3]
      exact ⟨ha, hb⟩)
  exact ⟨ha, hb, h⟩

/-! ## Amended claims on the optimal angle and on the compressed terms -/

/-- C32 (amended): `OptimalEdgeAngle(k, theta1, theta2, isBoundaryEdge)` returns
`pi * (1 - 2/k)` whenever `k != 3` or one of the angles is -1, the value that stands
for an angle that is not given; any other value, the missing value with which
`thetaSquare` is initialised included, counts as a known angle. For `k = 3` with both
angles other than -1 it returns `pi / 2` when `theta1 + theta2 = pi` and the edge is
not a boundary edge, and `pi / 4` otherwise. -/
theorem C32_optimal_edge_angle (k : Int) (theta1 theta2 : ℚ) (isBoundaryEdge : Bool) :
    ((k ≠ 3 ∨ theta1 = -1 ∨ theta2 = -1) →
      OptimalEdgeAngle k theta1 theta2 isBoundaryEdge = M_PI * (1 - 2 / (k : ℚ))) ∧
    (k = 3 → theta1 ≠ -1 → theta2 ≠ -1 →
      ((theta1 + theta2 = M_PI ∧ isBoundaryEdge = false) →
        OptimalEdgeAngle k theta1 theta2 isBoundaryEdge = 1 / 2 * M_PI) ∧
      (¬ (theta1 + theta2 = M_PI ∧ isBoundaryEdge = false) →
        OptimalEdgeAngle k theta1 theta2 isBoundaryEdge = 1 / 4 * M_PI)) := by
  constructor
  · intro h
    exact OptimalEdgeAngle_default k theta1 theta2 isBoundaryEdge (by tauto)
  · intro hk h1 h2
    subst hk
    rw [OptimalEdgeAngle_triangle theta1 theta2 isBoundaryEdge h1 h2]
    exact ⟨fun h => if_pos h, fun h => if_neg h⟩

/-- C32 at three inputs: a quadrilateral gives `pi / 2` whatever the angles are; a
triangle with the angles `M_PI / 2` and `M_PI / 2` at an edge that is not a boundary
edge gives `pi / 2`; the same triangle at a boundary edge gives `pi / 4`. -/
theorem C32_witness :
    OptimalEdgeAngle 4 0 0 false = 1 / 2 * M_PI ∧
    OptimalEdgeAngle 3 (M_PI / 2) (M_PI / 2) false = 1 / 2 * M_PI ∧
    OptimalEdgeAngle 3 (M_PI / 2) (M_PI / 2) true = 1 / 4 * M_PI := by
  have hne : M_PI / 2 ≠ -1 := by unfold M_PI; norm_num
  refine ⟨?_, ?_, ?_⟩
  · rw [(C32_optimal_edge_angle 4 0 0 false).1 (Or.inl (by norm_num))]
    norm_num
    ring
  · exact ((C32_optimal_edge_angle 3 (M_PI / 2) (M_PI / 2) false).2 rfl hne hne).1
      ⟨by ring, rfl⟩
  · exact ((C32_optimal_edge_angle 3 (M_PI / 2) (M_PI / 2) true).2 rfl hne hne).2
      (fun h => absurd h.2 (by decide))

/-- C16 (amended): `ComputeLinearSystemTerms`, called with the flag for keeping the
circumcenters not set and index ranges of which none starts before an earlier one ends
(what `AllocateLinearSystem` leaves), stores for every node `n` of type 1 or 2 with at
least two edges and every slot `k` with `1 <= k < width(n)`, at the flat index
`end_idx[n] + k - 1`: for `k <= valence` the neighbour `nodes_nodes[n][k-1]` with the
weight `atpf_local * w_orth[n][k-1]`, plus `(1 - atpf_local) * w_smoother[n][k]` when
`n` is interior (type 1) and `atpf_local < 1`; for `k > valence` the neighbour
`connected_nodes[n][k]` with the smoother term alone, which is 0 when `n` is not
interior or `atpf_local >= 1`; the x and y weights are equal; the two right-hand side
entries of the node are `atpf_local * rhs_orth[n]`; and `atpf_local` is
`max(atpf_boundary, atpf)` for type 2 and `atpf` otherwise. -/
theorem C16_compressed_terms_of_a_movable_node (mesh : Mesh) (o : Orthogonalization)
    (n : Nat) (k : Int)
    (hdisjoint : ∀ a b : Int, 0 ≤ a → a < b → b < mesh.numNodes →
      o.linearSystem.compressedStartNodeIndex a ≤ o.linearSystem.compressedEndNodeIndex b)
    (hkeep : o.keepCircumcentersAndMassCenters = false)
    (hn : n < mesh.numNodes)
    (htype : mesh.nodesTypes n = 1 ∨ mesh.nodesTypes n = 2)
    (hval : 2 ≤ mesh.nodesNumEdges n)
    (hk1 : 1 ≤ k)
    (hkw : k < o.linearSystem.compressedStartNodeIndex n -
      o.linearSystem.compressedEndNodeIndex n) :
    let atpfLoc : ℚ := if mesh.nodesTypes n = 2 then
      max o.orthogonalizationToSmoothingFactorBoundary o.orthogonalizationToSmoothingFactor
      else o.orthogonalizationToSmoothingFactor
    let smootherTerm : ℚ :=
      if mesh.nodesTypes n = 1 ∧ atpfLoc < 1 then (1 - atpfLoc) * o.smoother.wSmoother n k
      else 0
    let idx : Int := o.linearSystem.compressedEndNodeIndex n + k - 1
    (k ≤ mesh.nodesNumEdges n →
      (ComputeLinearSystemTerms mesh o).linearSystem.compressedNodesNodes idx =
        o.nodesNodes n (k - 1) ∧
      (ComputeLinearSystemTerms mesh o).linearSystem.compressedWeightX idx =
        atpfLoc * o.wOrthogonalizer n (k - 1) + smootherTerm) ∧
    (mesh.nodesNumEdges n < k →
      (ComputeLinearSystemTerms mesh o).linearSystem.compressedNodesNodes idx =
        o.smoother.caches.connectedNodes n k ∧
      (ComputeLinearSystemTerms mesh o).linearSystem.compressedWeightX idx = smootherTerm) ∧
    (ComputeLinearSystemTerms mesh o).linearSystem.compressedWeightY idx =
      (ComputeLinearSystemTerms mesh o).linearSystem.compressedWeightX idx ∧
    (ComputeLinearSystemTerms mesh o).linearSystem.compressedRhs ((n : Int) * 2) =
      atpfLoc * o.rhsOrthogonalizer n 0 ∧
    (ComputeLinearSystemTerms mesh o).linearSystem.compressedRhs ((n : Int) * 2 + 1) =
      atpfLoc * o.rhsOrthogonalizer n 1 := by
  intro atpfLoc smootherTerm idx
  obtain ⟨j, hj⟩ : ∃ j, mesh.numNodes = n + 1 + j := ⟨mesh.numNodes - (n + 1), by omega⟩
  have hmov : ¬ NotMovable mesh.nodesTypes mesh.nodesNumEdges (n : Int) := by
    intro h
    rcases h with h | h
    · rcases htype with h1 | h2
      · exact h.1 h1
      · exact h.2 h2
    · omega
  have hin : o.linearSystem.compressedEndNodeIndex n ≤ idx ∧
      idx < o.linearSystem.compressedStartNodeIndex n := by
    constructor
    · show _ ≤ _ + k - 1; omega
    · show _ + k - 1 < _; omega
  have hkeeps := ComputeLinearSystemTerms.loop_keeps mesh o hdisjoint n idx hin o.linearSystem j
    (by omega)
  have hcontent := ComputeLinearSystemTerms.nodeBody_content mesh o (n : Int)
    (forRange (ComputeLinearSystemTerms.nodeBody mesh o) n o.linearSystem) atpfLoc rfl
    hmov hkeep
  have hloop : (ComputeLinearSystemTerms mesh o).linearSystem =
      forRange (ComputeLinearSystemTerms.nodeBody mesh o) (n + 1 + j) o.linearSystem := by
    rw [← hj]; rfl
  rw [hloop, hkeeps.1, hkeeps.2.1, hkeeps.2.2.1, hkeeps.2.2.2.1, hkeeps.2.2.2.2, forRange_succ]
  obtain ⟨c1, c2, c3⟩ := hcontent
  have hjk : ((k - 1).toNat : Int) = k - 1 := Int.toNat_of_nonneg (by omega)
  have hjlt : (k - 1).toNat < (o.linearSystem.compressedStartNodeIndex n -
      o.linearSystem.compressedEndNodeIndex n - 1).toNat := by
    have h2 : ((o.linearSystem.compressedStartNodeIndex n -
      o.linearSystem.compressedEndNodeIndex n - 1).toNat : Int) =
        o.linearSystem.compressedStartNodeIndex n -
          o.linearSystem.compressedEndNodeIndex n - 1 := Int.toNat_of_nonneg (by omega)
    have : ((k - 1).toNat : Int) < ((o.linearSystem.compressedStartNodeIndex n -
      o.linearSystem.compressedEndNodeIndex n - 1).toNat : Int) := by
      rw [hjk, h2]; omega
    exact_mod_cast this
  have hc := c1 (k - 1).toNat hjlt
  have hidx : o.linearSystem.compressedEndNodeIndex n + ((k - 1).toNat : Int) = idx := by
    rw [hjk]; show _ = _ + k - 1; ring
  have hk' : ((k - 1).toNat : Int) + 1 = k := by rw [hjk]; ring
  rw [hidx, hk'] at hc
  have hterm : (if 1 - atpfLoc > 0 ∧ mesh.nodesTypes n = 1 then
      (1 - atpfLoc) * o.smoother.wSmoother n k else 0) = smootherTerm := by
    show _ = if mesh.nodesTypes n = 1 ∧ atpfLoc < 1 then
      (1 - atpfLoc) * o.smoother.wSmoother n k else 0
    by_cases hc : mesh.nodesTypes n = 1 ∧ atpfLoc < 1
    · rw [if_pos hc, if_pos ⟨by linarith [hc.2], hc.1⟩]
    · rw [if_neg hc, if_neg (fun h => hc ⟨h.2, by linarith [h.1]⟩)]
  rw [hterm] at hc
  refine ⟨?_, ?_, hc.2.2, c2, c3⟩
  · intro hle
    rw [if_pos (by omega), if_pos (by omega)] at hc
    exact ⟨hc.1, by rw [hc.2.1]; ring⟩
  · intro hlt
    rw [if_neg (by omega), if_neg (by omega)] at hc
    exact ⟨hc.1, hc.2.1⟩


/-- C16 as stated fails in two ways. `Set` stores a blending factor of 2 as it is
given. With it, on `diamondMesh` and `overBlendedSystem`, the first slot of the
interior node 0 gets the weight `2 * 1/4 = 1/2`, the smoother term being left out
(line 281), where the claim gives `2 * 1/4 + (1 - 2) * 1/8 = 3/8`. With the flag for
keeping the circumcenters set, on `keptBlendedSystem`, the slot keeps the weight 0 it
held, where the claim gives `1/2 * 1/4 + 1/2 * 1/8 = 3/16`. -/
theorem C16_counterexample :
    (Set Example.env Example.diamondMesh Example.newOrthogonalization 0 0 0
      Example.doubleParameters).2.2.orthogonalizationToSmoothingFactor = 2 ∧
    Example.diamondMesh.nodesTypes 0 = 1 ∧ Example.diamondMesh.nodesNumEdges 0 = 4 ∧
    (ComputeLinearSystemTerms Example.diamondMesh
      Example.overBlendedSystem).linearSystem.compressedWeightX 0 = 1 / 2 ∧
    Example.overBlendedSystem.orthogonalizationToSmoothingFactor *
        Example.overBlendedSystem.wOrthogonalizer 0 0 +
      (1 - Example.overBlendedSystem.orthogonalizationToSmoothingFactor) *
        Example.overBlendedSystem.smoother.wSmoother 0 1 = 3 / 8 ∧
    Example.keptBlendedSystem.keepCircumcentersAndMassCenters = true ∧
    (ComputeLinearSystemTerms Example.diamondMesh
      Example.keptBlendedSystem).linearSystem.compressedWeightX 0 = 0 ∧
    Example.keptBlendedSystem.orthogonalizationToSmoothingFactor *
        Example.keptBlendedSystem.wOrthogonalizer 0 0 +
      (1 - Example.keptBlendedSystem.orthogonalizationToSmoothingFactor) *
        Example.keptBlendedSystem.smoother.wSmoother 0 1 = 3 / 16 := by
  refine ⟨?_, ?_, ?_, ?_, ?_, rfl, ?_, ?_⟩
  · simp [Set, Set.finish, Set.members, Set.maskedMesh, Example.diamondMesh,
      Example.newOrthogonalization, Example.doubleParameters, Example.parameters]
  · norm_num [Example.diamondMesh, Example.ofList, Example.toNat_small]
  · norm_num [Example.diamondMesh, Example.ofList, Example.toNat_small]
  · norm_num [ComputeLinearSystemTerms, ComputeLinearSystemTerms.nodeBody,
      ComputeLinearSystemTerms.slotBody, forRange, Example.overBlendedSystem,
      Example.blendedSystem, Example.newOrthogonalization, Example.newSmoother,
      Example.diamondMesh, Example.ofList, Example.toNat_small, Function.update_apply]
  · norm_num [Example.overBlendedSystem, Example.blendedSystem, Example.newSmoother,
      Example.ofList, Example.toNat_small]
  · norm_num [ComputeLinearSystemTerms, ComputeLinearSystemTerms.nodeBody,
      ComputeLinearSystemTerms.slotBody, forRange, Example.keptBlendedSystem,
      Example.blendedSystem, Example.newOrthogonalization, Example.newSmoother,
      Example.diamondMesh, Example.ofList, Example.toNat_small, Function.update_apply]
  · norm_num [Example.keptBlendedSystem, Example.blendedSystem, Example.newSmoother,
      Example.ofList, Example.toNat_small]

/-- C16 on `diamondMesh` with `blendedSystem`: the interior node 0 has four edges and
the blending factor 1/2; its first slot, at index 0, names node 1 with the weight
`1/2 * 1/4 + 1/2 * 1/8 = 3/16` in both directions, and its right-hand side is
`(1/2, 1)`. -/
theorem C16_witness :
    (ComputeLinearSystemTerms Example.diamondMesh
      Example.blendedSystem).linearSystem.compressedNodesNodes 0 = 1 ∧
    (ComputeLinearSystemTerms Example.diamondMesh
      Example.blendedSystem).linearSystem.compressedWeightX 0 = 3 / 16 ∧
    (ComputeLinearSystemTerms Example.diamondMesh
      Example.blendedSystem).linearSystem.compressedWeightY 0 = 3 / 16 ∧
    (ComputeLinearSystemTerms Example.diamondMesh
      Example.blendedSystem).linearSystem.compressedRhs 0 = 1 / 2 ∧
    (ComputeLinearSystemTerms Example.diamondMesh
      Example.blendedSystem).linearSystem.compressedRhs 1 = 1 := by
  have htype : Example.diamondMesh.nodesTypes ((0 : Nat) : Int) = 1 := by
    norm_num [Example.diamondMesh, Example.ofList, Example.toNat_small]
  have hval : Example.diamondMesh.nodesNumEdges ((0 : Nat) : Int) = 4 := by
    norm_num [Example.diamondMesh, Example.ofList, Example.toNat_small]
  have h := C16_compressed_terms_of_a_movable_node Example.diamondMesh
    Example.blendedSystem 0 1
    (by
      intro a b ha hab _
      have hb : b ≠ 0 := by omega
      simp [Example.blendedSystem, hb])
    rfl (by norm_num [Example.diamondMesh]) (Or.inl htype) (by rw [hval]; norm_num)
    (le_refl _) (by norm_num [Example.blendedSystem])
  simp only [htype, hval] at h
  norm_num [Example.blendedSystem, Example.newSmoother, Example.ofList,
    Example.toNat_small] at h
  obtain ⟨⟨h1, h2⟩, h3, h4, h5⟩ := h
  exact ⟨h1, h2, h3.trans h2, h4, h5⟩

/-! ## Aspect ratios of edges of zero length: what the loops leave -/

/-- The first loop of `AspectRatio` writes no aspect ratio, and it leaves the length 0
for an edge whose end nodes are at distance 0. -/
theorem AspectRatio.edgeLoop_zero_length (env : Env) (mesh : Mesh) (e : Int)
    (hdist : env.Distance (mesh.nodes (mesh.edges e).1) (mesh.nodes (mesh.edges e).2)
      mesh.projection = 0)
    (l0 : AspectRatioLocals) (h0 : l0.edgesLength e = 0) (k : Nat) :
    (forRange (AspectRatio.edgeBody env mesh) k l0).edgesLength e = 0 ∧
    (forRange (AspectRatio.edgeBody env mesh) k l0).aspectRatios = l0.aspectRatios := by
  refine forRange_invariant
    (fun l : AspectRatioLocals => l.edgesLength e = 0 ∧ l.aspectRatios = l0.aspectRatios)
    _ k l0 ⟨h0, rfl⟩ ?_
  intro i _ l hl
  show (AspectRatio.edgeBody env mesh i l).edgesLength e = 0 ∧
    (AspectRatio.edgeBody env mesh i l).aspectRatios = l0.aspectRatios
  unfold AspectRatio.edgeBody
  simp only []
  by_cases hs : (mesh.edges i).1 = (mesh.edges i).2
  · rw [if_pos hs]
    exact hl
  · rw [if_neg hs]
    refine ⟨?_, hl.2⟩
    show Function.update l.edgesLength (i : Int) _ e = 0
    by_cases hie : e = (i : Int)
    · rw [← hie, Function.update_same]
      exact hdist
    · rw [Function.update_noteq hie]
      exact hl.1

/-- An iteration of the loop over the nodes of a face keeps the lengths, and it keeps
the aspect ratio of an edge of length 0. -/
theorem AspectRatio.faceNodeBody_zero_length (env : Env) (mesh : Mesh) (f n e : Int)
    (l : AspectRatioLocals) (h0 : l.edgesLength e = 0) :
    (AspectRatio.faceNodeBody env mesh f n l).edgesLength = l.edgesLength ∧
    (AspectRatio.faceNodeBody env mesh f n l).aspectRatios e = l.aspectRatios e := by
  have hmark : (AspectRatio.faceNodeBody.mark mesh f n l).edgesLength = l.edgesLength ∧
      (AspectRatio.faceNodeBody.mark mesh f n l).aspectRatios = l.aspectRatios := by
    unfold AspectRatio.faceNodeBody.mark
    split_ifs <;> exact ⟨rfl, rfl⟩
  have hratio : ∀ (edgeIndex : Int) (l1 : AspectRatioLocals), l1.edgesLength e = 0 →
      (AspectRatio.faceNodeBody.ratio edgeIndex l1).edgesLength = l1.edgesLength ∧
      (AspectRatio.faceNodeBody.ratio edgeIndex l1).aspectRatios e = l1.aspectRatios e := by
    intro edgeIndex l1 h1
    unfold AspectRatio.faceNodeBody.ratio
    by_cases hlen : l1.edgesLength edgeIndex ≠ 0
    · rw [if_pos hlen]
      refine ⟨rfl, ?_⟩
      have hne : e ≠ edgeIndex := by
        intro h
        rw [h] at h1
        exact hlen h1
      show Function.update l1.aspectRatios edgeIndex _ e = l1.aspectRatios e
      rw [Function.update_noteq hne]
    · rw [if_neg hlen]
      exact ⟨rfl, rfl⟩
  have haverage : ∀ (edgeIndex : Int) (len : ℚ) (l1 : AspectRatioLocals),
      (AspectRatio.faceNodeBody.average env edgeIndex len l1).edgesLength = l1.edgesLength ∧
      (AspectRatio.faceNodeBody.average env edgeIndex len l1).aspectRatios =
        l1.aspectRatios := by
    intro edgeIndex len l1
    unfold AspectRatio.faceNodeBody.average
    split_ifs <;> exact ⟨rfl, rfl⟩
  unfold AspectRatio.faceNodeBody
  simp only []
  by_cases hnf : mesh.edgesNumFaces (mesh.facesEdges f n) < 1
  · rw [if_pos hnf]
    exact ⟨hmark.1, by rw [hmark.2]⟩
  · rw [if_neg hnf]
    have h1 : (AspectRatio.faceNodeBody.mark mesh f n l).edgesLength e = 0 := by
      rw [hmark.1]; exact h0
    obtain ⟨r1, r2⟩ := hratio (mesh.facesEdges f n) _ h1
    obtain ⟨a1, a2⟩ := haverage (mesh.facesEdges f n)
      (AspectRatio.faceNodeBody.length mesh f n
        (AspectRatio.faceNodeBody.ratio (mesh.facesEdges f n)
          (AspectRatio.faceNodeBody.mark mesh f n l)))
      (AspectRatio.faceNodeBody.ratio (mesh.facesEdges f n)
        (AspectRatio.faceNodeBody.mark mesh f n l))
    constructor
    · rw [a1, r1, hmark.1]
    · rw [a2, r2, hmark.2]

/-- The second loop of `AspectRatio` keeps the lengths, and it keeps the aspect ratio
of an edge of length 0. -/
theorem AspectRatio.faceLoop_zero_length (env : Env) (mesh : Mesh) (e : Int)
    (l : AspectRatioLocals) (h0 : l.edgesLength e = 0) (k : Nat) :
    (forRange (AspectRatio.faceBody env mesh) k l).edgesLength = l.edgesLength ∧
    (forRange (AspectRatio.faceBody env mesh) k l).aspectRatios e = l.aspectRatios e := by
  have hnodes : ∀ (f : Int) (m : Nat) (l1 : AspectRatioLocals), l1.edgesLength e = 0 →
      (forRange (AspectRatio.faceNodeBody env mesh f) m l1).edgesLength = l1.edgesLength ∧
      (forRange (AspectRatio.faceNodeBody env mesh f) m l1).aspectRatios e =
        l1.aspectRatios e := by
    intro f m l1 h1
    refine forRange_invariant
      (fun u : AspectRatioLocals => u.edgesLength = l1.edgesLength ∧
        u.aspectRatios e = l1.aspectRatios e) _ m l1 ⟨rfl, rfl⟩ ?_
    intro i _ u hu
    obtain ⟨b1, b2⟩ := AspectRatio.faceNodeBody_zero_length env mesh f i e u
      (by rw [hu.1]; exact h1)
    exact ⟨b1.trans hu.1, b2.trans hu.2⟩
  refine forRange_invariant
    (fun u : AspectRatioLocals => u.edgesLength = l.edgesLength ∧
      u.aspectRatios e = l.aspectRatios e) _ k l ⟨rfl, rfl⟩ ?_
  intro i _ u hu
  show (AspectRatio.faceBody env mesh i u).edgesLength = l.edgesLength ∧
    (AspectRatio.faceBody env mesh i u).aspectRatios e = l.aspectRatios e
  unfold AspectRatio.faceBody
  simp only []
  by_cases hsmall : mesh.numFaceEdges i < 3
  · rw [if_pos hsmall]
    exact hu
  · rw [if_neg hsmall]
    obtain ⟨b1, b2⟩ := hnodes i (mesh.numFaceEdges i).toNat u (by rw [hu.1]; exact h0)
    exact ⟨b1.trans hu.1, b2.trans hu.2⟩

/-- The locals of `AspectRatio` after all loops are those after the first two loops
when `curvilinearToOrthogonalRatio` is 1, and the last loop applied to them
otherwise. -/
theorem AspectRatio.locals_eq (env : Env) (mesh : Mesh) (o : Orthogonalization) :
    AspectRatio.locals env mesh o =
      if env.curvilinearToOrthogonalRatio = 1 then AspectRatio.afterFaces env mesh o
      else forRange (AspectRatio.curvilinearBody env mesh) mesh.numEdges
        (AspectRatio.afterFaces env mesh o) := rfl

/-- After the first two loops of `AspectRatio` an edge whose end nodes are at distance
0 has the aspect ratio it had before the call. -/
theorem AspectRatio.afterFaces_zero_length (env : Env) (mesh : Mesh)
    (o : Orthogonalization) (e : Int)
    (hdist : env.Distance (mesh.nodes (mesh.edges e).1) (mesh.nodes (mesh.edges e).2)
      mesh.projection = 0) :
    (AspectRatio.afterFaces env mesh o).aspectRatios e = o.aspectRatios e := by
  unfold AspectRatio.afterFaces
  simp only []
  obtain ⟨a1, a2⟩ := AspectRatio.edgeLoop_zero_length env mesh e hdist
    { averageEdgesLength := fun _ _ => env.doubleMissingValue
      averageFlowEdgesLength := fun _ => env.doubleMissingValue
      curvilinearGridIndicator := fun _ => true
      edgesLength := fun _ => 0
      aspectRatios := o.aspectRatios } rfl mesh.numEdges
  obtain ⟨_, b2⟩ := AspectRatio.faceLoop_zero_length env mesh e _ a1 mesh.numFaces
  rw [b2, a2]

/-- An iteration of the last loop of `AspectRatio`: when the guards pass it stores for
its edge the flow length over the average length (one face) or blends the old aspect
ratio with the flow length over the mean of the two average lengths; otherwise it
leaves the locals. -/
theorem AspectRatio.curvilinearBody_cases (env : Env) (mesh : Mesh) (e : Int)
    (l : AspectRatioLocals) :
    (AspectRatio.Rewrites env mesh e l →
      (AspectRatio.curvilinearBody env mesh e l).aspectRatios e =
        if mesh.edgesNumFaces e = 1 then
          l.averageFlowEdgesLength e / l.averageEdgesLength e 0
        else
          env.curvilinearToOrthogonalRatio * l.aspectRatios e +
            (1 - env.curvilinearToOrthogonalRatio) * l.averageFlowEdgesLength e /
              ((1 / 2) * (l.averageEdgesLength e 0 + l.averageEdgesLength e 1))) ∧
    (¬ AspectRatio.Rewrites env mesh e l → AspectRatio.curvilinearBody env mesh e l = l) := by
  unfold AspectRatio.Rewrites AspectRatio.curvilinearBody
  simp only []
  constructor
  · rintro ⟨h1, h2, h3, h4, h5, h6, h7, h8⟩
    rw [if_neg (by omega), if_neg (by omega),
      if_neg (by rw [h4, h5]; simp)]
    by_cases hone : mesh.edgesNumFaces e = 1
    · rw [if_pos hone, if_pos hone, if_pos ⟨h6, h7⟩]
      show Function.update l.aspectRatios e _ e = _
      rw [Function.update_same]
    · rw [if_neg hone, if_neg hone, if_pos ⟨h6, (h8 hone).1, h7, (h8 hone).2⟩]
      show Function.update l.aspectRatios e _ e = _
      rw [Function.update_same]
  · intro hnot
    by_cases c1 : (mesh.edges e).1 < 0 ∨ (mesh.edges e).2 < 0
    · rw [if_pos c1]
    · rw [if_neg c1]
      by_cases c2 : mesh.edgesNumFaces e < 1
      · rw [if_pos c2]
      · rw [if_neg c2]
        by_cases c3 : l.curvilinearGridIndicator (mesh.edges e).1 = false ∨
            l.curvilinearGridIndicator (mesh.edges e).2 = false
        · rw [if_pos c3]
        · rw [if_neg c3]
          have i1 : l.curvilinearGridIndicator (mesh.edges e).1 = true := by
            cases h : l.curvilinearGridIndicator (mesh.edges e).1
            · exact absurd (Or.inl h) c3
            · rfl
          have i2 : l.curvilinearGridIndicator (mesh.edges e).2 = true := by
            cases h : l.curvilinearGridIndicator (mesh.edges e).2
            · exact absurd (Or.inr h) c3
            · rfl
          by_cases hone : mesh.edgesNumFaces e = 1
          · rw [if_pos hone, if_neg]
            rintro ⟨h6, h7⟩
            exact hnot ⟨by omega, by omega, by omega, i1, i2, h6, h7,
              fun h => absurd hone h⟩
          · rw [if_neg hone, if_neg]
            rintro ⟨h6, h6b, h7, h7b⟩
            exact hnot ⟨by omega, by omega, by omega, i1, i2, h6, h7, fun _ => ⟨h6b, h7b⟩⟩

/-- C35 (amended): for each edge `e` whose end nodes are at distance 0, the first two
loops of `AspectRatio` leave `aspect_ratios[e]`, and so does the whole call unless the
last loop rewrites the edge. The last loop runs when `curvilinearToOrthogonalRatio`
is not 1, and it rewrites an edge of the mesh whose end nodes have valid indices and
are both marked curvilinear, that has a face, and whose recorded average lengths (for
a quadrilateral the mean with the opposite edge) are neither 0 nor missing: then
`aspect_ratios[e]` becomes the flow length over the average length for an edge with
one face, and the blend of its old value with the flow length over the mean of the
two average lengths otherwise. -/
theorem C35_zero_length_edge_is_left_unless_the_last_loop_rewrites_it (env : Env)
    (mesh : Mesh) (o : Orthogonalization) (e : Int)
    (hdist : env.Distance (mesh.nodes (mesh.edges e).1) (mesh.nodes (mesh.edges e).2)
      mesh.projection = 0) :
    (AspectRatio.afterFaces env mesh o).aspectRatios e = o.aspectRatios e ∧
    (¬ (env.curvilinearToOrthogonalRatio ≠ 1 ∧ (0 ≤ e ∧ e < mesh.numEdges) ∧
        AspectRatio.Rewrites env mesh e (AspectRatio.afterFaces env mesh o)) →
      (AspectRatio env mesh o).aspectRatios e = o.aspectRatios e) ∧
    (env.curvilinearToOrthogonalRatio ≠ 1 → 0 ≤ e → e < mesh.numEdges →
      AspectRatio.Rewrites env mesh e (AspectRatio.afterFaces env mesh o) →
      (AspectRatio env mesh o).aspectRatios e =
        if mesh.edgesNumFaces e = 1 then
          (AspectRatio.afterFaces env mesh o).averageFlowEdgesLength e /
            (AspectRatio.afterFaces env mesh o).averageEdgesLength e 0
        else
          env.curvilinearToOrthogonalRatio * o.aspectRatios e +
            (1 - env.curvilinearToOrthogonalRatio) *
              (AspectRatio.afterFaces env mesh o).averageFlowEdgesLength e /
              ((1 / 2) * ((AspectRatio.afterFaces env mesh o).averageEdgesLength e 0 +
                (AspectRatio.afterFaces env mesh o).averageEdgesLength e 1))) := by
  have hkeep := AspectRatio.afterFaces_zero_length env mesh o e hdist
  have hres : (AspectRatio env mesh o).aspectRatios e =
      (AspectRatio.locals env mesh o).aspectRatios e := rfl
  obtain ⟨hwrite, hskip⟩ := AspectRatio.curvilinearBody_cases env mesh e
    (AspectRatio.afterFaces env mesh o)
  refine ⟨hkeep, ?_, ?_⟩
  · intro hnot
    rw [hres, AspectRatio.locals_eq]
    by_cases hc : env.curvilinearToOrthogonalRatio = 1
    · rw [if_pos hc]
      exact hkeep
    · rw [if_neg hc, AspectRatio.curvilinearLoop_apply]
      by_cases hr : 0 ≤ e ∧ e < (mesh.numEdges : Int)
      · rw [if_pos hr, hskip (fun h => hnot ⟨hc, hr, h⟩)]
        exact hkeep
      · rw [if_neg hr]
        exact hkeep
  · intro hc h0 h1 hw
    rw [hres, AspectRatio.locals_eq, if_neg hc, AspectRatio.curvilinearLoop_apply,
      if_pos ⟨h0, h1⟩, hwrite hw, hkeep]

/-- C35 on `pinchedMesh`, whose edge 0 joins two nodes at the same place. With
`curvilinearToOrthogonalRatio = 1` the call leaves the aspect ratio 0 of the edge.
With the ratio 1/2 the last loop rewrites the edge, which has one face, with the flow
length 5 over the average length 2. -/
theorem C35_witness :
    Example.orthogonalEnv.Distance
      (Example.pinchedMeshAfterSet.nodes (Example.pinchedMeshAfterSet.edges 0).1)
      (Example.pinchedMeshAfterSet.nodes (Example.pinchedMeshAfterSet.edges 0).2)
      Example.pinchedMeshAfterSet.projection = 0 ∧
    (AspectRatio Example.orthogonalEnv Example.pinchedMeshAfterSet
      (Set Example.env Example.pinchedMesh Example.newOrthogonalization 0 0 0
        Example.parameters).2.2).aspectRatios 0 = 0 ∧
    (AspectRatio Example.env Example.pinchedMeshAfterSet
      (Set Example.env Example.pinchedMesh Example.newOrthogonalization 0 0 0
        Example.parameters).2.2).aspectRatios 0 = 5 / 2 := by
  have h0 : Rat.sqrt 0 = 0 := by
    rw [show (0 : ℚ) = 0 * 0 by norm_num, Rat.sqrt_eq]; norm_num
  have hdist : Example.orthogonalEnv.Distance
      (Example.pinchedMeshAfterSet.nodes (Example.pinchedMeshAfterSet.edges 0).1)
      (Example.pinchedMeshAfterSet.nodes (Example.pinchedMeshAfterSet.edges 0).2)
      Example.pinchedMeshAfterSet.projection = 0 := by
    norm_num [Example.orthogonalEnv, Example.env, Example.pinchedMeshAfterSet, Set,
      Set.maskedMesh, Example.pinchedMesh, Example.ofList, Example.distance, h0]
  have h := (C35_zero_length_edge_is_left_unless_the_last_loop_rewrites_it
    Example.orthogonalEnv Example.pinchedMeshAfterSet
    (Set Example.env Example.pinchedMesh Example.newOrthogonalization 0 0 0
      Example.parameters).2.2 0 hdist).2.1 (fun h => h.1 rfl)
  have haf : AspectRatio.afterFaces Example.env Example.pinchedMeshAfterSet
      (Set Example.env Example.pinchedMesh Example.newOrthogonalization 0 0 0
        Example.parameters).2.2 =
      forRange (AspectRatio.faceBody Example.env Example.pinchedMeshAfterSet) 1
        (forRange (AspectRatio.edgeBody Example.env Example.pinchedMeshAfterSet) 4
          { averageEdgesLength := fun _ _ => -999
            averageFlowEdgesLength := fun _ => -999
            curvilinearGridIndicator := fun _ => true
            edgesLength := fun _ => 0
            aspectRatios := (Set Example.env Example.pinchedMesh
              Example.newOrthogonalization 0 0 0
              Example.parameters).2.2.aspectRatios }) := rfl
  rw [Example.pinched_edges] at haf
  obtain ⟨b1, b2, b3, -⟩ := Example.pinched_faces
    (Set Example.env Example.pinchedMesh Example.newOrthogonalization 0 0 0
      Example.parameters).2.2.aspectRatios
  rw [← haf] at b1 b2 b3
  have hone : Example.pinchedMeshAfterSet.edgesNumFaces 0 = 1 := by
    simp [Example.pinchedMeshAfterSet, Set, Set.maskedMesh, Example.pinchedMesh]
  have h2 := (C35_zero_length_edge_is_left_unless_the_last_loop_rewrites_it
    Example.env Example.pinchedMeshAfterSet
    (Set Example.env Example.pinchedMesh Example.newOrthogonalization 0 0 0
      Example.parameters).2.2 0 hdist).2.2 (by norm_num [Example.env]) (le_refl _)
    (by simp [Example.pinchedMeshAfterSet, Set, Set.maskedMesh, Example.pinchedMesh])
    ⟨by norm_num [Example.pinchedMeshAfterSet, Set, Set.maskedMesh, Example.pinchedMesh,
        Example.ofList],
      by norm_num [Example.pinchedMeshAfterSet, Set, Set.maskedMesh, Example.pinchedMesh,
        Example.ofList],
      by rw [hone], b3 _, b3 _, by rw [b1]; norm_num,
      by rw [b1]; norm_num [Example.env], fun hne => absurd hone hne⟩
  rw [if_pos hone, b1, b2] at h2
  refine ⟨hdist, ?_, h2⟩
  rw [h]
  simp [Set, Set.finish, Set.members, Set.maskedMesh, Example.pinchedMesh,
    Example.newOrthogonalization]

/-! ## Class tables: what later nodes keep -/

/-- One call of `SaveSmootherNodeTopologyIfNeeded` keeps the records of the existing
classes and the classes of the other nodes. -/
theorem SaveSmootherNodeTopologyIfNeeded_keeps_classes (env : Env) (c : SmootherCaches)
    (t : Topologies) (currentNode numSharedFaces numConnectedNodes : Int) :
    ComputeSmootherTopologies.Keeps t
      (SaveSmootherNodeTopologyIfNeeded env c t currentNode numSharedFaces numConnectedNodes)
      currentNode := by
  have hscan := forRange_invariant
    (fun st : SaveSmootherNodeTopologyIfNeeded.Scan =>
      ∀ m : Int, m ≠ currentNode → st.nodeTopologyMapping m = t.nodeTopologyMapping m)
    (SaveSmootherNodeTopologyIfNeeded.scanBody env c t currentNode numSharedFaces
      numConnectedNodes)
    t.numTopologies
    { isNewTopology := true, stopped := false, nodeTopologyMapping := t.nodeTopologyMapping }
    (fun _ _ => rfl)
    (by
      intro i _ st hst
      unfold SaveSmootherNodeTopologyIfNeeded.scanBody
      split_ifs
      · exact hst
      · exact hst
      · exact hst
      · intro m hm
        show Function.update st.nodeTopologyMapping currentNode (i : Int) m = _
        rw [Function.update_noteq hm]
        exact hst m hm)
  unfold SaveSmootherNodeTopologyIfNeeded
  simp only []
  generalize forRange (SaveSmootherNodeTopologyIfNeeded.scanBody env c t currentNode
    numSharedFaces numConnectedNodes) t.numTopologies
    { isNewTopology := true, stopped := false, nodeTopologyMapping := t.nodeTopologyMapping }
    = st at hscan
  have hidx : (((t.numTopologies + 1 : Nat)) : Int) - 1 = (t.numTopologies : Int) := by
    push_cast; ring
  by_cases hnew : st.isNewTopology = true
  · rw [if_pos hnew, hidx]
    refine ⟨Nat.le_succ _, ?_, ?_⟩
    · intro q hq
      have hne : q ≠ (t.numTopologies : Int) := ne_of_lt hq
      exact ⟨Function.update_noteq hne _ _, Function.update_noteq hne _ _,
        Function.update_noteq hne _ _, Function.update_noteq hne _ _,
        Function.update_noteq hne _ _, Function.update_noteq hne _ _,
        Function.update_noteq hne _ _⟩
    · intro m hm
      show Function.update st.nodeTopologyMapping currentNode _ m = _
      rw [Function.update_noteq (ne_of_lt hm)]
      exact hscan m (ne_of_lt hm)
  · rw [if_neg hnew]
    exact ⟨le_refl _, fun q _ => ⟨rfl, rfl, rfl, rfl, rfl, rfl, rfl⟩,
      fun m hm => hscan m (ne_of_lt hm)⟩

/-- An iteration of the loop of `ComputeSmootherTopologies` keeps the records of the
existing classes and the classes of the nodes before its node. -/
theorem ComputeSmootherTopologies.nodeBody_keeps_classes (env : Env) (mesh : Mesh) (n : Int)
    (st : Bool × Smoother) :
    ComputeSmootherTopologies.Keeps st.2.topologies
      (ComputeSmootherTopologies.nodeBody env mesh n st).2.topologies n := by
  have hrefl : ∀ t : Topologies, ComputeSmootherTopologies.Keeps t t n :=
    fun t => ⟨le_refl _, fun q _ => ⟨rfl, rfl, rfl, rfl, rfl, rfl, rfl⟩, fun m _ => rfl⟩
  unfold ComputeSmootherTopologies.nodeBody
  simp only []
  split_ifs
  · exact hrefl _
  · exact hrefl _
  · exact hrefl _
  · exact SaveSmootherNodeTopologyIfNeeded_keeps_classes env _ _ n _ _

/-- The loop of `ComputeSmootherTopologies` keeps, from its iteration `k` on, the
records of the classes that exist after `k` iterations and the classes of the first `k`
nodes. -/
theorem ComputeSmootherTopologies.classes_kept (env : Env) (mesh : Mesh)
    (s : Bool × Smoother) (k j : Nat) :
    ComputeSmootherTopologies.Keeps
      (forRange (ComputeSmootherTopologies.nodeBody env mesh) k s).2.topologies
      (forRange (ComputeSmootherTopologies.nodeBody env mesh) (k + j) s).2.topologies k := by
  induction j with
  | zero => exact ⟨le_refl _, fun q _ => ⟨rfl, rfl, rfl, rfl, rfl, rfl, rfl⟩, fun m _ => rfl⟩
  | succ j ih =>
    rw [← Nat.add_assoc, forRange_succ]
    obtain ⟨a1, a2, a3⟩ := ih
    obtain ⟨b1, b2, b3⟩ := ComputeSmootherTopologies.nodeBody_keeps_classes env mesh
      ((k + j : Nat) : Int)
      (forRange (ComputeSmootherTopologies.nodeBody env mesh) (k + j) s)
    refine ⟨le_trans a1 b1, ?_, ?_⟩
    · intro q hq
      have hq2 : q < ((forRange (ComputeSmootherTopologies.nodeBody env mesh) (k + j)
          s).2.topologies.numTopologies : Int) :=
        lt_of_lt_of_le hq (by exact_mod_cast a1)
      obtain ⟨c1, c2, c3, c4, c5, c6, c7⟩ := a2 q hq
      obtain ⟨d1, d2, d3, d4, d5, d6, d7⟩ := b2 q hq2
      exact ⟨d1.trans c1, d2.trans c2, d3.trans c3, d4.trans c4, d5.trans c5, d6.trans c6,
        d7.trans c7⟩
    · intro m hm
      rw [b3 m (by push_cast; omega)]
      exact a3 m hm

set_option maxRecDepth 100000 in
set_option maxHeartbeats 4000000 in
/-- The first two iterations of the loop of `ComputeSmootherTopologies` on
`pentagonMesh`, with the node administration of the source: node 0 opens class 0 and
node 1 opens class 1, with 3 face slots and 7 connected nodes. Slot 0 of class 1 is the
quadrilateral, and the row of its face-node mapping holds the slots `0, 1, 4, 2` of the
four nodes of the quadrilateral, followed by the slot 3 that the administration of
node 0 wrote for the fifth node of the pentagon, and by zeros. -/
theorem Example.pentagon_classes :
    (forRange (ComputeSmootherTopologies.nodeBody Example.administrationEnv
      Example.pentagonMesh) 2
      (true, InitializeSmoother Example.newSmoother)).2.topologies.numTopologies = 2 ∧
    (forRange (ComputeSmootherTopologies.nodeBody Example.administrationEnv
      Example.pentagonMesh) 2
      (true, InitializeSmoother Example.newSmoother)).2.topologies.nodeTopologyMapping 0 = 0 ∧
    (forRange (ComputeSmootherTopologies.nodeBody Example.administrationEnv
      Example.pentagonMesh) 2
      (true, InitializeSmoother Example.newSmoother)).2.topologies.nodeTopologyMapping 1 = 1 ∧
    (forRange (ComputeSmootherTopologies.nodeBody Example.administrationEnv
      Example.pentagonMesh) 2
      (true, InitializeSmoother Example.newSmoother)).2.topologies.numTopologyFaces 1 = 3 ∧
    (forRange (ComputeSmootherTopologies.nodeBody Example.administrationEnv
      Example.pentagonMesh) 2
      (true, InitializeSmoother Example.newSmoother)).2.topologies.numTopologyNodes 1 = 7 ∧
    (forRange (ComputeSmootherTopologies.nodeBody Example.administrationEnv
      Example.pentagonMesh) 2
      (true, InitializeSmoother Example.newSmoother)).2.topologies.topologySharedFaces 1 0 = 1 ∧
    (∀ i : Int, (forRange (ComputeSmootherTopologies.nodeBody Example.administrationEnv
      Example.pentagonMesh) 2
      (true, InitializeSmoother Example.newSmoother)).2.topologies.topologyFaceNodeMapping
        1 0 i =
      if i = 0 then 0 else if i = 1 then 1 else if i = 2 then 4 else if i = 3 then 2
      else if i = 4 then 3 else 0) := by
  have h : (forRange (ComputeSmootherTopologies.nodeBody Example.administrationEnv
      Example.pentagonMesh) 2 (true, InitializeSmoother Example.newSmoother)).2.topologies =
      (ComputeSmootherTopologies.nodeBody Example.administrationEnv Example.pentagonMesh 1
        (ComputeSmootherTopologies.nodeBody Example.administrationEnv Example.pentagonMesh 0
          (true, InitializeSmoother Example.newSmoother))).2.topologies := rfl
  rw [h]
  generalize hT : (ComputeSmootherTopologies.nodeBody Example.administrationEnv
    Example.pentagonMesh 1
    (ComputeSmootherTopologies.nodeBody Example.administrationEnv Example.pentagonMesh 0
      (true, InitializeSmoother Example.newSmoother))).2.topologies = T
  norm_num [ComputeSmootherTopologies.nodeBody, Example.administrationEnv,
    SmootherNodeAdministration, SmootherNodeAdministration.faceBody,
    SmootherNodeAdministration.edgeBody, SmootherNodeAdministration.sharedFaceBody,
    SmootherNodeAdministration.faceNodeBody, SmootherNodeAdministration.findFaceNode,
    SmootherNodeAdministration.lookup, SmootherNodeAdministration.append, forRange,
    InitializeSmoother, Example.newSmoother, Example.env, Example.pentagonMesh, Example.ofList,
    Example.toNat_small, Function.update_apply, SaveSmootherNodeTopologyIfNeeded,
    SaveSmootherNodeTopologyIfNeeded.scanBody, SaveSmootherNodeTopologyIfNeeded.anglesDiffer]
    at hT
  subst hT
  refine ⟨rfl, ?_, ?_, ?_, ?_, ?_, ?_⟩
  · norm_num [Function.update_apply]
  · norm_num [Function.update_apply]
  · norm_num [Function.update_apply]
  · norm_num [Function.update_apply]
  · norm_num [Function.update_apply]
  · intro i
    by_cases h0 : i = 0
    · subst h0
      norm_num [Function.update_apply]
    by_cases h1 : i = 1
    · subst h1
      norm_num [Function.update_apply]
    by_cases h2 : i = 2
    · subst h2
      norm_num [Function.update_apply]
    by_cases h3 : i = 3
    · subst h3
      norm_num [Function.update_apply]
    by_cases h4 : i = 4
    · subst h4
      norm_num [Function.update_apply]
    norm_num [Function.update_apply, h0, h1, h2, h3, h4]

/-- With the parameters `administrationEnv` the operators are computed successfully. -/
theorem Example.administered_operators_succeed (mesh : Mesh) (s : Smoother) :
    (ComputeSmootherOperators Example.administrationEnv mesh s).1 = true := by
  unfold ComputeSmootherOperators
  apply forRange_invariant (fun t : ComputeSmootherOperators.Loop => t.successful = true)
  · rfl
  · intro i _ t ht
    unfold ComputeSmootherOperators.nodeBody
    simp only []
    split
    · rfl
    · exact ht

/-- The class tables that `ComputeSmootherTopologies` leaves on `pentagonMesh`, with the
node administration of the source: what the first two nodes stored is kept by the
later nodes. -/
theorem Example.pentagon_topologies :
    (ComputeSmootherTopologies Example.administrationEnv Example.pentagonMesh
      Example.newSmoother).2.topologies.nodeTopologyMapping 0 = 0 ∧
    (ComputeSmootherTopologies Example.administrationEnv Example.pentagonMesh
      Example.newSmoother).2.topologies.nodeTopologyMapping 1 = 1 ∧
    (ComputeSmootherTopologies Example.administrationEnv Example.pentagonMesh
      Example.newSmoother).2.topologies.numTopologyFaces 1 = 3 ∧
    (ComputeSmootherTopologies Example.administrationEnv Example.pentagonMesh
      Example.newSmoother).2.topologies.numTopologyNodes 1 = 7 ∧
    (ComputeSmootherTopologies Example.administrationEnv Example.pentagonMesh
      Example.newSmoother).2.topologies.topologySharedFaces 1 0 = 1 ∧
    (∀ i : Int, (ComputeSmootherTopologies Example.administrationEnv Example.pentagonMesh
      Example.newSmoother).2.topologies.topologyFaceNodeMapping 1 0 i =
      if i = 0 then 0 else if i = 1 then 1 else if i = 2 then 4 else if i = 3 then 2
      else if i = 4 then 3 else 0) := by
  have hS : (ComputeSmootherTopologies Example.administrationEnv Example.pentagonMesh
      Example.newSmoother).2 =
      (forRange (ComputeSmootherTopologies.nodeBody Example.administrationEnv
        Example.pentagonMesh) (2 + 5) (true, InitializeSmoother Example.newSmoother)).2 := by
    unfold ComputeSmootherTopologies
    simp only []
    split <;> rfl
  obtain ⟨k1, k2, k3⟩ := ComputeSmootherTopologies.classes_kept Example.administrationEnv
    Example.pentagonMesh (true, InitializeSmoother Example.newSmoother) 2 5
  obtain ⟨p1, p2, p3, p4, p5, p6, p7⟩ := Example.pentagon_classes
  rw [hS]
  obtain ⟨q1, q2, q3, -, -, -, q7⟩ := k2 1 (by rw [p1]; norm_num)
  refine ⟨?_, ?_, ?_, ?_, ?_, ?_⟩
  · rw [k3 0 (by norm_num), p2]
  · rw [k3 1 (by norm_num), p3]
  · rw [q2, p4]
  · rw [q1, p5]
  · rw [q3, p6]
  · intro i
    rw [q7, p7]

/-- C8 as stated fails in three ways. On `squareMesh`, whose nodes are corners, the
operators are computed successfully and row 0 of class 0, the row of the
quadrilateral, sums to 0. On `boundaryMesh`, row 2 of the class of the boundary
node 1, the row of its missing face, sums to 0. On `pentagonMesh`, with the class
tables that `ComputeSmootherTopologies` computes with the node administration of the
source, row 0 of the class of the boundary node 1 is the row of the quadrilateral; its
face-node mapping still holds, behind the four slots of the quadrilateral, the slot
that node 0 stored for the fifth node of the pentagon, since the mapping cache is not
reset between the nodes and the rows are read in full (line 700); five entries of the
row get the value 1/4 and the row sums to 5/4. -/
theorem C8_counterexample :
    (ComputeSmootherOperators Example.env Example.squareMesh Example.squareSmoother).1 = true ∧
    sumRange ((ComputeSmootherOperators Example.env Example.squareMesh
      Example.squareSmoother).2.Az 0 0) 4 = 0 ∧
    (ComputeSmootherOperators Example.env Example.boundaryMesh
      Example.boundarySmoother).1 = true ∧
    sumRange ((ComputeSmootherOperators Example.env Example.boundaryMesh
      Example.boundarySmoother).2.Az 1 2) 4 = 0 ∧
    (ComputeSmootherOperators Example.administrationEnv Example.pentagonMesh
      (ComputeSmootherTopologies Example.administrationEnv Example.pentagonMesh
        Example.newSmoother).2).1 = true ∧
    (ComputeSmootherTopologies Example.administrationEnv Example.pentagonMesh
      Example.newSmoother).2.topologies.nodeTopologyMapping 1 = 1 ∧
    Example.pentagonMesh.nodesTypes 1 = 2 ∧
    (ComputeSmootherTopologies Example.administrationEnv Example.pentagonMesh
      Example.newSmoother).2.topologies.topologySharedFaces 1 0 = 1 ∧
    Example.pentagonMesh.numFaceEdges 1 = 4 ∧
    (ComputeSmootherTopologies Example.administrationEnv Example.pentagonMesh
      Example.newSmoother).2.topologies.numTopologyNodes 1 = 7 ∧
    sumRange ((ComputeSmootherOperators Example.administrationEnv Example.pentagonMesh
      (ComputeSmootherTopologies Example.administrationEnv Example.pentagonMesh
        Example.newSmoother).2).2.Az 1 0) 7 = 5 / 4 := by
  have h1 := ComputeSmootherOperators_az Example.env Example.squareMesh Example.squareSmoother
    (Example.env_operators_succeed _ _) 0 (by norm_num)
    (by simp [Example.squareMesh]) (by intro m h0 h1; omega) 0
  have h2 := ComputeSmootherOperators_az Example.env Example.boundaryMesh
    Example.boundarySmoother (Example.env_operators_succeed _ _) 1 (by norm_num)
    (by simp [Example.boundaryMesh, Example.diamondMesh])
    (by
      intro m h0 h1
      have hm : m = 0 := by omega
      subst hm
      simp [Example.boundarySmoother, Example.ofList]) 2
  rw [ComputeSmootherOperatorsNode.azRow_skipped _ _ _ _ _ _
    (Or.inr (by simp [Example.squareMesh]))] at h1
  rw [ComputeSmootherOperatorsNode.azRow_skipped _ _ _ _ _ _
    (Or.inl (by simp [Example.boundarySmoother, Example.ofList]))] at h2
  simp only [ite_self] at h1 h2
  have e1 : Example.squareSmoother.topologies.nodeTopologyMapping 0 = 0 := rfl
  have e2 : Example.boundarySmoother.topologies.nodeTopologyMapping 1 = 1 := by
    simp [Example.boundarySmoother, Example.ofList]
  rw [e1] at h1
  rw [e2] at h2
  obtain ⟨t0, t1, t2, t3, t4, t5⟩ := Example.pentagon_topologies
  have htype : Example.pentagonMesh.nodesTypes 1 = 2 := by
    norm_num [Example.pentagonMesh, Example.ofList]
  have hquad : Example.pentagonMesh.numFaceEdges 1 = 4 := by
    norm_num [Example.pentagonMesh, Example.ofList]
  have h3 := ComputeSmootherOperators_az Example.administrationEnv Example.pentagonMesh
    (ComputeSmootherTopologies Example.administrationEnv Example.pentagonMesh
      Example.newSmoother).2
    (Example.administered_operators_succeed _ _) 1 (by norm_num)
    (by simp [Example.pentagonMesh])
    (by
      intro m h0 h1
      have hm : m = 0 := by omega
      subst hm
      rw [t0, t1]
      norm_num) 0
  rw [t1, if_pos ⟨le_refl _, by rw [t2]; norm_num⟩] at h3
  refine ⟨Example.env_operators_succeed _ _, ?_, Example.env_operators_succeed _ _, ?_,
    Example.administered_operators_succeed _ _, t1, htype, t4, hquad, t3, ?_⟩
  · rw [h1]; exact sumRange_zero_fun 4
  · rw [h2]; exact sumRange_zero_fun 4
  · rw [h3]
    unfold ComputeSmootherOperatorsNode.azRow
    simp only []
    rw [t1, t4, hquad, if_neg (by rw [htype]; norm_num), if_neg (by norm_num)]
    have hfill := ComputeSmootherOperatorsNode.fill_sum
      ((ComputeSmootherTopologies Example.administrationEnv Example.pentagonMesh
        Example.newSmoother).2.topologies.topologyFaceNodeMapping 1 0)
      (1 / ((4 : Int) : ℚ)) 5 7 8 (by norm_num) (by norm_num)
      (by
        intro i hi0 hi8
        rw [t5]
        split_ifs <;> norm_num)
      (by
        intro i j hi0 hi5 hj0 hj5 hij
        rw [t5, t5] at hij
        have hi : i = 0 ∨ i = 1 ∨ i = 2 ∨ i = 3 ∨ i = 4 := by omega
        have hj : j = 0 ∨ j = 1 ∨ j = 2 ∨ j = 3 ∨ j = 4 := by omega
        rcases hi with h | h | h | h | h <;> rcases hj with g | g | g | g | g <;>
          subst h <;> subst g <;> first | rfl | (norm_num at hij))
      (by
        intro i hi5 _
        refine ⟨0, le_refl _, by norm_num, ?_⟩
        rw [t5, t5, if_neg (by omega), if_neg (by omega), if_neg (by omega),
          if_neg (by omega), if_neg (by omega), if_pos rfl])
    have hM : Example.administrationEnv.maximumNumberOfNodesPerFace = 8 := rfl
    rw [hM, hfill]
    norm_num

end GridGeom
